import Mathlib

/-!
# CEC protocol engine (`common/cec.c`): embedding and verified properties

The definitions below follow `src/common/cec.c` function by function.  Bytes,
cursors and counters are natural numbers; every place where the C code can wrap
a machine integer carries an explicit `%`.  Output actions of the engine (GPIO
writes, timer arms, task events, the transmit trigger) are returned as a list of
`Effect`s, inputs read from the hardware (the sampled line level, the captured
tick count) are passed as arguments.
-/

namespace CEC

/-! ## Constants from headers that are not part of the sources at hand -/

/-- Modelled from the spec: `MAX_CEC_MSG_LEN` is defined in `cec.h`, which is
not among the sources; the spec fixes the transfer buffer as `bytes[≤16]` and
frames as having lengths `1..16`. -/
def MAX_CEC_MSG_LEN : Nat := 16

/-- The values of `enum ec_error_list` used by `cec.c`.  The numeric values live
in a header that is not among the sources; only their distinctness is used. -/
inductive ec_error_list where
  | EC_SUCCESS
  | EC_ERROR_OVERFLOW
  | EC_ERROR_INVAL
  | EC_ERROR_NOT_HANDLED
  deriving DecidableEq, Repr

open ec_error_list

/-! ## Receive queue -/

/-- The `struct cec_rx_queue` of `cec.h`: a byte buffer of `CEC_RX_BUFFER_SIZE`
entries and the two cursors.  The capacity `CEC_RX_BUFFER_SIZE` is a constant of
the absent header and is a parameter `N` of every queue operation. -/
structure cec_rx_queue where
  buf : List Nat
  write_offset : Nat
  read_offset : Nat
  deriving DecidableEq, Repr

/-- The queue after `memset(&cec_rx_queue, 0, sizeof(struct cec_rx_queue))`. -/
def cec_rx_queue_zero (N : Nat) : cec_rx_queue :=
  { buf := List.replicate N 0, write_offset := 0, read_offset := 0 }

/-- The cursor update `(offset + 1) % CEC_RX_BUFFER_SIZE` on a `uint32_t`. -/
def next_offset (N offset : Nat) : Nat :=
  (offset + 1) % 4294967296 % N

/-- `cec_rx_queue_flush`: both cursors are reset to 0. -/
def cec_rx_queue_flush (queue : cec_rx_queue) : cec_rx_queue :=
  { queue with read_offset := 0, write_offset := 0 }

/-- The `for (i = 0; i < msg_len; i++)` loop of `cec_rx_queue_push`, with
`n = msg_len - i` iterations left.  The first component is `false` when the
loop left through `return EC_ERROR_OVERFLOW`. -/
def push_loop (N read_offset : Nat) (msg : List Nat) :
    Nat → Nat → List Nat → Nat → Bool × List Nat × Nat
  | 0, _, buf, offset => (true, buf, offset)
  | n + 1, i, buf, offset =>
    if offset = read_offset then (false, buf, offset)
    else push_loop N read_offset msg n (i + 1) (buf.set offset (msg.getD i 0))
      (next_offset N offset)

/-- `cec_rx_queue_push(queue, msg, msg_len)`: return value and queue afterwards. -/
def cec_rx_queue_push (N : Nat) (queue : cec_rx_queue) (msg : List Nat) (msg_len : Nat) :
    ec_error_list × cec_rx_queue :=
  if msg_len > MAX_CEC_MSG_LEN ∨ msg_len = 0 then (EC_ERROR_INVAL, queue)
  else
    let offset := queue.write_offset
    let buf := queue.buf.set offset 0
    let offset := next_offset N offset
    match push_loop N queue.read_offset msg msg_len 0 buf offset with
    | (false, buf, _) => (EC_ERROR_OVERFLOW, { queue with buf := buf })
    | (true, buf, offset) =>
      if offset = queue.read_offset then (EC_ERROR_OVERFLOW, { queue with buf := buf })
      else (EC_SUCCESS, { queue with buf := buf.set queue.write_offset msg_len,
                                      write_offset := offset })

/-- The copy loop of `cec_rx_queue_pop`, with `n = *msg_len - i` iterations
left; returns the output buffer and the read cursor. -/
def pop_loop (N : Nat) (buf : List Nat) : Nat → Nat → List Nat → Nat → List Nat × Nat
  | 0, _, msg, read_offset => (msg, read_offset)
  | n + 1, i, msg, read_offset =>
    pop_loop N buf n (i + 1) (msg.set i (buf.getD read_offset 0)) (next_offset N read_offset)

/-- The result of `cec_rx_queue_pop`: return value, queue afterwards, the
caller's `msg` buffer afterwards and `*msg_len`. -/
structure pop_result where
  rv : Int
  queue : cec_rx_queue
  msg : List Nat
  msg_len : Nat
  deriving DecidableEq, Repr

/-- `cec_rx_queue_pop(queue, msg, msg_len)`; `msg` is the caller's output buffer. -/
def cec_rx_queue_pop (N : Nat) (queue : cec_rx_queue) (msg : List Nat) : pop_result :=
  if queue.read_offset = queue.write_offset then
    { rv := -1, queue := queue, msg := msg, msg_len := 0 }
  else
    let msg_len := queue.buf.getD queue.read_offset 0
    if msg_len = 0 ∨ msg_len > MAX_CEC_MSG_LEN then
      { rv := -1, queue := queue, msg := msg, msg_len := 0 }
    else
      let r := pop_loop N queue.buf msg_len 0 msg (next_offset N queue.read_offset)
      { rv := 0, queue := { queue with read_offset := r.2 }, msg := r.1, msg_len := msg_len }

/-! ## Bit transfer cursor -/

/-- The `struct cec_msg_transfer` of `cec.h`: bit offset, byte offset and the
message buffer of `MAX_CEC_MSG_LEN` bytes. -/
structure cec_msg_transfer where
  bit : Nat
  byte : Nat
  buf : List Nat
  deriving DecidableEq, Repr

/-- `cec_transfer_get_bit`. -/
def cec_transfer_get_bit (transfer : cec_msg_transfer) : Nat :=
  if transfer.byte ≥ MAX_CEC_MSG_LEN then 0
  else transfer.buf.getD transfer.byte 0 &&& (0x80 >>> transfer.bit)

/-- `cec_transfer_set_bit`; `~bit_flag` restricted to the 8 bits of a buffer byte
is `255 - bit_flag`. -/
def cec_transfer_set_bit (transfer : cec_msg_transfer) (val : Nat) : cec_msg_transfer :=
  if transfer.byte ≥ MAX_CEC_MSG_LEN then transfer
  else
    let bit_flag := (0x80 >>> transfer.bit) % 256
    let b := transfer.buf.getD transfer.byte 0 &&& (255 - bit_flag)
    let b := if val ≠ 0 then b ||| bit_flag else b
    { transfer with buf := transfer.buf.set transfer.byte b }

/-- `cec_transfer_inc_bit`; the pre-increment acts on a `uint8_t`. -/
def cec_transfer_inc_bit (transfer : cec_msg_transfer) : cec_msg_transfer :=
  let transfer := { transfer with bit := (transfer.bit + 1) % 256 }
  if transfer.bit = 8 then
    if transfer.byte ≥ MAX_CEC_MSG_LEN then transfer
    else { transfer with bit := 0, byte := (transfer.byte + 1) % 256 }
  else transfer

/-- `cec_transfer_is_eom`. -/
def cec_transfer_is_eom (transfer : cec_msg_transfer) (len : Nat) : Nat :=
  if transfer.bit ≠ 0 then 0
  else if transfer.byte = len then 1 else 0

/-! ## Timing constants -/

/-- Modelled from the spec: `CEC_US_TO_TICKS` is a macro of the chip header
`cec_chip.h`, which is not among the sources; the spec states every duration in
microseconds, so one tick is taken as one microsecond. -/
def CEC_US_TO_TICKS (us : Int) : Int := us

def CEC_BROADCAST_ADDR : Nat := 15
def CEC_UNREGISTERED_ADDR : Nat := 255
def CEC_MAX_RESENDS : Nat := 5

def NOMINAL_BIT_TICKS : Int := CEC_US_TO_TICKS 2400
def FREE_TIME_RS_TICKS : Int := 2 * NOMINAL_BIT_TICKS
def FREE_TIME_NI_TICKS : Int := 4 * NOMINAL_BIT_TICKS
def FREE_TIME_PI_TICKS : Int := 6 * NOMINAL_BIT_TICKS

def START_BIT_LOW_TICKS : Int := CEC_US_TO_TICKS 3700
def START_BIT_MIN_LOW_TICKS : Int := CEC_US_TO_TICKS 3500
def START_BIT_MAX_LOW_TICKS : Int := CEC_US_TO_TICKS 3900
def START_BIT_HIGH_TICKS : Int := CEC_US_TO_TICKS 800
def START_BIT_MIN_DURATION_TICKS : Int := CEC_US_TO_TICKS 4300
def START_BIT_MAX_DURATION_TICKS : Int := CEC_US_TO_TICKS 5700

def DATA_ZERO_LOW_TICKS : Int := CEC_US_TO_TICKS 1500
def DATA_ZERO_MIN_LOW_TICKS : Int := CEC_US_TO_TICKS 1300
def DATA_ZERO_MAX_LOW_TICKS : Int := CEC_US_TO_TICKS 1700
def DATA_ZERO_HIGH_TICKS : Int := CEC_US_TO_TICKS 900
def DATA_ZERO_MIN_DURATION_TICKS : Int := CEC_US_TO_TICKS 2050
def DATA_ZERO_MAX_DURATION_TICKS : Int := CEC_US_TO_TICKS 2750

def DATA_ONE_LOW_TICKS : Int := CEC_US_TO_TICKS 600
def DATA_ONE_MIN_LOW_TICKS : Int := CEC_US_TO_TICKS 400
def DATA_ONE_MAX_LOW_TICKS : Int := CEC_US_TO_TICKS 800
def DATA_ONE_HIGH_TICKS : Int := CEC_US_TO_TICKS 1800
def DATA_ONE_MIN_DURATION_TICKS : Int := CEC_US_TO_TICKS 2050
def DATA_ONE_MAX_DURATION_TICKS : Int := CEC_US_TO_TICKS 2750

def NOMINAL_SAMPLE_TIME_TICKS : Int := CEC_US_TO_TICKS 1050

/-- `DATA_HIGH(data)`. -/
def DATA_HIGH (data : Nat) : Int :=
  if data ≠ 0 then DATA_ONE_HIGH_TICKS else DATA_ZERO_HIGH_TICKS

/-- `DATA_LOW(data)`. -/
def DATA_LOW (data : Nat) : Int :=
  if data ≠ 0 then DATA_ONE_LOW_TICKS else DATA_ZERO_LOW_TICKS

def DEBOUNCE_CUTOFF : Int := 3
def DEBOUNCE_LIMIT_TICKS : Int := CEC_US_TO_TICKS 200
def DEBOUNCE_WAIT_SHORT_TICKS : Int := CEC_US_TO_TICKS 100
def DEBOUNCE_WAIT_LONG_TICKS : Int := CEC_US_TO_TICKS 500

def VALID_TOLERANCE_TICKS : Int := CEC_US_TO_TICKS 100

def CAP_START_LOW_TICKS : Int := START_BIT_MAX_LOW_TICKS + VALID_TOLERANCE_TICKS
def CAP_START_HIGH_TICKS : Int :=
  START_BIT_MAX_DURATION_TICKS - START_BIT_MIN_LOW_TICKS + VALID_TOLERANCE_TICKS
def CAP_DATA_LOW_TICKS : Int := DATA_ZERO_MAX_LOW_TICKS + VALID_TOLERANCE_TICKS
def CAP_DATA_HIGH_TICKS : Int :=
  DATA_ONE_MAX_DURATION_TICKS - DATA_ONE_MIN_LOW_TICKS + VALID_TOLERANCE_TICKS

/-- The three symbols the `bit` argument of `VALID_TIME` ranges over. -/
inductive cec_symbol where
  | START_BIT
  | DATA_ZERO
  | DATA_ONE
  deriving DecidableEq, Repr

/-- The token paste `bit##_MIN_LOW_TICKS`. -/
def MIN_LOW_TICKS : cec_symbol → Int
  | .START_BIT => START_BIT_MIN_LOW_TICKS
  | .DATA_ZERO => DATA_ZERO_MIN_LOW_TICKS
  | .DATA_ONE => DATA_ONE_MIN_LOW_TICKS

/-- The token paste `bit##_MAX_LOW_TICKS`. -/
def MAX_LOW_TICKS : cec_symbol → Int
  | .START_BIT => START_BIT_MAX_LOW_TICKS
  | .DATA_ZERO => DATA_ZERO_MAX_LOW_TICKS
  | .DATA_ONE => DATA_ONE_MAX_LOW_TICKS

/-- The token paste `bit##_MIN_DURATION_TICKS`. -/
def MIN_DURATION_TICKS : cec_symbol → Int
  | .START_BIT => START_BIT_MIN_DURATION_TICKS
  | .DATA_ZERO => DATA_ZERO_MIN_DURATION_TICKS
  | .DATA_ONE => DATA_ONE_MIN_DURATION_TICKS

/-- The token paste `bit##_MAX_DURATION_TICKS`. -/
def MAX_DURATION_TICKS : cec_symbol → Int
  | .START_BIT => START_BIT_MAX_DURATION_TICKS
  | .DATA_ZERO => DATA_ZERO_MAX_DURATION_TICKS
  | .DATA_ONE => DATA_ONE_MAX_DURATION_TICKS

/-- `VALID_LOW(bit, t)`, that is `VALID_TIME(LOW, bit, t)`. -/
def VALID_LOW (bit : cec_symbol) (t : Int) : Bool :=
  decide (t ≥ MIN_LOW_TICKS bit - VALID_TOLERANCE_TICKS) &&
  decide (t ≤ MAX_LOW_TICKS bit + VALID_TOLERANCE_TICKS)

/-- `VALID_HIGH(bit, low_time, high_time)`. -/
def VALID_HIGH (bit : cec_symbol) (low_time high_time : Int) : Bool :=
  decide (low_time + high_time ≤ MAX_DURATION_TICKS bit + VALID_TOLERANCE_TICKS) &&
  decide (low_time + high_time ≥ MIN_DURATION_TICKS bit - VALID_TOLERANCE_TICKS)

/-- `VALID_DATA_HIGH(data, low_time, high_time)`. -/
def VALID_DATA_HIGH (data : Nat) (low_time high_time : Int) : Bool :=
  if data ≠ 0 then VALID_HIGH .DATA_ONE low_time high_time
  else VALID_HIGH .DATA_ZERO low_time high_time

/-! ## Engine state -/

/-- The `enum cec_state`. -/
inductive cec_state where
  | CEC_STATE_DISABLED
  | CEC_STATE_IDLE
  | CEC_STATE_INITIATOR_FREE_TIME
  | CEC_STATE_INITIATOR_START_LOW
  | CEC_STATE_INITIATOR_START_HIGH
  | CEC_STATE_INITIATOR_HEADER_INIT_LOW
  | CEC_STATE_INITIATOR_HEADER_INIT_HIGH
  | CEC_STATE_INITIATOR_HEADER_DEST_LOW
  | CEC_STATE_INITIATOR_HEADER_DEST_HIGH
  | CEC_STATE_INITIATOR_DATA_LOW
  | CEC_STATE_INITIATOR_DATA_HIGH
  | CEC_STATE_INITIATOR_EOM_LOW
  | CEC_STATE_INITIATOR_EOM_HIGH
  | CEC_STATE_INITIATOR_ACK_LOW
  | CEC_STATE_INITIATOR_ACK_HIGH
  | CEC_STATE_INITIATOR_ACK_VERIFY
  | CEC_STATE_FOLLOWER_START_LOW
  | CEC_STATE_FOLLOWER_START_HIGH
  | CEC_STATE_FOLLOWER_DEBOUNCE
  | CEC_STATE_FOLLOWER_HEADER_INIT_LOW
  | CEC_STATE_FOLLOWER_HEADER_INIT_HIGH
  | CEC_STATE_FOLLOWER_HEADER_DEST_LOW
  | CEC_STATE_FOLLOWER_HEADER_DEST_HIGH
  | CEC_STATE_FOLLOWER_EOM_LOW
  | CEC_STATE_FOLLOWER_EOM_HIGH
  | CEC_STATE_FOLLOWER_ACK_LOW
  | CEC_STATE_FOLLOWER_ACK_VERIFY
  | CEC_STATE_FOLLOWER_ACK_FINISH
  | CEC_STATE_FOLLOWER_DATA_LOW
  | CEC_STATE_FOLLOWER_DATA_HIGH
  deriving DecidableEq, Repr

open cec_state

/-- The enumerator that follows a state in `enum cec_state`, the value of
`cec_state + 1`; `cec_event_cap` uses it at the follower `*_LOW` states.  The
last enumerator has no successor in the enumeration and is mapped to itself. -/
def cec_state_succ : cec_state → cec_state
  | CEC_STATE_DISABLED => CEC_STATE_IDLE
  | CEC_STATE_IDLE => CEC_STATE_INITIATOR_FREE_TIME
  | CEC_STATE_INITIATOR_FREE_TIME => CEC_STATE_INITIATOR_START_LOW
  | CEC_STATE_INITIATOR_START_LOW => CEC_STATE_INITIATOR_START_HIGH
  | CEC_STATE_INITIATOR_START_HIGH => CEC_STATE_INITIATOR_HEADER_INIT_LOW
  | CEC_STATE_INITIATOR_HEADER_INIT_LOW => CEC_STATE_INITIATOR_HEADER_INIT_HIGH
  | CEC_STATE_INITIATOR_HEADER_INIT_HIGH => CEC_STATE_INITIATOR_HEADER_DEST_LOW
  | CEC_STATE_INITIATOR_HEADER_DEST_LOW => CEC_STATE_INITIATOR_HEADER_DEST_HIGH
  | CEC_STATE_INITIATOR_HEADER_DEST_HIGH => CEC_STATE_INITIATOR_DATA_LOW
  | CEC_STATE_INITIATOR_DATA_LOW => CEC_STATE_INITIATOR_DATA_HIGH
  | CEC_STATE_INITIATOR_DATA_HIGH => CEC_STATE_INITIATOR_EOM_LOW
  | CEC_STATE_INITIATOR_EOM_LOW => CEC_STATE_INITIATOR_EOM_HIGH
  | CEC_STATE_INITIATOR_EOM_HIGH => CEC_STATE_INITIATOR_ACK_LOW
  | CEC_STATE_INITIATOR_ACK_LOW => CEC_STATE_INITIATOR_ACK_HIGH
  | CEC_STATE_INITIATOR_ACK_HIGH => CEC_STATE_INITIATOR_ACK_VERIFY
  | CEC_STATE_INITIATOR_ACK_VERIFY => CEC_STATE_FOLLOWER_START_LOW
  | CEC_STATE_FOLLOWER_START_LOW => CEC_STATE_FOLLOWER_START_HIGH
  | CEC_STATE_FOLLOWER_START_HIGH => CEC_STATE_FOLLOWER_DEBOUNCE
  | CEC_STATE_FOLLOWER_DEBOUNCE => CEC_STATE_FOLLOWER_HEADER_INIT_LOW
  | CEC_STATE_FOLLOWER_HEADER_INIT_LOW => CEC_STATE_FOLLOWER_HEADER_INIT_HIGH
  | CEC_STATE_FOLLOWER_HEADER_INIT_HIGH => CEC_STATE_FOLLOWER_HEADER_DEST_LOW
  | CEC_STATE_FOLLOWER_HEADER_DEST_LOW => CEC_STATE_FOLLOWER_HEADER_DEST_HIGH
  | CEC_STATE_FOLLOWER_HEADER_DEST_HIGH => CEC_STATE_FOLLOWER_EOM_LOW
  | CEC_STATE_FOLLOWER_EOM_LOW => CEC_STATE_FOLLOWER_EOM_HIGH
  | CEC_STATE_FOLLOWER_EOM_HIGH => CEC_STATE_FOLLOWER_ACK_LOW
  | CEC_STATE_FOLLOWER_ACK_LOW => CEC_STATE_FOLLOWER_ACK_VERIFY
  | CEC_STATE_FOLLOWER_ACK_VERIFY => CEC_STATE_FOLLOWER_ACK_FINISH
  | CEC_STATE_FOLLOWER_ACK_FINISH => CEC_STATE_FOLLOWER_DATA_LOW
  | CEC_STATE_FOLLOWER_DATA_LOW => CEC_STATE_FOLLOWER_DATA_HIGH
  | CEC_STATE_FOLLOWER_DATA_HIGH => CEC_STATE_FOLLOWER_DATA_HIGH

/-- The `struct cec_rx`. -/
structure cec_rx where
  transfer : cec_msg_transfer
  eom : Nat
  broadcast_nak : Nat
  low_ticks : Int
  debounce_count : Int
  deriving DecidableEq, Repr

/-- The `struct cec_tx`. -/
structure cec_tx where
  transfer : cec_msg_transfer
  len : Nat
  resends : Nat
  ack : Nat
  present_initiator : Int
  deriving DecidableEq, Repr

/-- The file-scope variables of `cec.c`. -/
structure cec_globals where
  cec_state : cec_state
  cec_rx : cec_rx
  cec_rx_queue : cec_rx_queue
  cec_tx : cec_tx
  cec_addr : Nat
  cec_events : Nat
  deriving DecidableEq, Repr

/-- A transfer cursor after `memset(.., 0, ..)`. -/
def cec_msg_transfer_zero : cec_msg_transfer :=
  { bit := 0, byte := 0, buf := List.replicate MAX_CEC_MSG_LEN 0 }

/-- The receive context after `memset(&cec_rx, 0, sizeof(struct cec_rx))`. -/
def cec_rx_zero : cec_rx :=
  { transfer := cec_msg_transfer_zero, eom := 0, broadcast_nak := 0, low_ticks := 0,
    debounce_count := 0 }

/-- The transmit context after `memset(&cec_tx, 0, sizeof(struct cec_tx))`. -/
def cec_tx_zero : cec_tx :=
  { transfer := cec_msg_transfer_zero, len := 0, resends := 0, ack := 0,
    present_initiator := 0 }

/-- The static initial values: everything zero, `cec_addr = UINT8_MAX`. -/
def cec_globals_init (N : Nat) : cec_globals :=
  { cec_state := CEC_STATE_DISABLED, cec_rx := cec_rx_zero,
    cec_rx_queue := cec_rx_queue_zero N, cec_tx := cec_tx_zero, cec_addr := 255,
    cec_events := 0 }

/-- The `enum cec_cap_edge` argument of `cec_tmr_cap_start`. -/
inductive cec_cap_edge where
  | CEC_CAP_EDGE_NONE
  | CEC_CAP_EDGE_FALLING
  | CEC_CAP_EDGE_RISING
  deriving DecidableEq, Repr

open cec_cap_edge

/-- The task events of the CEC task. -/
inductive task_event where
  | TASK_EVENT_RECEIVED_DATA
  | TASK_EVENT_OKAY
  | TASK_EVENT_FAILED
  deriving DecidableEq, Repr

open task_event

/-- The MKBP event kinds sent to the host. -/
inductive mkbp_event where
  | EC_MKBP_EVENT_CEC_EVENT
  | EC_MKBP_EVENT_CEC_MESSAGE
  deriving DecidableEq, Repr

open mkbp_event

/-- The calls into external collaborators, in the order they are made. -/
inductive Effect where
  | gpio_set_level (level : Int)
  | cec_tmr_cap_start (edge : cec_cap_edge) (timeout : Int)
  | task_set_event (event : task_event)
  | cec_trigger_send
  | cec_update_interrupt_time
  | cec_enable_timer
  | cec_disable_timer
  | power_button_simulate_press (duration : Int)
  | mkbp_send_event (event : mkbp_event)
  deriving DecidableEq, Repr

open Effect

/-- What the hardware returns when read during one callback:
`gpio_get_level(CEC_GPIO_OUT)` and `cec_tmr_cap_get()`. -/
structure hw_inputs where
  gpio_get_level : Int
  cec_tmr_cap_get : Int
  deriving DecidableEq, Repr

/-- The local variables `gpio`, `timeout`, `cap_edge` of `enter_state`, together
with the globals and the effects of the calls made inside the `switch`. -/
structure enter_locals where
  g : cec_globals
  eff : List Effect
  gpio : Int
  timeout : Int
  cap_edge : cec_cap_edge

/-- The C negation `!x` of an `int`. -/
def c_not (x : Int) : Nat := if x = 0 then 1 else 0

/-- The `switch (new_state)` of `enter_state`, entered with `cec_state` already
assigned (`g`) and the locals at their initial values `gpio = -1`,
`timeout = -1`, `cap_edge = CEC_CAP_EDGE_NONE`; `nested` stands for the
recursive call made in the `CEC_STATE_IDLE` case. -/
def enter_state_switch (nested : cec_state → cec_globals → cec_globals × List Effect)
    (hw : hw_inputs) (new_state : cec_state) (g : cec_globals) : enter_locals :=
  let init : enter_locals :=
    { g := g, eff := [], gpio := -1, timeout := -1, cap_edge := CEC_CAP_EDGE_NONE }
  match new_state with
  | CEC_STATE_DISABLED =>
    { init with
      gpio := 1,
      g := { g with cec_rx := cec_rx_zero, cec_tx := cec_tx_zero,
                    cec_rx_queue := cec_rx_queue_zero g.cec_rx_queue.buf.length,
                    cec_events := 0 } }
  | CEC_STATE_IDLE =>
    let g := { g with
      cec_tx := { g.cec_tx with transfer := { g.cec_tx.transfer with bit := 0, byte := 0 } },
      cec_rx := { g.cec_rx with transfer := { g.cec_rx.transfer with bit := 0, byte := 0 } } }
    if g.cec_tx.len > 0 then
      let r := nested CEC_STATE_INITIATOR_FREE_TIME g
      { init with g := r.1, eff := r.2 }
    else
      { init with g := g, gpio := 1, cap_edge := CEC_CAP_EDGE_FALLING, timeout := 0 }
  | CEC_STATE_INITIATOR_FREE_TIME =>
    { init with
      gpio := 1, cap_edge := CEC_CAP_EDGE_FALLING,
      timeout :=
        if g.cec_tx.resends ≠ 0 then FREE_TIME_RS_TICKS
        else if g.cec_tx.present_initiator ≠ 0 then FREE_TIME_PI_TICKS
        else FREE_TIME_NI_TICKS }
  | CEC_STATE_INITIATOR_START_LOW =>
    { init with
      g := { g with cec_tx := { g.cec_tx with
              present_initiator := 1,
              transfer := { g.cec_tx.transfer with bit := 0, byte := 0 } } },
      gpio := 0, timeout := START_BIT_LOW_TICKS }
  | CEC_STATE_INITIATOR_START_HIGH =>
    { init with gpio := 1, cap_edge := CEC_CAP_EDGE_FALLING, timeout := START_BIT_HIGH_TICKS }
  | CEC_STATE_INITIATOR_HEADER_INIT_LOW
  | CEC_STATE_INITIATOR_HEADER_DEST_LOW
  | CEC_STATE_INITIATOR_DATA_LOW =>
    { init with gpio := 0, timeout := DATA_LOW (cec_transfer_get_bit g.cec_tx.transfer) }
  | CEC_STATE_INITIATOR_HEADER_INIT_HIGH =>
    { init with
      gpio := 1, cap_edge := CEC_CAP_EDGE_FALLING,
      timeout := DATA_HIGH (cec_transfer_get_bit g.cec_tx.transfer) }
  | CEC_STATE_INITIATOR_HEADER_DEST_HIGH
  | CEC_STATE_INITIATOR_DATA_HIGH =>
    { init with gpio := 1, timeout := DATA_HIGH (cec_transfer_get_bit g.cec_tx.transfer) }
  | CEC_STATE_INITIATOR_EOM_LOW =>
    { init with
      gpio := 0,
      timeout := DATA_LOW (cec_transfer_is_eom g.cec_tx.transfer g.cec_tx.len) }
  | CEC_STATE_INITIATOR_EOM_HIGH =>
    { init with
      gpio := 1,
      timeout := DATA_HIGH (cec_transfer_is_eom g.cec_tx.transfer g.cec_tx.len) }
  | CEC_STATE_INITIATOR_ACK_LOW =>
    { init with gpio := 0, timeout := DATA_LOW 1 }
  | CEC_STATE_INITIATOR_ACK_HIGH =>
    { init with
      gpio := 1,
      timeout := (DATA_ONE_LOW_TICKS + DATA_ZERO_LOW_TICKS) / 2 - DATA_ONE_LOW_TICKS }
  | CEC_STATE_INITIATOR_ACK_VERIFY =>
    let ack := c_not hw.gpio_get_level
    let ack :=
      if g.cec_tx.transfer.buf.getD 0 0 &&& 0x0f = CEC_BROADCAST_ADDR then c_not ack
      else ack
    { init with
      g := { g with cec_tx := { g.cec_tx with ack := ack } },
      timeout := NOMINAL_BIT_TICKS - NOMINAL_SAMPLE_TIME_TICKS }
  | CEC_STATE_FOLLOWER_START_LOW =>
    { init with
      g := { g with cec_tx := { g.cec_tx with present_initiator := 0 } },
      cap_edge := CEC_CAP_EDGE_RISING, timeout := CAP_START_LOW_TICKS }
  | CEC_STATE_FOLLOWER_START_HIGH =>
    { init with
      g := { g with cec_rx := { g.cec_rx with debounce_count := 0 } },
      cap_edge := CEC_CAP_EDGE_FALLING, timeout := CAP_START_HIGH_TICKS }
  | CEC_STATE_FOLLOWER_DEBOUNCE =>
    if g.cec_rx.debounce_count ≥ DEBOUNCE_CUTOFF then
      { init with timeout := DEBOUNCE_WAIT_LONG_TICKS }
    else
      { init with
        timeout := DEBOUNCE_WAIT_SHORT_TICKS,
        g := { g with cec_rx := { g.cec_rx with
                debounce_count := g.cec_rx.debounce_count + 1 } } }
  | CEC_STATE_FOLLOWER_HEADER_INIT_LOW
  | CEC_STATE_FOLLOWER_HEADER_DEST_LOW
  | CEC_STATE_FOLLOWER_EOM_LOW =>
    { init with cap_edge := CEC_CAP_EDGE_RISING, timeout := CAP_DATA_LOW_TICKS }
  | CEC_STATE_FOLLOWER_HEADER_INIT_HIGH
  | CEC_STATE_FOLLOWER_HEADER_DEST_HIGH
  | CEC_STATE_FOLLOWER_EOM_HIGH =>
    { init with cap_edge := CEC_CAP_EDGE_FALLING, timeout := CAP_DATA_HIGH_TICKS }
  | CEC_STATE_FOLLOWER_ACK_LOW =>
    let addr := g.cec_rx.transfer.buf.getD 0 0 &&& 0x0f
    { init with
      gpio := if addr = g.cec_addr then 0 else -1,
      timeout := NOMINAL_SAMPLE_TIME_TICKS }
  | CEC_STATE_FOLLOWER_ACK_VERIFY =>
    let nak :=
      if g.cec_rx.transfer.buf.getD 0 0 &&& 0x0f = CEC_BROADCAST_ADDR then
        c_not hw.gpio_get_level
      else 0
    { init with
      g := { g with cec_rx := { g.cec_rx with broadcast_nak := nak } },
      timeout := DATA_ZERO_LOW_TICKS - NOMINAL_SAMPLE_TIME_TICKS }
  | CEC_STATE_FOLLOWER_ACK_FINISH =>
    if g.cec_rx.eom ≠ 0 ∨ g.cec_rx.transfer.byte ≥ MAX_CEC_MSG_LEN then
      let addr := g.cec_rx.transfer.buf.getD 0 0 &&& 0x0f
      { init with
        gpio := 1,
        eff := if addr = g.cec_addr ∨ addr = CEC_BROADCAST_ADDR then
                 [task_set_event TASK_EVENT_RECEIVED_DATA] else [],
        timeout := DATA_ZERO_HIGH_TICKS }
    else
      { init with gpio := 1, cap_edge := CEC_CAP_EDGE_FALLING, timeout := CAP_DATA_HIGH_TICKS }
  | CEC_STATE_FOLLOWER_DATA_LOW =>
    { init with cap_edge := CEC_CAP_EDGE_RISING, timeout := CAP_DATA_LOW_TICKS }
  | CEC_STATE_FOLLOWER_DATA_HIGH =>
    { init with cap_edge := CEC_CAP_EDGE_FALLING, timeout := CAP_DATA_HIGH_TICKS }

/-- The body of `enter_state`: assign `cec_state`, run the `switch`, then write
the GPIO level if `gpio >= 0` and arm the timer if `timeout >= 0`. -/
def enter_state_with (nested : cec_state → cec_globals → cec_globals × List Effect)
    (hw : hw_inputs) (new_state : cec_state) (g0 : cec_globals) :
    cec_globals × List Effect :=
  let l := enter_state_switch nested hw new_state { g0 with cec_state := new_state }
  (l.g,
   l.eff ++ (if l.gpio ≥ 0 then [gpio_set_level l.gpio] else [])
         ++ (if l.timeout ≥ 0 then [cec_tmr_cap_start l.cap_edge l.timeout] else []))

/-- `enter_state(new_state)`.  The only recursive call is
`enter_state(CEC_STATE_INITIATOR_FREE_TIME)` from the `CEC_STATE_IDLE` case, and
the free-time case makes no further call, so two levels of the body are the
whole function. -/
def enter_state (hw : hw_inputs) (new_state : cec_state) (g : cec_globals) :
    cec_globals × List Effect :=
  enter_state_with (enter_state_with (fun _ g => (g, [])) hw) hw new_state g

/-- `cec_event_timeout()`. -/
def cec_event_timeout (hw : hw_inputs) (g : cec_globals) : cec_globals × List Effect :=
  match g.cec_state with
  | CEC_STATE_DISABLED
  | CEC_STATE_IDLE => (g, [])
  | CEC_STATE_INITIATOR_FREE_TIME => enter_state hw CEC_STATE_INITIATOR_START_LOW g
  | CEC_STATE_INITIATOR_START_LOW => enter_state hw CEC_STATE_INITIATOR_START_HIGH g
  | CEC_STATE_INITIATOR_START_HIGH => enter_state hw CEC_STATE_INITIATOR_HEADER_INIT_LOW g
  | CEC_STATE_INITIATOR_HEADER_INIT_LOW =>
    enter_state hw CEC_STATE_INITIATOR_HEADER_INIT_HIGH g
  | CEC_STATE_INITIATOR_HEADER_INIT_HIGH =>
    let g := { g with cec_tx := { g.cec_tx with
                transfer := cec_transfer_inc_bit g.cec_tx.transfer } }
    if g.cec_tx.transfer.bit = 4 then enter_state hw CEC_STATE_INITIATOR_HEADER_DEST_LOW g
    else enter_state hw CEC_STATE_INITIATOR_HEADER_INIT_LOW g
  | CEC_STATE_INITIATOR_HEADER_DEST_LOW =>
    enter_state hw CEC_STATE_INITIATOR_HEADER_DEST_HIGH g
  | CEC_STATE_INITIATOR_HEADER_DEST_HIGH =>
    let g := { g with cec_tx := { g.cec_tx with
                transfer := cec_transfer_inc_bit g.cec_tx.transfer } }
    if g.cec_tx.transfer.byte = 1 then enter_state hw CEC_STATE_INITIATOR_EOM_LOW g
    else enter_state hw CEC_STATE_INITIATOR_HEADER_DEST_LOW g
  | CEC_STATE_INITIATOR_EOM_LOW => enter_state hw CEC_STATE_INITIATOR_EOM_HIGH g
  | CEC_STATE_INITIATOR_EOM_HIGH => enter_state hw CEC_STATE_INITIATOR_ACK_LOW g
  | CEC_STATE_INITIATOR_ACK_LOW => enter_state hw CEC_STATE_INITIATOR_ACK_HIGH g
  | CEC_STATE_INITIATOR_ACK_HIGH => enter_state hw CEC_STATE_INITIATOR_ACK_VERIFY g
  | CEC_STATE_INITIATOR_ACK_VERIFY =>
    if g.cec_tx.ack ≠ 0 then
      if cec_transfer_is_eom g.cec_tx.transfer g.cec_tx.len = 0 then
        enter_state hw CEC_STATE_INITIATOR_DATA_LOW g
      else
        let g := { g with cec_tx := { g.cec_tx with len := 0, resends := 0 } }
        let r := enter_state hw CEC_STATE_IDLE g
        (r.1, r.2 ++ [task_set_event TASK_EVENT_OKAY])
    else
      if g.cec_tx.resends < CEC_MAX_RESENDS then
        let g := { g with cec_tx := { g.cec_tx with
                    resends := (g.cec_tx.resends + 1) % 256 } }
        enter_state hw CEC_STATE_INITIATOR_FREE_TIME g
      else
        let g := { g with cec_tx := { g.cec_tx with len := 0, resends := 0 } }
        let r := enter_state hw CEC_STATE_IDLE g
        (r.1, r.2 ++ [task_set_event TASK_EVENT_FAILED])
  | CEC_STATE_INITIATOR_DATA_LOW => enter_state hw CEC_STATE_INITIATOR_DATA_HIGH g
  | CEC_STATE_INITIATOR_DATA_HIGH =>
    let g := { g with cec_tx := { g.cec_tx with
                transfer := cec_transfer_inc_bit g.cec_tx.transfer } }
    if g.cec_tx.transfer.bit = 0 then enter_state hw CEC_STATE_INITIATOR_EOM_LOW g
    else enter_state hw CEC_STATE_INITIATOR_DATA_LOW g
  | CEC_STATE_FOLLOWER_ACK_LOW => enter_state hw CEC_STATE_FOLLOWER_ACK_VERIFY g
  | CEC_STATE_FOLLOWER_ACK_VERIFY =>
    if g.cec_rx.broadcast_nak ≠ 0 then enter_state hw CEC_STATE_IDLE g
    else enter_state hw CEC_STATE_FOLLOWER_ACK_FINISH g
  | CEC_STATE_FOLLOWER_START_LOW
  | CEC_STATE_FOLLOWER_START_HIGH
  | CEC_STATE_FOLLOWER_DEBOUNCE
  | CEC_STATE_FOLLOWER_HEADER_INIT_LOW
  | CEC_STATE_FOLLOWER_HEADER_INIT_HIGH
  | CEC_STATE_FOLLOWER_HEADER_DEST_LOW
  | CEC_STATE_FOLLOWER_HEADER_DEST_HIGH
  | CEC_STATE_FOLLOWER_EOM_LOW
  | CEC_STATE_FOLLOWER_EOM_HIGH
  | CEC_STATE_FOLLOWER_ACK_FINISH
  | CEC_STATE_FOLLOWER_DATA_LOW
  | CEC_STATE_FOLLOWER_DATA_HIGH => enter_state hw CEC_STATE_IDLE g

/-- The `cec_rx.transfer` update shared by the follower `*_HIGH` cases of
`cec_event_cap`: `cec_transfer_inc_bit(&cec_rx.transfer)`. -/
def rx_inc_bit (g : cec_globals) : cec_globals :=
  { g with cec_rx := { g.cec_rx with transfer := cec_transfer_inc_bit g.cec_rx.transfer } }

/-- `cec_event_cap()`. -/
def cec_event_cap (hw : hw_inputs) (g : cec_globals) : cec_globals × List Effect :=
  match g.cec_state with
  | CEC_STATE_IDLE => enter_state hw CEC_STATE_FOLLOWER_START_LOW g
  | CEC_STATE_INITIATOR_FREE_TIME
  | CEC_STATE_INITIATOR_START_HIGH
  | CEC_STATE_INITIATOR_HEADER_INIT_HIGH =>
    let g := { g with cec_tx := { g.cec_tx with
                transfer := { g.cec_tx.transfer with bit := 0, byte := 0 } } }
    enter_state hw CEC_STATE_FOLLOWER_START_LOW g
  | CEC_STATE_FOLLOWER_START_LOW =>
    let t := hw.cec_tmr_cap_get
    if VALID_LOW .START_BIT t then
      enter_state hw CEC_STATE_FOLLOWER_START_HIGH
        { g with cec_rx := { g.cec_rx with low_ticks := t } }
    else if t < DEBOUNCE_LIMIT_TICKS then enter_state hw CEC_STATE_FOLLOWER_DEBOUNCE g
    else enter_state hw CEC_STATE_IDLE g
  | CEC_STATE_FOLLOWER_START_HIGH =>
    if VALID_HIGH .START_BIT g.cec_rx.low_ticks hw.cec_tmr_cap_get then
      enter_state hw CEC_STATE_FOLLOWER_HEADER_INIT_LOW g
    else enter_state hw CEC_STATE_IDLE g
  | CEC_STATE_FOLLOWER_HEADER_INIT_LOW
  | CEC_STATE_FOLLOWER_HEADER_DEST_LOW
  | CEC_STATE_FOLLOWER_DATA_LOW =>
    let t := hw.cec_tmr_cap_get
    if VALID_LOW .DATA_ZERO t then
      enter_state hw (cec_state_succ g.cec_state)
        { g with cec_rx := { g.cec_rx with
            low_ticks := t, transfer := cec_transfer_set_bit g.cec_rx.transfer 0 } }
    else if VALID_LOW .DATA_ONE t then
      enter_state hw (cec_state_succ g.cec_state)
        { g with cec_rx := { g.cec_rx with
            low_ticks := t, transfer := cec_transfer_set_bit g.cec_rx.transfer 1 } }
    else enter_state hw CEC_STATE_IDLE g
  | CEC_STATE_FOLLOWER_HEADER_INIT_HIGH =>
    let t := hw.cec_tmr_cap_get
    let data := cec_transfer_get_bit g.cec_rx.transfer
    if VALID_DATA_HIGH data g.cec_rx.low_ticks t then
      let g := rx_inc_bit g
      if g.cec_rx.transfer.bit = 4 then enter_state hw CEC_STATE_FOLLOWER_HEADER_DEST_LOW g
      else enter_state hw CEC_STATE_FOLLOWER_HEADER_INIT_LOW g
    else enter_state hw CEC_STATE_IDLE g
  | CEC_STATE_FOLLOWER_HEADER_DEST_HIGH =>
    let t := hw.cec_tmr_cap_get
    let data := cec_transfer_get_bit g.cec_rx.transfer
    if VALID_DATA_HIGH data g.cec_rx.low_ticks t then
      let g := rx_inc_bit g
      if g.cec_rx.transfer.bit = 0 then enter_state hw CEC_STATE_FOLLOWER_EOM_LOW g
      else enter_state hw CEC_STATE_FOLLOWER_HEADER_DEST_LOW g
    else enter_state hw CEC_STATE_IDLE g
  | CEC_STATE_FOLLOWER_EOM_LOW =>
    let t := hw.cec_tmr_cap_get
    if VALID_LOW .DATA_ZERO t then
      enter_state hw CEC_STATE_FOLLOWER_EOM_HIGH
        { g with cec_rx := { g.cec_rx with low_ticks := t, eom := 0 } }
    else if VALID_LOW .DATA_ONE t then
      enter_state hw CEC_STATE_FOLLOWER_EOM_HIGH
        { g with cec_rx := { g.cec_rx with low_ticks := t, eom := 1 } }
    else enter_state hw CEC_STATE_IDLE g
  | CEC_STATE_FOLLOWER_EOM_HIGH =>
    let t := hw.cec_tmr_cap_get
    let data := g.cec_rx.eom
    if VALID_DATA_HIGH data g.cec_rx.low_ticks t then
      enter_state hw CEC_STATE_FOLLOWER_ACK_LOW g
    else enter_state hw CEC_STATE_IDLE g
  | CEC_STATE_FOLLOWER_ACK_LOW => enter_state hw CEC_STATE_FOLLOWER_ACK_FINISH g
  | CEC_STATE_FOLLOWER_ACK_FINISH => enter_state hw CEC_STATE_FOLLOWER_DATA_LOW g
  | CEC_STATE_FOLLOWER_DATA_HIGH =>
    let t := hw.cec_tmr_cap_get
    let data := cec_transfer_get_bit g.cec_rx.transfer
    if VALID_DATA_HIGH data g.cec_rx.low_ticks t then
      let g := rx_inc_bit g
      if g.cec_rx.transfer.bit = 0 then enter_state hw CEC_STATE_FOLLOWER_EOM_LOW g
      else enter_state hw CEC_STATE_FOLLOWER_DATA_LOW g
    else enter_state hw CEC_STATE_IDLE g
  | _ => (g, [])

/-- `cec_event_tx()`. -/
def cec_event_tx (hw : hw_inputs) (g : cec_globals) : cec_globals × List Effect :=
  if g.cec_state = CEC_STATE_IDLE then
    let r := enter_state hw CEC_STATE_INITIATOR_FREE_TIME g
    (r.1, cec_update_interrupt_time :: r.2)
  else (g, [])

/-- `memcpy(dst, src, n)` on byte buffers. -/
def memcpy (dst src : List Nat) (n : Nat) : List Nat :=
  (List.range n).foldl (fun d i => d.set i (src.getD i 0)) dst

/-- `cec_send(msg, len)`; `len` is a `uint8_t`. -/
def cec_send (g : cec_globals) (msg : List Nat) (len : Nat) :
    Int × cec_globals × List Effect :=
  if g.cec_tx.len ≠ 0 then (-1, g, [])
  else
    let g := { g with cec_tx := { g.cec_tx with len := len } }
    let g := { g with cec_tx := { g.cec_tx with
                transfer := { g.cec_tx.transfer with
                  buf := memcpy g.cec_tx.transfer.buf msg len } } }
    (0, g, [cec_trigger_send])

/-- The values of `enum ec_status` returned by the host commands of `cec.c`. -/
inductive ec_status where
  | EC_RES_SUCCESS
  | EC_RES_INVALID_PARAM
  | EC_RES_UNAVAILABLE
  | EC_RES_BUSY
  deriving DecidableEq, Repr

open ec_status

/-- `hc_cec_write(args)` with `args->params->msg = msg` and
`args->params_size = params_size`. -/
def hc_cec_write (g : cec_globals) (msg : List Nat) (params_size : Nat) :
    ec_status × cec_globals × List Effect :=
  if g.cec_state = CEC_STATE_DISABLED then (EC_RES_UNAVAILABLE, g, [])
  else if params_size = 0 ∨ params_size > MAX_CEC_MSG_LEN then (EC_RES_INVALID_PARAM, g, [])
  else
    let r := cec_send g msg (params_size % 256)
    if r.1 ≠ 0 then (EC_RES_BUSY, r.2.1, r.2.2)
    else (EC_RES_SUCCESS, r.2.1, r.2.2)

/-- `cec_set_enable(enable)`. -/
def cec_set_enable (hw : hw_inputs) (g : cec_globals) (enable : Nat) :
    ec_status × cec_globals × List Effect :=
  if enable ≠ 0 ∧ enable ≠ 1 then (EC_RES_INVALID_PARAM, g, [])
  else if enable ≠ 0 ∧ g.cec_state ≠ CEC_STATE_DISABLED then (EC_RES_SUCCESS, g, [])
  else if enable = 0 ∧ g.cec_state = CEC_STATE_DISABLED then (EC_RES_SUCCESS, g, [])
  else if enable ≠ 0 then
    let r := enter_state hw CEC_STATE_IDLE g
    (EC_RES_SUCCESS, r.1, r.2 ++ [cec_enable_timer])
  else
    let r := enter_state hw CEC_STATE_DISABLED g
    (EC_RES_SUCCESS, r.1, cec_disable_timer :: r.2)

/-- `cec_set_logical_addr(logical_addr)`. -/
def cec_set_logical_addr (g : cec_globals) (logical_addr : Nat) : ec_status × cec_globals :=
  if logical_addr ≥ CEC_BROADCAST_ADDR ∧ logical_addr ≠ CEC_UNREGISTERED_ADDR then
    (EC_RES_INVALID_PARAM, g)
  else (EC_RES_SUCCESS, { g with cec_addr := logical_addr })

/-! ## Offline interception and the CEC task -/

/-- Modelled from the spec: the values of `enum cec_action` come from `cec.h`,
which is not among the sources; "no action" is the zero that terminates a
policy table. -/
def CEC_ACTION_NONE : Nat := 0

/-- Modelled from the spec: the power-button action of `enum cec_action` (see
`CEC_ACTION_NONE`). -/
def CEC_ACTION_POWER_BUTTON : Nat := 1

/-- Modelled from the spec: the opcode of the "image view on" command, a constant
of the absent `cec.h`. -/
def CEC_MSG_IMAGE_VIEW_ON : Nat := 0x04

/-- Modelled from the spec: the opcode of the "text view on" command, a constant
of the absent `cec.h`. -/
def CEC_MSG_TEXT_VIEW_ON : Nat := 0x0d

/-- The `struct cec_offline_policy`. -/
structure cec_offline_policy where
  command : Nat
  action : Nat
  deriving DecidableEq, Repr

/-- `cec_default_policy`, terminator included. -/
def cec_default_policy : List cec_offline_policy :=
  [ { command := CEC_MSG_IMAGE_VIEW_ON, action := CEC_ACTION_POWER_BUTTON },
    { command := CEC_MSG_TEXT_VIEW_ON, action := CEC_ACTION_POWER_BUTTON },
    { command := 0, action := 0 } ]

/-- The `while` loop of `cec_find_action` over the entries from `policy` on. -/
def cec_find_action_loop : List cec_offline_policy → Nat → Nat
  | [], _ => CEC_ACTION_NONE
  | e :: rest, command =>
    if e.command ≠ 0 ∧ e.action ≠ 0 then
      if e.command = command then e.action else cec_find_action_loop rest command
    else CEC_ACTION_NONE

/-- `cec_find_action(policy, command)`; `none` is the `NULL` table. -/
def cec_find_action (policy : Option (List cec_offline_policy)) (command : Nat) : Nat :=
  match policy with
  | none => CEC_ACTION_NONE
  | some table => cec_find_action_loop table command

/-- `cec_process_offline_message(queue, msg, msg_len)`; `any_off` is the value of
`chipset_in_state(CHIPSET_STATE_ANY_OFF)` and `policy` is
`cec_config.offline_policy`. -/
def cec_process_offline_message (any_off : Bool)
    (policy : Option (List cec_offline_policy)) (msg : List Nat) (msg_len : Nat) :
    ec_error_list × List Effect :=
  if ¬ any_off then (EC_ERROR_NOT_HANDLED, [])
  else if msg_len < 1 then (EC_ERROR_INVAL, [])
  else
    let command := msg.getD 1 0
    if cec_find_action policy command = CEC_ACTION_POWER_BUTTON then
      (EC_SUCCESS, [power_button_simulate_press 200])
    else (EC_SUCCESS, [])

/-- Modelled from the spec: the host event bit for a completed send, a constant
of an absent header. -/
def EC_MKBP_CEC_SEND_OK : Nat := 1

/-- Modelled from the spec: the host event bit for a failed send, a constant of
an absent header. -/
def EC_MKBP_CEC_SEND_FAILED : Nat := 2

/-- `send_mkbp_event(event)`. -/
def send_mkbp_event (g : cec_globals) (event : Nat) : cec_globals × List Effect :=
  ({ g with cec_events := g.cec_events ||| event }, [mkbp_send_event EC_MKBP_EVENT_CEC_EVENT])

/-- The queueing part of the received-data branch of `cec_task`: push, and on
`EC_ERROR_OVERFLOW` flush and push once more.  Returns the final `rv`. -/
def cec_task_queue_message (N : Nat) (queue : cec_rx_queue) (msg : List Nat) (msg_len : Nat) :
    ec_error_list × cec_rx_queue :=
  let r := cec_rx_queue_push N queue msg msg_len
  if r.1 = EC_ERROR_OVERFLOW then
    cec_rx_queue_push N (cec_rx_queue_flush r.2) msg msg_len
  else r

/-- One iteration of the `while (1)` loop of `cec_task`, for the event set
`events` returned by `task_wait_event`. -/
def cec_task_iteration (N : Nat) (any_off : Bool) (policy : Option (List cec_offline_policy))
    (events : List task_event) (g : cec_globals) : cec_globals × List Effect :=
  let r1 : cec_globals × List Effect :=
    if TASK_EVENT_RECEIVED_DATA ∈ events then
      let off := cec_process_offline_message any_off policy g.cec_rx.transfer.buf
        g.cec_rx.transfer.byte
      let q := cec_task_queue_message N g.cec_rx_queue g.cec_rx.transfer.buf
        g.cec_rx.transfer.byte
      ({ g with cec_rx_queue := q.2 },
       off.2 ++ (if q.1 = EC_SUCCESS then [mkbp_send_event EC_MKBP_EVENT_CEC_MESSAGE] else []))
    else (g, [])
  let r2 : cec_globals × List Effect :=
    if TASK_EVENT_OKAY ∈ events then send_mkbp_event r1.1 EC_MKBP_CEC_SEND_OK
    else if TASK_EVENT_FAILED ∈ events then send_mkbp_event r1.1 EC_MKBP_CEC_SEND_FAILED
    else (r1.1, [])
  (r2.1, r1.2 ++ r2.2)

/-! ## Runs of the receive queue and its FIFO specification -/

/-- A call on the receive queue. -/
inductive queue_op where
  | push (msg : List Nat) (msg_len : Nat)
  | pop
  | flush
  deriving DecidableEq, Repr

/-- What a queue call hands back to its caller: the return value of a push, or
the return value, `*msg_len` and the first `*msg_len` bytes of `msg` of a pop. -/
inductive queue_out where
  | push_rv (rv : ec_error_list)
  | pop_out (rv : Int) (msg_len : Nat) (msg : List Nat)
  | flush_done
  deriving DecidableEq, Repr

/-- A push reads `msg[0..msg_len)`, so its buffer holds at least `msg_len` bytes. -/
def queue_op_ok : queue_op → Prop
  | .push msg msg_len => msg_len ≤ msg.length
  | _ => True

/-- One call on the ring buffer; a pop is given a zeroed `msg[MAX_CEC_MSG_LEN]`
as in `cec_get_next_msg`. -/
def queue_step (N : Nat) (q : cec_rx_queue) : queue_op → cec_rx_queue × queue_out
  | .push msg msg_len =>
    let r := cec_rx_queue_push N q msg msg_len
    (r.2, .push_rv r.1)
  | .pop =>
    let r := cec_rx_queue_pop N q (List.replicate MAX_CEC_MSG_LEN 0)
    (r.queue, .pop_out r.rv r.msg_len (r.msg.take r.msg_len))
  | .flush => (cec_rx_queue_flush q, .flush_done)

/-- The results of a sequence of calls on the ring buffer. -/
def queue_run (N : Nat) : cec_rx_queue → List queue_op → List queue_out
  | _, [] => []
  | q, op :: ops => (queue_step N q op).2 :: queue_run N (queue_step N q op).1 ops

/-- The bytes a list of stored messages occupies: each entry is its length byte
followed by its payload. -/
def fifo_stream : List (List Nat) → List Nat
  | [] => []
  | m :: ms => (m.length :: m) ++ fifo_stream ms

/-- The receive queue as the spec describes it: a FIFO list of messages.  A push
appends the message unless its length is out of range or the entry (length byte
and payload) would fill the `N` bytes; a pop removes and returns the oldest
message; a flush discards the backlog. -/
def fifo_step (N : Nat) (l : List (List Nat)) : queue_op → List (List Nat) × queue_out
  | .push msg msg_len =>
    if msg_len > MAX_CEC_MSG_LEN ∨ msg_len = 0 then (l, .push_rv EC_ERROR_INVAL)
    else if (fifo_stream l).length + msg_len + 1 ≥ N then (l, .push_rv EC_ERROR_OVERFLOW)
    else (l ++ [msg.take msg_len], .push_rv EC_SUCCESS)
  | .pop =>
    match l with
    | [] => (l, .pop_out (-1) 0 [])
    | m :: ms => (ms, .pop_out 0 m.length m)
  | .flush => ([], .flush_done)

/-- The results of a sequence of calls on the FIFO list. -/
def fifo_run (N : Nat) : List (List Nat) → List queue_op → List queue_out
  | _, [] => []
  | l, op :: ops => (fifo_step N l op).2 :: fifo_run N (fifo_step N l op).1 ops

/-- The ring buffer `q` of capacity `N` stores exactly the messages `l`, oldest
first: the bytes from the read cursor on are the entries of `l`, the write
cursor is right behind them, and every stored length is in range. -/
def queue_holds (N : Nat) (q : cec_rx_queue) (l : List (List Nat)) : Prop :=
  q.buf.length = N ∧ q.read_offset < N ∧ (fifo_stream l).length < N ∧
  q.write_offset = (q.read_offset + (fifo_stream l).length) % N ∧
  (∀ k, k < (fifo_stream l).length →
    q.buf.getD ((q.read_offset + k) % N) 0 = (fifo_stream l).getD k 0) ∧
  (∀ m ∈ l, 1 ≤ m.length ∧ m.length ≤ MAX_CEC_MSG_LEN)

/-! ## Runs of the protocol engine -/

/-- The callbacks that drive the engine: an edge capture, a deadline expiry, and
a host submission (`hc_cec_write`, followed by `cec_event_tx` when the
submission was accepted and `cec_trigger_send` was called). -/
inductive engine_input where
  | cap (hw : hw_inputs)
  | timeout (hw : hw_inputs)
  | submit (hw : hw_inputs) (msg : List Nat) (params_size : Nat)
  deriving DecidableEq, Repr

/-- One callback. -/
def engine_step (g : cec_globals) : engine_input → cec_globals × List Effect
  | .cap hw => cec_event_cap hw g
  | .timeout hw => cec_event_timeout hw g
  | .submit hw msg params_size =>
    let r := hc_cec_write g msg params_size
    if r.1 = EC_RES_SUCCESS then
      let r2 := cec_event_tx hw r.2.1
      (r2.1, r.2.2 ++ r2.2)
    else (r.2.1, r.2.2)

/-- A sequence of callbacks: the final globals and all effects in order. -/
def engine_run : cec_globals → List engine_input → cec_globals × List Effect
  | g, [] => (g, [])
  | g, i :: is =>
    let r := engine_step g i
    let r2 := engine_run r.1 is
    (r2.1, r.2 ++ r2.2)

/-- The engine right after `cec_set_enable(1)` on the initial globals, with the
logical address `addr` configured. -/
def engine_enabled (N addr : Nat) (hw : hw_inputs) : cec_globals :=
  (cec_set_enable hw { cec_globals_init N with cec_addr := addr } 1).2.1

/-- Whether a callback raised a completion signal. -/
def raises_completion (eff : List Effect) : Prop :=
  task_set_event TASK_EVENT_OKAY ∈ eff ∨ task_set_event TASK_EVENT_FAILED ∈ eff

/-- The number of completion signals among the effects. -/
def completion_count (eff : List Effect) : Nat :=
  eff.count (task_set_event TASK_EVENT_OKAY) + eff.count (task_set_event TASK_EVENT_FAILED)

/-- The number of accepted submissions among the effects: each accepted
`hc_cec_write` calls `cec_trigger_send` once. -/
def accepted_count (eff : List Effect) : Nat :=
  eff.count cec_trigger_send

/-! ## Auxiliary definitions used in the statements and proofs -/

/-- The number of bytes between the read and the write cursor. -/
def queue_used (N : Nat) (q : cec_rx_queue) : Nat :=
  (q.write_offset + N - q.read_offset) % N

/-- The calls used to exercise the queue: fill a 20-byte ring past its wrap
point, pop, and push across the wrap. -/
def C1_ops : List queue_op :=
  [.push [1, 2, 3, 4, 5, 6, 7, 8, 9, 10] 10, .push [11, 12, 13, 14, 15] 5, .pop,
   .push [21, 22, 23, 24, 25, 26, 27] 7, .push [31, 32, 33, 34, 35, 36, 37] 7,
   .pop, .pop, .pop, .push [] 0, .flush, .pop]

/-- A 20-byte ring holding a 10-byte and a 5-byte message: 17 bytes are used. -/
def C2_queue : cec_rx_queue :=
  { buf := [10, 1, 2, 3, 4, 5, 6, 7, 8, 9, 10, 5, 11, 12, 13, 14, 15, 0, 0, 0],
    write_offset := 17, read_offset := 0 }

/-- The messages stored in `C2_queue`. -/
def C2_msgs : List (List Nat) := [[1, 2, 3, 4, 5, 6, 7, 8, 9, 10], [11, 12, 13, 14, 15]]

/-- The task events among the effects, in order. -/
def task_events : List Effect → List task_event
  | [] => []
  | task_set_event e :: rest => e :: task_events rest
  | _ :: rest => task_events rest

/-- A line that reads high and a zero tick count. -/
def hw_high : hw_inputs := { gpio_get_level := 1, cec_tmr_cap_get := 0 }

/-- A line that reads low and a zero tick count. -/
def hw_low : hw_inputs := { gpio_get_level := 0, cec_tmr_cap_get := 0 }

/-- The inner level of `enter_state`: the body whose nested call is never
reached unless it is asked to enter Idle. -/
def enter_state_inner (hw : hw_inputs) : cec_state → cec_globals → cec_globals × List Effect :=
  enter_state_with (fun _ g => (g, [])) hw

/-- The engine with the two-byte frame `[0x40, 0x04]` (initiator 4, destination
0, opcode 4) just submitted: it waits in free time with no resend made. -/
def tx_pending_start : cec_globals :=
  (engine_step (engine_enabled 20 4 hw_high) (.submit hw_high [0x40, 0x04] 2)).1

/-- Six attempts on `tx_pending_start`, refused on the header byte or, after an
acknowledged header, on the second byte. -/
def six_nak_attempts : List (List hw_inputs) :=
  [[hw_high], [hw_low, hw_high], [hw_high], [hw_high], [hw_low, hw_high], [hw_high]]

/-- The value `enter_state` assigns to `cec_tx.ack` on entry to
`CEC_STATE_INITIATOR_ACK_VERIFY` when the hardware reads as `hw`: zero is a NAK
of the byte just sent, non-zero an ACK. -/
def sampled_ack (g : cec_globals) (hw : hw_inputs) : Nat :=
  if g.cec_tx.transfer.buf.getD 0 0 &&& 0x0f = CEC_BROADCAST_ADDR then
    c_not (c_not hw.gpio_get_level)
  else c_not hw.gpio_get_level

/-- The deadline expiries that send the data bytes following the header, one
hardware reading per byte: the decision on the previous byte, 8 data bits (16),
EOM (2), ACK low and high (2): the 21st expiry enters
`CEC_STATE_INITIATOR_ACK_VERIFY` and samples the line. -/
def data_inputs : List hw_inputs → List engine_input
  | [] => []
  | h :: t => List.replicate 21 (.timeout h) ++ data_inputs t

/-- The deadline expiries of one transmission attempt, given the hardware
reading for each byte sent: free time, start bit (2), 8 header bits (16), EOM
(2), ACK low and high (2): the 23rd expiry samples the ACK of the header byte;
then the data bytes; the last expiry takes the decision on the last byte. -/
def attempt_inputs : List hw_inputs → List engine_input
  | [] => []
  | h :: t => List.replicate 23 (.timeout h) ++ data_inputs t ++ [.timeout h]

/-- The readings of an attempt that is answered with NAK: every byte but the
last one sent is acknowledged, the last one is not. -/
def nak_answered (g : cec_globals) : List hw_inputs → Bool
  | [] => false
  | [h] => sampled_ack g h == 0
  | h :: t => sampled_ack g h != 0 && nak_answered g t

/-- Consecutive transmission attempts, each given by its per-byte readings. -/
def run_attempts : List (List hw_inputs) → cec_globals → cec_globals × List Effect
  | [], g => (g, [])
  | a :: rest, g =>
    ((run_attempts rest (engine_run g (attempt_inputs a)).1).1,
     (engine_run g (attempt_inputs a)).2
       ++ (run_attempts rest (engine_run g (attempt_inputs a)).1).2)

/-- The engine after the first 23 deadline expiries of the first attempt of
`tx_pending_start`, the line reading high: it has sampled a NAK. -/
def tx_in_ack_verify : cec_globals :=
  (engine_run tx_pending_start (List.replicate 23 (.timeout hw_high))).1

/-- The `CEC_STATE_INITIATOR_*` states. -/
def is_initiator : cec_state → Bool
  | CEC_STATE_INITIATOR_FREE_TIME
  | CEC_STATE_INITIATOR_START_LOW
  | CEC_STATE_INITIATOR_START_HIGH
  | CEC_STATE_INITIATOR_HEADER_INIT_LOW
  | CEC_STATE_INITIATOR_HEADER_INIT_HIGH
  | CEC_STATE_INITIATOR_HEADER_DEST_LOW
  | CEC_STATE_INITIATOR_HEADER_DEST_HIGH
  | CEC_STATE_INITIATOR_DATA_LOW
  | CEC_STATE_INITIATOR_DATA_HIGH
  | CEC_STATE_INITIATOR_EOM_LOW
  | CEC_STATE_INITIATOR_EOM_HIGH
  | CEC_STATE_INITIATOR_ACK_LOW
  | CEC_STATE_INITIATOR_ACK_HIGH
  | CEC_STATE_INITIATOR_ACK_VERIFY => true
  | _ => false

/-- Whether a frame is pending, as a number: 1 if `cec_tx.len != 0`, else 0. -/
def pending (g : cec_globals) : Nat := if g.cec_tx.len ≠ 0 then 1 else 0

/-- What one callback does to the pending frame and its signals: an initiator
state keeps a pending frame; a completion signal is raised once exactly when the
pending frame is cleared, and a submission is accepted exactly when a frame
becomes pending. -/
def step_ok (g : cec_globals) (r : cec_globals × List Effect) : Prop :=
  (is_initiator r.1.cec_state = true → r.1.cec_tx.len ≠ 0) ∧
  (completion_count r.2 = if g.cec_tx.len ≠ 0 ∧ r.1.cec_tx.len = 0 then 1 else 0) ∧
  (accepted_count r.2 = if g.cec_tx.len = 0 ∧ r.1.cec_tx.len ≠ 0 then 1 else 0) ∧
  ¬ (task_set_event TASK_EVENT_OKAY ∈ r.2 ∧ task_set_event TASK_EVENT_FAILED ∈ r.2)

/-- The host-side calls on the engine: the callbacks of `engine_input`, and the
two settings of the `EC_CMD_CEC_SET` host command. -/
inductive host_call where
  | engine (i : engine_input)
  | set_enable (hw : hw_inputs) (enable : Nat)
  | set_logical_addr (logical_addr : Nat)
  deriving DecidableEq, Repr

/-- One host-side call. -/
def host_step (g : cec_globals) : host_call → cec_globals × List Effect
  | .engine i => engine_step g i
  | .set_enable hw enable => (cec_set_enable hw g enable).2
  | .set_logical_addr a => ((cec_set_logical_addr g a).2, [])

/-- A sequence of host-side calls: the final globals and all effects in order. -/
def host_run : cec_globals → List host_call → cec_globals × List Effect
  | g, [] => (g, [])
  | g, c :: cs => ((host_run (host_step g c).1 cs).1,
                   (host_step g c).2 ++ (host_run (host_step g c).1 cs).2)

/-- The destination of the frame being received: the low nibble of the first
byte of `cec_rx.transfer.buf`. -/
def rx_dest (g : cec_globals) : Nat := g.cec_rx.transfer.buf.getD 0 0 &&& 0x0f

/-- The byte that `cec_transfer_set_bit` stores at the cursor: bit `7 - k` of
`B` replaced by `val != 0`. -/
def put_bit (B k val : Nat) : Nat :=
  if val ≠ 0 then (B &&& (255 - (0x80 >>> k) % 256)) ||| (0x80 >>> k) % 256
  else B &&& (255 - (0x80 >>> k) % 256)

/-- The values `cec_addr` can hold: a unique address `0..14`, or 255 (unset). -/
def addr_ok (a : Nat) : Prop := a ≤ 14 ∨ a = CEC_UNREGISTERED_ADDR

/-- Some configuration calls: two accepted addresses, two rejected ones, a
disable and an enable. -/
def C12_calls : List host_call :=
  [.set_logical_addr 4, .set_enable hw_high 1, .set_logical_addr 15,
   .set_logical_addr 16, .set_enable hw_high 0, .set_enable hw_high 1]

/-- The state `cec_event_cap` enters from a follower data `*_HIGH` state once
the pulse is accepted and the cursor has moved to bit `bit`. -/
def follower_next_low (s : cec_state) (bit : Nat) : cec_state :=
  match s with
  | CEC_STATE_FOLLOWER_HEADER_INIT_HIGH =>
    if bit = 4 then CEC_STATE_FOLLOWER_HEADER_DEST_LOW else CEC_STATE_FOLLOWER_HEADER_INIT_LOW
  | CEC_STATE_FOLLOWER_HEADER_DEST_HIGH =>
    if bit = 0 then CEC_STATE_FOLLOWER_EOM_LOW else CEC_STATE_FOLLOWER_HEADER_DEST_LOW
  | _ =>
    if bit = 0 then CEC_STATE_FOLLOWER_EOM_LOW else CEC_STATE_FOLLOWER_DATA_LOW

/-- A follower that has just received a valid start bit on an idle engine. -/
def rx_after_start : cec_globals :=
  (engine_run (engine_enabled 20 4 hw_high)
    [.cap hw_high, .cap { gpio_get_level := 1, cec_tmr_cap_get := 3700 },
     .cap { gpio_get_level := 0, cec_tmr_cap_get := 800 }]).1

/-- A follower that has seen the falling edge of a start pulse on an idle
engine. -/
def rx_start_low : cec_globals :=
  (engine_step (engine_enabled 20 4 hw_high) (.cap hw_high)).1

/-- The engine of `tx_pending_start` after one whole attempt that was answered
with NAK: it waits in free time to send the frame again. -/
def tx_waiting_resend : cec_globals :=
  (engine_run tx_pending_start (attempt_inputs [hw_high])).1

/-- A run of glitches on the bus: each is a falling edge, a rising edge and the
expiry of the quiet period that follows, with their hardware readings. -/
def glitches : List (hw_inputs × hw_inputs × hw_inputs) → List engine_input
  | [] => []
  | p :: ps => [.cap p.1, .cap p.2.1, .timeout p.2.2] ++ glitches ps

/-- Three glitches of 50 ticks each. -/
def C18_glitches : List (hw_inputs × hw_inputs × hw_inputs) :=
  List.replicate 3 (hw_low, { gpio_get_level := 1, cec_tmr_cap_get := 50 }, hw_high)

/-- The timeouts with which the effects arm the capture timer, in order. -/
def timer_arms : List Effect → List Int
  | [] => []
  | cec_tmr_cap_start _ t :: rest => t :: timer_arms rest
  | _ :: rest => timer_arms rest

/-- An edge capture that measures `t` ticks, the line reading as in `h`. -/
def measured (h : hw_inputs) (t : Int) : engine_input :=
  .cap { h with cec_tmr_cap_get := t }

/-- What the follower sees of one byte whose pulses last `d`: the 16 edges of
the data bits and the 2 edges of the EOM bit measure the first 18 durations; the
ACK bit gives the follower no measured edge: it times its sample of the line and
the end of the bit by two deadline expiries. -/
def follower_byte_inputs (h : hw_inputs) (d : List Int) : List engine_input :=
  (d.take 18).map (measured h) ++ [.timeout h, .timeout h]

/-- What the follower sees of the bytes of a frame, one line reading per byte:
between two bytes it captures the falling edge that begins the next byte, and
the 3 durations of the ACK bit of the byte before are passed over. -/
def follower_frame_inputs : List hw_inputs → List Int → List engine_input
  | [], _ => []
  | [h], d => follower_byte_inputs h d
  | h :: h2 :: t, d =>
    follower_byte_inputs h d ++ [.cap h2] ++ follower_frame_inputs (h2 :: t) (d.drop 21)

/-- What the follower sees of a frame whose pulses last `d`: the falling edge
that begins the start bit, the low and the high duration of the start bit, then
the bytes. -/
def follower_inputs (hs : List hw_inputs) (d : List Int) : List engine_input :=
  match hs with
  | [] => []
  | h :: _ =>
    [.cap h, measured h (d.getD 0 0), measured h (d.getD 1 0)]
      ++ follower_frame_inputs hs (d.drop 2)

/-- The follower state in which bit `k` of a byte is awaited, `k = 8` standing
for the EOM bit; the header byte has states of its own. -/
def follower_bit_state (hdr : Bool) (k : Nat) : cec_state :=
  if k = 8 then CEC_STATE_FOLLOWER_EOM_LOW
  else if hdr then
    (if k < 4 then CEC_STATE_FOLLOWER_HEADER_INIT_LOW else CEC_STATE_FOLLOWER_HEADER_DEST_LOW)
  else CEC_STATE_FOLLOWER_DATA_LOW

/-- The two edge captures of each of the bits `xs` sent with the nominal
durations. -/
def bit_caps (h : hw_inputs) : List Nat → List engine_input
  | [] => []
  | x :: xs => [measured h (DATA_LOW x), measured h (DATA_HIGH x)] ++ bit_caps h xs

/-- The receive cursor and buffer after the bits `xs` were written and stepped
over. -/
def recv (tr : cec_msg_transfer) (xs : List Nat) : cec_msg_transfer :=
  xs.foldl (fun t x => cec_transfer_inc_bit (cec_transfer_set_bit t x)) tr

/-- The low duration stored last while the bits `xs` were received. -/
def last_low (t : Int) (xs : List Nat) : Int :=
  xs.foldl (fun _ x => DATA_LOW x) t

/-- The values `cec_transfer_get_bit` returns for the eight bits of `B`. -/
def byte_bits (B : Nat) : List Nat :=
  [B &&& (0x80 >>> 0), B &&& (0x80 >>> 1), B &&& (0x80 >>> 2), B &&& (0x80 >>> 3),
   B &&& (0x80 >>> 4), B &&& (0x80 >>> 5), B &&& (0x80 >>> 6), B &&& (0x80 >>> 7)]
/-- The durations the initiator arms for one byte `B` followed by the EOM bit
`eom`: low and high of the eight data bits, low and high of the EOM bit, and the
three phases of the ACK bit. -/
def byte_arms (B eom : Nat) : List Int :=
  [DATA_LOW (B &&& (0x80 >>> 0)), DATA_HIGH (B &&& (0x80 >>> 0)),
   DATA_LOW (B &&& (0x80 >>> 1)), DATA_HIGH (B &&& (0x80 >>> 1)),
   DATA_LOW (B &&& (0x80 >>> 2)), DATA_HIGH (B &&& (0x80 >>> 2)),
   DATA_LOW (B &&& (0x80 >>> 3)), DATA_HIGH (B &&& (0x80 >>> 3)),
   DATA_LOW (B &&& (0x80 >>> 4)), DATA_HIGH (B &&& (0x80 >>> 4)),
   DATA_LOW (B &&& (0x80 >>> 5)), DATA_HIGH (B &&& (0x80 >>> 5)),
   DATA_LOW (B &&& (0x80 >>> 6)), DATA_HIGH (B &&& (0x80 >>> 6)),
   DATA_LOW (B &&& (0x80 >>> 7)), DATA_HIGH (B &&& (0x80 >>> 7)),
   DATA_LOW eom, DATA_HIGH eom,
   DATA_LOW 1, (DATA_ONE_LOW_TICKS + DATA_ZERO_LOW_TICKS) / 2 - DATA_ONE_LOW_TICKS,
   NOMINAL_BIT_TICKS - NOMINAL_SAMPLE_TIME_TICKS]

/-- The durations the initiator arms for the `k` bytes from index `b` on of a
frame of `len` bytes held in `buf`; the EOM bit is 1 after the last byte. -/
def frame_arms (buf : List Nat) (len : Nat) : Nat → Nat → List Int
  | _, 0 => []
  | b, k + 1 =>
    byte_arms (buf.getD b 0) (if b + 1 = len then 1 else 0) ++ frame_arms buf len (b + 1) k

/-- The levels the effects write to the CEC output pin, in order. -/
def gpio_writes : List Effect → List Int
  | [] => []
  | gpio_set_level level :: rest => level :: gpio_writes rest
  | _ :: rest => gpio_writes rest

/-- A follower that has received the whole two-byte frame of `tx_pending_start`
off the wire and is finishing the ACK bit of the last byte. -/
def rx_frame_done : cec_globals :=
  (engine_run (engine_enabled 20 0 hw_high) (follower_inputs [hw_low, hw_low]
    (timer_arms (engine_run tx_pending_start (attempt_inputs [hw_low, hw_low])).2))).1

/-- A received two-byte frame waiting in the receive context while the 20-byte
queue still holds the two messages of `C2_queue`. -/
def C27_globals : cec_globals :=
  { rx_frame_done with cec_rx_queue := C2_queue }

/-- The bit value the follower reads from an accepted low duration: 0 when the
duration passes `VALID_LOW(DATA_ZERO, t)`, which is tested first, else 1. -/
def pulse_value (t : Int) : Nat :=
  if VALID_LOW .DATA_ZERO t then 0 else 1

/-- Whether a (low, high) pair passes the follower's checks of a data or EOM
bit: the low duration is in the window of data 0 or of data 1 and the bit period
is in the window of either value. -/
def valid_pulse (p : Int × Int) : Bool :=
  (VALID_LOW .DATA_ZERO p.1 || VALID_LOW .DATA_ONE p.1) &&
  VALID_HIGH .DATA_ZERO p.1 p.2 && VALID_HIGH .DATA_ONE p.1 p.2

/-- Whether a (low, high) pair passes the follower's checks of a start bit. -/
def valid_start (p : Int × Int) : Bool :=
  VALID_LOW .START_BIT p.1 && VALID_HIGH .START_BIT p.1 p.2

/-- One byte as measured on the wire: the (low, high) durations of its eight
data bits and of its EOM bit, and what the hardware reads while the follower
times the ACK bit. -/
structure wire_byte where
  bits : List (Int × Int)
  eom : Int × Int
  ack : hw_inputs
  deriving DecidableEq, Repr

/-- The edge captures of a run of bit pulses. -/
def pulse_caps (h : hw_inputs) : List (Int × Int) → List engine_input
  | [] => []
  | p :: ps => [measured h p.1, measured h p.2] ++ pulse_caps h ps

/-- The callbacks of one measured byte: the captures of its data bits and of its
EOM bit, then the two deadline expiries of the ACK bit. -/
def wire_byte_inputs (b : wire_byte) : List engine_input :=
  pulse_caps b.ack b.bits
    ++ [measured b.ack b.eom.1, measured b.ack b.eom.2, .timeout b.ack, .timeout b.ack]

/-- The callbacks of the measured bytes of a frame; the falling edge that begins
the next byte is captured between two bytes. -/
def wire_frame_inputs : List wire_byte → List engine_input
  | [] => []
  | [b] => wire_byte_inputs b
  | b :: b2 :: rest => wire_byte_inputs b ++ ([.cap b2.ack] ++ wire_frame_inputs (b2 :: rest))

/-- The callbacks of a measured frame: the falling edge that begins the start
bit, the two durations of the start bit, then the bytes. -/
def wire_inputs (h0 : hw_inputs) (start : Int × Int) (bytes : List wire_byte) :
    List engine_input :=
  [.cap h0, measured h0 start.1, measured h0 start.2] ++ wire_frame_inputs bytes

/-- Whether a measured byte is well formed: eight valid data pulses and a valid
EOM pulse whose value is 1 exactly on the last byte of the frame. -/
def wire_byte_ok (last : Bool) (b : wire_byte) : Bool :=
  decide (b.bits.length = 8) && b.bits.all valid_pulse && valid_pulse b.eom &&
  (decide (pulse_value b.eom.1 ≠ 0) == last)

/-- Whether the measured bytes are those of a complete frame: at least one byte,
all well formed, the EOM bit set on the last one only. -/
def wire_frame_ok : List wire_byte → Bool
  | [] => false
  | [b] => wire_byte_ok true b
  | b :: b2 :: rest => wire_byte_ok false b && wire_frame_ok (b2 :: rest)

/-- The byte that results from writing the bit values `vs`, most significant
first from bit position `k` on, over the byte `B`. -/
def put_bits (B k : Nat) : List Nat → Nat
  | [] => B
  | v :: vs => put_bits (put_bit B k v) (k + 1) vs

/-- The byte value carried by eight measured data pulses. -/
def wire_value (bits : List (Int × Int)) : Nat :=
  put_bits 0 0 (bits.map (fun p => pulse_value p.1))

/-- The destination nibble carried by the first byte of a measured frame. -/
def wire_dest (bytes : List wire_byte) : Nat :=
  match bytes with
  | [] => 0
  | b :: _ => wire_value b.bits &&& 0x0f

/-- The low duration stored last while the pulses `ps` were received. -/
def last_low_of (t : Int) (ps : List (Int × Int)) : Int :=
  ps.foldl (fun _ p => p.1) t

/-- The Idle engine into which `rx_frame_done` falls when the ACK bit of its
frame ends: the receive context still holds that frame, its EOM flag and its
last low duration. -/
def rx_idle_after_frame : cec_globals :=
  (engine_step rx_frame_done (.timeout hw_high)).1

/-- A measured frame of two bytes, `0x10 0x36`, whose pulses are off the nominal
durations but inside the windows: 1400/1000 for a 0 and 700/1700 for a 1. -/
def C25_frame : List wire_byte :=
  [ { bits := [(1400, 1000), (1400, 1000), (1400, 1000), (700, 1700),
               (1400, 1000), (1400, 1000), (1400, 1000), (1400, 1000)],
      eom := (1400, 1000), ack := hw_low },
    { bits := [(1400, 1000), (1400, 1000), (700, 1700), (700, 1700),
               (1400, 1000), (700, 1700), (700, 1700), (1400, 1000)],
      eom := (700, 1700), ack := hw_low } ]

/-- A measured header-only frame (a poll of address 0 by address 4): the byte
`0x40` with the EOM bit set, at the nominal durations. -/
def C40_poll_frame : List wire_byte :=
  [ { bits := [(1500, 900), (600, 1800), (1500, 900), (1500, 900),
               (1500, 900), (1500, 900), (1500, 900), (1500, 900)],
      eom := (600, 1800), ack := hw_low } ]

/-- The invariant of the transmit context: at most `CEC_MAX_RESENDS` resends are
counted, none without a pending frame; an initiator state has a pending frame;
and Disabled has none. -/
def tx_inv (g : cec_globals) : Prop :=
  g.cec_tx.resends ≤ CEC_MAX_RESENDS ∧
  (g.cec_tx.len = 0 → g.cec_tx.resends = 0) ∧
  (is_initiator g.cec_state = true → g.cec_tx.len ≠ 0) ∧
  (g.cec_state = CEC_STATE_DISABLED → g.cec_tx.len = 0)

/-- Some host calls: enable, then submit the two-byte frame `[0x40, 0x04]`. -/
def C38_calls : List host_call :=
  [.set_enable hw_high 1, .engine (.submit hw_high [0x40, 0x04] 2)]

/-- Some host calls that end in Disabled: enable, submit, one deadline expiry,
disable. -/
def C39_calls : List host_call :=
  [.set_enable hw_high 1, .engine (.submit hw_high [0x40, 0x04] 2),
   .engine (.timeout hw_high), .set_enable hw_high 0]

/-- The waveform the effects drive on the CEC pin: every arming of the timer is
a segment of the armed duration, at the level written last (`level` before the
first write). -/
def driven (level : Int) : List Effect → List (Int × Int)
  | [] => []
  | gpio_set_level l :: rest => driven l rest
  | cec_tmr_cap_start _ t :: rest => (level, t) :: driven level rest
  | _ :: rest => driven level rest

/-- The level the effects wrote last, `level` if they wrote none. -/
def last_level (level : Int) : List Effect → Int
  | [] => level
  | gpio_set_level l :: rest => last_level l rest
  | _ :: rest => last_level level rest

/-- The protocol state after each callback of a run, in order. -/
def engine_states : cec_globals → List engine_input → List cec_state
  | _, [] => []
  | g, i :: is => (engine_step g i).1.cec_state :: engine_states (engine_step g i).1 is

/-- The segments the initiator drives for one byte `B` followed by the EOM bit
`eom`, as `enter_state` computes them: low and high of the eight data bits read
by `cec_transfer_get_bit`, low and high of the EOM bit, and the three phases of
the ACK bit. -/
def byte_wave (B eom : Nat) : List (Int × Int) :=
  [(0, DATA_LOW (B &&& (0x80 >>> 0))), (1, DATA_HIGH (B &&& (0x80 >>> 0))),
   (0, DATA_LOW (B &&& (0x80 >>> 1))), (1, DATA_HIGH (B &&& (0x80 >>> 1))),
   (0, DATA_LOW (B &&& (0x80 >>> 2))), (1, DATA_HIGH (B &&& (0x80 >>> 2))),
   (0, DATA_LOW (B &&& (0x80 >>> 3))), (1, DATA_HIGH (B &&& (0x80 >>> 3))),
   (0, DATA_LOW (B &&& (0x80 >>> 4))), (1, DATA_HIGH (B &&& (0x80 >>> 4))),
   (0, DATA_LOW (B &&& (0x80 >>> 5))), (1, DATA_HIGH (B &&& (0x80 >>> 5))),
   (0, DATA_LOW (B &&& (0x80 >>> 6))), (1, DATA_HIGH (B &&& (0x80 >>> 6))),
   (0, DATA_LOW (B &&& (0x80 >>> 7))), (1, DATA_HIGH (B &&& (0x80 >>> 7))),
   (0, DATA_LOW eom), (1, DATA_HIGH eom),
   (0, DATA_LOW 1), (1, (DATA_ONE_LOW_TICKS + DATA_ZERO_LOW_TICKS) / 2 - DATA_ONE_LOW_TICKS),
   (1, NOMINAL_BIT_TICKS - NOMINAL_SAMPLE_TIME_TICKS)]

/-- The segments the initiator drives for the `k` bytes from index `b` on of a
frame of `len` bytes held in `buf`. -/
def frame_wave (buf : List Nat) (len : Nat) : Nat → Nat → List (Int × Int)
  | _, 0 => []
  | b, k + 1 =>
    byte_wave (buf.getD b 0) (if b + 1 = len then 1 else 0) ++ frame_wave buf len (b + 1) k

/-- The states in which the initiator sends the header byte, its EOM bit and its
ACK bit: four initiator-address bits, then four destination-address bits. -/
def header_states : List cec_state :=
  [CEC_STATE_INITIATOR_HEADER_INIT_LOW, CEC_STATE_INITIATOR_HEADER_INIT_HIGH,
   CEC_STATE_INITIATOR_HEADER_INIT_LOW, CEC_STATE_INITIATOR_HEADER_INIT_HIGH,
   CEC_STATE_INITIATOR_HEADER_INIT_LOW, CEC_STATE_INITIATOR_HEADER_INIT_HIGH,
   CEC_STATE_INITIATOR_HEADER_INIT_LOW, CEC_STATE_INITIATOR_HEADER_INIT_HIGH,
   CEC_STATE_INITIATOR_HEADER_DEST_LOW, CEC_STATE_INITIATOR_HEADER_DEST_HIGH,
   CEC_STATE_INITIATOR_HEADER_DEST_LOW, CEC_STATE_INITIATOR_HEADER_DEST_HIGH,
   CEC_STATE_INITIATOR_HEADER_DEST_LOW, CEC_STATE_INITIATOR_HEADER_DEST_HIGH,
   CEC_STATE_INITIATOR_HEADER_DEST_LOW, CEC_STATE_INITIATOR_HEADER_DEST_HIGH,
   CEC_STATE_INITIATOR_EOM_LOW, CEC_STATE_INITIATOR_EOM_HIGH,
   CEC_STATE_INITIATOR_ACK_LOW, CEC_STATE_INITIATOR_ACK_HIGH,
   CEC_STATE_INITIATOR_ACK_VERIFY]

/-- The states in which the initiator sends a data byte, its EOM bit and its ACK
bit. -/
def data_states : List cec_state :=
  [CEC_STATE_INITIATOR_DATA_LOW, CEC_STATE_INITIATOR_DATA_HIGH,
   CEC_STATE_INITIATOR_DATA_LOW, CEC_STATE_INITIATOR_DATA_HIGH,
   CEC_STATE_INITIATOR_DATA_LOW, CEC_STATE_INITIATOR_DATA_HIGH,
   CEC_STATE_INITIATOR_DATA_LOW, CEC_STATE_INITIATOR_DATA_HIGH,
   CEC_STATE_INITIATOR_DATA_LOW, CEC_STATE_INITIATOR_DATA_HIGH,
   CEC_STATE_INITIATOR_DATA_LOW, CEC_STATE_INITIATOR_DATA_HIGH,
   CEC_STATE_INITIATOR_DATA_LOW, CEC_STATE_INITIATOR_DATA_HIGH,
   CEC_STATE_INITIATOR_DATA_LOW, CEC_STATE_INITIATOR_DATA_HIGH,
   CEC_STATE_INITIATOR_EOM_LOW, CEC_STATE_INITIATOR_EOM_HIGH,
   CEC_STATE_INITIATOR_ACK_LOW, CEC_STATE_INITIATOR_ACK_HIGH,
   CEC_STATE_INITIATOR_ACK_VERIFY]

/-- The states of `k` data bytes in a row. -/
def data_states_rep : Nat → List cec_state
  | 0 => []
  | k + 1 => data_states ++ data_states_rep k

/-- One bit as the specification words it: a low period, then a high period,
both chosen by the bit value (600 and 1800 for a 1, 1500 and 900 for a 0). -/
def spec_bit_wave (v : Bool) : List (Int × Int) :=
  if v then [(0, CEC_US_TO_TICKS 600), (1, CEC_US_TO_TICKS 1800)]
  else [(0, CEC_US_TO_TICKS 1500), (1, CEC_US_TO_TICKS 900)]

/-- The ACK bit as the specification words it: the initiator pulls low for 600,
releases the line, samples it 450 later and waits 1350 for the end of the
bit. -/
def spec_ack_wave : List (Int × Int) :=
  [(0, CEC_US_TO_TICKS 600), (1, CEC_US_TO_TICKS 450), (1, CEC_US_TO_TICKS 1350)]

/-- One byte as the specification words it: its 8 bits most significant first,
the EOM bit, which is 1 on the last byte, and the ACK bit. -/
def spec_byte_wave (B : Nat) (last : Bool) : List (Int × Int) :=
  spec_bit_wave (B.testBit 7) ++ spec_bit_wave (B.testBit 6) ++ spec_bit_wave (B.testBit 5)
    ++ spec_bit_wave (B.testBit 4) ++ spec_bit_wave (B.testBit 3)
    ++ spec_bit_wave (B.testBit 2) ++ spec_bit_wave (B.testBit 1)
    ++ spec_bit_wave (B.testBit 0) ++ spec_bit_wave last ++ spec_ack_wave

/-- The bytes `b .. b + k - 1` of a frame of `n` bytes as the specification
words them. -/
def spec_bytes_wave (buf : List Nat) (n : Nat) : Nat → Nat → List (Int × Int)
  | _, 0 => []
  | b, k + 1 =>
    spec_byte_wave (buf.getD b 0) (decide (b + 1 = n)) ++ spec_bytes_wave buf n (b + 1) k

/-- A frame of `n` bytes as the specification words it: one start bit (3700 low,
800 high), then the bytes `0 .. n - 1`. -/
def spec_frame_wave (buf : List Nat) (n : Nat) : List (Int × Int) :=
  [(0, CEC_US_TO_TICKS 3700), (1, CEC_US_TO_TICKS 800)] ++ spec_bytes_wave buf n 0 n

theorem getD_set_eq (l : List Nat) (i v d : Nat) (h : i < l.length) :
    (l.set i v).getD i d = v := by
  simp [List.getD_eq_getElem?_getD, List.getElem?_set, h]

theorem getD_set_ne (l : List Nat) (i j v d : Nat) (h : i ≠ j) :
    (l.set i v).getD j d = l.getD j d := by
  simp [List.getD_eq_getElem?_getD, List.getElem?_set, h]

theorem mod_add_inj (N r k c : Nat) (hk : k < N) (hc : c < N)
    (h : (r + k) % N = (r + c) % N) : k = c := by
  have h1 : k ≡ c [MOD N] := Nat.ModEq.add_left_cancel' r h
  have h2 := h1
  unfold Nat.ModEq at h2
  rwa [Nat.mod_eq_of_lt hk, Nat.mod_eq_of_lt hc] at h2

theorem next_offset_eq (N o : Nat) (hN : N < 4294967296) (ho : o < N) :
    next_offset N o = (o + 1) % N := by
  unfold next_offset
  rw [Nat.mod_eq_of_lt (by omega : o + 1 < 4294967296)]

theorem next_offset_add (N r c : Nat) (hN : N < 4294967296) (h0 : 0 < N) :
    next_offset N ((r + c) % N) = (r + (c + 1)) % N := by
  rw [next_offset_eq N _ hN (Nat.mod_lt _ h0), Nat.mod_add_mod, Nat.add_assoc]

theorem mod_eq_self_iff (N r c : Nat) (hr : r < N) (hc0 : 0 < c) (hc : c ≤ N) :
    (r + c) % N = r ↔ c = N := by
  constructor
  · intro h
    by_contra hne
    have hlt : c < N := by omega
    have h2 : (r + c) % N = (r + 0) % N := by
      rw [h, Nat.add_zero, Nat.mod_eq_of_lt hr]
    have := mod_add_inj N r c 0 hlt (by omega) h2
    omega
  · intro h
    subst h
    simp [Nat.mod_eq_of_lt hr]

/-! ## The push loop -/

theorem push_loop_spec (N r : Nat) (msg : List Nat) (hN : N < 4294967296) (hr : r < N) :
    ∀ (n i : Nat) (buf : List Nat) (c : Nat), 0 < c → c ≤ N →
      (push_loop N r msg n i buf ((r + c) % N)).1 = decide (c + n ≤ N) ∧
      (c + n ≤ N → (push_loop N r msg n i buf ((r + c) % N)).2.2 = (r + (c + n)) % N) ∧
      (push_loop N r msg n i buf ((r + c) % N)).2.1.length = buf.length ∧
      (∀ k, k < c → (push_loop N r msg n i buf ((r + c) % N)).2.1.getD ((r + k) % N) 0
          = buf.getD ((r + k) % N) 0) ∧
      (buf.length = N → c + n ≤ N → ∀ j, j < n →
        (push_loop N r msg n i buf ((r + c) % N)).2.1.getD ((r + (c + j)) % N) 0
          = msg.getD (i + j) 0) := by
  intro n
  induction n with
  | zero =>
    intro i buf c hc0 hc
    simp [push_loop, hc]
  | succ n ih =>
    intro i buf c hc0 hc
    have h0 : 0 < N := by omega
    by_cases hcN : c = N
    · subst hcN
      have : (r + c) % c = r := by simp [Nat.mod_eq_of_lt hr]
      simp [push_loop, this]
    · have hlt : c < N := by omega
      have hne : ¬ (r + c) % N = r := by
        rw [mod_eq_self_iff N r c hr hc0 hc]; exact hcN
      have hstep : push_loop N r msg (n + 1) i buf ((r + c) % N)
          = push_loop N r msg n (i + 1) (buf.set ((r + c) % N) (msg.getD i 0))
              ((r + (c + 1)) % N) := by
        simp [push_loop, hne, next_offset_add N r c hN h0]
      rw [hstep]
      obtain ⟨ih1, ih2, ih3, ih4, ih5⟩ :=
        ih (i + 1) (buf.set ((r + c) % N) (msg.getD i 0)) (c + 1) (by omega) (by omega)
      refine ⟨?_, ?_, ?_, ?_, ?_⟩
      · rw [ih1]
        have : (c + 1 + n ≤ N) ↔ (c + (n + 1) ≤ N) := by omega
        simp [this]
      · intro h
        rw [ih2 (by omega)]
        congr 2; omega
      · rw [ih3, List.length_set]
      · intro k hk
        rw [ih4 k (by omega)]
        apply getD_set_ne
        intro heq
        have := mod_add_inj N r c k hlt (by omega) heq
        omega
      · intro hlen hle j hj
        cases j with
        | zero =>
          show _ = msg.getD i 0
          have e0 : c + 0 = c := rfl
          rw [e0, ih4 c (by omega)]
          apply getD_set_eq
          rw [hlen]; exact Nat.mod_lt _ h0
        | succ j =>
          have := ih5 (by rw [List.length_set]; exact hlen) (by omega) j (by omega)
          have e1 : c + 1 + j = c + (j + 1) := by omega
          have e2 : i + 1 + j = i + (j + 1) := by omega
          rw [e1, e2] at this
          exact this

/-! ## Push as a whole -/

theorem queue_used_lt (N : Nat) (q : cec_rx_queue) (h0 : 0 < N) : queue_used N q < N :=
  Nat.mod_lt _ h0

theorem write_eq_read_add_used (N : Nat) (q : cec_rx_queue)
    (hr : q.read_offset < N) (hw : q.write_offset < N) :
    q.write_offset = (q.read_offset + queue_used N q) % N := by
  unfold queue_used
  rw [Nat.add_mod_mod]
  have : q.read_offset + (q.write_offset + N - q.read_offset) = q.write_offset + N := by omega
  rw [this, Nat.add_mod_right, Nat.mod_eq_of_lt hw]

theorem queue_used_of_holds (N : Nat) (q : cec_rx_queue) (l : List (List Nat))
    (h : queue_holds N q l) : queue_used N q = (fifo_stream l).length := by
  obtain ⟨_, hr, hu, hw, _, _⟩ := h
  have h0 : 0 < N := by omega
  have hw2 : q.write_offset < N := by rw [hw]; exact Nat.mod_lt _ h0
  have e := write_eq_read_add_used N q hr hw2
  rw [hw] at e
  exact (mod_add_inj N q.read_offset _ _ hu (queue_used_lt N q h0) e).symm

theorem push_cases (N : Nat) (q : cec_rx_queue) (msg : List Nat) (len : Nat)
    (hN : N < 4294967296) (hr : q.read_offset < N) (hw : q.write_offset < N)
    (h1 : 1 ≤ len) (h16 : len ≤ MAX_CEC_MSG_LEN) :
    (queue_used N q + len + 1 ≥ N →
      cec_rx_queue_push N q msg len =
        (EC_ERROR_OVERFLOW,
         { q with buf := (push_loop N q.read_offset msg len 0 (q.buf.set q.write_offset 0)
                            (next_offset N q.write_offset)).2.1 })) ∧
    (queue_used N q + len + 1 < N →
      cec_rx_queue_push N q msg len =
        (EC_SUCCESS,
         { q with buf := (push_loop N q.read_offset msg len 0 (q.buf.set q.write_offset 0)
                            (next_offset N q.write_offset)).2.1.set q.write_offset len,
                  write_offset := (q.read_offset + (queue_used N q + 1 + len)) % N })) := by
  have h0 : 0 < N := by omega
  have hu := queue_used_lt N q h0
  have hwe := write_eq_read_add_used N q hr hw
  have hnext : next_offset N q.write_offset = (q.read_offset + (queue_used N q + 1)) % N := by
    conv_lhs => rw [hwe]
    exact next_offset_add N _ _ hN h0
  obtain ⟨s1, s2, -, -, -⟩ := push_loop_spec N q.read_offset msg hN hr len 0
    (q.buf.set q.write_offset 0) (queue_used N q + 1) (by omega) (by omega)
  rw [← hnext] at s1 s2
  have hguard : ¬ (len > MAX_CEC_MSG_LEN ∨ len = 0) := by omega
  unfold cec_rx_queue_push
  rw [if_neg hguard]
  dsimp only
  rcases hres : push_loop N q.read_offset msg len 0 (q.buf.set q.write_offset 0)
      (next_offset N q.write_offset) with ⟨b, buf1, off⟩
  rw [hres] at s1 s2
  simp only at s1 s2
  constructor
  · intro hge
    by_cases hle : queue_used N q + 1 + len ≤ N
    · have hb : b = true := by rw [s1]; simp [hle]
      subst hb
      have hoff := s2 hle
      have heq : queue_used N q + 1 + len = N := by omega
      have : off = q.read_offset := by
        rw [hoff, heq]; simp [Nat.mod_eq_of_lt hr]
      simp [this]
    · have hb : b = false := by rw [s1]; simp [hle]
      subst hb
      simp
  · intro hlt
    have hle : queue_used N q + 1 + len ≤ N := by omega
    have hb : b = true := by rw [s1]; simp [hle]
    subst hb
    have hoff := s2 hle
    have hne : ¬ off = q.read_offset := by
      rw [hoff, mod_eq_self_iff N _ _ hr (by omega) hle]; omega
    have hne2 : ¬ (q.read_offset + (queue_used N q + 1 + len)) % N = q.read_offset := by
      rw [← hoff]; exact hne
    simp [hoff, hne2]

theorem fifo_stream_append (l : List (List Nat)) (m : List Nat) :
    fifo_stream (l ++ [m]) = fifo_stream l ++ (m.length :: m) := by
  induction l with
  | nil => simp [fifo_stream]
  | cons a l ih => simp [fifo_stream, ih]

theorem getD_take_lt (l : List Nat) (n j d : Nat) (h : j < n) :
    (l.take n).getD j d = l.getD j d := by
  simp [List.getD_eq_getElem?_getD, List.getElem?_take_of_lt h]

theorem push_holds_overflow (N : Nat) (q : cec_rx_queue) (l : List (List Nat))
    (msg : List Nat) (len : Nat) (hN : N < 4294967296) (h : queue_holds N q l)
    (h1 : 1 ≤ len) (h16 : len ≤ MAX_CEC_MSG_LEN)
    (hov : (fifo_stream l).length + len + 1 ≥ N) :
    (cec_rx_queue_push N q msg len).1 = EC_ERROR_OVERFLOW ∧
    (cec_rx_queue_push N q msg len).2.read_offset = q.read_offset ∧
    (cec_rx_queue_push N q msg len).2.write_offset = q.write_offset ∧
    queue_holds N (cec_rx_queue_push N q msg len).2 l := by
  have hused := queue_used_of_holds N q l h
  obtain ⟨hlen, hr, hu, hw, hdata, hrange⟩ := h
  have h0 : 0 < N := by omega
  have hw2 : q.write_offset < N := by rw [hw]; exact Nat.mod_lt _ h0
  have hpc := (push_cases N q msg len hN hr hw2 h1 h16).1 (by rw [hused]; exact hov)
  have hnext : next_offset N q.write_offset
      = (q.read_offset + ((fifo_stream l).length + 1)) % N := by
    conv_lhs => rw [hw]
    exact next_offset_add N _ _ hN h0
  obtain ⟨-, -, s3, s4, -⟩ := push_loop_spec N q.read_offset msg hN hr len 0
    (q.buf.set q.write_offset 0) ((fifo_stream l).length + 1) (by omega) (by omega)
  rw [← hnext] at s3 s4
  rw [hpc]
  refine ⟨rfl, rfl, rfl, ?_, hr, hu, hw, ?_, hrange⟩
  · show (push_loop _ _ _ _ _ _ _).2.1.length = N
    rw [s3, List.length_set, hlen]
  · intro k hk
    show (push_loop _ _ _ _ _ _ _).2.1.getD _ 0 = _
    rw [s4 k (by omega), ← hdata k hk]
    apply getD_set_ne
    rw [hw]
    intro heq
    have := mod_add_inj N _ _ _ hu (by omega) heq
    omega

theorem push_holds_success (N : Nat) (q : cec_rx_queue) (l : List (List Nat))
    (msg : List Nat) (len : Nat) (hN : N < 4294967296) (h : queue_holds N q l)
    (h1 : 1 ≤ len) (h16 : len ≤ MAX_CEC_MSG_LEN) (hmsg : len ≤ msg.length)
    (hfit : (fifo_stream l).length + len + 1 < N) :
    (cec_rx_queue_push N q msg len).1 = EC_SUCCESS ∧
    (cec_rx_queue_push N q msg len).2.read_offset = q.read_offset ∧
    queue_holds N (cec_rx_queue_push N q msg len).2 (l ++ [msg.take len]) := by
  have hused := queue_used_of_holds N q l h
  obtain ⟨hlen, hr, hu, hw, hdata, hrange⟩ := h
  have h0 : 0 < N := by omega
  have hw2 : q.write_offset < N := by rw [hw]; exact Nat.mod_lt _ h0
  have hpc := (push_cases N q msg len hN hr hw2 h1 h16).2 (by rw [hused]; exact hfit)
  have hnext : next_offset N q.write_offset
      = (q.read_offset + ((fifo_stream l).length + 1)) % N := by
    conv_lhs => rw [hw]
    exact next_offset_add N _ _ hN h0
  obtain ⟨-, -, s3, s4, s5⟩ := push_loop_spec N q.read_offset msg hN hr len 0
    (q.buf.set q.write_offset 0) ((fifo_stream l).length + 1) (by omega) (by omega)
  rw [← hnext] at s3 s4 s5
  have htake : (msg.take len).length = len := by
    rw [List.length_take]; omega
  have hslen : (fifo_stream (l ++ [msg.take len])).length
      = (fifo_stream l).length + 1 + len := by
    rw [fifo_stream_append, List.length_append, List.length_cons, htake]; omega
  rw [hpc, hused]
  refine ⟨rfl, rfl, ?_, hr, ?_, ?_, ?_, ?_⟩
  · show ((push_loop _ _ _ _ _ _ _).2.1.set _ _).length = N
    rw [List.length_set, s3, List.length_set, hlen]
  · rw [hslen]; omega
  · show _ = (q.read_offset + (fifo_stream (l ++ [msg.take len])).length) % N
    rw [hslen]
  · intro k hk
    rw [hslen] at hk
    show ((push_loop _ _ _ _ _ _ _).2.1.set _ _).getD _ 0 = _
    rw [fifo_stream_append]
    rcases Nat.lt_trichotomy k (fifo_stream l).length with hlt | heq | hgt
    · rw [List.getD_append _ _ _ _ hlt, ← hdata k hlt]
      have hne : q.write_offset ≠ (q.read_offset + k) % N := by
        rw [hw]
        intro heq
        have := mod_add_inj N _ _ _ hu (by omega) heq
        omega
      rw [getD_set_ne _ _ _ _ _ hne, s4 k (by omega), getD_set_ne _ _ _ _ _ hne]
    · subst heq
      rw [List.getD_append_right _ _ _ _ (le_refl _), Nat.sub_self, ← hw, htake]
      simp only [List.getD_cons_zero]
      apply getD_set_eq
      rw [s3, List.length_set, hlen]; exact hw2
    · obtain ⟨j, rfl⟩ : ∃ j, k = (fifo_stream l).length + 1 + j := ⟨k - (fifo_stream l).length - 1, by omega⟩
      have hj : j < len := by omega
      have hne : q.write_offset ≠ (q.read_offset + ((fifo_stream l).length + 1 + j)) % N := by
        rw [hw]
        intro heq
        have := mod_add_inj N _ _ _ hu (by omega) heq
        omega
      rw [getD_set_ne _ _ _ _ _ hne,
        s5 (by rw [List.length_set]; exact hlen) (by omega) j hj,
        List.getD_append_right _ _ _ _ (by omega)]
      have e : (fifo_stream l).length + 1 + j - (fifo_stream l).length = j + 1 := by omega
      rw [e, List.getD_cons_succ, getD_take_lt _ _ _ _ hj, Nat.zero_add]
  · intro m hm
    rcases List.mem_append.mp hm with hm | hm
    · exact hrange m hm
    · rw [List.mem_singleton.mp hm, htake]; exact ⟨h1, h16⟩

/-! ## Pop -/

theorem pop_loop_spec (N r : Nat) (buf : List Nat) (hN : N < 4294967296) (h0 : 0 < N) :
    ∀ (n i : Nat) (msg : List Nat) (c : Nat), i + n ≤ msg.length →
      (pop_loop N buf n i msg ((r + c) % N)).2 = (r + (c + n)) % N ∧
      (pop_loop N buf n i msg ((r + c) % N)).1.length = msg.length ∧
      (∀ j, (pop_loop N buf n i msg ((r + c) % N)).1.getD j 0 =
        if i ≤ j ∧ j < i + n then buf.getD ((r + (c + (j - i))) % N) 0 else msg.getD j 0) := by
  intro n
  induction n with
  | zero =>
    intro i msg c _
    refine ⟨rfl, rfl, ?_⟩
    intro j
    have : ¬ (i ≤ j ∧ j < i + 0) := by omega
    rw [if_neg this]; rfl
  | succ n ih =>
    intro i msg c hlen
    have hstep : pop_loop N buf (n + 1) i msg ((r + c) % N)
        = pop_loop N buf n (i + 1) (msg.set i (buf.getD ((r + c) % N) 0))
            ((r + (c + 1)) % N) := by
      simp [pop_loop, next_offset_add N r c hN h0]
    rw [hstep]
    obtain ⟨ih1, ih2, ih3⟩ := ih (i + 1) (msg.set i (buf.getD ((r + c) % N) 0)) (c + 1)
      (by rw [List.length_set]; omega)
    refine ⟨?_, ?_, ?_⟩
    · rw [ih1]; congr 2; omega
    · rw [ih2, List.length_set]
    · intro j
      rw [ih3 j]
      by_cases hj : i + 1 ≤ j ∧ j < i + 1 + n
      · have hj2 : i ≤ j ∧ j < i + (n + 1) := by omega
        rw [if_pos hj, if_pos hj2]
        congr 2; omega
      · rw [if_neg hj]
        by_cases hji : j = i
        · subst hji
          have hj2 : j ≤ j ∧ j < j + (n + 1) := by omega
          rw [if_pos hj2, getD_set_eq _ _ _ _ (by omega), Nat.sub_self, Nat.add_zero]
        · have hj2 : ¬ (i ≤ j ∧ j < i + (n + 1)) := by omega
          rw [if_neg hj2]
          exact getD_set_ne _ _ _ _ _ (fun h => hji h.symm)

theorem list_eq_of_getD (l1 l2 : List Nat) (hl : l1.length = l2.length)
    (h : ∀ j, j < l1.length → l1.getD j 0 = l2.getD j 0) : l1 = l2 := by
  apply List.ext_getElem hl
  intro n h1 h2
  have := h n h1
  rwa [List.getD_eq_getElem _ _ h1, List.getD_eq_getElem _ _ h2] at this

theorem pop_holds_nil (N : Nat) (q : cec_rx_queue) (msg : List Nat)
    (h : queue_holds N q []) :
    cec_rx_queue_pop N q msg = { rv := -1, queue := q, msg := msg, msg_len := 0 } := by
  obtain ⟨-, hr, -, hw, -, -⟩ := h
  have : q.read_offset = q.write_offset := by
    rw [hw]; simp [fifo_stream, Nat.mod_eq_of_lt hr]
  simp [cec_rx_queue_pop, this]

theorem pop_holds_cons (N : Nat) (q : cec_rx_queue) (m : List Nat) (ms : List (List Nat))
    (msg : List Nat) (hN : N < 4294967296) (h : queue_holds N q (m :: ms))
    (hmsg : MAX_CEC_MSG_LEN ≤ msg.length) :
    (cec_rx_queue_pop N q msg).rv = 0 ∧
    (cec_rx_queue_pop N q msg).msg_len = m.length ∧
    (cec_rx_queue_pop N q msg).msg.take m.length = m ∧
    (cec_rx_queue_pop N q msg).queue.write_offset = q.write_offset ∧
    (cec_rx_queue_pop N q msg).queue.buf = q.buf ∧
    (cec_rx_queue_pop N q msg).queue.read_offset = (q.read_offset + (m.length + 1)) % N ∧
    queue_holds N (cec_rx_queue_pop N q msg).queue ms := by
  obtain ⟨hlen, hr, hu, hw, hdata, hrange⟩ := h
  have h0 : 0 < N := by omega
  obtain ⟨hm1, hm16⟩ := hrange m (List.mem_cons_self _ _)
  have hs : fifo_stream (m :: ms) = m.length :: (m ++ fifo_stream ms) := by
    simp [fifo_stream]
  have hsl : (fifo_stream (m :: ms)).length = 1 + m.length + (fifo_stream ms).length := by
    rw [hs]; simp; omega
  rw [hsl] at hu hw
  have hne : ¬ q.read_offset = q.write_offset := by
    rw [hw]
    intro heq
    have h2 : (q.read_offset + 0) % N
        = (q.read_offset + (1 + m.length + (fifo_stream ms).length)) % N := by
      rw [Nat.add_zero, Nat.mod_eq_of_lt hr]; exact heq
    have := mod_add_inj N _ _ _ (by omega) hu h2
    omega
  have hfirst : q.buf.getD q.read_offset 0 = m.length := by
    have := hdata 0 (by rw [hsl]; omega)
    rw [Nat.add_zero, Nat.mod_eq_of_lt hr, hs] at this
    simpa using this
  have hguard : ¬ (m.length = 0 ∨ m.length > MAX_CEC_MSG_LEN) := by omega
  have hnx : next_offset N q.read_offset = (q.read_offset + 1) % N :=
    next_offset_eq N _ hN hr
  obtain ⟨p1, p2, p3⟩ := pop_loop_spec N q.read_offset q.buf hN h0 m.length 0 msg 1
    (by omega)
  have hpop : cec_rx_queue_pop N q msg =
      { rv := 0,
        queue := { q with read_offset :=
          (pop_loop N q.buf m.length 0 msg ((q.read_offset + 1) % N)).2 },
        msg := (pop_loop N q.buf m.length 0 msg ((q.read_offset + 1) % N)).1,
        msg_len := m.length } := by
    unfold cec_rx_queue_pop
    rw [if_neg hne]
    dsimp only
    rw [hfirst, if_neg hguard, hnx]
  rw [hpop]
  have hr2 : (q.read_offset + (1 + m.length)) % N < N := Nat.mod_lt _ h0
  refine ⟨rfl, rfl, ?_, rfl, rfl, ?_, hlen, ?_, by omega, ?_, ?_, ?_⟩
  · show (pop_loop _ _ _ _ _ _).1.take m.length = m
    apply list_eq_of_getD
    · rw [List.length_take, p2]; omega
    · intro j hj
      rw [List.length_take, p2] at hj
      have hj2 : j < m.length := by omega
      rw [getD_take_lt _ _ _ _ hj2, p3 j]
      have hc : 0 ≤ j ∧ j < 0 + m.length := by omega
      rw [if_pos hc, Nat.sub_zero, hdata (1 + j) (by rw [hsl]; omega), hs, Nat.add_comm 1 j,
        List.getD_cons_succ, List.getD_append _ _ _ _ hj2]
  · show (pop_loop _ _ _ _ _ _).2 = _
    rw [p1]; congr 1; omega
  · show (pop_loop _ _ _ _ _ _).2 < N
    rw [p1]; exact hr2
  · show q.write_offset = ((pop_loop _ _ _ _ _ _).2 + _) % N
    rw [p1, hw, Nat.mod_add_mod]; congr 1; omega
  · intro k hk
    show q.buf.getD (((pop_loop _ _ _ _ _ _).2 + k) % N) 0 = _
    rw [p1, Nat.mod_add_mod]
    have e : q.read_offset + (1 + m.length) + k = q.read_offset + (1 + m.length + k) := by
      omega
    rw [e, hdata (1 + m.length + k) (by rw [hsl]; omega), hs]
    have e2 : 1 + m.length + k = (m.length + k) + 1 := by omega
    rw [e2, List.getD_cons_succ, List.getD_append_right _ _ _ _ (by omega)]
    congr 1; omega
  · intro m2 hm2
    exact hrange m2 (List.mem_cons_of_mem _ hm2)

theorem pop_loop_offset (N r : Nat) (buf : List Nat) (hN : N < 4294967296) (h0 : 0 < N) :
    ∀ (n i : Nat) (msg : List Nat) (c : Nat),
      (pop_loop N buf n i msg ((r + c) % N)).2 = (r + (c + n)) % N := by
  intro n
  induction n with
  | zero => intro i msg c; rfl
  | succ n ih =>
    intro i msg c
    have hstep : pop_loop N buf (n + 1) i msg ((r + c) % N)
        = pop_loop N buf n (i + 1) (msg.set i (buf.getD ((r + c) % N) 0))
            ((r + (c + 1)) % N) := by
      simp [pop_loop, next_offset_add N r c hN h0]
    rw [hstep, ih]; congr 2; omega

/-! ## The ring buffer simulates the FIFO list -/

theorem zero_holds (N : Nat) (h0 : 0 < N) : queue_holds N (cec_rx_queue_zero N) [] := by
  refine ⟨by simp [cec_rx_queue_zero], h0, h0, ?_, ?_, ?_⟩
  · simp [cec_rx_queue_zero, fifo_stream]
  · intro k hk; simp [fifo_stream] at hk
  · intro m hm; simp at hm

theorem flush_holds (N : Nat) (q : cec_rx_queue) (h0 : 0 < N) (hlen : q.buf.length = N) :
    queue_holds N (cec_rx_queue_flush q) [] := by
  refine ⟨hlen, h0, h0, ?_, ?_, ?_⟩
  · simp [cec_rx_queue_flush, fifo_stream]
  · intro k hk; simp [fifo_stream] at hk
  · intro m hm; simp at hm

theorem queue_step_sim (N : Nat) (q : cec_rx_queue) (l : List (List Nat)) (op : queue_op)
    (hN : N < 4294967296) (h : queue_holds N q l) (hop : queue_op_ok op) :
    (queue_step N q op).2 = (fifo_step N l op).2 ∧
    queue_holds N (queue_step N q op).1 (fifo_step N l op).1 := by
  have h0 : 0 < N := by have := h.2.1; omega
  cases op with
  | push msg len =>
    by_cases hg : len > MAX_CEC_MSG_LEN ∨ len = 0
    · simp [queue_step, fifo_step, cec_rx_queue_push, hg, h]
    · by_cases hov : (fifo_stream l).length + len + 1 ≥ N
      · obtain ⟨a, -, -, d⟩ := push_holds_overflow N q l msg len hN h (by omega) (by omega) hov
        simp only [queue_step, fifo_step, if_neg hg, if_pos hov]
        exact ⟨by rw [a], d⟩
      · obtain ⟨a, -, d⟩ := push_holds_success N q l msg len hN h (by omega) (by omega) hop
          (by omega)
        simp only [queue_step, fifo_step, if_neg hg, if_neg hov]
        exact ⟨by rw [a], d⟩
  | pop =>
    cases l with
    | nil =>
      have := pop_holds_nil N q (List.replicate MAX_CEC_MSG_LEN 0) h
      simp [queue_step, fifo_step, this, h]
    | cons m ms =>
      obtain ⟨a, b, c, -, -, -, d⟩ := pop_holds_cons N q m ms (List.replicate MAX_CEC_MSG_LEN 0)
        hN h (by simp)
      simp only [queue_step, fifo_step]
      exact ⟨by rw [a, b, c], d⟩
  | flush =>
    exact ⟨rfl, flush_holds N q h0 h.1⟩

theorem queue_run_sim (N : Nat) (hN : N < 4294967296) (ops : List queue_op) :
    ∀ (q : cec_rx_queue) (l : List (List Nat)), queue_holds N q l →
      (∀ op ∈ ops, queue_op_ok op) → queue_run N q ops = fifo_run N l ops := by
  induction ops with
  | nil => intro q l _ _; rfl
  | cons op ops ih =>
    intro q l h hops
    obtain ⟨a, b⟩ := queue_step_sim N q l op hN h (hops op (List.mem_cons_self _ _))
    simp only [queue_run, fifo_run]
    rw [a, ih _ _ b (fun o ho => hops o (List.mem_cons_of_mem _ ho))]

/-! ## Claims on the receive queue -/

/-- C1: starting from a zeroed receive queue, every sequence of
`cec_rx_queue_push`, `cec_rx_queue_pop` and `cec_rx_queue_flush` calls returns
exactly what the same calls return on a FIFO list of messages: each successful
pop yields the length and bytes of the oldest message pushed successfully and not
yet popped or flushed, and pop reports empty exactly when none remains. -/
theorem C1_rx_queue_refines_fifo (N : Nat) (ops : List queue_op) (h0 : 0 < N)
    (hN : N < 4294967296) (hops : ∀ op ∈ ops, queue_op_ok op) :
    queue_run N (cec_rx_queue_zero N) ops = fifo_run N [] ops :=
  queue_run_sim N hN ops _ _ (zero_holds N h0) hops

theorem C1_rx_queue_refines_fifo_witness :
    (0 < 20 ∧ 20 < 4294967296 ∧ ∀ op ∈ C1_ops, queue_op_ok op) ∧
    queue_run 20 (cec_rx_queue_zero 20) C1_ops = fifo_run 20 [] C1_ops :=
  ⟨⟨by decide, by decide, by simp [C1_ops, queue_op_ok]⟩,
   C1_rx_queue_refines_fifo 20 C1_ops (by decide) (by decide)
     (by simp [C1_ops, queue_op_ok])⟩

/-- C2: a `cec_rx_queue_push` that fails returns `EC_ERROR_INVAL` (exactly for a
length of 0 or above `MAX_CEC_MSG_LEN`) or `EC_ERROR_OVERFLOW`, leaves both
cursors unchanged and every stored message intact: the queue still holds the
same messages, and every later sequence of calls returns what it would have
returned had the push not been attempted. -/
theorem C2_failed_push_keeps_messages (N : Nat) (q : cec_rx_queue) (l : List (List Nat))
    (msg : List Nat) (len : Nat) (hN : N < 4294967296) (h : queue_holds N q l)
    (hfail : (cec_rx_queue_push N q msg len).1 ≠ EC_SUCCESS) :
    ((cec_rx_queue_push N q msg len).1 = EC_ERROR_INVAL ↔
      (len = 0 ∨ len > MAX_CEC_MSG_LEN)) ∧
    ((cec_rx_queue_push N q msg len).1 = EC_ERROR_INVAL ∨
      (cec_rx_queue_push N q msg len).1 = EC_ERROR_OVERFLOW) ∧
    (cec_rx_queue_push N q msg len).2.read_offset = q.read_offset ∧
    (cec_rx_queue_push N q msg len).2.write_offset = q.write_offset ∧
    queue_holds N (cec_rx_queue_push N q msg len).2 l ∧
    ∀ ops : List queue_op, (∀ op ∈ ops, queue_op_ok op) →
      queue_run N (cec_rx_queue_push N q msg len).2 ops = queue_run N q ops := by
  have h0 : 0 < N := by have := h.2.1; omega
  by_cases hg : len > MAX_CEC_MSG_LEN ∨ len = 0
  · have e : cec_rx_queue_push N q msg len = (EC_ERROR_INVAL, q) := by
      simp [cec_rx_queue_push, hg]
    rw [e]
    exact ⟨⟨fun _ => Or.symm hg, fun _ => rfl⟩, Or.inl rfl, rfl, rfl, h, fun _ _ => rfl⟩
  · have hw2 : q.write_offset < N := by rw [h.2.2.2.1]; exact Nat.mod_lt _ h0
    have hused := queue_used_of_holds N q l h
    by_cases hov : (fifo_stream l).length + len + 1 ≥ N
    · obtain ⟨a, b, c, d⟩ := push_holds_overflow N q l msg len hN h (by omega) (by omega) hov
      refine ⟨?_, Or.inr a, b, c, d, ?_⟩
      · rw [a]
        exact ⟨fun x => (nomatch x), fun x => absurd (Or.symm x) hg⟩
      · intro ops hops
        rw [queue_run_sim N hN ops _ l d hops, queue_run_sim N hN ops _ l h hops]
    · exfalso
      apply hfail
      rw [(push_cases N q msg len hN h.2.1 hw2 (by omega) (by omega)).2
        (by rw [hused]; omega)]

theorem C2_queue_holds : queue_holds 20 C2_queue C2_msgs := by
  unfold queue_holds
  decide

theorem C2_failed_push_keeps_messages_witness :
    (20 < 4294967296 ∧ queue_holds 20 C2_queue C2_msgs ∧
      (cec_rx_queue_push 20 C2_queue [31, 32, 33, 34, 35, 36, 37] 7).1 ≠ EC_SUCCESS) ∧
    (cec_rx_queue_push 20 C2_queue [31, 32, 33, 34, 35, 36, 37] 7).2.buf ≠ C2_queue.buf ∧
    queue_holds 20 (cec_rx_queue_push 20 C2_queue [31, 32, 33, 34, 35, 36, 37] 7).2 C2_msgs :=
  ⟨⟨by decide, C2_queue_holds, by decide⟩, by decide,
   (C2_failed_push_keeps_messages 20 C2_queue C2_msgs [31, 32, 33, 34, 35, 36, 37] 7
      (by decide) C2_queue_holds (by decide)).2.2.2.2.1⟩

theorem push_overflow_iff (N : Nat) (q : cec_rx_queue) (msg : List Nat) (len : Nat)
    (hN : N < 4294967296) (hr : q.read_offset < N) (hw : q.write_offset < N)
    (h1 : 1 ≤ len) (h16 : len ≤ MAX_CEC_MSG_LEN) :
    ((cec_rx_queue_push N q msg len).1 = EC_ERROR_OVERFLOW ↔
      (q.write_offset + N - q.read_offset) % N + len + 1 ≥ N) ∧
    ((cec_rx_queue_push N q msg len).1 ≠ EC_ERROR_OVERFLOW →
      (cec_rx_queue_push N q msg len).1 = EC_SUCCESS ∧
      (cec_rx_queue_push N q msg len).2.write_offset = (q.write_offset + (len + 1)) % N ∧
      (cec_rx_queue_push N q msg len).2.read_offset = q.read_offset ∧
      (cec_rx_queue_push N q msg len).2.read_offset ≠
        (cec_rx_queue_push N q msg len).2.write_offset) := by
  have h0 : 0 < N := by omega
  obtain ⟨pov, pok⟩ := push_cases N q msg len hN hr hw h1 h16
  have hwe := write_eq_read_add_used N q hr hw
  change ((cec_rx_queue_push N q msg len).1 = EC_ERROR_OVERFLOW ↔
      queue_used N q + len + 1 ≥ N) ∧ _
  by_cases hov : queue_used N q + len + 1 ≥ N
  · rw [pov hov]
    exact ⟨⟨fun _ => hov, fun _ => rfl⟩, fun x => absurd rfl x⟩
  · rw [pok (by omega)]
    refine ⟨⟨fun x => (nomatch x), fun x => absurd x hov⟩, fun _ => ⟨rfl, ?_, rfl, ?_⟩⟩
    · show (q.read_offset + (queue_used N q + 1 + len)) % N = _
      conv_rhs => rw [hwe]
      rw [Nat.mod_add_mod]; congr 1; omega
    · show q.read_offset ≠ (q.read_offset + (queue_used N q + 1 + len)) % N
      intro heq
      have := (mod_eq_self_iff N q.read_offset (queue_used N q + 1 + len) hr (by omega)
        (by omega)).mp heq.symm
      omega

/-- C3: for a queue whose cursors are below the capacity `N` and a length in
`1..MAX_CEC_MSG_LEN`, `cec_rx_queue_push` returns `EC_ERROR_OVERFLOW` exactly
when `((write - read) mod N) + len + 1 >= N`; otherwise it returns `EC_SUCCESS`,
advances the write cursor by `len + 1` modulo `N`, leaves the read cursor
unchanged and does not leave `read == write`. -/
theorem C3_push_overflow_condition (N : Nat) (q : cec_rx_queue) (msg : List Nat) (len : Nat)
    (hN : N < 4294967296) (hr : q.read_offset < N) (hw : q.write_offset < N)
    (h1 : 1 ≤ len) (h16 : len ≤ MAX_CEC_MSG_LEN) :
    ((cec_rx_queue_push N q msg len).1 = EC_ERROR_OVERFLOW ↔
      (q.write_offset + N - q.read_offset) % N + len + 1 ≥ N) ∧
    ((cec_rx_queue_push N q msg len).1 ≠ EC_ERROR_OVERFLOW →
      (cec_rx_queue_push N q msg len).1 = EC_SUCCESS ∧
      (cec_rx_queue_push N q msg len).2.write_offset = (q.write_offset + (len + 1)) % N ∧
      (cec_rx_queue_push N q msg len).2.read_offset = q.read_offset ∧
      (cec_rx_queue_push N q msg len).2.read_offset ≠
        (cec_rx_queue_push N q msg len).2.write_offset) :=
  push_overflow_iff N q msg len hN hr hw h1 h16

theorem C3_push_overflow_condition_witness :
    (20 < 4294967296 ∧ C2_queue.read_offset < 20 ∧ C2_queue.write_offset < 20 ∧
      1 ≤ 2 ∧ 2 ≤ MAX_CEC_MSG_LEN) ∧
    ((cec_rx_queue_push 20 C2_queue [31, 32] 2).1 = EC_ERROR_OVERFLOW ↔
      (C2_queue.write_offset + 20 - C2_queue.read_offset) % 20 + 2 + 1 ≥ 20) :=
  ⟨by decide,
   (C3_push_overflow_condition 20 C2_queue [31, 32] 2 (by decide) (by decide) (by decide)
      (by decide) (by decide)).1⟩

theorem push_loop_length (N r : Nat) (msg : List Nat) :
    ∀ (n i : Nat) (buf : List Nat) (off : Nat),
      (push_loop N r msg n i buf off).2.1.length = buf.length := by
  intro n
  induction n with
  | zero => intro i buf off; rfl
  | succ n ih =>
    intro i buf off
    by_cases h : off = r
    · simp [push_loop, h]
    · simp [push_loop, h, ih]

theorem push_buf_length (N : Nat) (q : cec_rx_queue) (msg : List Nat) (len : Nat) :
    (cec_rx_queue_push N q msg len).2.buf.length = q.buf.length := by
  unfold cec_rx_queue_push
  by_cases hg : len > MAX_CEC_MSG_LEN ∨ len = 0
  · rw [if_pos hg]
  · rw [if_neg hg]
    dsimp only
    have hl := push_loop_length N q.read_offset msg len 0 (q.buf.set q.write_offset 0)
      (next_offset N q.write_offset)
    rcases hres : push_loop N q.read_offset msg len 0 (q.buf.set q.write_offset 0)
      (next_offset N q.write_offset) with ⟨b, buf1, off⟩
    rw [hres] at hl
    simp only [List.length_set] at hl
    cases b with
    | false => exact hl
    | true =>
      by_cases ho : off = q.read_offset
      · simp [ho, hl]
      · simp [ho, hl]

/-- C4: for every queue state and every message of length `1..MAX_CEC_MSG_LEN`
(capacity above `MAX_CEC_MSG_LEN + 1`), the overflow policy of `cec_task` (push;
on `EC_ERROR_OVERFLOW` flush and push once more) ends with `EC_SUCCESS`; when the
first push overflowed, the queue afterwards holds only that message: one pop
returns it byte-identical and the next pop reports empty. -/
theorem C4_overflow_policy_keeps_newest (N : Nat) (q : cec_rx_queue) (msg out1 out2 : List Nat)
    (len : Nat) (hN1 : MAX_CEC_MSG_LEN + 1 < N) (hN2 : N < 4294967296)
    (hbuf : q.buf.length = N) (hr : q.read_offset < N) (hw : q.write_offset < N)
    (h1 : 1 ≤ len) (h16 : len ≤ MAX_CEC_MSG_LEN) (hmsg : len ≤ msg.length)
    (ho1 : MAX_CEC_MSG_LEN ≤ out1.length) :
    (cec_task_queue_message N q msg len).1 = EC_SUCCESS ∧
    ((cec_rx_queue_push N q msg len).1 = EC_ERROR_OVERFLOW →
      (cec_rx_queue_pop N (cec_task_queue_message N q msg len).2 out1).rv = 0 ∧
      (cec_rx_queue_pop N (cec_task_queue_message N q msg len).2 out1).msg_len = len ∧
      (cec_rx_queue_pop N (cec_task_queue_message N q msg len).2 out1).msg.take len
        = msg.take len ∧
      (cec_rx_queue_pop N
        (cec_rx_queue_pop N (cec_task_queue_message N q msg len).2 out1).queue out2).rv = -1 ∧
      (cec_rx_queue_pop N
        (cec_rx_queue_pop N (cec_task_queue_message N q msg len).2 out1).queue out2).msg_len
        = 0) := by
  have h0 : 0 < N := by omega
  have htake : (msg.take len).length = len := by rw [List.length_take]; omega
  by_cases hov : (cec_rx_queue_push N q msg len).1 = EC_ERROR_OVERFLOW
  · have e : cec_task_queue_message N q msg len
        = cec_rx_queue_push N (cec_rx_queue_flush (cec_rx_queue_push N q msg len).2) msg len := by
      simp [cec_task_queue_message, hov]
    rw [e]
    have hf := flush_holds N (cec_rx_queue_push N q msg len).2 h0
      (by rw [push_buf_length]; exact hbuf)
    obtain ⟨a, -, c⟩ := push_holds_success N _ [] msg len hN2 hf h1 h16 hmsg
      (by simp only [fifo_stream, List.length_nil]; omega)
    obtain ⟨p1, p2, p3, -, -, -, p7⟩ := pop_holds_cons N _ (msg.take len) [] out1 hN2 c ho1
    have pn := pop_holds_nil N _ out2 p7
    rw [htake] at p2 p3
    refine ⟨a, fun _ => ⟨p1, p2, p3, ?_, ?_⟩⟩
    · rw [pn]
    · rw [pn]
  · have e : cec_task_queue_message N q msg len = cec_rx_queue_push N q msg len := by
      simp [cec_task_queue_message, hov]
    rw [e]
    exact ⟨((push_overflow_iff N q msg len hN2 hr hw h1 h16).2 hov).1,
      fun x => absurd x hov⟩

theorem C4_overflow_policy_keeps_newest_witness :
    (MAX_CEC_MSG_LEN + 1 < 20 ∧ 20 < 4294967296 ∧ C2_queue.buf.length = 20 ∧
      C2_queue.read_offset < 20 ∧ C2_queue.write_offset < 20 ∧ 1 ≤ 7 ∧
      7 ≤ MAX_CEC_MSG_LEN ∧ 7 ≤ [31, 32, 33, 34, 35, 36, 37].length ∧
      MAX_CEC_MSG_LEN ≤ (List.replicate 16 0).length) ∧
    (cec_rx_queue_push 20 C2_queue [31, 32, 33, 34, 35, 36, 37] 7).1 = EC_ERROR_OVERFLOW ∧
    (cec_task_queue_message 20 C2_queue [31, 32, 33, 34, 35, 36, 37] 7).1 = EC_SUCCESS :=
  ⟨by decide, by decide,
   (C4_overflow_policy_keeps_newest 20 C2_queue [31, 32, 33, 34, 35, 36, 37]
      (List.replicate 16 0) (List.replicate 16 0) 7 (by decide) (by decide) (by decide)
      (by decide) (by decide) (by decide) (by decide) (by decide) (by decide)).1⟩

/-- C5: `cec_rx_queue_pop` returns -1 with `*msg_len = 0` and leaves the queue
(cursors and buffer) and the caller's buffer unchanged when the queue is empty
(`read == write`) and when the length byte at the read cursor is 0 or above
`MAX_CEC_MSG_LEN`; in every other case it returns 0 with `*msg_len` in
`1..MAX_CEC_MSG_LEN`, advances the read cursor by `msg_len + 1` modulo the
capacity and touches neither the write cursor nor the buffer. -/
theorem C5_pop_results (N : Nat) (q : cec_rx_queue) (msg : List Nat)
    (hN : N < 4294967296) (hr : q.read_offset < N) :
    ((q.read_offset = q.write_offset ∨ q.buf.getD q.read_offset 0 = 0 ∨
        q.buf.getD q.read_offset 0 > MAX_CEC_MSG_LEN) →
      cec_rx_queue_pop N q msg = { rv := -1, queue := q, msg := msg, msg_len := 0 }) ∧
    (¬ (q.read_offset = q.write_offset ∨ q.buf.getD q.read_offset 0 = 0 ∨
        q.buf.getD q.read_offset 0 > MAX_CEC_MSG_LEN) →
      (cec_rx_queue_pop N q msg).rv = 0 ∧
      (cec_rx_queue_pop N q msg).msg_len = q.buf.getD q.read_offset 0 ∧
      1 ≤ (cec_rx_queue_pop N q msg).msg_len ∧
      (cec_rx_queue_pop N q msg).msg_len ≤ MAX_CEC_MSG_LEN ∧
      (cec_rx_queue_pop N q msg).queue.read_offset
        = (q.read_offset + ((cec_rx_queue_pop N q msg).msg_len + 1)) % N ∧
      (cec_rx_queue_pop N q msg).queue.write_offset = q.write_offset ∧
      (cec_rx_queue_pop N q msg).queue.buf = q.buf) := by
  have h0 : 0 < N := by omega
  constructor
  · intro h
    unfold cec_rx_queue_pop
    by_cases he : q.read_offset = q.write_offset
    · rw [if_pos he]
    · rw [if_neg he]
      have hg : q.buf.getD q.read_offset 0 = 0 ∨ q.buf.getD q.read_offset 0 > MAX_CEC_MSG_LEN := by
        rcases h with h | h
        · exact absurd h he
        · exact h
      dsimp only
      rw [if_pos hg]
  · intro h
    have he : ¬ q.read_offset = q.write_offset := fun x => h (Or.inl x)
    have hg : ¬ (q.buf.getD q.read_offset 0 = 0 ∨ q.buf.getD q.read_offset 0 > MAX_CEC_MSG_LEN) :=
      fun x => h (Or.inr x)
    have hoff := pop_loop_offset N q.read_offset q.buf hN h0 (q.buf.getD q.read_offset 0) 0 msg 1
    have hnx : next_offset N q.read_offset = (q.read_offset + 1) % N :=
      next_offset_eq N _ hN hr
    have hpop : cec_rx_queue_pop N q msg =
        { rv := 0,
          queue := { q with read_offset :=
            (pop_loop N q.buf (q.buf.getD q.read_offset 0) 0 msg ((q.read_offset + 1) % N)).2 },
          msg := (pop_loop N q.buf (q.buf.getD q.read_offset 0) 0 msg
            ((q.read_offset + 1) % N)).1,
          msg_len := q.buf.getD q.read_offset 0 } := by
      unfold cec_rx_queue_pop
      rw [if_neg he]
      dsimp only
      rw [if_neg hg, hnx]
    rw [hpop]
    refine ⟨rfl, rfl, ?_, ?_, ?_, rfl, rfl⟩
    · show 1 ≤ q.buf.getD q.read_offset 0
      omega
    · show q.buf.getD q.read_offset 0 ≤ MAX_CEC_MSG_LEN
      omega
    · show (pop_loop _ _ _ _ _ _).2 = (q.read_offset + (q.buf.getD q.read_offset 0 + 1)) % N
      rw [hoff]; congr 1; omega

theorem C5_pop_results_witness :
    (20 < 4294967296 ∧ C2_queue.read_offset < 20) ∧
    (cec_rx_queue_pop 20 C2_queue (List.replicate 16 0)).queue.read_offset
      = (C2_queue.read_offset
          + ((cec_rx_queue_pop 20 C2_queue (List.replicate 16 0)).msg_len + 1)) % 20 :=
  ⟨by decide,
   ((C5_pop_results 20 C2_queue (List.replicate 16 0) (by decide) (by decide)).2
      (by decide)).2.2.2.2.1⟩

/-! ## Submission -/

theorem memcpy_spec (src : List Nat) :
    ∀ (n : Nat) (dst : List Nat), n ≤ dst.length →
      (memcpy dst src n).length = dst.length ∧
      ∀ j, (memcpy dst src n).getD j 0 = if j < n then src.getD j 0 else dst.getD j 0 := by
  intro n
  induction n with
  | zero =>
    intro dst _
    exact ⟨rfl, fun j => by simp [memcpy]⟩
  | succ n ih =>
    intro dst h
    obtain ⟨ih1, ih2⟩ := ih dst (by omega)
    have e : memcpy dst src (n + 1) = (memcpy dst src n).set n (src.getD n 0) := by
      simp [memcpy, List.range_succ, List.foldl_append]
    rw [e]
    refine ⟨by rw [List.length_set, ih1], ?_⟩
    intro j
    by_cases hj : j = n
    · subst hj
      rw [getD_set_eq _ _ _ _ (by omega), if_pos (by omega)]
    · rw [getD_set_ne _ _ _ _ _ (fun x => hj x.symm), ih2 j]
      by_cases hlt : j < n
      · rw [if_pos hlt, if_pos (by omega)]
      · rw [if_neg hlt, if_neg (by omega)]

theorem memcpy_take (dst src : List Nat) (n : Nat) (hd : n ≤ dst.length) (hs : n ≤ src.length) :
    (memcpy dst src n).take n = src.take n := by
  obtain ⟨h1, h2⟩ := memcpy_spec src n dst hd
  apply list_eq_of_getD
  · rw [List.length_take, List.length_take, h1]; omega
  · intro j hj
    rw [List.length_take, h1] at hj
    have hj2 : j < n := by omega
    rw [getD_take_lt _ _ _ _ hj2, getD_take_lt _ _ _ _ hj2, h2 j, if_pos hj2]

/-- C6: `hc_cec_write` returns `EC_RES_UNAVAILABLE` if the engine is Disabled;
otherwise `EC_RES_INVALID_PARAM` if the length is 0 or above `MAX_CEC_MSG_LEN`;
otherwise `EC_RES_BUSY` if a frame is pending (`cec_tx.len != 0`); otherwise
`EC_RES_SUCCESS`.  A rejection changes nothing (transmit context, protocol state,
no call is made); on success `cec_tx.len` is the submitted length and the first
`len` buffer bytes are the submitted message. -/
theorem C6_hc_cec_write_decision_order (g : cec_globals) (msg : List Nat) (params_size : Nat)
    (hbuf : g.cec_tx.transfer.buf.length = MAX_CEC_MSG_LEN)
    (hmsg : params_size ≤ msg.length) :
    (g.cec_state = CEC_STATE_DISABLED →
      hc_cec_write g msg params_size = (EC_RES_UNAVAILABLE, g, [])) ∧
    (g.cec_state ≠ CEC_STATE_DISABLED →
      (params_size = 0 ∨ params_size > MAX_CEC_MSG_LEN) →
      hc_cec_write g msg params_size = (EC_RES_INVALID_PARAM, g, [])) ∧
    (g.cec_state ≠ CEC_STATE_DISABLED →
      ¬ (params_size = 0 ∨ params_size > MAX_CEC_MSG_LEN) → g.cec_tx.len ≠ 0 →
      hc_cec_write g msg params_size = (EC_RES_BUSY, g, [])) ∧
    (g.cec_state ≠ CEC_STATE_DISABLED →
      ¬ (params_size = 0 ∨ params_size > MAX_CEC_MSG_LEN) → g.cec_tx.len = 0 →
      (hc_cec_write g msg params_size).1 = EC_RES_SUCCESS ∧
      (hc_cec_write g msg params_size).2.1.cec_tx.len = params_size ∧
      (hc_cec_write g msg params_size).2.1.cec_tx.transfer.buf.take params_size
        = msg.take params_size ∧
      (hc_cec_write g msg params_size).2.1.cec_state = g.cec_state ∧
      (hc_cec_write g msg params_size).2.2 = [cec_trigger_send]) := by
  refine ⟨?_, ?_, ?_, ?_⟩
  · intro hd
    simp [hc_cec_write, hd]
  · intro hd hp
    simp [hc_cec_write, hd, hp]
  · intro hd hp hl
    simp [hc_cec_write, cec_send, hd, hp, hl]
  · intro hd hp hl
    have hsz : params_size % 256 = params_size := by
      apply Nat.mod_eq_of_lt
      have : MAX_CEC_MSG_LEN = 16 := rfl
      omega
    have e : hc_cec_write g msg params_size =
        (EC_RES_SUCCESS,
         { g with cec_tx := { g.cec_tx with
             len := params_size,
             transfer := { g.cec_tx.transfer with
               buf := memcpy g.cec_tx.transfer.buf msg params_size } } },
         [cec_trigger_send]) := by
      simp [hc_cec_write, cec_send, hd, hp, hl, hsz]
    rw [e]
    refine ⟨rfl, rfl, ?_, rfl, rfl⟩
    exact memcpy_take _ _ _ (by rw [hbuf]; omega) hmsg

theorem C6_hc_cec_write_decision_order_witness :
    ((engine_enabled 20 4 hw_high).cec_tx.transfer.buf.length = MAX_CEC_MSG_LEN ∧
      2 ≤ [0x40, 0x04].length ∧
      (engine_enabled 20 4 hw_high).cec_state ≠ CEC_STATE_DISABLED ∧
      ¬ (2 = 0 ∨ 2 > MAX_CEC_MSG_LEN) ∧ (engine_enabled 20 4 hw_high).cec_tx.len = 0) ∧
    (hc_cec_write (engine_enabled 20 4 hw_high) [0x40, 0x04] 2).1 = EC_RES_SUCCESS :=
  ⟨by decide,
   ((C6_hc_cec_write_decision_order (engine_enabled 20 4 hw_high) [0x40, 0x04] 2
      (by decide) (by decide)).2.2.2 (by decide) (by decide) (by decide)).1⟩

/-! ## Acknowledge handling of the initiator -/

/-- C10: on entry to `CEC_STATE_INITIATOR_ACK_VERIFY`, `cec_tx.ack` is set
exactly when (the line is sampled low) XOR (the low nibble of the first message
byte is 15): for a direct-addressed frame low is ACK and high is NAK, for a
broadcast frame low is NAK and high is ACK. -/
theorem C10_initiator_ack_is_level_xor_broadcast (hw : hw_inputs) (g : cec_globals) :
    ((enter_state hw CEC_STATE_INITIATOR_ACK_VERIFY g).1.cec_tx.ack ≠ 0 ↔
      Xor' (hw.gpio_get_level = 0)
        (g.cec_tx.transfer.buf.getD 0 0 &&& 0x0f = CEC_BROADCAST_ADDR)) ∧
    (enter_state hw CEC_STATE_INITIATOR_ACK_VERIFY g).1.cec_tx.ack ≤ 1 ∧
    (enter_state hw CEC_STATE_INITIATOR_ACK_VERIFY g).1.cec_state
      = CEC_STATE_INITIATOR_ACK_VERIFY := by
  by_cases hl : hw.gpio_get_level = 0 <;>
    by_cases hb : g.cec_tx.transfer.buf.getD 0 0 &&& 0x0f = CEC_BROADCAST_ADDR <;>
    simp only [enter_state, enter_state_with, enter_state_switch, c_not, Xor', hl, hb] <;>
    simp

theorem task_events_append (a b : List Effect) :
    task_events (a ++ b) = task_events a ++ task_events b := by
  induction a with
  | nil => rfl
  | cons x a ih => cases x <;> simp [task_events, ih]

theorem task_events_gpio_timer (gpio timeout : Int) (edge : cec_cap_edge) :
    task_events ((if gpio ≥ 0 then [gpio_set_level gpio] else [])
      ++ (if timeout ≥ 0 then [cec_tmr_cap_start edge timeout] else [])) = [] := by
  by_cases h1 : gpio ≥ 0 <;> by_cases h2 : timeout ≥ 0 <;> simp [h1, h2, task_events]

theorem mem_task_events (e : task_event) (l : List Effect) :
    task_set_event e ∈ l ↔ e ∈ task_events l := by
  induction l with
  | nil => simp [task_events]
  | cons x l ih => cases x <;> simp [task_events, ih]

theorem trigger_not_mem_gpio_timer (gpio timeout : Int) (edge : cec_cap_edge) :
    cec_trigger_send ∉ ((if gpio ≥ 0 then [gpio_set_level gpio] else [])
      ++ (if timeout ≥ 0 then [cec_tmr_cap_start edge timeout] else [])) := by
  by_cases h1 : gpio ≥ 0 <;> by_cases h2 : timeout ≥ 0 <;> simp [h1, h2]

theorem enter_state_fst (hw : hw_inputs) (s : cec_state) (g : cec_globals) :
    (enter_state hw s g).1
      = (enter_state_switch (enter_state_inner hw) hw s { g with cec_state := s }).g := rfl

theorem enter_state_task_events (hw : hw_inputs) (s : cec_state) (g : cec_globals) :
    task_events (enter_state hw s g).2
      = task_events (enter_state_switch (enter_state_inner hw) hw s
          { g with cec_state := s }).eff := by
  show task_events (_ ++ _ ++ _) = _
  rw [List.append_assoc, task_events_append, task_events_gpio_timer, List.append_nil]
  rfl

theorem enter_state_trigger (hw : hw_inputs) (s : cec_state) (g : cec_globals) :
    cec_trigger_send ∈ (enter_state hw s g).2 ↔
      cec_trigger_send ∈ (enter_state_switch (enter_state_inner hw) hw s
          { g with cec_state := s }).eff := by
  show cec_trigger_send ∈ (_ ++ _ ++ _) ↔ _
  rw [List.append_assoc, List.mem_append]
  constructor
  · rintro (h | h)
    · exact h
    · exact absurd h (trigger_not_mem_gpio_timer _ _ _)
  · intro h; exact Or.inl h

theorem enter_inner_free_time (hw : hw_inputs) (g : cec_globals) :
    (enter_state_inner hw CEC_STATE_INITIATOR_FREE_TIME g).1
        = { g with cec_state := CEC_STATE_INITIATOR_FREE_TIME } ∧
    task_events (enter_state_inner hw CEC_STATE_INITIATOR_FREE_TIME g).2 = [] ∧
    cec_trigger_send ∉ (enter_state_inner hw CEC_STATE_INITIATOR_FREE_TIME g).2 := by
  refine ⟨rfl, ?_, ?_⟩
  · show task_events (_ ++ _ ++ _) = _
    rw [List.append_assoc, task_events_append, task_events_gpio_timer, List.append_nil]
    rfl
  · show cec_trigger_send ∉ (_ ++ _ ++ _)
    rw [List.append_assoc, List.mem_append]
    rintro (h | h)
    · exact absurd h (by simp [enter_state_switch])
    · exact absurd h (trigger_not_mem_gpio_timer _ _ _)

set_option maxHeartbeats 1000000 in
/-- What the `switch` of `enter_state` does to the protocol state, the pending
frame and the task events, for every target state other than Disabled. -/
theorem enter_switch_summary (hw : hw_inputs) (s : cec_state) (g : cec_globals)
    (hs : s ≠ CEC_STATE_DISABLED) :
    (enter_state_switch (enter_state_inner hw) hw s { g with cec_state := s }).g.cec_state
      = (if s = CEC_STATE_IDLE ∧ g.cec_tx.len > 0 then CEC_STATE_INITIATOR_FREE_TIME else s) ∧
    (enter_state_switch (enter_state_inner hw) hw s { g with cec_state := s }).g.cec_tx.len
      = g.cec_tx.len ∧
    (enter_state_switch (enter_state_inner hw) hw s { g with cec_state := s }).g.cec_tx.resends
      = g.cec_tx.resends ∧
    (enter_state_switch (enter_state_inner hw) hw s
      { g with cec_state := s }).g.cec_tx.transfer.buf = g.cec_tx.transfer.buf ∧
    (s ≠ CEC_STATE_FOLLOWER_ACK_FINISH →
      task_events (enter_state_switch (enter_state_inner hw) hw s
        { g with cec_state := s }).eff = []) ∧
    TASK_EVENT_OKAY ∉ task_events (enter_state_switch (enter_state_inner hw) hw s
        { g with cec_state := s }).eff ∧
    TASK_EVENT_FAILED ∉ task_events (enter_state_switch (enter_state_inner hw) hw s
        { g with cec_state := s }).eff ∧
    cec_trigger_send ∉ (enter_state_switch (enter_state_inner hw) hw s
        { g with cec_state := s }).eff := by
  cases s
  case CEC_STATE_DISABLED => exact absurd rfl hs
  case CEC_STATE_IDLE =>
    by_cases hl : g.cec_tx.len > 0
    · obtain ⟨e1, e2, e3⟩ := enter_inner_free_time hw
        { g with
          cec_state := CEC_STATE_IDLE,
          cec_tx := { g.cec_tx with transfer := { g.cec_tx.transfer with bit := 0, byte := 0 } },
          cec_rx := { g.cec_rx with transfer := { g.cec_rx.transfer with bit := 0, byte := 0 } } }
      simp only [enter_state_switch, hl, if_true, and_self, e1, e2]
      exact ⟨trivial, trivial, trivial, trivial, fun _ => trivial, by simp, by simp, e3⟩
    · simp [enter_state_switch, hl, task_events]
  case CEC_STATE_FOLLOWER_ACK_FINISH =>
    simp only [enter_state_switch]
    split_ifs <;> simp_all [task_events]
  case CEC_STATE_FOLLOWER_DEBOUNCE =>
    simp only [enter_state_switch]
    split_ifs <;> simp_all [task_events]
  all_goals simp [enter_state_switch, task_events]

/-- What `enter_state` does to the protocol state, the pending frame and the
task events, for every target state other than Disabled. -/
theorem enter_state_summary (hw : hw_inputs) (s : cec_state) (g : cec_globals)
    (hs : s ≠ CEC_STATE_DISABLED) :
    (enter_state hw s g).1.cec_state
      = (if s = CEC_STATE_IDLE ∧ g.cec_tx.len > 0 then CEC_STATE_INITIATOR_FREE_TIME else s) ∧
    (enter_state hw s g).1.cec_tx.len = g.cec_tx.len ∧
    (enter_state hw s g).1.cec_tx.resends = g.cec_tx.resends ∧
    (enter_state hw s g).1.cec_tx.transfer.buf = g.cec_tx.transfer.buf ∧
    (s ≠ CEC_STATE_FOLLOWER_ACK_FINISH → task_events (enter_state hw s g).2 = []) ∧
    TASK_EVENT_OKAY ∉ task_events (enter_state hw s g).2 ∧
    TASK_EVENT_FAILED ∉ task_events (enter_state hw s g).2 ∧
    cec_trigger_send ∉ (enter_state hw s g).2 := by
  rw [enter_state_fst, enter_state_task_events, enter_state_trigger]
  exact enter_switch_summary hw s g hs

theorem ack_verify_deadline (hw : hw_inputs) (g : cec_globals)
    (hs : g.cec_state = CEC_STATE_INITIATOR_ACK_VERIFY) :
    (g.cec_tx.ack ≠ 0 → cec_transfer_is_eom g.cec_tx.transfer g.cec_tx.len = 0 →
      (cec_event_timeout hw g).1.cec_state = CEC_STATE_INITIATOR_DATA_LOW ∧
      (cec_event_timeout hw g).1.cec_tx.len = g.cec_tx.len ∧
      (cec_event_timeout hw g).1.cec_tx.resends = g.cec_tx.resends ∧
      (cec_event_timeout hw g).1.cec_tx.transfer.buf = g.cec_tx.transfer.buf ∧
      task_events (cec_event_timeout hw g).2 = []) ∧
    (g.cec_tx.ack ≠ 0 → cec_transfer_is_eom g.cec_tx.transfer g.cec_tx.len ≠ 0 →
      (cec_event_timeout hw g).1.cec_tx.len = 0 ∧
      (cec_event_timeout hw g).1.cec_tx.resends = 0 ∧
      (cec_event_timeout hw g).1.cec_state = CEC_STATE_IDLE ∧
      task_events (cec_event_timeout hw g).2 = [TASK_EVENT_OKAY]) ∧
    (g.cec_tx.ack = 0 → g.cec_tx.resends < 5 →
      (cec_event_timeout hw g).1.cec_tx.resends = g.cec_tx.resends + 1 ∧
      (cec_event_timeout hw g).1.cec_tx.len = g.cec_tx.len ∧
      (cec_event_timeout hw g).1.cec_tx.transfer.buf = g.cec_tx.transfer.buf ∧
      (cec_event_timeout hw g).1.cec_state = CEC_STATE_INITIATOR_FREE_TIME ∧
      task_events (cec_event_timeout hw g).2 = []) ∧
    (g.cec_tx.ack = 0 → g.cec_tx.resends = 5 →
      (cec_event_timeout hw g).1.cec_tx.len = 0 ∧
      (cec_event_timeout hw g).1.cec_tx.resends = 0 ∧
      (cec_event_timeout hw g).1.cec_state = CEC_STATE_IDLE ∧
      task_events (cec_event_timeout hw g).2 = [TASK_EVENT_FAILED]) := by
  refine ⟨?_, ?_, ?_, ?_⟩
  · intro ha he
    have e : cec_event_timeout hw g = enter_state hw CEC_STATE_INITIATOR_DATA_LOW g := by
      simp [cec_event_timeout, hs, ha, he]
    obtain ⟨a, b, c, d, f, -⟩ := enter_state_summary hw CEC_STATE_INITIATOR_DATA_LOW g
      (by decide)
    rw [e]
    exact ⟨by simpa using a, b, c, d, f (by decide)⟩
  · intro ha he
    have e : cec_event_timeout hw g =
        ((enter_state hw CEC_STATE_IDLE
            { g with cec_tx := { g.cec_tx with len := 0, resends := 0 } }).1,
         (enter_state hw CEC_STATE_IDLE
            { g with cec_tx := { g.cec_tx with len := 0, resends := 0 } }).2
           ++ [task_set_event TASK_EVENT_OKAY]) := by
      simp [cec_event_timeout, hs, ha, he]
    obtain ⟨a, b, c, -, f, -⟩ := enter_state_summary hw CEC_STATE_IDLE
      { g with cec_tx := { g.cec_tx with len := 0, resends := 0 } } (by decide)
    rw [e]
    refine ⟨b, c, by simpa using a, ?_⟩
    show task_events (_ ++ _) = _
    rw [task_events_append, f (by decide)]
    rfl
  · intro ha hr
    have hlt : g.cec_tx.resends < CEC_MAX_RESENDS := hr
    have e : cec_event_timeout hw g = enter_state hw CEC_STATE_INITIATOR_FREE_TIME
        { g with cec_tx := { g.cec_tx with resends := (g.cec_tx.resends + 1) % 256 } } := by
      simp [cec_event_timeout, hs, ha, hlt]
    obtain ⟨a, b, c, d, f, -⟩ := enter_state_summary hw CEC_STATE_INITIATOR_FREE_TIME
      { g with cec_tx := { g.cec_tx with resends := (g.cec_tx.resends + 1) % 256 } } (by decide)
    rw [e]
    refine ⟨?_, b, d, by simpa using a, f (by decide)⟩
    rw [c]
    show (g.cec_tx.resends + 1) % 256 = _
    omega
  · intro ha hr
    have hlt : ¬ g.cec_tx.resends < CEC_MAX_RESENDS := by
      rw [hr]; decide
    have e : cec_event_timeout hw g =
        ((enter_state hw CEC_STATE_IDLE
            { g with cec_tx := { g.cec_tx with len := 0, resends := 0 } }).1,
         (enter_state hw CEC_STATE_IDLE
            { g with cec_tx := { g.cec_tx with len := 0, resends := 0 } }).2
           ++ [task_set_event TASK_EVENT_FAILED]) := by
      simp [cec_event_timeout, hs, ha, hlt]
    obtain ⟨a, b, c, -, f, -⟩ := enter_state_summary hw CEC_STATE_IDLE
      { g with cec_tx := { g.cec_tx with len := 0, resends := 0 } } (by decide)
    rw [e]
    refine ⟨b, c, by simpa using a, ?_⟩
    show task_events (_ ++ _) = _
    rw [task_events_append, f (by decide)]
    rfl

/-- C8: on deadline expiry in `CEC_STATE_INITIATOR_ACK_VERIFY`: with ack set and
the cursor not at end-of-message the engine continues to
`CEC_STATE_INITIATOR_DATA_LOW` and raises no event; with ack set at
end-of-message it clears `cec_tx.len` and `cec_tx.resends`, enters Idle and
raises `TASK_EVENT_OKAY` only; with ack clear and `resends < 5` it increments
`resends`, keeps `len` and the message bytes, enters
`CEC_STATE_INITIATOR_FREE_TIME` and raises no event; with ack clear and
`resends = 5` it clears `len` and `resends`, enters Idle and raises
`TASK_EVENT_FAILED` only. -/
theorem C8_ack_verify_deadline_cases (hw : hw_inputs) (g : cec_globals)
    (hs : g.cec_state = CEC_STATE_INITIATOR_ACK_VERIFY) :
    (g.cec_tx.ack ≠ 0 → cec_transfer_is_eom g.cec_tx.transfer g.cec_tx.len = 0 →
      (cec_event_timeout hw g).1.cec_state = CEC_STATE_INITIATOR_DATA_LOW ∧
      (cec_event_timeout hw g).1.cec_tx.len = g.cec_tx.len ∧
      (cec_event_timeout hw g).1.cec_tx.resends = g.cec_tx.resends ∧
      (cec_event_timeout hw g).1.cec_tx.transfer.buf = g.cec_tx.transfer.buf ∧
      task_events (cec_event_timeout hw g).2 = []) ∧
    (g.cec_tx.ack ≠ 0 → cec_transfer_is_eom g.cec_tx.transfer g.cec_tx.len ≠ 0 →
      (cec_event_timeout hw g).1.cec_tx.len = 0 ∧
      (cec_event_timeout hw g).1.cec_tx.resends = 0 ∧
      (cec_event_timeout hw g).1.cec_state = CEC_STATE_IDLE ∧
      task_events (cec_event_timeout hw g).2 = [TASK_EVENT_OKAY]) ∧
    (g.cec_tx.ack = 0 → g.cec_tx.resends < 5 →
      (cec_event_timeout hw g).1.cec_tx.resends = g.cec_tx.resends + 1 ∧
      (cec_event_timeout hw g).1.cec_tx.len = g.cec_tx.len ∧
      (cec_event_timeout hw g).1.cec_tx.transfer.buf = g.cec_tx.transfer.buf ∧
      (cec_event_timeout hw g).1.cec_state = CEC_STATE_INITIATOR_FREE_TIME ∧
      task_events (cec_event_timeout hw g).2 = []) ∧
    (g.cec_tx.ack = 0 → g.cec_tx.resends = 5 →
      (cec_event_timeout hw g).1.cec_tx.len = 0 ∧
      (cec_event_timeout hw g).1.cec_tx.resends = 0 ∧
      (cec_event_timeout hw g).1.cec_state = CEC_STATE_IDLE ∧
      task_events (cec_event_timeout hw g).2 = [TASK_EVENT_FAILED]) :=
  ack_verify_deadline hw g hs

set_option maxRecDepth 100000 in
theorem C8_ack_verify_deadline_cases_witness :
    (tx_in_ack_verify.cec_state = CEC_STATE_INITIATOR_ACK_VERIFY ∧
      tx_in_ack_verify.cec_tx.ack = 0 ∧ tx_in_ack_verify.cec_tx.resends < 5) ∧
    (cec_event_timeout hw_high tx_in_ack_verify).1.cec_tx.resends
        = tx_in_ack_verify.cec_tx.resends + 1 ∧
    (cec_event_timeout hw_high tx_in_ack_verify).1.cec_state
        = CEC_STATE_INITIATOR_FREE_TIME :=
  ⟨by decide,
   ((C8_ack_verify_deadline_cases hw_high tx_in_ack_verify (by decide)).2.2.1
      (by decide) (by decide)).1,
   ((C8_ack_verify_deadline_cases hw_high tx_in_ack_verify (by decide)).2.2.1
      (by decide) (by decide)).2.2.2.1⟩

/-! ## Resend policy -/

theorem DATA_LOW_nonneg (d : Nat) : 0 ≤ DATA_LOW d := by
  unfold DATA_LOW; split_ifs <;> decide

theorem DATA_HIGH_nonneg (d : Nat) : 0 ≤ DATA_HIGH d := by
  unfold DATA_HIGH; split_ifs <;> decide

theorem engine_run_append (a b : List engine_input) :
    ∀ g : cec_globals, engine_run g (a ++ b)
      = ((engine_run (engine_run g a).1 b).1,
         (engine_run g a).2 ++ (engine_run (engine_run g a).1 b).2) := by
  induction a with
  | nil => intro g; simp [engine_run]
  | cons i a ih => intro g; simp [engine_run, ih, List.append_assoc]

set_option maxHeartbeats 4000000 in
/-- The 23 deadline expiries from free time to the ACK sample of the header
byte, for any pending frame. -/
theorem header_attempt (hw : hw_inputs) (g : cec_globals)
    (hs : g.cec_state = CEC_STATE_INITIATOR_FREE_TIME) :
    (engine_run g (List.replicate 23 (.timeout hw))).1.cec_state
      = CEC_STATE_INITIATOR_ACK_VERIFY ∧
    (engine_run g (List.replicate 23 (.timeout hw))).1.cec_tx.transfer.bit = 0 ∧
    (engine_run g (List.replicate 23 (.timeout hw))).1.cec_tx.transfer.byte = 1 ∧
    (engine_run g (List.replicate 23 (.timeout hw))).1.cec_tx.len = g.cec_tx.len ∧
    (engine_run g (List.replicate 23 (.timeout hw))).1.cec_tx.resends = g.cec_tx.resends ∧
    (engine_run g (List.replicate 23 (.timeout hw))).1.cec_tx.transfer.buf
      = g.cec_tx.transfer.buf ∧
    (engine_run g (List.replicate 23 (.timeout hw))).1.cec_tx.ack = sampled_ack g hw ∧
    task_events (engine_run g (List.replicate 23 (.timeout hw))).2 = [] := by
  simp [List.replicate, engine_run, engine_step, cec_event_timeout, hs, enter_state,
    enter_state_with, enter_state_switch, cec_transfer_inc_bit, MAX_CEC_MSG_LEN, task_events,
    sampled_ack, DATA_LOW_nonneg, DATA_HIGH_nonneg, START_BIT_LOW_TICKS, START_BIT_HIGH_TICKS,
    CEC_US_TO_TICKS, DATA_ONE_LOW_TICKS, DATA_ZERO_LOW_TICKS, NOMINAL_BIT_TICKS,
    NOMINAL_SAMPLE_TIME_TICKS, task_events_append]

set_option maxHeartbeats 4000000 in
/-- The 21 deadline expiries from an acknowledged byte that is not the last one
to the ACK sample of the next byte. -/
theorem data_byte_attempt (hw : hw_inputs) (g : cec_globals) (b : Nat)
    (hs : g.cec_state = CEC_STATE_INITIATOR_ACK_VERIFY)
    (hbit : g.cec_tx.transfer.bit = 0) (hbyte : g.cec_tx.transfer.byte = b)
    (hb : b < 16) (hack : g.cec_tx.ack ≠ 0) (heom : ¬ b = g.cec_tx.len) :
    (engine_run g (List.replicate 21 (.timeout hw))).1.cec_state
      = CEC_STATE_INITIATOR_ACK_VERIFY ∧
    (engine_run g (List.replicate 21 (.timeout hw))).1.cec_tx.transfer.bit = 0 ∧
    (engine_run g (List.replicate 21 (.timeout hw))).1.cec_tx.transfer.byte = b + 1 ∧
    (engine_run g (List.replicate 21 (.timeout hw))).1.cec_tx.len = g.cec_tx.len ∧
    (engine_run g (List.replicate 21 (.timeout hw))).1.cec_tx.resends = g.cec_tx.resends ∧
    (engine_run g (List.replicate 21 (.timeout hw))).1.cec_tx.transfer.buf
      = g.cec_tx.transfer.buf ∧
    (engine_run g (List.replicate 21 (.timeout hw))).1.cec_tx.ack = sampled_ack g hw ∧
    task_events (engine_run g (List.replicate 21 (.timeout hw))).2 = [] := by
  have hb2 : ¬ 16 ≤ b := by omega
  have hm : (b + 1) % 256 = b + 1 := by omega
  simp [List.replicate, engine_run, engine_step, cec_event_timeout, hs, enter_state,
    enter_state_with, enter_state_switch, cec_transfer_inc_bit, cec_transfer_is_eom,
    MAX_CEC_MSG_LEN, task_events, hbit, hbyte, hack, heom, hb2, hm, sampled_ack,
    DATA_LOW_nonneg, DATA_HIGH_nonneg, START_BIT_LOW_TICKS, START_BIT_HIGH_TICKS,
    CEC_US_TO_TICKS, DATA_ONE_LOW_TICKS, DATA_ZERO_LOW_TICKS, NOMINAL_BIT_TICKS,
    NOMINAL_SAMPLE_TIME_TICKS, task_events_append]

theorem sampled_ack_congr (g g1 : cec_globals) (hw : hw_inputs)
    (h : g1.cec_tx.transfer.buf = g.cec_tx.transfer.buf) :
    sampled_ack g1 hw = sampled_ack g hw := by
  unfold sampled_ack; rw [h]

theorem nak_answered_congr (g g1 : cec_globals)
    (h : g1.cec_tx.transfer.buf = g.cec_tx.transfer.buf) :
    ∀ a : List hw_inputs, nak_answered g1 a = nak_answered g a := by
  intro a
  induction a with
  | nil => rfl
  | cons x t ih =>
    cases t with
    | nil => simp [nak_answered, sampled_ack_congr g g1 x h]
    | cons y t => simp [nak_answered, sampled_ack_congr g g1 x h, ih]

/-- The data bytes of an attempt: every byte but the last is acknowledged, and
the engine arrives at the ACK sample of the last one. -/
theorem data_chain (last : hw_inputs) (acks : List hw_inputs) :
    ∀ (g : cec_globals) (b : Nat),
      g.cec_state = CEC_STATE_INITIATOR_ACK_VERIFY →
      g.cec_tx.transfer.bit = 0 → g.cec_tx.transfer.byte = b → g.cec_tx.ack ≠ 0 →
      g.cec_tx.len ≤ 16 → b + acks.length + 1 ≤ g.cec_tx.len →
      (∀ h ∈ acks, sampled_ack g h ≠ 0) →
      (engine_run g (data_inputs (acks ++ [last]))).1.cec_state
        = CEC_STATE_INITIATOR_ACK_VERIFY ∧
      (engine_run g (data_inputs (acks ++ [last]))).1.cec_tx.len = g.cec_tx.len ∧
      (engine_run g (data_inputs (acks ++ [last]))).1.cec_tx.resends = g.cec_tx.resends ∧
      (engine_run g (data_inputs (acks ++ [last]))).1.cec_tx.transfer.buf
        = g.cec_tx.transfer.buf ∧
      (engine_run g (data_inputs (acks ++ [last]))).1.cec_tx.ack = sampled_ack g last ∧
      task_events (engine_run g (data_inputs (acks ++ [last]))).2 = [] := by
  induction acks with
  | nil =>
    intro g b hs hbit hbyte hack hlen hb _
    simp only [List.length_nil] at hb
    obtain ⟨a1, -, -, a4, a5, a6, a7, a8⟩ := data_byte_attempt last g b hs hbit hbyte
      (by omega) hack (by omega)
    have e : data_inputs ([] ++ [last]) = List.replicate 21 (.timeout last) := by
      simp [data_inputs]
    rw [e]
    exact ⟨a1, a4, a5, a6, a7, a8⟩
  | cons h acks ih =>
    intro g b hs hbit hbyte hack hlen hb hall
    simp only [List.length_cons] at hb
    obtain ⟨a1, a2, a3, a4, a5, a6, a7, a8⟩ := data_byte_attempt h g b hs hbit hbyte
      (by omega) hack (by omega)
    have hh : sampled_ack g h ≠ 0 := hall h (List.mem_cons_self _ _)
    obtain ⟨c1, c2, c3, c4, c5, c6⟩ := ih
      (engine_run g (List.replicate 21 (.timeout h))).1 (b + 1) a1 a2 a3
      (by rw [a7]; exact hh) (by rw [a4]; exact hlen) (by rw [a4]; omega)
      (fun x hx => by
        rw [sampled_ack_congr g _ x a6]; exact hall x (List.mem_cons_of_mem _ hx))
    have e : data_inputs (h :: acks ++ [last])
        = List.replicate 21 (.timeout h) ++ data_inputs (acks ++ [last]) := by
      simp [data_inputs]
    rw [e, engine_run_append]
    refine ⟨c1, by rw [c2, a4], by rw [c3, a5], by rw [c4, a6], ?_, ?_⟩
    · rw [c5, sampled_ack_congr g _ last a6]
    · rw [task_events_append, a8, c6]; rfl

theorem nak_answered_split (g : cec_globals) :
    ∀ a : List hw_inputs, nak_answered g a = true →
      ∃ acks last, a = acks ++ [last] ∧ (∀ h ∈ acks, sampled_ack g h ≠ 0) ∧
        sampled_ack g last = 0 := by
  intro a
  induction a with
  | nil => intro h; simp [nak_answered] at h
  | cons x t ih =>
    intro h
    cases t with
    | nil =>
      refine ⟨[], x, rfl, ?_, ?_⟩
      · intro y hy; simp at hy
      · simpa [nak_answered] using h
    | cons y t =>
      simp only [nak_answered, Bool.and_eq_true, bne_iff_ne, ne_eq] at h
      obtain ⟨acks, last, e, hall, hl⟩ := ih h.2
      refine ⟨x :: acks, last, by rw [e]; rfl, ?_, hl⟩
      intro z hz
      rcases List.mem_cons.mp hz with rfl | hz
      · exact h.1
      · exact hall z hz

/-- Where an attempt answered with NAK arrives before its last deadline expiry:
at the ACK sample of the refused byte, with a NAK sampled. -/
theorem attempt_reaches_nak (g : cec_globals) (acks : List hw_inputs) (last h0 : hw_inputs)
    (rest : List hw_inputs) (ha : acks ++ [last] = h0 :: rest)
    (hs : g.cec_state = CEC_STATE_INITIATOR_FREE_TIME) (hlen : g.cec_tx.len ≤ 16)
    (hfit : (acks ++ [last]).length ≤ g.cec_tx.len)
    (hall : ∀ h ∈ acks, sampled_ack g h ≠ 0) (hl : sampled_ack g last = 0) :
    (engine_run g (List.replicate 23 (.timeout h0) ++ data_inputs rest)).1.cec_state
      = CEC_STATE_INITIATOR_ACK_VERIFY ∧
    (engine_run g (List.replicate 23 (.timeout h0) ++ data_inputs rest)).1.cec_tx.len
      = g.cec_tx.len ∧
    (engine_run g (List.replicate 23 (.timeout h0) ++ data_inputs rest)).1.cec_tx.resends
      = g.cec_tx.resends ∧
    (engine_run g (List.replicate 23 (.timeout h0) ++ data_inputs rest)).1.cec_tx.transfer.buf
      = g.cec_tx.transfer.buf ∧
    (engine_run g (List.replicate 23 (.timeout h0) ++ data_inputs rest)).1.cec_tx.ack = 0 ∧
    task_events (engine_run g (List.replicate 23 (.timeout h0) ++ data_inputs rest)).2
      = [] := by
  obtain ⟨a1, a2, a3, a4, a5, a6, a7, a8⟩ := header_attempt h0 g hs
  rw [engine_run_append]
  cases acks with
  | nil =>
    simp only [List.nil_append, List.cons.injEq] at ha
    obtain ⟨rfl, rfl⟩ := ha
    have e : ∀ g1 : cec_globals, engine_run g1 (data_inputs []) = (g1, []) := fun _ => rfl
    rw [e]
    refine ⟨a1, a4, a5, a6, by rw [a7]; exact hl, ?_⟩
    rw [task_events_append, a8]; rfl
  | cons x acks =>
    simp only [List.cons_append, List.cons.injEq] at ha
    obtain ⟨rfl, rfl⟩ := ha
    simp only [List.length_cons, List.length_append, List.length_nil] at hfit
    obtain ⟨c1, c2, c3, c4, c5, c6⟩ := data_chain last acks
      (engine_run g (List.replicate 23 (.timeout x))).1 1 a1 a2 a3
      (by rw [a7]; exact hall x (List.mem_cons_self _ _)) (by rw [a4]; exact hlen)
      (by rw [a4]; omega)
      (fun y hy => by
        rw [sampled_ack_congr g _ y a6]; exact hall y (List.mem_cons_of_mem _ hy))
    refine ⟨c1, by rw [c2, a4], by rw [c3, a5], by rw [c4, a6], ?_, ?_⟩
    · rw [c5, sampled_ack_congr g _ last a6]; exact hl
    · rw [task_events_append, a8, c6]; rfl

theorem engine_run_snoc_timeout (l : List engine_input) (h : hw_inputs) (g : cec_globals) :
    engine_run g (l ++ [.timeout h])
      = ((cec_event_timeout h (engine_run g l).1).1,
         (engine_run g l).2 ++ (cec_event_timeout h (engine_run g l).1).2) := by
  rw [engine_run_append]
  simp [engine_run, engine_step]

/-- The decision on a sampled NAK. -/
theorem nak_decision (hw : hw_inputs) (g : cec_globals)
    (hs : g.cec_state = CEC_STATE_INITIATOR_ACK_VERIFY) (hack : g.cec_tx.ack = 0) :
    (g.cec_tx.resends < 5 →
      (cec_event_timeout hw g).1.cec_tx.resends = g.cec_tx.resends + 1 ∧
      (cec_event_timeout hw g).1.cec_tx.len = g.cec_tx.len ∧
      (cec_event_timeout hw g).1.cec_tx.transfer.buf = g.cec_tx.transfer.buf ∧
      (cec_event_timeout hw g).1.cec_state = CEC_STATE_INITIATOR_FREE_TIME ∧
      task_events (cec_event_timeout hw g).2 = []) ∧
    (g.cec_tx.resends = 5 →
      (cec_event_timeout hw g).1.cec_tx.len = 0 ∧
      (cec_event_timeout hw g).1.cec_tx.resends = 0 ∧
      (cec_event_timeout hw g).1.cec_state = CEC_STATE_IDLE ∧
      task_events (cec_event_timeout hw g).2 = [TASK_EVENT_FAILED]) := by
  obtain ⟨-, -, c3, c4⟩ := ack_verify_deadline hw g hs
  exact ⟨c3 hack, c4 hack⟩

/-- One attempt answered with NAK: a resend if fewer than 5 were made, else the
failure signal. -/
theorem nak_attempt_spec (g : cec_globals) (a : List hw_inputs)
    (hs : g.cec_state = CEC_STATE_INITIATOR_FREE_TIME) (hlen : g.cec_tx.len ≤ 16)
    (hfit : a.length ≤ g.cec_tx.len) (hnak : nak_answered g a = true) :
    (g.cec_tx.resends < 5 →
      (engine_run g (attempt_inputs a)).1.cec_state = CEC_STATE_INITIATOR_FREE_TIME ∧
      (engine_run g (attempt_inputs a)).1.cec_tx.resends = g.cec_tx.resends + 1 ∧
      (engine_run g (attempt_inputs a)).1.cec_tx.len = g.cec_tx.len ∧
      (engine_run g (attempt_inputs a)).1.cec_tx.transfer.buf = g.cec_tx.transfer.buf ∧
      task_events (engine_run g (attempt_inputs a)).2 = []) ∧
    (g.cec_tx.resends = 5 →
      (engine_run g (attempt_inputs a)).1.cec_state = CEC_STATE_IDLE ∧
      (engine_run g (attempt_inputs a)).1.cec_tx.len = 0 ∧
      (engine_run g (attempt_inputs a)).1.cec_tx.resends = 0 ∧
      task_events (engine_run g (attempt_inputs a)).2 = [TASK_EVENT_FAILED]) := by
  obtain ⟨acks, last, e, hall, hl⟩ := nak_answered_split g a hnak
  cases a with
  | nil => simp [nak_answered] at hnak
  | cons h0 rest =>
    have hreach := attempt_reaches_nak g acks last h0 rest e.symm hs hlen
      (by rw [← e]; exact hfit) hall hl
    rw [attempt_inputs, engine_run_snoc_timeout]
    generalize engine_run g (List.replicate 23 (.timeout h0) ++ data_inputs rest) = R
      at hreach ⊢
    obtain ⟨a1, a2, a3, a4, a5, a6⟩ := hreach
    obtain ⟨c3, c4⟩ := nak_decision h0 R.1 a1 a5
    constructor
    · intro hr
      obtain ⟨d1, d2, d3, d4, d5⟩ := c3 (by rw [a3]; exact hr)
      refine ⟨d4, by rw [d1, a3], by rw [d2, a2], by rw [d3, a4], ?_⟩
      rw [task_events_append, a6, d5]; rfl
    · intro hr
      obtain ⟨d1, d2, d3, d4⟩ := c4 (by rw [a3]; exact hr)
      refine ⟨d3, d1, d2, ?_⟩
      rw [task_events_append, a6, d4]; rfl

theorem run_attempts_cons (a : List hw_inputs) (rest : List (List hw_inputs))
    (g : cec_globals) :
    run_attempts (a :: rest) g
      = ((run_attempts rest (engine_run g (attempt_inputs a)).1).1,
         (engine_run g (attempt_inputs a)).2
           ++ (run_attempts rest (engine_run g (attempt_inputs a)).1).2) := by
  rw [run_attempts]

/-- While every attempt is answered with NAK and at most 5 were made, the engine
is back in free time with one resend counted per attempt and no task event. -/
theorem run_attempts_resend (atts : List (List hw_inputs)) :
    ∀ g : cec_globals, g.cec_state = CEC_STATE_INITIATOR_FREE_TIME →
      g.cec_tx.len ≤ 16 →
      (∀ a ∈ atts, a.length ≤ g.cec_tx.len ∧ nak_answered g a = true) →
      g.cec_tx.resends + atts.length ≤ 5 →
      (run_attempts atts g).1.cec_state = CEC_STATE_INITIATOR_FREE_TIME ∧
      (run_attempts atts g).1.cec_tx.resends = g.cec_tx.resends + atts.length ∧
      (run_attempts atts g).1.cec_tx.len = g.cec_tx.len ∧
      (run_attempts atts g).1.cec_tx.transfer.buf = g.cec_tx.transfer.buf ∧
      task_events (run_attempts atts g).2 = [] := by
  induction atts with
  | nil =>
    intro g hs _ _ _
    rw [run_attempts]
    exact ⟨hs, rfl, rfl, rfl, rfl⟩
  | cons a atts ih =>
    intro g hs hlen hall hk
    simp only [List.length_cons] at hk
    obtain ⟨hfit, hnak⟩ := hall a (List.mem_cons_self _ _)
    obtain ⟨a1, a2, a3, a4, a5⟩ := (nak_attempt_spec g a hs hlen hfit hnak).1 (by omega)
    obtain ⟨b1, b2, b3, b4, b5⟩ := ih (engine_run g (attempt_inputs a)).1 a1
      (by rw [a3]; exact hlen)
      (fun x hx => by
        rw [a3, nak_answered_congr g _ a4]
        exact hall x (List.mem_cons_of_mem _ hx))
      (by rw [a2]; omega)
    rw [run_attempts_cons]
    refine ⟨b1, ?_, by rw [b3, a3], by rw [b4, a4], ?_⟩
    · rw [b2, a2, List.length_cons]; omega
    · rw [task_events_append, a5, b5]; rfl

theorem run_attempts_append (atts : List (List hw_inputs)) (rest : List (List hw_inputs)) :
    ∀ g : cec_globals, run_attempts (atts ++ rest) g
      = ((run_attempts rest (run_attempts atts g).1).1,
         (run_attempts atts g).2 ++ (run_attempts rest (run_attempts atts g).1).2) := by
  induction atts with
  | nil =>
    intro g
    rw [List.nil_append, run_attempts, List.nil_append]
  | cons a atts ih =>
    intro g
    rw [List.cons_append, run_attempts_cons, run_attempts_cons, ih, List.append_assoc]

theorem idle_timeouts_rest (hw : hw_inputs) (n : Nat) (g : cec_globals)
    (hs : g.cec_state = CEC_STATE_IDLE) :
    engine_run g (List.replicate n (.timeout hw)) = (g, []) := by
  induction n with
  | zero => rfl
  | succ n ih =>
    have e : engine_step g (.timeout hw) = (g, []) := by
      simp [engine_step, cec_event_timeout, hs]
    simp [List.replicate, engine_run, e, ih]

/-- C7 (amended): for every pending frame (length at most `MAX_CEC_MSG_LEN`)
waiting in free time with no resend made yet, and every sequence of
transmission attempts that are each answered with NAK (on the header byte or on
a later byte): after each of the first 5 attempts the engine re-enters free time
with one more resend counted and raises no task event, so a 6th attempt is made;
the 6th NAK ends in Idle with the frame cleared and `TASK_EVENT_FAILED` as the
only task event of the whole run, and no 7th attempt follows: later deadline
expiries change nothing. -/
theorem C7_failure_after_five_resends (g : cec_globals) (atts : List (List hw_inputs))
    (hs : g.cec_state = CEC_STATE_INITIATOR_FREE_TIME) (hr : g.cec_tx.resends = 0)
    (hlen : g.cec_tx.len ≤ MAX_CEC_MSG_LEN)
    (hnak : ∀ a ∈ atts, a.length ≤ g.cec_tx.len ∧ nak_answered g a = true) :
    (atts.length ≤ 5 →
      (run_attempts atts g).1.cec_state = CEC_STATE_INITIATOR_FREE_TIME ∧
      (run_attempts atts g).1.cec_tx.resends = atts.length ∧
      (run_attempts atts g).1.cec_tx.len = g.cec_tx.len ∧
      (run_attempts atts g).1.cec_tx.transfer.buf = g.cec_tx.transfer.buf ∧
      task_events (run_attempts atts g).2 = []) ∧
    (atts.length = 6 →
      (run_attempts atts g).1.cec_state = CEC_STATE_IDLE ∧
      (run_attempts atts g).1.cec_tx.len = 0 ∧
      task_events (run_attempts atts g).2 = [TASK_EVENT_FAILED] ∧
      (∀ (n : Nat) (hw : hw_inputs),
        engine_run (run_attempts atts g).1 (List.replicate n (.timeout hw))
          = ((run_attempts atts g).1, []))) := by
  have hlen16 : g.cec_tx.len ≤ 16 := hlen
  constructor
  · intro hk
    obtain ⟨c1, c2, c3, c4, c5⟩ := run_attempts_resend atts g hs hlen16 hnak (by omega)
    exact ⟨c1, by rw [c2, hr]; omega, c3, c4, c5⟩
  · intro hk
    obtain ⟨first, a, rfl⟩ : ∃ first a, atts = first ++ [a] := by
      rcases List.eq_nil_or_concat atts with h | ⟨first, a, h⟩
      · rw [h] at hk; simp at hk
      · exact ⟨first, a, by rw [h]; simp⟩
    have hfl : first.length = 5 := by
      simp only [List.length_append, List.length_cons, List.length_nil] at hk
      omega
    obtain ⟨a1, a2, a3, a4, a5⟩ := run_attempts_resend first g hs hlen16
      (fun x hx => hnak x (List.mem_append_left _ hx)) (by omega)
    obtain ⟨hfit, hn⟩ := hnak a (List.mem_append_right _ (List.mem_singleton_self a))
    obtain ⟨b1, b2, b3, b4⟩ := (nak_attempt_spec (run_attempts first g).1 a a1
      (by rw [a3]; exact hlen16) (by rw [a3]; exact hfit)
      (by rw [nak_answered_congr g _ a4]; exact hn)).2 (by rw [a2, hr, hfl])
    have e1 : ∀ g1 : cec_globals, run_attempts [a] g1 = engine_run g1 (attempt_inputs a) := by
      intro g1
      rw [run_attempts_cons, run_attempts, List.append_nil]
    have f1 : (run_attempts (first ++ [a]) g).1
        = (engine_run (run_attempts first g).1 (attempt_inputs a)).1 := by
      rw [run_attempts_append, e1]
    have f2 : (run_attempts (first ++ [a]) g).2
        = (run_attempts first g).2
            ++ (engine_run (run_attempts first g).1 (attempt_inputs a)).2 := by
      rw [run_attempts_append, e1]
    refine ⟨by rw [f1]; exact b1, by rw [f1]; exact b2, ?_, ?_⟩
    · rw [f2, task_events_append, a5, b4]; rfl
    · intro n hw
      exact idle_timeouts_rest hw n _ (by rw [f1]; exact b1)

set_option maxRecDepth 100000 in
theorem C7_failure_after_five_resends_witness :
    (tx_pending_start.cec_state = CEC_STATE_INITIATOR_FREE_TIME ∧
      tx_pending_start.cec_tx.resends = 0 ∧
      tx_pending_start.cec_tx.len ≤ MAX_CEC_MSG_LEN ∧
      (∀ a ∈ six_nak_attempts,
        a.length ≤ tx_pending_start.cec_tx.len ∧ nak_answered tx_pending_start a = true) ∧
      six_nak_attempts.length = 6) ∧
    (run_attempts six_nak_attempts tx_pending_start).1.cec_state = CEC_STATE_IDLE ∧
    (run_attempts six_nak_attempts tx_pending_start).1.cec_tx.len = 0 ∧
    task_events (run_attempts six_nak_attempts tx_pending_start).2 = [TASK_EVENT_FAILED] :=
  ⟨by decide,
   ((C7_failure_after_five_resends tx_pending_start six_nak_attempts
      (by decide) (by decide) (by decide) (by decide)).2 (by decide)).1,
   ((C7_failure_after_five_resends tx_pending_start six_nak_attempts
      (by decide) (by decide) (by decide) (by decide)).2 (by decide)).2.1,
   ((C7_failure_after_five_resends tx_pending_start six_nak_attempts
      (by decide) (by decide) (by decide) (by decide)).2 (by decide)).2.2.1⟩

set_option maxRecDepth 100000 in
/-- C7 as stated fails: after 5 consecutive attempts of the frame `[0x40, 0x04]` were
answered with NAK, the engine is back in free time with `resends = 5` and has
raised no task event, and the next deadline expiry drives the start bit of a 6th
attempt. -/
theorem C7_sixth_attempt_is_made :
    (run_attempts (List.replicate 5 [hw_high]) tx_pending_start).1.cec_state
      = CEC_STATE_INITIATOR_FREE_TIME ∧
    (run_attempts (List.replicate 5 [hw_high]) tx_pending_start).1.cec_tx.resends = 5 ∧
    task_events (run_attempts (List.replicate 5 [hw_high]) tx_pending_start).2 = [] ∧
    (engine_step (run_attempts (List.replicate 5 [hw_high]) tx_pending_start).1
      (.timeout hw_high)).1.cec_state = CEC_STATE_INITIATOR_START_LOW ∧
    gpio_set_level 0 ∈
      (engine_step (run_attempts (List.replicate 5 [hw_high]) tx_pending_start).1
        (.timeout hw_high)).2 := by
  decide

/-! ## Completion signals -/

theorem completion_count_append (a b : List Effect) :
    completion_count (a ++ b) = completion_count a + completion_count b := by
  simp only [completion_count, List.count_append]; omega

theorem accepted_count_append (a b : List Effect) :
    accepted_count (a ++ b) = accepted_count a + accepted_count b := by
  simp only [accepted_count, List.count_append]

theorem completion_count_eq_zero (eff : List Effect)
    (h1 : TASK_EVENT_OKAY ∉ task_events eff) (h2 : TASK_EVENT_FAILED ∉ task_events eff) :
    completion_count eff = 0 := by
  unfold completion_count
  rw [List.count_eq_zero.mpr (fun h => h1 ((mem_task_events _ _).mp h)),
    List.count_eq_zero.mpr (fun h => h2 ((mem_task_events _ _).mp h))]

theorem identity_step_ok (g : cec_globals)
    (hinv : is_initiator g.cec_state = true → g.cec_tx.len ≠ 0) : step_ok g (g, []) := by
  refine ⟨hinv, ?_, ?_, ?_⟩
  · have : ¬ (g.cec_tx.len ≠ 0 ∧ g.cec_tx.len = 0) := fun h => h.1 h.2
    rw [if_neg this]; rfl
  · have : ¬ (g.cec_tx.len = 0 ∧ g.cec_tx.len ≠ 0) := fun h => h.2 h.1
    rw [if_neg this]; rfl
  · simp

theorem entry_step_ok (hw : hw_inputs) (s : cec_state) (g g1 : cec_globals)
    (hs : s ≠ CEC_STATE_DISABLED) (hlen : g1.cec_tx.len = g.cec_tx.len)
    (hi : is_initiator s = true → g.cec_tx.len ≠ 0) :
    step_ok g (enter_state hw s g1) := by
  obtain ⟨a, b, -, -, -, e1, e2, e3⟩ := enter_state_summary hw s g1 hs
  rw [hlen] at a b
  refine ⟨?_, ?_, ?_, ?_⟩
  · rw [a, b]
    by_cases hc : s = CEC_STATE_IDLE ∧ g.cec_tx.len > 0
    · intro _; omega
    · rw [if_neg hc]; exact hi
  · rw [b, completion_count_eq_zero _ e1 e2]
    have : ¬ (g.cec_tx.len ≠ 0 ∧ g.cec_tx.len = 0) := fun h => h.1 h.2
    rw [if_neg this]
  · rw [b]
    have : ¬ (g.cec_tx.len = 0 ∧ g.cec_tx.len ≠ 0) := fun h => h.2 h.1
    rw [if_neg this]
    exact List.count_eq_zero.mpr e3
  · intro h
    exact e1 ((mem_task_events _ _).mp h.1)

theorem terminal_step_ok (hw : hw_inputs) (g : cec_globals) (e : task_event)
    (he : e = TASK_EVENT_OKAY ∨ e = TASK_EVENT_FAILED) (hg : g.cec_tx.len ≠ 0) :
    step_ok g
      ((enter_state hw CEC_STATE_IDLE
          { g with cec_tx := { g.cec_tx with len := 0, resends := 0 } }).1,
       (enter_state hw CEC_STATE_IDLE
          { g with cec_tx := { g.cec_tx with len := 0, resends := 0 } }).2
         ++ [task_set_event e]) := by
  obtain ⟨a, b, -, -, -, e1, e2, e3⟩ := enter_state_summary hw CEC_STATE_IDLE
    { g with cec_tx := { g.cec_tx with len := 0, resends := 0 } } (by decide)
  have b0 : (enter_state hw CEC_STATE_IDLE
      { g with cec_tx := { g.cec_tx with len := 0, resends := 0 } }).1.cec_tx.len = 0 := b
  have a0 : (enter_state hw CEC_STATE_IDLE
      { g with cec_tx := { g.cec_tx with len := 0, resends := 0 } }).1.cec_state
        = CEC_STATE_IDLE := by
    rw [a]; simp
  refine ⟨?_, ?_, ?_, ?_⟩
  · show is_initiator (enter_state _ _ _).1.cec_state = true → _
    rw [a0]; intro h; exact absurd h (by decide)
  · show completion_count (_ ++ _) = if _ ∧ (enter_state _ _ _).1.cec_tx.len = 0 then 1 else 0
    rw [b0, if_pos ⟨hg, rfl⟩, completion_count_append, completion_count_eq_zero _ e1 e2]
    rcases he with rfl | rfl <;> rfl
  · show accepted_count (_ ++ _) = if _ ∧ (enter_state _ _ _).1.cec_tx.len ≠ 0 then 1 else 0
    rw [b0, accepted_count_append]
    have : ¬ (g.cec_tx.len = 0 ∧ (0 : Nat) ≠ 0) := fun h => h.2 rfl
    rw [if_neg this]
    show List.count _ _ + List.count _ _ = 0
    rw [List.count_eq_zero.mpr e3]
    rcases he with rfl | rfl <;> rfl
  · show ¬ (_ ∈ _ ++ _ ∧ _ ∈ _ ++ _)
    simp only [List.mem_append, List.mem_singleton]
    rintro ⟨h1 | h1, h2 | h2⟩
    · exact e1 ((mem_task_events _ _).mp h1)
    · exact e1 ((mem_task_events _ _).mp h1)
    · exact e2 ((mem_task_events _ _).mp h2)
    · rcases he with rfl | rfl
      · cases h2
      · cases h1

set_option maxHeartbeats 1000000 in
theorem timeout_step_ok (hw : hw_inputs) (g : cec_globals)
    (hinv : is_initiator g.cec_state = true → g.cec_tx.len ≠ 0) :
    step_ok g (cec_event_timeout hw g) := by
  cases hst : g.cec_state
  case CEC_STATE_DISABLED =>
    have e : cec_event_timeout hw g = (g, []) := by simp [cec_event_timeout, hst]
    rw [e]; exact identity_step_ok g hinv
  case CEC_STATE_IDLE =>
    have e : cec_event_timeout hw g = (g, []) := by simp [cec_event_timeout, hst]
    rw [e]; exact identity_step_ok g hinv
  case CEC_STATE_INITIATOR_ACK_VERIFY =>
    have hg : g.cec_tx.len ≠ 0 := hinv (by rw [hst]; rfl)
    simp only [cec_event_timeout, hst]
    split_ifs
    · exact entry_step_ok hw _ g g (by decide) rfl (fun _ => hg)
    · exact terminal_step_ok hw g TASK_EVENT_OKAY (Or.inl rfl) hg
    · exact entry_step_ok hw _ g _ (by decide) rfl (fun _ => hg)
    · exact terminal_step_ok hw g TASK_EVENT_FAILED (Or.inr rfl) hg
  all_goals
    simp only [cec_event_timeout, hst]
    first
    | exact entry_step_ok hw _ g _ (by decide) rfl (fun h => absurd h (by decide))
    | exact entry_step_ok hw _ g _ (by decide) rfl (fun _ => hinv (by rw [hst]; rfl))
    | (split_ifs <;>
        first
        | exact entry_step_ok hw _ g _ (by decide) rfl (fun h => absurd h (by decide))
        | exact entry_step_ok hw _ g _ (by decide) rfl (fun _ => hinv (by rw [hst]; rfl)))

set_option maxHeartbeats 1000000 in
theorem cap_step_ok (hw : hw_inputs) (g : cec_globals)
    (hinv : is_initiator g.cec_state = true → g.cec_tx.len ≠ 0) :
    step_ok g (cec_event_cap hw g) := by
  cases hst : g.cec_state <;> simp only [cec_event_cap, hst, cec_state_succ, rx_inc_bit] <;>
    first
    | exact identity_step_ok g hinv
    | exact entry_step_ok hw _ g _ (by decide) rfl (fun h => absurd h (by decide))
    | (split_ifs <;>
        exact entry_step_ok hw _ g _ (by decide) rfl (fun h => absurd h (by decide)))

theorem submit_step_ok (hw : hw_inputs) (g : cec_globals) (msg : List Nat) (sz : Nat)
    (hinv : is_initiator g.cec_state = true → g.cec_tx.len ≠ 0) :
    step_ok g (engine_step g (.submit hw msg sz)) := by
  by_cases hd : g.cec_state = CEC_STATE_DISABLED
  · have e : engine_step g (.submit hw msg sz) = (g, []) := by
      simp [engine_step, hc_cec_write, hd]
    rw [e]; exact identity_step_ok g hinv
  by_cases hp : sz = 0 ∨ sz > MAX_CEC_MSG_LEN
  · have e : engine_step g (.submit hw msg sz) = (g, []) := by
      simp [engine_step, hc_cec_write, hd, hp]
    rw [e]; exact identity_step_ok g hinv
  by_cases hl : g.cec_tx.len ≠ 0
  · have e : engine_step g (.submit hw msg sz) = (g, []) := by
      simp [engine_step, hc_cec_write, cec_send, hd, hp, hl]
    rw [e]; exact identity_step_ok g hinv
  have hl0 : g.cec_tx.len = 0 := by
    by_contra h; exact hl h
  have hsz : sz % 256 = sz := by
    apply Nat.mod_eq_of_lt
    have : MAX_CEC_MSG_LEN = 16 := rfl
    omega
  have hsz0 : sz ≠ 0 := fun h => hp (Or.inl h)
  have hni : ¬ is_initiator g.cec_state = true := fun h => hinv h hl0
  by_cases hidle : g.cec_state = CEC_STATE_IDLE
  · have e : engine_step g (.submit hw msg sz) =
        ((enter_state hw CEC_STATE_INITIATOR_FREE_TIME
            { g with cec_tx := { g.cec_tx with
                len := sz,
                transfer := { g.cec_tx.transfer with
                  buf := memcpy g.cec_tx.transfer.buf msg sz } } }).1,
         [cec_trigger_send, cec_update_interrupt_time] ++
          (enter_state hw CEC_STATE_INITIATOR_FREE_TIME
            { g with cec_tx := { g.cec_tx with
                len := sz,
                transfer := { g.cec_tx.transfer with
                  buf := memcpy g.cec_tx.transfer.buf msg sz } } }).2) := by
      simp [engine_step, hc_cec_write, cec_send, cec_event_tx, hd, hp, hl0, hsz, hidle]
    rw [e]
    obtain ⟨a, b, -, -, -, e1, e2, e3⟩ := enter_state_summary hw CEC_STATE_INITIATOR_FREE_TIME
      { g with cec_tx := { g.cec_tx with
          len := sz,
          transfer := { g.cec_tx.transfer with
            buf := memcpy g.cec_tx.transfer.buf msg sz } } } (by decide)
    have b0 : (enter_state hw CEC_STATE_INITIATOR_FREE_TIME
      { g with cec_tx := { g.cec_tx with
          len := sz,
          transfer := { g.cec_tx.transfer with
            buf := memcpy g.cec_tx.transfer.buf msg sz } } }).1.cec_tx.len = sz := b
    refine ⟨?_, ?_, ?_, ?_⟩
    · intro _
      show (enter_state _ _ _).1.cec_tx.len ≠ 0
      rw [b0]; exact hsz0
    · show completion_count (_ ++ _) = if _ ∧ (enter_state _ _ _).1.cec_tx.len = 0 then 1 else 0
      rw [b0, completion_count_append, completion_count_eq_zero _ e1 e2]
      have : ¬ (g.cec_tx.len ≠ 0 ∧ sz = 0) := fun h => hsz0 h.2
      rw [if_neg this]; rfl
    · show accepted_count (_ ++ _) = if _ ∧ (enter_state _ _ _).1.cec_tx.len ≠ 0 then 1 else 0
      rw [b0, accepted_count_append, if_pos ⟨hl0, hsz0⟩]
      show List.count _ _ + List.count _ _ = 1
      rw [List.count_eq_zero.mpr e3]; rfl
    · show ¬ (_ ∈ _ ++ _ ∧ _ ∈ _ ++ _)
      simp only [List.mem_append]
      rintro ⟨h1 | h1, -⟩
      · simp at h1
      · exact e1 ((mem_task_events _ _).mp h1)
  · have e : engine_step g (.submit hw msg sz) =
        ({ g with cec_tx := { g.cec_tx with
              len := sz,
              transfer := { g.cec_tx.transfer with
                buf := memcpy g.cec_tx.transfer.buf msg sz } } },
         [cec_trigger_send]) := by
      simp [engine_step, hc_cec_write, cec_send, cec_event_tx, hd, hp, hl0, hsz, hidle]
    rw [e]
    refine ⟨?_, ?_, ?_, ?_⟩
    · intro _; exact hsz0
    · show completion_count _ = if _ ∧ sz = 0 then 1 else 0
      have : ¬ (g.cec_tx.len ≠ 0 ∧ sz = 0) := fun h => hsz0 h.2
      rw [if_neg this]; rfl
    · show accepted_count _ = if _ ∧ sz ≠ 0 then 1 else 0
      rw [if_pos ⟨hl0, hsz0⟩]; rfl
    · simp

theorem engine_step_ok (g : cec_globals) (i : engine_input)
    (hinv : is_initiator g.cec_state = true → g.cec_tx.len ≠ 0) :
    step_ok g (engine_step g i) := by
  cases i with
  | cap hw => exact cap_step_ok hw g hinv
  | timeout hw => exact timeout_step_ok hw g hinv
  | submit hw msg sz => exact submit_step_ok hw g msg sz hinv

theorem step_ok_counts (g : cec_globals) (r : cec_globals × List Effect) (h : step_ok g r) :
    completion_count r.2 + pending r.1 = pending g + accepted_count r.2 := by
  obtain ⟨-, h2, h3, -⟩ := h
  rw [h2, h3]
  unfold pending
  by_cases a : g.cec_tx.len = 0 <;> by_cases b : r.1.cec_tx.len = 0 <;> simp [a, b]

theorem engine_run_invariant (ins : List engine_input) :
    ∀ g : cec_globals, (is_initiator g.cec_state = true → g.cec_tx.len ≠ 0) →
      (is_initiator (engine_run g ins).1.cec_state = true →
        (engine_run g ins).1.cec_tx.len ≠ 0) ∧
      completion_count (engine_run g ins).2 + pending (engine_run g ins).1
        = pending g + accepted_count (engine_run g ins).2 := by
  induction ins with
  | nil =>
    intro g hinv
    refine ⟨hinv, ?_⟩
    show completion_count [] + pending g = pending g + accepted_count []
    simp [completion_count, accepted_count]
  | cons i ins ih =>
    intro g hinv
    have hstep := engine_step_ok g i hinv
    obtain ⟨a, b⟩ := ih (engine_step g i).1 hstep.1
    have hc := step_ok_counts g _ hstep
    refine ⟨a, ?_⟩
    show completion_count (_ ++ _) + pending (engine_run (engine_step g i).1 ins).1
      = pending g + accepted_count (_ ++ _)
    rw [completion_count_append, accepted_count_append]
    omega

theorem engine_enabled_idle (N addr : Nat) (hw : hw_inputs) :
    (engine_enabled N addr hw).cec_state = CEC_STATE_IDLE ∧
    (engine_enabled N addr hw).cec_tx.len = 0 := by
  obtain ⟨a, b, -⟩ := enter_state_summary hw CEC_STATE_IDLE
    { cec_globals_init N with cec_addr := addr } (by decide)
  have e : engine_enabled N addr hw
      = (enter_state hw CEC_STATE_IDLE { cec_globals_init N with cec_addr := addr }).1 := by
    simp [engine_enabled, cec_set_enable, cec_globals_init]
  rw [e, a, b]
  simp [cec_globals_init, cec_tx_zero]

/-- C9: in every run of the engine from enable, driven by edge captures,
deadline expiries and submissions (`cec_event_tx` directly after an accepted
submission), every callback raises a completion signal exactly when it clears the
pending frame (`cec_tx.len` goes from non-zero to 0), raises at most one and
never both `TASK_EVENT_OKAY` and `TASK_EVENT_FAILED`; and over the whole run the
number of completion signals plus the frame still pending equals the number of
accepted submissions, so every accepted submission gets at most one signal. -/
theorem C9_completion_once_per_submission (N addr : Nat) (hw0 : hw_inputs)
    (ins : List engine_input) (i : engine_input) :
    (raises_completion (engine_step (engine_run (engine_enabled N addr hw0) ins).1 i).2 ↔
      ((engine_run (engine_enabled N addr hw0) ins).1.cec_tx.len ≠ 0 ∧
       (engine_step (engine_run (engine_enabled N addr hw0) ins).1 i).1.cec_tx.len = 0)) ∧
    completion_count (engine_step (engine_run (engine_enabled N addr hw0) ins).1 i).2 ≤ 1 ∧
    ¬ (task_set_event TASK_EVENT_OKAY
          ∈ (engine_step (engine_run (engine_enabled N addr hw0) ins).1 i).2 ∧
       task_set_event TASK_EVENT_FAILED
          ∈ (engine_step (engine_run (engine_enabled N addr hw0) ins).1 i).2) ∧
    completion_count (engine_run (engine_enabled N addr hw0) ins).2
        + (if (engine_run (engine_enabled N addr hw0) ins).1.cec_tx.len ≠ 0 then 1 else 0)
      = accepted_count (engine_run (engine_enabled N addr hw0) ins).2 := by
  obtain ⟨s0, l0⟩ := engine_enabled_idle N addr hw0
  have hinv0 : is_initiator (engine_enabled N addr hw0).cec_state = true →
      (engine_enabled N addr hw0).cec_tx.len ≠ 0 := by
    rw [s0]; intro h; exact absurd h (by decide)
  obtain ⟨hinv, hcount⟩ := engine_run_invariant ins _ hinv0
  obtain ⟨-, h2, -, h4⟩ := engine_step_ok _ i hinv
  have hp0 : pending (engine_enabled N addr hw0) = 0 := by
    unfold pending; rw [l0]; rfl
  refine ⟨?_, ?_, h4, ?_⟩
  · have hrc : ∀ eff : List Effect, raises_completion eff ↔ completion_count eff ≠ 0 := by
      intro eff
      unfold raises_completion completion_count
      rw [← List.count_pos_iff, ← List.count_pos_iff]
      omega
    rw [hrc, h2]
    by_cases hc : (engine_run (engine_enabled N addr hw0) ins).1.cec_tx.len ≠ 0 ∧
        (engine_step (engine_run (engine_enabled N addr hw0) ins).1 i).1.cec_tx.len = 0
    · simp [hc]
    · simp [hc]
  · rw [h2]; split_ifs <;> omega
  · rw [hp0] at hcount
    unfold pending at hcount
    omega

/-! ## Address filtering and configuration -/

theorem enter_follower_ack_low (hw : hw_inputs) (g : cec_globals) :
    enter_state hw CEC_STATE_FOLLOWER_ACK_LOW g
      = ({ g with cec_state := CEC_STATE_FOLLOWER_ACK_LOW },
         if rx_dest g = g.cec_addr then
           [gpio_set_level 0, cec_tmr_cap_start CEC_CAP_EDGE_NONE NOMINAL_SAMPLE_TIME_TICKS]
         else [cec_tmr_cap_start CEC_CAP_EDGE_NONE NOMINAL_SAMPLE_TIME_TICKS]) := by
  by_cases h : rx_dest g = g.cec_addr
  · have h2 : g.cec_rx.transfer.buf.getD 0 0 &&& 0x0f = g.cec_addr := h
    simp only [enter_state, enter_state_with, enter_state_switch, h2, h]
    simp [NOMINAL_SAMPLE_TIME_TICKS, CEC_US_TO_TICKS]
  · have h2 : ¬ g.cec_rx.transfer.buf.getD 0 0 &&& 0x0f = g.cec_addr := h
    simp only [enter_state, enter_state_with, enter_state_switch, h2, h]
    simp [NOMINAL_SAMPLE_TIME_TICKS, CEC_US_TO_TICKS]

/-- C11: on entry to `CEC_STATE_FOLLOWER_ACK_LOW` the engine drives the line low
only when the destination (low nibble of the first received byte) equals the
configured logical address or the frame is broadcast; for every other
destination it performs no GPIO write and only arms the sample deadline.  (The
line is in fact driven low exactly when the destination equals `cec_addr`.) -/
theorem C11_ack_driven_only_for_own_address_or_broadcast (hw : hw_inputs) (g : cec_globals) :
    (gpio_set_level 0 ∈ (enter_state hw CEC_STATE_FOLLOWER_ACK_LOW g).2 →
      (rx_dest g = g.cec_addr ∨ rx_dest g = CEC_BROADCAST_ADDR)) ∧
    (¬ (rx_dest g = g.cec_addr ∨ rx_dest g = CEC_BROADCAST_ADDR) →
      (enter_state hw CEC_STATE_FOLLOWER_ACK_LOW g).2
        = [cec_tmr_cap_start CEC_CAP_EDGE_NONE NOMINAL_SAMPLE_TIME_TICKS]) ∧
    (gpio_set_level 0 ∈ (enter_state hw CEC_STATE_FOLLOWER_ACK_LOW g).2 ↔
      rx_dest g = g.cec_addr) ∧
    (∀ level, gpio_set_level level ∈ (enter_state hw CEC_STATE_FOLLOWER_ACK_LOW g).2 →
      level = 0) := by
  rw [enter_follower_ack_low]
  by_cases h : rx_dest g = g.cec_addr
  · simp [h]
  · simp [h]

theorem enter_state_cec_addr (hw : hw_inputs) (s : cec_state) (g : cec_globals) :
    (enter_state hw s g).1.cec_addr = g.cec_addr := by
  rw [enter_state_fst]
  cases s
  case CEC_STATE_IDLE =>
    simp only [enter_state_switch]
    split_ifs <;> rfl
  case CEC_STATE_FOLLOWER_ACK_FINISH =>
    simp only [enter_state_switch]
    split_ifs <;> rfl
  case CEC_STATE_FOLLOWER_DEBOUNCE =>
    simp only [enter_state_switch]
    split_ifs <;> rfl
  all_goals rfl

set_option maxHeartbeats 1000000 in
theorem cec_event_timeout_cec_addr (hw : hw_inputs) (g : cec_globals) :
    (cec_event_timeout hw g).1.cec_addr = g.cec_addr := by
  cases hst : g.cec_state <;> simp only [cec_event_timeout, hst] <;>
    first
    | rfl
    | rw [enter_state_cec_addr]
    | (split_ifs <;> rw [enter_state_cec_addr])

set_option maxHeartbeats 1000000 in
theorem cec_event_cap_cec_addr (hw : hw_inputs) (g : cec_globals) :
    (cec_event_cap hw g).1.cec_addr = g.cec_addr := by
  cases hst : g.cec_state <;> simp only [cec_event_cap, hst, cec_state_succ, rx_inc_bit] <;>
    first
    | rfl
    | rw [enter_state_cec_addr]
    | (split_ifs <;> rw [enter_state_cec_addr])

theorem engine_step_cec_addr (g : cec_globals) (i : engine_input) :
    (engine_step g i).1.cec_addr = g.cec_addr := by
  cases i with
  | cap hw => exact cec_event_cap_cec_addr hw g
  | timeout hw => exact cec_event_timeout_cec_addr hw g
  | submit hw msg sz =>
    simp only [engine_step, hc_cec_write, cec_send, cec_event_tx]
    split_ifs <;> rfl

theorem host_step_addr_ok (g : cec_globals) (c : host_call) (h : addr_ok g.cec_addr) :
    addr_ok (host_step g c).1.cec_addr := by
  cases c with
  | engine i =>
    show addr_ok (engine_step g i).1.cec_addr
    rw [engine_step_cec_addr]; exact h
  | set_enable hw enable =>
    simp only [host_step, cec_set_enable]
    split_ifs <;> first | exact h | (rw [enter_state_cec_addr]; exact h)
  | set_logical_addr a =>
    simp only [host_step, cec_set_logical_addr]
    split_ifs with hc
    · exact h
    · show addr_ok a
      unfold addr_ok
      have : CEC_BROADCAST_ADDR = 15 := rfl
      by_cases h255 : a = CEC_UNREGISTERED_ADDR
      · exact Or.inr h255
      · left
        by_contra hlt
        exact hc ⟨by omega, h255⟩

theorem host_run_addr_ok (calls : List host_call) :
    ∀ g : cec_globals, addr_ok g.cec_addr → addr_ok (host_run g calls).1.cec_addr := by
  induction calls with
  | nil => intro g h; exact h
  | cons c cs ih =>
    intro g h
    rw [host_run]
    exact ih _ (host_step_addr_ok g c h)

theorem rx_dest_le (g : cec_globals) : rx_dest g ≤ 15 := by
  unfold rx_dest
  exact Nat.and_le_right

/-- C12: in every state reached from the initial globals (`cec_addr = 255`)
through any sequence of `cec_set_logical_addr` calls, interleaved with enable,
disable, submissions and engine callbacks, the configured logical address is in
`0..14` or equal to 255; so for every context holding such an address the engine
does not drive the line low on entry to `CEC_STATE_FOLLOWER_ACK_LOW` for a frame
whose destination nibble is 15, and while the address is 255 it writes no GPIO
level for any destination. -/
theorem C12_logical_address_never_broadcast (N : Nat) (calls : List host_call)
    (hw : hw_inputs) (g : cec_globals)
    (hg : g.cec_addr = (host_run (cec_globals_init N) calls).1.cec_addr) :
    ((host_run (cec_globals_init N) calls).1.cec_addr ≤ 14 ∨
      (host_run (cec_globals_init N) calls).1.cec_addr = 255) ∧
    (rx_dest g = CEC_BROADCAST_ADDR →
      gpio_set_level 0 ∉ (enter_state hw CEC_STATE_FOLLOWER_ACK_LOW g).2) ∧
    (g.cec_addr = 255 →
      (enter_state hw CEC_STATE_FOLLOWER_ACK_LOW g).2
        = [cec_tmr_cap_start CEC_CAP_EDGE_NONE NOMINAL_SAMPLE_TIME_TICKS]) := by
  have hok : addr_ok (host_run (cec_globals_init N) calls).1.cec_addr :=
    host_run_addr_ok calls _ (Or.inr rfl)
  have hle := rx_dest_le g
  refine ⟨hok, ?_, ?_⟩
  · intro hb
    rw [enter_follower_ack_low]
    have hne : ¬ rx_dest g = g.cec_addr := by
      rw [hg, hb]
      rcases hok with h | h
      · have : CEC_BROADCAST_ADDR = 15 := rfl
        omega
      · rw [h]; decide
    rw [if_neg hne]
    simp
  · intro h255
    rw [enter_follower_ack_low]
    have hne : ¬ rx_dest g = g.cec_addr := by
      rw [h255]; omega
    rw [if_neg hne]

theorem C12_logical_address_never_broadcast_witness :
    ((host_run (cec_globals_init 20) C12_calls).1.cec_addr
      = (host_run (cec_globals_init 20) C12_calls).1.cec_addr) ∧
    ((host_run (cec_globals_init 20) C12_calls).1.cec_addr ≤ 14 ∨
      (host_run (cec_globals_init 20) C12_calls).1.cec_addr = 255) ∧
    (host_run (cec_globals_init 20) C12_calls).1.cec_addr = 4 :=
  ⟨rfl,
   (C12_logical_address_never_broadcast 20 C12_calls hw_high
      (host_run (cec_globals_init 20) C12_calls).1 rfl).1,
   by decide⟩

/-- C13 (amended): `cec_set_logical_addr` accepts (returns `EC_RES_SUCCESS` and
stores) every value in `0..=14` and the value 255, and rejects every other
value, 15 included, with `EC_RES_INVALID_PARAM`, leaving the globals and so the
stored address unchanged. -/
theorem C13_set_logical_addr_accepts_0_to_14_and_255 (g : cec_globals) (a : Nat) :
    ((a ≤ 14 ∨ a = 255) →
      cec_set_logical_addr g a = (EC_RES_SUCCESS, { g with cec_addr := a })) ∧
    (¬ (a ≤ 14 ∨ a = 255) →
      cec_set_logical_addr g a = (EC_RES_INVALID_PARAM, g)) := by
  have h15 : CEC_BROADCAST_ADDR = 15 := rfl
  have h255 : CEC_UNREGISTERED_ADDR = 255 := rfl
  constructor
  · intro h
    have hc : ¬ (a ≥ CEC_BROADCAST_ADDR ∧ a ≠ CEC_UNREGISTERED_ADDR) := by
      rw [h15, h255]; omega
    simp only [cec_set_logical_addr, if_neg hc]
  · intro h
    have hc : a ≥ CEC_BROADCAST_ADDR ∧ a ≠ CEC_UNREGISTERED_ADDR := by
      rw [h15, h255]; omega
    simp only [cec_set_logical_addr, if_pos hc]

theorem C13_set_logical_addr_accepts_0_to_14_and_255_witness :
    (14 ≤ 14 ∨ 14 = 255) ∧
    cec_set_logical_addr (cec_globals_init 20) 14
      = (EC_RES_SUCCESS, { cec_globals_init 20 with cec_addr := 14 }) :=
  ⟨by decide,
   (C13_set_logical_addr_accepts_0_to_14_and_255 (cec_globals_init 20) 14).1 (by decide)⟩

/-- C13 as stated fails: the value 15, which is in `0..=15`, is rejected with
`EC_RES_INVALID_PARAM` and the stored address stays 255. -/
theorem C13_address_15_is_rejected :
    (cec_set_logical_addr (cec_globals_init 20) 15).1 = EC_RES_INVALID_PARAM ∧
    (cec_set_logical_addr (cec_globals_init 20) 15).2.cec_addr = 255 := by
  decide

/-- C14: for every non-Disabled protocol state and every context,
`cec_set_enable(0)` returns `EC_RES_SUCCESS` and leaves the engine in Disabled
with the receive context, the transmit context, the receive queue and the
pending host events zeroed and the logical address unchanged; it disables the
timer and releases the line, raises no task event and arms no timer. -/
theorem C14_disable_clears_everything (hw : hw_inputs) (g : cec_globals)
    (hs : g.cec_state ≠ CEC_STATE_DISABLED) :
    cec_set_enable hw g 0
      = (EC_RES_SUCCESS,
         { cec_state := CEC_STATE_DISABLED, cec_rx := cec_rx_zero,
           cec_rx_queue := cec_rx_queue_zero g.cec_rx_queue.buf.length,
           cec_tx := cec_tx_zero, cec_addr := g.cec_addr, cec_events := 0 },
         [cec_disable_timer, gpio_set_level 1]) ∧
    task_events (cec_set_enable hw g 0).2.2 = [] ∧
    (∀ edge timeout, cec_tmr_cap_start edge timeout ∉ (cec_set_enable hw g 0).2.2) ∧
    (cec_set_enable hw g 0).2.1.cec_addr = g.cec_addr := by
  have e : cec_set_enable hw g 0
      = (EC_RES_SUCCESS,
         { cec_state := CEC_STATE_DISABLED, cec_rx := cec_rx_zero,
           cec_rx_queue := cec_rx_queue_zero g.cec_rx_queue.buf.length,
           cec_tx := cec_tx_zero, cec_addr := g.cec_addr, cec_events := 0 },
         [cec_disable_timer, gpio_set_level 1]) := by
    simp [cec_set_enable, hs, enter_state, enter_state_with, enter_state_switch]
  rw [e]
  refine ⟨rfl, rfl, ?_, rfl⟩
  intro edge timeout h
  simp at h

set_option maxRecDepth 100000 in
theorem C14_disable_clears_everything_witness :
    tx_in_ack_verify.cec_state ≠ CEC_STATE_DISABLED ∧
    (cec_set_enable hw_high tx_in_ack_verify 0).2.1.cec_state = CEC_STATE_DISABLED ∧
    (cec_set_enable hw_high tx_in_ack_verify 0).2.1.cec_tx = cec_tx_zero ∧
    (cec_set_enable hw_high tx_in_ack_verify 0).2.2 = [cec_disable_timer, gpio_set_level 1] :=
  ⟨by decide,
   by rw [(C14_disable_clears_everything hw_high tx_in_ack_verify (by decide)).1],
   by rw [(C14_disable_clears_everything hw_high tx_in_ack_verify (by decide)).1],
   by rw [(C14_disable_clears_everything hw_high tx_in_ack_verify (by decide)).1]⟩

/-! ## Receiving bits -/

theorem set_bit_eq (tr : cec_msg_transfer) (val : Nat) (hb : tr.byte < MAX_CEC_MSG_LEN) :
    cec_transfer_set_bit tr val
      = { tr with buf := tr.buf.set tr.byte (put_bit (tr.buf.getD tr.byte 0) tr.bit val) } := by
  have h : ¬ tr.byte ≥ MAX_CEC_MSG_LEN := by omega
  unfold cec_transfer_set_bit put_bit
  rw [if_neg h]

theorem and_mask_flag (B m f : Nat) (h : m &&& f = 0) :
    (B &&& m) &&& f = 0 ∧ ((B &&& m) ||| f) &&& f = f := by
  have h1 : (B &&& m) &&& f = 0 := by rw [Nat.and_assoc, h, Nat.and_zero]
  refine ⟨h1, ?_⟩
  rw [Nat.and_comm, Nat.and_or_distrib_left, Nat.and_comm f (B &&& m), h1, Nat.and_self,
    Nat.zero_or]

theorem put_bit_and_flag (B k val : Nat) (hk : k < 8) :
    put_bit B k val &&& (0x80 >>> k) = if val ≠ 0 then 0x80 >>> k else 0 := by
  unfold put_bit
  interval_cases k <;> split_ifs <;>
    first
    | exact (and_mask_flag B _ _ (by decide)).1
    | exact (and_mask_flag B _ _ (by decide)).2

theorem get_bit_set_bit (tr : cec_msg_transfer) (val : Nat) (hk : tr.bit < 8)
    (hb : tr.byte < MAX_CEC_MSG_LEN) (hl : tr.byte < tr.buf.length) :
    cec_transfer_get_bit (cec_transfer_set_bit tr val)
      = if val ≠ 0 then 0x80 >>> tr.bit else 0 := by
  rw [set_bit_eq tr val hb]
  have h : ¬ tr.byte ≥ MAX_CEC_MSG_LEN := by omega
  simp only [cec_transfer_get_bit, if_neg h]
  rw [getD_set_eq _ _ _ _ hl, put_bit_and_flag _ _ _ hk]

theorem follower_low_cap (hw : hw_inputs) (g : cec_globals) (v : Nat)
    (hs : g.cec_state = CEC_STATE_FOLLOWER_HEADER_INIT_LOW ∨
          g.cec_state = CEC_STATE_FOLLOWER_HEADER_DEST_LOW ∨
          g.cec_state = CEC_STATE_FOLLOWER_DATA_LOW)
    (hv : (v = 0 ∧ VALID_LOW .DATA_ZERO hw.cec_tmr_cap_get = true) ∨
          (v = 1 ∧ VALID_LOW .DATA_ZERO hw.cec_tmr_cap_get = false ∧
            VALID_LOW .DATA_ONE hw.cec_tmr_cap_get = true)) :
    cec_event_cap hw g
      = ({ g with
            cec_state := cec_state_succ g.cec_state,
            cec_rx := { g.cec_rx with
              low_ticks := hw.cec_tmr_cap_get,
              transfer := cec_transfer_set_bit g.cec_rx.transfer v } },
         [cec_tmr_cap_start CEC_CAP_EDGE_FALLING CAP_DATA_HIGH_TICKS]) := by
  rcases hv with ⟨rfl, h0⟩ | ⟨rfl, h0, h1⟩ <;> rcases hs with hs | hs | hs <;>
    simp [cec_event_cap, hs, *, cec_state_succ, enter_state, enter_state_with,
      enter_state_switch, CAP_DATA_HIGH_TICKS, DATA_ONE_MAX_DURATION_TICKS,
      DATA_ONE_MIN_LOW_TICKS, VALID_TOLERANCE_TICKS, CEC_US_TO_TICKS]

theorem follower_high_cap (hw : hw_inputs) (g : cec_globals)
    (hs : g.cec_state = CEC_STATE_FOLLOWER_HEADER_INIT_HIGH ∨
          g.cec_state = CEC_STATE_FOLLOWER_HEADER_DEST_HIGH ∨
          g.cec_state = CEC_STATE_FOLLOWER_DATA_HIGH)
    (hv : VALID_DATA_HIGH (cec_transfer_get_bit g.cec_rx.transfer) g.cec_rx.low_ticks
            hw.cec_tmr_cap_get = true) :
    cec_event_cap hw g
      = ({ g with
            cec_state :=
              follower_next_low g.cec_state (cec_transfer_inc_bit g.cec_rx.transfer).bit,
            cec_rx := { g.cec_rx with
              transfer := cec_transfer_inc_bit g.cec_rx.transfer } },
         [cec_tmr_cap_start CEC_CAP_EDGE_RISING CAP_DATA_LOW_TICKS]) := by
  rcases hs with hs | hs | hs <;>
    simp only [cec_event_cap, hs, hv, if_true, rx_inc_bit, follower_next_low] <;>
    split_ifs <;>
    simp [enter_state, enter_state_with,
      enter_state_switch, CAP_DATA_LOW_TICKS, DATA_ZERO_MAX_LOW_TICKS,
      VALID_TOLERANCE_TICKS, CEC_US_TO_TICKS]

theorem valid_low_zero (t : Int) (h1 : 1200 ≤ t) (h2 : t ≤ 1800) :
    VALID_LOW .DATA_ZERO t = true := by
  simp [VALID_LOW, MIN_LOW_TICKS, MAX_LOW_TICKS, DATA_ZERO_MIN_LOW_TICKS,
    DATA_ZERO_MAX_LOW_TICKS, VALID_TOLERANCE_TICKS, CEC_US_TO_TICKS]
  omega

theorem valid_low_one (t : Int) (h1 : 300 ≤ t) (h2 : t ≤ 900) :
    VALID_LOW .DATA_ZERO t = false ∧ VALID_LOW .DATA_ONE t = true := by
  constructor
  · simp [VALID_LOW, MIN_LOW_TICKS, MAX_LOW_TICKS, DATA_ZERO_MIN_LOW_TICKS,
      DATA_ZERO_MAX_LOW_TICKS, VALID_TOLERANCE_TICKS, CEC_US_TO_TICKS]
    omega
  · simp [VALID_LOW, MIN_LOW_TICKS, MAX_LOW_TICKS, DATA_ONE_MIN_LOW_TICKS,
      DATA_ONE_MAX_LOW_TICKS, VALID_TOLERANCE_TICKS, CEC_US_TO_TICKS]
    omega

theorem valid_data_high (d : Nat) (lo hi : Int) (h1 : 1950 ≤ lo + hi) (h2 : lo + hi ≤ 2850) :
    VALID_DATA_HIGH d lo hi = true := by
  unfold VALID_DATA_HIGH
  split_ifs <;>
    simp [VALID_HIGH, MIN_DURATION_TICKS, MAX_DURATION_TICKS, DATA_ONE_MIN_DURATION_TICKS,
      DATA_ONE_MAX_DURATION_TICKS, DATA_ZERO_MIN_DURATION_TICKS,
      DATA_ZERO_MAX_DURATION_TICKS, VALID_TOLERANCE_TICKS, CEC_US_TO_TICKS] <;>
    omega

theorem inc_bit_cursor (tr : cec_msg_transfer) (hk : tr.bit < 8)
    (hb : tr.byte < MAX_CEC_MSG_LEN) :
    (cec_transfer_inc_bit tr).buf = tr.buf ∧
    (cec_transfer_inc_bit tr).bit = (tr.bit + 1) % 8 ∧
    (cec_transfer_inc_bit tr).byte = tr.byte + (tr.bit + 1) / 8 := by
  have hb2 : tr.byte < 16 := hb
  have h : ¬ tr.byte ≥ MAX_CEC_MSG_LEN := by omega
  unfold cec_transfer_inc_bit
  by_cases h8 : tr.bit + 1 = 8
  · have e : (tr.bit + 1) % 256 = 8 := by omega
    simp only [e, if_true, if_neg h]
    refine ⟨trivial, by omega, by omega⟩
  · have e : ¬ (tr.bit + 1) % 256 = 8 := by omega
    simp only [if_neg e]
    refine ⟨trivial, by omega, by omega⟩

/-- C16: in the follower header and data bit states, a low duration in the
data-0 window [1300,1700] (resp. the data-1 window [400,800]) followed by a high
duration with low+high in [2050,2750] makes the rising-edge capture and the
falling-edge capture record bit 0 (resp. 1) at the cursor and advance the cursor
by one bit, and neither capture aborts to Idle. -/
theorem C16_valid_pulse_records_bit (g : cec_globals) (rise fall : hw_inputs) (v : Nat)
    (hs : g.cec_state = CEC_STATE_FOLLOWER_HEADER_INIT_LOW ∨
          g.cec_state = CEC_STATE_FOLLOWER_HEADER_DEST_LOW ∨
          g.cec_state = CEC_STATE_FOLLOWER_DATA_LOW)
    (hbit : g.cec_rx.transfer.bit < 8)
    (hbyte : g.cec_rx.transfer.byte < MAX_CEC_MSG_LEN)
    (hbuf : g.cec_rx.transfer.byte < g.cec_rx.transfer.buf.length)
    (hlow : (v = 0 ∧ CEC_US_TO_TICKS 1300 ≤ rise.cec_tmr_cap_get ∧
               rise.cec_tmr_cap_get ≤ CEC_US_TO_TICKS 1700) ∨
            (v = 1 ∧ CEC_US_TO_TICKS 400 ≤ rise.cec_tmr_cap_get ∧
               rise.cec_tmr_cap_get ≤ CEC_US_TO_TICKS 800))
    (hhigh : CEC_US_TO_TICKS 2050 ≤ rise.cec_tmr_cap_get + fall.cec_tmr_cap_get ∧
             rise.cec_tmr_cap_get + fall.cec_tmr_cap_get ≤ CEC_US_TO_TICKS 2750) :
    (cec_event_cap rise g).1.cec_state = cec_state_succ g.cec_state ∧
    (cec_event_cap rise g).1.cec_state ≠ CEC_STATE_IDLE ∧
    (cec_event_cap fall (cec_event_cap rise g).1).1.cec_state
      ∈ [CEC_STATE_FOLLOWER_HEADER_INIT_LOW, CEC_STATE_FOLLOWER_HEADER_DEST_LOW,
         CEC_STATE_FOLLOWER_DATA_LOW, CEC_STATE_FOLLOWER_EOM_LOW] ∧
    (cec_event_cap fall (cec_event_cap rise g).1).1.cec_rx.transfer
      = cec_transfer_inc_bit (cec_transfer_set_bit g.cec_rx.transfer v) ∧
    (cec_event_cap fall (cec_event_cap rise g).1).1.cec_rx.transfer.buf
      = (cec_transfer_set_bit g.cec_rx.transfer v).buf ∧
    cec_transfer_get_bit (cec_transfer_set_bit g.cec_rx.transfer v)
      = (if v = 0 then 0 else 0x80 >>> g.cec_rx.transfer.bit) ∧
    8 * (cec_event_cap fall (cec_event_cap rise g).1).1.cec_rx.transfer.byte
        + (cec_event_cap fall (cec_event_cap rise g).1).1.cec_rx.transfer.bit
      = 8 * g.cec_rx.transfer.byte + g.cec_rx.transfer.bit + 1 := by
  simp only [CEC_US_TO_TICKS] at hlow hhigh
  have hv : (v = 0 ∧ VALID_LOW .DATA_ZERO rise.cec_tmr_cap_get = true) ∨
      (v = 1 ∧ VALID_LOW .DATA_ZERO rise.cec_tmr_cap_get = false ∧
        VALID_LOW .DATA_ONE rise.cec_tmr_cap_get = true) := by
    rcases hlow with ⟨e, h1, h2⟩ | ⟨e, h1, h2⟩
    · exact Or.inl ⟨e, valid_low_zero _ (by omega) (by omega)⟩
    · exact Or.inr ⟨e, valid_low_one _ (by omega) (by omega)⟩
  rw [follower_low_cap rise g v hs hv]
  have hs1 : cec_state_succ g.cec_state = CEC_STATE_FOLLOWER_HEADER_INIT_HIGH ∨
      cec_state_succ g.cec_state = CEC_STATE_FOLLOWER_HEADER_DEST_HIGH ∨
      cec_state_succ g.cec_state = CEC_STATE_FOLLOWER_DATA_HIGH := by
    rcases hs with hs | hs | hs <;> simp [hs, cec_state_succ]
  rw [follower_high_cap fall _ hs1 (valid_data_high _ _ _ (by dsimp only; omega)
    (by dsimp only; omega))]
  dsimp only
  have hset := set_bit_eq g.cec_rx.transfer v hbyte
  have hinc := inc_bit_cursor (cec_transfer_set_bit g.cec_rx.transfer v)
    (by rw [hset]; exact hbit) (by rw [hset]; exact hbyte)
  have hb1 : (cec_transfer_set_bit g.cec_rx.transfer v).bit = g.cec_rx.transfer.bit := by
    rw [hset]
  have hb2 : (cec_transfer_set_bit g.cec_rx.transfer v).byte = g.cec_rx.transfer.byte := by
    rw [hset]
  rw [hb1, hb2] at hinc
  refine ⟨rfl, ?_, ?_, rfl, hinc.1, ?_, ?_⟩
  · rcases hs with hs | hs | hs <;> simp [hs, cec_state_succ]
  · rcases hs with hs | hs | hs <;> simp only [hs, cec_state_succ, follower_next_low] <;>
      split_ifs <;> simp
  · rw [get_bit_set_bit _ _ hbit hbyte hbuf]
    by_cases h0 : v = 0 <;> simp [h0]
  · rw [hinc.2.1, hinc.2.2]; omega

set_option maxRecDepth 100000 in
theorem C16_valid_pulse_records_bit_witness :
    rx_after_start.cec_state = CEC_STATE_FOLLOWER_HEADER_INIT_LOW ∧
    (cec_event_cap { gpio_get_level := 0, cec_tmr_cap_get := 1800 }
      (cec_event_cap { gpio_get_level := 1, cec_tmr_cap_get := 600 }
        rx_after_start).1).1.cec_rx.transfer
      = cec_transfer_inc_bit (cec_transfer_set_bit rx_after_start.cec_rx.transfer 1) ∧
    cec_transfer_get_bit (cec_transfer_set_bit rx_after_start.cec_rx.transfer 1) = 0x80 :=
  ⟨by decide,
   (C16_valid_pulse_records_bit rx_after_start
      { gpio_get_level := 1, cec_tmr_cap_get := 600 }
      { gpio_get_level := 0, cec_tmr_cap_get := 1800 } 1
      (Or.inl (by decide)) (by decide) (by decide) (by decide)
      (Or.inr ⟨rfl, by decide, by decide⟩) ⟨by decide, by decide⟩).2.2.2.1,
   by decide⟩

/-! ## Timing violations, start bits and collisions -/

/-- Entering Idle: both cursors are reset; with a pending frame the engine goes
on to the free-time wait, otherwise it rests in Idle with the timer stopped. -/
theorem enter_idle_spec (hw : hw_inputs) (g : cec_globals) :
    enter_state hw CEC_STATE_IDLE g
      = ({ g with
            cec_state :=
              if g.cec_tx.len > 0 then CEC_STATE_INITIATOR_FREE_TIME else CEC_STATE_IDLE,
            cec_tx := { g.cec_tx with
              transfer := { g.cec_tx.transfer with bit := 0, byte := 0 } },
            cec_rx := { g.cec_rx with
              transfer := { g.cec_rx.transfer with bit := 0, byte := 0 } } },
         [gpio_set_level 1,
          cec_tmr_cap_start CEC_CAP_EDGE_FALLING
            (if g.cec_tx.len > 0 then
               (if g.cec_tx.resends ≠ 0 then FREE_TIME_RS_TICKS
                else if g.cec_tx.present_initiator ≠ 0 then FREE_TIME_PI_TICKS
                else FREE_TIME_NI_TICKS)
             else 0)]) := by
  by_cases h : g.cec_tx.len > 0
  · by_cases h1 : g.cec_tx.resends ≠ 0
    · simp [enter_state, enter_state_with, enter_state_switch, h, h1, FREE_TIME_RS_TICKS,
        NOMINAL_BIT_TICKS, CEC_US_TO_TICKS]
    · by_cases h2 : g.cec_tx.present_initiator ≠ 0
      · simp [enter_state, enter_state_with, enter_state_switch, h, h1, h2,
          FREE_TIME_PI_TICKS, NOMINAL_BIT_TICKS, CEC_US_TO_TICKS]
      · simp [enter_state, enter_state_with, enter_state_switch, h, h1, h2,
          FREE_TIME_NI_TICKS, NOMINAL_BIT_TICKS, CEC_US_TO_TICKS]
  · simp [enter_state, enter_state_with, enter_state_switch, h]

theorem invalid_low (t : Int)
    (h0 : ¬ (1200 ≤ t ∧ t ≤ 1800)) (h1 : ¬ (300 ≤ t ∧ t ≤ 900)) :
    VALID_LOW .DATA_ZERO t = false ∧ VALID_LOW .DATA_ONE t = false := by
  constructor
  · simp [VALID_LOW, MIN_LOW_TICKS, MAX_LOW_TICKS, DATA_ZERO_MIN_LOW_TICKS,
      DATA_ZERO_MAX_LOW_TICKS, VALID_TOLERANCE_TICKS, CEC_US_TO_TICKS]
    omega
  · simp [VALID_LOW, MIN_LOW_TICKS, MAX_LOW_TICKS, DATA_ONE_MIN_LOW_TICKS,
      DATA_ONE_MAX_LOW_TICKS, VALID_TOLERANCE_TICKS, CEC_US_TO_TICKS]
    omega

theorem invalid_data_high (d : Nat) (lo hi : Int)
    (h : ¬ (1950 ≤ lo + hi ∧ lo + hi ≤ 2850)) :
    VALID_DATA_HIGH d lo hi = false := by
  unfold VALID_DATA_HIGH
  split_ifs <;>
    simp [VALID_HIGH, MIN_DURATION_TICKS, MAX_DURATION_TICKS, DATA_ONE_MIN_DURATION_TICKS,
      DATA_ONE_MAX_DURATION_TICKS, DATA_ZERO_MIN_DURATION_TICKS,
      DATA_ZERO_MAX_DURATION_TICKS, VALID_TOLERANCE_TICKS, CEC_US_TO_TICKS] <;>
    omega

/-- A rejected low duration in a follower `*_LOW` bit state enters Idle. -/
theorem follower_low_reject (hw : hw_inputs) (g : cec_globals)
    (hs : g.cec_state ∈ [CEC_STATE_FOLLOWER_HEADER_INIT_LOW,
            CEC_STATE_FOLLOWER_HEADER_DEST_LOW, CEC_STATE_FOLLOWER_DATA_LOW,
            CEC_STATE_FOLLOWER_EOM_LOW])
    (h0 : VALID_LOW .DATA_ZERO hw.cec_tmr_cap_get = false)
    (h1 : VALID_LOW .DATA_ONE hw.cec_tmr_cap_get = false) :
    cec_event_cap hw g = enter_state hw CEC_STATE_IDLE g := by
  simp only [List.mem_cons, List.mem_singleton, List.mem_nil_iff, or_false] at hs
  rcases hs with hs | hs | hs | hs <;> simp [cec_event_cap, hs, h0, h1]

/-- A rejected bit period in a follower `*_HIGH` bit state enters Idle. -/
theorem follower_high_reject (hw : hw_inputs) (g : cec_globals)
    (hs : g.cec_state ∈ [CEC_STATE_FOLLOWER_HEADER_INIT_HIGH,
            CEC_STATE_FOLLOWER_HEADER_DEST_HIGH, CEC_STATE_FOLLOWER_DATA_HIGH,
            CEC_STATE_FOLLOWER_EOM_HIGH])
    (h : ∀ d, VALID_DATA_HIGH d g.cec_rx.low_ticks hw.cec_tmr_cap_get = false) :
    cec_event_cap hw g = enter_state hw CEC_STATE_IDLE g := by
  simp only [List.mem_cons, List.mem_singleton, List.mem_nil_iff, or_false] at hs
  rcases hs with hs | hs | hs | hs <;> simp [cec_event_cap, hs, h]

/-- A deadline expiry in a follower bit state enters Idle. -/
theorem follower_bit_timeout (hw : hw_inputs) (g : cec_globals)
    (hs : g.cec_state ∈ [CEC_STATE_FOLLOWER_HEADER_INIT_LOW,
            CEC_STATE_FOLLOWER_HEADER_DEST_LOW, CEC_STATE_FOLLOWER_DATA_LOW,
            CEC_STATE_FOLLOWER_EOM_LOW, CEC_STATE_FOLLOWER_HEADER_INIT_HIGH,
            CEC_STATE_FOLLOWER_HEADER_DEST_HIGH, CEC_STATE_FOLLOWER_DATA_HIGH,
            CEC_STATE_FOLLOWER_EOM_HIGH]) :
    cec_event_timeout hw g = enter_state hw CEC_STATE_IDLE g := by
  simp only [List.mem_cons, List.mem_singleton, List.mem_nil_iff, or_false] at hs
  rcases hs with hs | hs | hs | hs | hs | hs | hs | hs <;> simp [cec_event_timeout, hs]

/-- Entering a state other than Disabled from globals whose pending frame is
that of `g` keeps the frame of `g`. -/
theorem entry_keeps_frame (hw : hw_inputs) (s : cec_state) (g g1 : cec_globals)
    (hs : s ≠ CEC_STATE_DISABLED) (h1 : g1.cec_tx.len = g.cec_tx.len)
    (h2 : g1.cec_tx.resends = g.cec_tx.resends)
    (h3 : g1.cec_tx.transfer.buf = g.cec_tx.transfer.buf) :
    (enter_state hw s g1).1.cec_tx.len = g.cec_tx.len ∧
    (enter_state hw s g1).1.cec_tx.resends = g.cec_tx.resends ∧
    (enter_state hw s g1).1.cec_tx.transfer.buf = g.cec_tx.transfer.buf := by
  obtain ⟨-, a, b, c, -⟩ := enter_state_summary hw s g1 hs
  exact ⟨a.trans h1, b.trans h2, c.trans h3⟩

/-- No capture event touches the pending frame: length, message bytes and
resend count are the same after it. -/
theorem cap_keeps_frame (hw : hw_inputs) (g : cec_globals) :
    (cec_event_cap hw g).1.cec_tx.len = g.cec_tx.len ∧
    (cec_event_cap hw g).1.cec_tx.resends = g.cec_tx.resends ∧
    (cec_event_cap hw g).1.cec_tx.transfer.buf = g.cec_tx.transfer.buf := by
  cases hst : g.cec_state <;> simp only [cec_event_cap, hst, cec_state_succ, rx_inc_bit] <;>
    first
    | exact ⟨rfl, rfl, rfl⟩
    | exact ⟨trivial, trivial, trivial⟩
    | exact entry_keeps_frame hw _ g _ (by decide) rfl rfl rfl
    | (split_ifs <;> exact entry_keeps_frame hw _ g _ (by decide) rfl rfl rfl)

/-- Outside the initiator states a deadline expiry does not touch the pending
frame. -/
theorem follower_timeout_keeps_frame (hw : hw_inputs) (g : cec_globals)
    (hs : is_initiator g.cec_state = false) :
    (cec_event_timeout hw g).1.cec_tx.len = g.cec_tx.len ∧
    (cec_event_timeout hw g).1.cec_tx.resends = g.cec_tx.resends ∧
    (cec_event_timeout hw g).1.cec_tx.transfer.buf = g.cec_tx.transfer.buf := by
  cases hst : g.cec_state <;> rw [hst] at hs <;>
    first
    | exact absurd hs (by decide)
    | (simp only [cec_event_timeout, hst]
       first
       | exact ⟨rfl, rfl, rfl⟩
       | exact ⟨trivial, trivial, trivial⟩
       | exact entry_keeps_frame hw _ g _ (by decide) rfl rfl rfl
       | (split_ifs <;> exact entry_keeps_frame hw _ g _ (by decide) rfl rfl rfl))

/-- C17 (amended): in every follower bit state, a low duration outside both
tolerance-extended windows [1200,1800] and [300,900], a high with low+high
outside [1950,2850], and a deadline expiry each enter Idle (free time if a
transmit is pending) with the receive cursor reset to 0; the rejecting event
writes nothing else to the receive context and raises no task event.  What an
accepted low capture wrote before a rejected high stays in the buffer. -/
theorem C17_timing_violation_discards_frame (g : cec_globals) (hw : hw_inputs)
    (e : engine_input)
    (h : (e = .cap hw ∧
            g.cec_state ∈ [CEC_STATE_FOLLOWER_HEADER_INIT_LOW,
              CEC_STATE_FOLLOWER_HEADER_DEST_LOW, CEC_STATE_FOLLOWER_DATA_LOW,
              CEC_STATE_FOLLOWER_EOM_LOW] ∧
            ¬ (CEC_US_TO_TICKS 1200 ≤ hw.cec_tmr_cap_get ∧
                hw.cec_tmr_cap_get ≤ CEC_US_TO_TICKS 1800) ∧
            ¬ (CEC_US_TO_TICKS 300 ≤ hw.cec_tmr_cap_get ∧
                hw.cec_tmr_cap_get ≤ CEC_US_TO_TICKS 900)) ∨
         (e = .cap hw ∧
            g.cec_state ∈ [CEC_STATE_FOLLOWER_HEADER_INIT_HIGH,
              CEC_STATE_FOLLOWER_HEADER_DEST_HIGH, CEC_STATE_FOLLOWER_DATA_HIGH,
              CEC_STATE_FOLLOWER_EOM_HIGH] ∧
            ¬ (CEC_US_TO_TICKS 1950 ≤ g.cec_rx.low_ticks + hw.cec_tmr_cap_get ∧
                g.cec_rx.low_ticks + hw.cec_tmr_cap_get ≤ CEC_US_TO_TICKS 2850)) ∨
         (e = .timeout hw ∧
            g.cec_state ∈ [CEC_STATE_FOLLOWER_HEADER_INIT_LOW,
              CEC_STATE_FOLLOWER_HEADER_DEST_LOW, CEC_STATE_FOLLOWER_DATA_LOW,
              CEC_STATE_FOLLOWER_EOM_LOW, CEC_STATE_FOLLOWER_HEADER_INIT_HIGH,
              CEC_STATE_FOLLOWER_HEADER_DEST_HIGH, CEC_STATE_FOLLOWER_DATA_HIGH,
              CEC_STATE_FOLLOWER_EOM_HIGH])) :
    engine_step g e = enter_state hw CEC_STATE_IDLE g ∧
    (engine_step g e).1.cec_state
      = (if g.cec_tx.len > 0 then CEC_STATE_INITIATOR_FREE_TIME else CEC_STATE_IDLE) ∧
    (engine_step g e).1.cec_rx
      = { g.cec_rx with transfer := { g.cec_rx.transfer with bit := 0, byte := 0 } } ∧
    (engine_step g e).1.cec_rx.transfer.buf = g.cec_rx.transfer.buf ∧
    (engine_step g e).1.cec_rx.transfer.bit = 0 ∧
    (engine_step g e).1.cec_rx.transfer.byte = 0 ∧
    task_events (engine_step g e).2 = [] := by
  have key : engine_step g e = enter_state hw CEC_STATE_IDLE g := by
    simp only [CEC_US_TO_TICKS] at h
    rcases h with ⟨rfl, hs, h0, h1⟩ | ⟨rfl, hs, h0⟩ | ⟨rfl, hs⟩
    · exact follower_low_reject hw g hs (invalid_low _ h0 h1).1 (invalid_low _ h0 h1).2
    · exact follower_high_reject hw g hs (fun d => invalid_data_high d _ _ h0)
    · exact follower_bit_timeout hw g hs
  rw [key, enter_idle_spec]
  exact ⟨rfl, rfl, rfl, rfl, rfl, rfl, rfl⟩

set_option maxRecDepth 100000 in
theorem C17_timing_violation_discards_frame_witness :
    rx_after_start.cec_state = CEC_STATE_FOLLOWER_HEADER_INIT_LOW ∧
    (engine_step rx_after_start (.cap { gpio_get_level := 1, cec_tmr_cap_get := 1000 })).1.cec_state
      = (if rx_after_start.cec_tx.len > 0 then CEC_STATE_INITIATOR_FREE_TIME
         else CEC_STATE_IDLE) ∧
    (engine_step rx_after_start (.cap { gpio_get_level := 1, cec_tmr_cap_get := 1000 })).1.cec_state
      = CEC_STATE_IDLE :=
  ⟨by decide,
   (C17_timing_violation_discards_frame rx_after_start
      { gpio_get_level := 1, cec_tmr_cap_get := 1000 }
      (.cap { gpio_get_level := 1, cec_tmr_cap_get := 1000 })
      (Or.inl ⟨rfl, by decide, by decide, by decide⟩)).2.1,
   by decide⟩

set_option maxRecDepth 100000 in
/-- C17, counterexample to "no bit is recorded for that pulse": on a follower
with an all-zero buffer in `CEC_STATE_FOLLOWER_HEADER_INIT_LOW`, an accepted low
of 600 followed by a high of 100 (total 700, outside [1950,2850]) aborts to Idle
with the cursor at 0, yet the first buffer byte has become 0x80: the accepted
low capture had written the bit. -/
theorem C17_accepted_low_is_written :
    rx_after_start.cec_state = CEC_STATE_FOLLOWER_HEADER_INIT_LOW ∧
    rx_after_start.cec_rx.transfer.buf.getD 0 0 = 0 ∧
    (engine_run rx_after_start
      [.cap { gpio_get_level := 1, cec_tmr_cap_get := 600 },
       .cap { gpio_get_level := 0, cec_tmr_cap_get := 100 }]).1.cec_state = CEC_STATE_IDLE ∧
    (engine_run rx_after_start
      [.cap { gpio_get_level := 1, cec_tmr_cap_get := 600 },
       .cap { gpio_get_level := 0, cec_tmr_cap_get := 100 }]).1.cec_rx.transfer.byte = 0 ∧
    (engine_run rx_after_start
      [.cap { gpio_get_level := 1, cec_tmr_cap_get := 600 },
       .cap { gpio_get_level := 0, cec_tmr_cap_get := 100 }]).1.cec_rx.transfer.buf.getD 0 0
      = 0x80 := by
  decide

/-- C19: a rising-edge capture in `CEC_STATE_FOLLOWER_START_LOW` with measured
low `t`: if 3400 <= t <= 4000 it stores `t`, resets the debounce count to 0 and
enters `CEC_STATE_FOLLOWER_START_HIGH`; otherwise if t < 200 it enters
`CEC_STATE_FOLLOWER_DEBOUNCE`; otherwise it enters Idle at once with the debounce
count unchanged; all this for every prior debounce count. -/
theorem C19_start_low_capture (g : cec_globals) (hw : hw_inputs)
    (hs : g.cec_state = CEC_STATE_FOLLOWER_START_LOW) :
    (CEC_US_TO_TICKS 3400 ≤ hw.cec_tmr_cap_get ∧ hw.cec_tmr_cap_get ≤ CEC_US_TO_TICKS 4000 →
      cec_event_cap hw g
        = ({ g with
              cec_state := CEC_STATE_FOLLOWER_START_HIGH,
              cec_rx := { g.cec_rx with
                low_ticks := hw.cec_tmr_cap_get, debounce_count := 0 } },
           [cec_tmr_cap_start CEC_CAP_EDGE_FALLING CAP_START_HIGH_TICKS])) ∧
    (¬ (CEC_US_TO_TICKS 3400 ≤ hw.cec_tmr_cap_get ∧
          hw.cec_tmr_cap_get ≤ CEC_US_TO_TICKS 4000) →
      hw.cec_tmr_cap_get < CEC_US_TO_TICKS 200 →
      cec_event_cap hw g = enter_state hw CEC_STATE_FOLLOWER_DEBOUNCE g ∧
      (cec_event_cap hw g).1.cec_state = CEC_STATE_FOLLOWER_DEBOUNCE) ∧
    (¬ (CEC_US_TO_TICKS 3400 ≤ hw.cec_tmr_cap_get ∧
          hw.cec_tmr_cap_get ≤ CEC_US_TO_TICKS 4000) →
      ¬ hw.cec_tmr_cap_get < CEC_US_TO_TICKS 200 →
      cec_event_cap hw g = enter_state hw CEC_STATE_IDLE g ∧
      (cec_event_cap hw g).1.cec_state
        = (if g.cec_tx.len > 0 then CEC_STATE_INITIATOR_FREE_TIME else CEC_STATE_IDLE) ∧
      (cec_event_cap hw g).1.cec_rx.debounce_count = g.cec_rx.debounce_count ∧
      task_events (cec_event_cap hw g).2 = []) := by
  have hvalid : VALID_LOW .START_BIT hw.cec_tmr_cap_get = true ↔
      (3400 ≤ hw.cec_tmr_cap_get ∧ hw.cec_tmr_cap_get ≤ 4000) := by
    simp [VALID_LOW, MIN_LOW_TICKS, MAX_LOW_TICKS, START_BIT_MIN_LOW_TICKS,
      START_BIT_MAX_LOW_TICKS, VALID_TOLERANCE_TICKS, CEC_US_TO_TICKS]
  simp only [CEC_US_TO_TICKS]
  refine ⟨fun h => ?_, fun h ht => ?_, fun h ht => ?_⟩
  · have hv := hvalid.2 h
    simp [cec_event_cap, hs, hv, enter_state, enter_state_with, enter_state_switch,
      CAP_START_HIGH_TICKS, START_BIT_MAX_DURATION_TICKS, START_BIT_MIN_LOW_TICKS,
      VALID_TOLERANCE_TICKS, CEC_US_TO_TICKS]
  · have hv : VALID_LOW .START_BIT hw.cec_tmr_cap_get = false := by
      rw [← Bool.not_eq_true, hvalid]; exact h
    have ht2 : hw.cec_tmr_cap_get < DEBOUNCE_LIMIT_TICKS := ht
    have e : cec_event_cap hw g = enter_state hw CEC_STATE_FOLLOWER_DEBOUNCE g := by
      simp [cec_event_cap, hs, hv, ht2]
    rw [e]
    exact ⟨rfl, (enter_state_summary hw _ g (by decide)).1⟩
  · have hv : VALID_LOW .START_BIT hw.cec_tmr_cap_get = false := by
      rw [← Bool.not_eq_true, hvalid]; exact h
    have ht2 : ¬ hw.cec_tmr_cap_get < DEBOUNCE_LIMIT_TICKS := ht
    have e : cec_event_cap hw g = enter_state hw CEC_STATE_IDLE g := by
      simp [cec_event_cap, hs, hv, ht2]
    rw [e, enter_idle_spec]
    exact ⟨rfl, rfl, rfl, rfl⟩

set_option maxRecDepth 100000 in
theorem C19_start_low_capture_witness :
    rx_start_low.cec_state = CEC_STATE_FOLLOWER_START_LOW ∧
    cec_event_cap { gpio_get_level := 1, cec_tmr_cap_get := 3400 } rx_start_low
      = ({ rx_start_low with
            cec_state := CEC_STATE_FOLLOWER_START_HIGH,
            cec_rx := { rx_start_low.cec_rx with low_ticks := 3400, debounce_count := 0 } },
         [cec_tmr_cap_start CEC_CAP_EDGE_FALLING CAP_START_HIGH_TICKS]) :=
  ⟨by decide,
   (C19_start_low_capture rx_start_low { gpio_get_level := 1, cec_tmr_cap_get := 3400 }
      (by decide)).1 ⟨by decide, by decide⟩⟩

/-- C20 (amended): a falling edge captured while a transmit waits in
`CEC_STATE_INITIATOR_FREE_TIME` switches the engine to
`CEC_STATE_FOLLOWER_START_LOW`; `cec_tx.len`, the message bytes, the resend
count and the ACK flag are unchanged, the transmit cursor is reset and the
present-initiator flag is cleared.  Captures, and deadline expiries outside the
initiator states, keep the pending frame, and with `cec_tx.len > 0` every entry
into Idle ends in `CEC_STATE_INITIATOR_FREE_TIME`. -/
theorem C20_collision_defers_pending_frame (g : cec_globals) (hw : hw_inputs)
    (hs : g.cec_state = CEC_STATE_INITIATOR_FREE_TIME) :
    cec_event_cap hw g
      = ({ g with
            cec_state := CEC_STATE_FOLLOWER_START_LOW,
            cec_tx := { g.cec_tx with
              transfer := { g.cec_tx.transfer with bit := 0, byte := 0 },
              present_initiator := 0 } },
         [cec_tmr_cap_start CEC_CAP_EDGE_RISING CAP_START_LOW_TICKS]) ∧
    (cec_event_cap hw g).1.cec_tx.len = g.cec_tx.len ∧
    (cec_event_cap hw g).1.cec_tx.transfer.buf = g.cec_tx.transfer.buf ∧
    (cec_event_cap hw g).1.cec_tx.resends = g.cec_tx.resends ∧
    (∀ (g1 : cec_globals) (hw1 : hw_inputs),
      (cec_event_cap hw1 g1).1.cec_tx.len = g1.cec_tx.len ∧
      (cec_event_cap hw1 g1).1.cec_tx.resends = g1.cec_tx.resends ∧
      (cec_event_cap hw1 g1).1.cec_tx.transfer.buf = g1.cec_tx.transfer.buf) ∧
    (∀ (g1 : cec_globals) (hw1 : hw_inputs), is_initiator g1.cec_state = false →
      (cec_event_timeout hw1 g1).1.cec_tx.len = g1.cec_tx.len ∧
      (cec_event_timeout hw1 g1).1.cec_tx.resends = g1.cec_tx.resends ∧
      (cec_event_timeout hw1 g1).1.cec_tx.transfer.buf = g1.cec_tx.transfer.buf) ∧
    (∀ (g1 : cec_globals) (hw1 : hw_inputs), g1.cec_tx.len > 0 →
      (enter_state hw1 CEC_STATE_IDLE g1).1.cec_state = CEC_STATE_INITIATOR_FREE_TIME ∧
      (enter_state hw1 CEC_STATE_IDLE g1).1.cec_tx.len = g1.cec_tx.len ∧
      (enter_state hw1 CEC_STATE_IDLE g1).1.cec_tx.resends = g1.cec_tx.resends ∧
      (enter_state hw1 CEC_STATE_IDLE g1).1.cec_tx.transfer.buf = g1.cec_tx.transfer.buf) := by
  have e : cec_event_cap hw g
      = ({ g with
            cec_state := CEC_STATE_FOLLOWER_START_LOW,
            cec_tx := { g.cec_tx with
              transfer := { g.cec_tx.transfer with bit := 0, byte := 0 },
              present_initiator := 0 } },
         [cec_tmr_cap_start CEC_CAP_EDGE_RISING CAP_START_LOW_TICKS]) := by
    simp [cec_event_cap, hs, enter_state, enter_state_with, enter_state_switch,
      CAP_START_LOW_TICKS, START_BIT_MAX_LOW_TICKS, VALID_TOLERANCE_TICKS, CEC_US_TO_TICKS]
  refine ⟨e, ?_, ?_, ?_, fun g1 hw1 => cap_keeps_frame hw1 g1, ?_, ?_⟩
  · rw [e]
  · rw [e]
  · rw [e]
  · intro g1 hw1 h1
    exact follower_timeout_keeps_frame hw1 g1 h1
  · intro g1 hw1 h1
    rw [enter_idle_spec]
    exact ⟨if_pos h1, rfl, rfl, rfl⟩

set_option maxRecDepth 100000 in
theorem C20_collision_defers_pending_frame_witness :
    tx_pending_start.cec_state = CEC_STATE_INITIATOR_FREE_TIME ∧
    (cec_event_cap hw_low tx_pending_start).1.cec_tx.len = tx_pending_start.cec_tx.len ∧
    tx_pending_start.cec_tx.len = 2 :=
  ⟨by decide, (C20_collision_defers_pending_frame tx_pending_start hw_low (by decide)).2.1,
   by decide⟩

set_option maxRecDepth 100000 in
/-- C20, counterexample to "only the transmit cursor is reset": after one
attempt answered with NAK the engine waits in `CEC_STATE_INITIATOR_FREE_TIME`
with the present-initiator flag set and the cursor already at 0; the captured
falling edge clears the flag. -/
theorem C20_present_initiator_is_cleared :
    tx_waiting_resend.cec_state = CEC_STATE_INITIATOR_FREE_TIME ∧
    tx_waiting_resend.cec_tx.len = 2 ∧
    tx_waiting_resend.cec_tx.present_initiator = 1 ∧
    (cec_event_cap hw_low tx_waiting_resend).1.cec_tx.present_initiator = 0 ∧
    (cec_event_cap hw_low tx_waiting_resend).1.cec_tx
      ≠ { tx_waiting_resend.cec_tx with
            transfer := { tx_waiting_resend.cec_tx.transfer with bit := 0, byte := 0 } } := by
  decide

/-! ## Debounce -/

theorem enter_state_debounce_le (hw : hw_inputs) (s : cec_state) (g : cec_globals)
    (h : g.cec_rx.debounce_count ≤ 3) :
    (enter_state hw s g).1.cec_rx.debounce_count ≤ 3 := by
  rw [enter_state_fst]
  cases s
  case CEC_STATE_IDLE =>
    simp only [enter_state_switch]
    split_ifs <;> exact h
  case CEC_STATE_FOLLOWER_ACK_FINISH =>
    simp only [enter_state_switch]
    split_ifs <;> exact h
  case CEC_STATE_FOLLOWER_DEBOUNCE =>
    simp only [enter_state_switch, DEBOUNCE_CUTOFF]
    split_ifs with h3
    · exact h
    · show g.cec_rx.debounce_count + 1 ≤ 3
      omega
  case CEC_STATE_DISABLED => exact (by decide : (0 : Int) ≤ 3)
  case CEC_STATE_FOLLOWER_START_HIGH => exact (by decide : (0 : Int) ≤ 3)
  all_goals exact h

set_option maxHeartbeats 1000000 in
theorem cec_event_timeout_debounce_le (hw : hw_inputs) (g : cec_globals)
    (h : g.cec_rx.debounce_count ≤ 3) :
    (cec_event_timeout hw g).1.cec_rx.debounce_count ≤ 3 := by
  cases hst : g.cec_state <;> simp only [cec_event_timeout, hst] <;>
    first
    | (apply enter_state_debounce_le; exact h)
    | (split_ifs <;> (apply enter_state_debounce_le; exact h))
    | exact h

set_option maxHeartbeats 1000000 in
theorem cec_event_cap_debounce_le (hw : hw_inputs) (g : cec_globals)
    (h : g.cec_rx.debounce_count ≤ 3) :
    (cec_event_cap hw g).1.cec_rx.debounce_count ≤ 3 := by
  cases hst : g.cec_state <;> simp only [cec_event_cap, hst, cec_state_succ, rx_inc_bit] <;>
    first
    | (apply enter_state_debounce_le; exact h)
    | (split_ifs <;> (apply enter_state_debounce_le; exact h))
    | exact h

theorem engine_step_debounce_le (g : cec_globals) (i : engine_input)
    (h : g.cec_rx.debounce_count ≤ 3) :
    (engine_step g i).1.cec_rx.debounce_count ≤ 3 := by
  cases i with
  | cap hw => exact cec_event_cap_debounce_le hw g h
  | timeout hw => exact cec_event_timeout_debounce_le hw g h
  | submit hw msg sz =>
    simp only [engine_step, hc_cec_write, cec_send, cec_event_tx]
    split_ifs <;> first | (apply enter_state_debounce_le; exact h) | exact h

theorem engine_run_debounce_le (ins : List engine_input) :
    ∀ g : cec_globals, g.cec_rx.debounce_count ≤ 3 →
      (engine_run g ins).1.cec_rx.debounce_count ≤ 3 := by
  induction ins with
  | nil => intro g h; exact h
  | cons i ins ih =>
    intro g h
    exact ih _ (engine_step_debounce_le g i h)

/-- One glitch from Idle or from the free-time wait: the rising edge after less
than 200 ticks enters the debounce state, which arms the short quiet period and
counts the glitch while the count is below the cutoff and the long period
otherwise; the expiry of the quiet period leads back to Idle or free time. -/
theorem glitch_spec (g : cec_globals) (a b c : hw_inputs)
    (hs : g.cec_state = CEC_STATE_IDLE ∨ g.cec_state = CEC_STATE_INITIATOR_FREE_TIME)
    (hb : b.cec_tmr_cap_get < 200) :
    (cec_event_cap a g).1.cec_state = CEC_STATE_FOLLOWER_START_LOW ∧
    (cec_event_cap a g).1.cec_rx.debounce_count = g.cec_rx.debounce_count ∧
    (cec_event_cap b (cec_event_cap a g).1).1.cec_state = CEC_STATE_FOLLOWER_DEBOUNCE ∧
    (cec_event_cap b (cec_event_cap a g).1).2
      = [cec_tmr_cap_start CEC_CAP_EDGE_NONE
          (if g.cec_rx.debounce_count ≥ 3 then DEBOUNCE_WAIT_LONG_TICKS
           else DEBOUNCE_WAIT_SHORT_TICKS)] ∧
    (cec_event_cap b (cec_event_cap a g).1).1.cec_rx.debounce_count
      = (if g.cec_rx.debounce_count ≥ 3 then g.cec_rx.debounce_count
         else g.cec_rx.debounce_count + 1) ∧
    ((cec_event_timeout c (cec_event_cap b (cec_event_cap a g).1).1).1.cec_state
        = CEC_STATE_IDLE ∨
      (cec_event_timeout c (cec_event_cap b (cec_event_cap a g).1).1).1.cec_state
        = CEC_STATE_INITIATOR_FREE_TIME) ∧
    (cec_event_timeout c (cec_event_cap b (cec_event_cap a g).1).1).1.cec_rx.debounce_count
      = (cec_event_cap b (cec_event_cap a g).1).1.cec_rx.debounce_count := by
  have hv : VALID_LOW .START_BIT b.cec_tmr_cap_get = false := by
    simp [VALID_LOW, MIN_LOW_TICKS, MAX_LOW_TICKS, START_BIT_MIN_LOW_TICKS,
      START_BIT_MAX_LOW_TICKS, VALID_TOLERANCE_TICKS, CEC_US_TO_TICKS]
    omega
  have hl : b.cec_tmr_cap_get < DEBOUNCE_LIMIT_TICKS := hb
  have e1 : ∃ g1, cec_event_cap a g = (g1, [cec_tmr_cap_start CEC_CAP_EDGE_RISING
      CAP_START_LOW_TICKS]) ∧ g1.cec_state = CEC_STATE_FOLLOWER_START_LOW ∧
      g1.cec_rx = g.cec_rx ∧ g1.cec_tx.len = g.cec_tx.len := by
    rcases hs with hs | hs <;>
      simp [cec_event_cap, hs, enter_state, enter_state_with, enter_state_switch,
        CAP_START_LOW_TICKS, START_BIT_MAX_LOW_TICKS, VALID_TOLERANCE_TICKS, CEC_US_TO_TICKS]
  obtain ⟨g1, e1, hs1, hrx1, -⟩ := e1
  rw [e1]
  dsimp only
  have e2 : cec_event_cap b g1 = enter_state b CEC_STATE_FOLLOWER_DEBOUNCE g1 := by
    simp [cec_event_cap, hs1, hv, hl]
  rw [e2]
  have e3 : enter_state b CEC_STATE_FOLLOWER_DEBOUNCE g1
      = ({ g1 with
            cec_state := CEC_STATE_FOLLOWER_DEBOUNCE,
            cec_rx := { g1.cec_rx with
              debounce_count := if g1.cec_rx.debounce_count ≥ 3 then g1.cec_rx.debounce_count
                else g1.cec_rx.debounce_count + 1 } },
         [cec_tmr_cap_start CEC_CAP_EDGE_NONE
            (if g1.cec_rx.debounce_count ≥ 3 then DEBOUNCE_WAIT_LONG_TICKS
             else DEBOUNCE_WAIT_SHORT_TICKS)]) := by
    by_cases h3 : g1.cec_rx.debounce_count ≥ 3
    · simp [enter_state, enter_state_with, enter_state_switch, DEBOUNCE_CUTOFF, h3,
        DEBOUNCE_WAIT_LONG_TICKS, CEC_US_TO_TICKS]
    · simp [enter_state, enter_state_with, enter_state_switch, DEBOUNCE_CUTOFF, h3,
        DEBOUNCE_WAIT_SHORT_TICKS, CEC_US_TO_TICKS]
  rw [e3]
  dsimp only
  have e4 : ∀ g2 : cec_globals, g2.cec_state = CEC_STATE_FOLLOWER_DEBOUNCE →
      cec_event_timeout c g2 = enter_state c CEC_STATE_IDLE g2 := by
    intro g2 h2
    simp [cec_event_timeout, h2]
  rw [e4 _ rfl, enter_idle_spec, hrx1]
  refine ⟨hs1, rfl, rfl, rfl, rfl, ?_, rfl⟩
  dsimp only
  split_ifs
  · exact Or.inr rfl
  · exact Or.inl rfl

/-- After a run of glitches that starts with count `k <= 3` the engine is in
Idle or free time again and has counted them up to the cutoff. -/
theorem glitches_run (ps : List (hw_inputs × hw_inputs × hw_inputs)) :
    ∀ (g : cec_globals) (k : Nat),
      (g.cec_state = CEC_STATE_IDLE ∨ g.cec_state = CEC_STATE_INITIATOR_FREE_TIME) →
      g.cec_rx.debounce_count = (k : Int) → k ≤ 3 →
      (∀ p ∈ ps, p.2.1.cec_tmr_cap_get < 200) →
      ((engine_run g (glitches ps)).1.cec_state = CEC_STATE_IDLE ∨
        (engine_run g (glitches ps)).1.cec_state = CEC_STATE_INITIATOR_FREE_TIME) ∧
      (engine_run g (glitches ps)).1.cec_rx.debounce_count
        = ((min (k + ps.length) 3 : Nat) : Int) := by
  induction ps with
  | nil =>
    intro g k hs hc hk _
    refine ⟨hs, ?_⟩
    show g.cec_rx.debounce_count = _
    rw [hc, List.length_nil, Nat.add_zero, Nat.min_eq_left hk]
  | cons p ps ih =>
    intro g k hs hc hk hps
    obtain ⟨-, -, -, -, h5, h6, h7⟩ :=
      glitch_spec g p.1 p.2.1 p.2.2 hs (hps p (List.mem_cons_self _ _))
    have hrun : engine_run g (glitches (p :: ps))
        = ((engine_run (cec_event_timeout p.2.2
              (cec_event_cap p.2.1 (cec_event_cap p.1 g).1).1).1 (glitches ps)).1,
           (cec_event_cap p.1 g).2 ++ ((cec_event_cap p.2.1 (cec_event_cap p.1 g).1).2 ++
             ((cec_event_timeout p.2.2 (cec_event_cap p.2.1 (cec_event_cap p.1 g).1).1).2 ++
              (engine_run (cec_event_timeout p.2.2
                (cec_event_cap p.2.1 (cec_event_cap p.1 g).1).1).1 (glitches ps)).2))) := rfl
    rw [hrun]
    have hcount : (cec_event_timeout p.2.2
        (cec_event_cap p.2.1 (cec_event_cap p.1 g).1).1).1.cec_rx.debounce_count
        = ((min (k + 1) 3 : Nat) : Int) := by
      rw [h7, h5, hc]
      by_cases h3 : k = 3
      · subst h3; rfl
      · have hlt : ¬ ((k : Int) ≥ 3) := by omega
        rw [if_neg hlt, Nat.min_eq_left (by omega)]
        push_cast
        rfl
    have := ih _ (min (k + 1) 3) h6 hcount (Nat.min_le_right _ _)
      (fun q hq => hps q (List.mem_cons_of_mem _ hq))
    refine ⟨this.1, ?_⟩
    rw [this.2, List.length_cons]
    congr 1
    omega

/-- C18: starting with debounce count 0, in every run of start pulses shorter
than 200 us the first three entries into `CEC_STATE_FOLLOWER_DEBOUNCE` each arm
the 100 us quiet period and the fourth and every later entry arm the 500 us
one; the debounce count never exceeds 3, whatever callbacks follow. -/
theorem C18_debounce_quiet_periods (g : cec_globals)
    (ps : List (hw_inputs × hw_inputs × hw_inputs)) (a b : hw_inputs)
    (hs : g.cec_state = CEC_STATE_IDLE ∨ g.cec_state = CEC_STATE_INITIATOR_FREE_TIME)
    (hc : g.cec_rx.debounce_count = 0)
    (hps : ∀ p ∈ ps, p.2.1.cec_tmr_cap_get < CEC_US_TO_TICKS 200)
    (hb : b.cec_tmr_cap_get < CEC_US_TO_TICKS 200) :
    (engine_run g (glitches ps ++ [.cap a, .cap b])).1.cec_state
      = CEC_STATE_FOLLOWER_DEBOUNCE ∧
    (engine_step (engine_run g (glitches ps ++ [.cap a])).1 (.cap b)).2
      = [cec_tmr_cap_start CEC_CAP_EDGE_NONE
          (if ps.length < 3 then CEC_US_TO_TICKS 100 else CEC_US_TO_TICKS 500)] ∧
    (engine_run g (glitches ps ++ [.cap a, .cap b])).1.cec_rx.debounce_count
      = ((min (ps.length + 1) 3 : Nat) : Int) ∧
    (∀ ins : List engine_input, (engine_run g ins).1.cec_rx.debounce_count ≤ 3) := by
  obtain ⟨h1, h2⟩ := glitches_run ps g 0 hs hc (by omega) hps
  rw [Nat.zero_add] at h2
  obtain ⟨-, -, k3, k4, k5, -, -⟩ :=
    glitch_spec (engine_run g (glitches ps)).1 a b hw_high h1 hb
  have r1 : (engine_run g (glitches ps ++ [.cap a])).1
      = (cec_event_cap a (engine_run g (glitches ps)).1).1 := by
    rw [engine_run_append]; rfl
  have r2 : (engine_run g (glitches ps ++ [.cap a, .cap b])).1
      = (cec_event_cap b (cec_event_cap a (engine_run g (glitches ps)).1).1).1 := by
    rw [engine_run_append]; rfl
  rw [r1, r2]
  refine ⟨k3, ?_, ?_, ?_⟩
  · show (cec_event_cap b (cec_event_cap a (engine_run g (glitches ps)).1).1).2 = _
    rw [k4, h2]
    by_cases h3 : ps.length < 3
    · have e : ¬ (((min ps.length 3 : Nat) : Int) ≥ 3) := by omega
      rw [if_neg e, if_pos h3]; rfl
    · have e : (((min ps.length 3 : Nat) : Int) ≥ 3) := by omega
      rw [if_pos e, if_neg h3]; rfl
  · rw [k5, h2]
    by_cases h3 : ps.length < 3
    · have e : ¬ (((min ps.length 3 : Nat) : Int) ≥ 3) := by omega
      rw [if_neg e]; omega
    · have e : (((min ps.length 3 : Nat) : Int) ≥ 3) := by omega
      rw [if_pos e]; omega
  · intro ins
    exact engine_run_debounce_le ins g (by rw [hc]; decide)

set_option maxRecDepth 100000 in
theorem C18_debounce_quiet_periods_witness :
    (engine_enabled 20 4 hw_high).cec_state = CEC_STATE_IDLE ∧
    (engine_step (engine_run (engine_enabled 20 4 hw_high)
        (glitches C18_glitches ++ [.cap hw_low])).1
        (.cap { gpio_get_level := 1, cec_tmr_cap_get := 50 })).2
      = [cec_tmr_cap_start CEC_CAP_EDGE_NONE
          (if C18_glitches.length < 3 then CEC_US_TO_TICKS 100 else CEC_US_TO_TICKS 500)] ∧
    (if C18_glitches.length < 3 then CEC_US_TO_TICKS 100 else CEC_US_TO_TICKS 500) = 500 :=
  ⟨by decide,
   (C18_debounce_quiet_periods (engine_enabled 20 4 hw_high) C18_glitches hw_low
      { gpio_get_level := 1, cec_tmr_cap_get := 50 } (Or.inl (by decide)) (by decide)
      (by decide) (by decide)).2.1,
   by decide⟩

/-! ## Round trip -/

theorem flag_eq_two_pow (k : Nat) (hk : k < 8) : 0x80 >>> k = 2 ^ (7 - k) := by
  interval_cases k <;> rfl

theorem and_flag_ne_zero (B k : Nat) (hk : k < 8) :
    decide (B &&& (0x80 >>> k) ≠ 0) = B.testBit (7 - k) := by
  rw [flag_eq_two_pow k hk, Nat.and_two_pow]
  cases B.testBit (7 - k) <;> simp

theorem mask_testBit (k i : Nat) (hk : k < 8) :
    (255 - (0x80 >>> k) % 256).testBit i = (decide (i < 8) && decide (i ≠ 7 - k)) := by
  by_cases hi : i < 8
  · interval_cases k <;> interval_cases i <;> decide
  · have h256 : 255 - (0x80 >>> k) % 256 < 2 ^ i :=
      calc 255 - (0x80 >>> k) % 256 < 2 ^ 8 := by omega
        _ ≤ 2 ^ i := Nat.pow_le_pow_right (by decide) (by omega)
    rw [Nat.testBit_lt_two_pow h256]
    simp [hi]

theorem put_bit_testBit (B0 k v i : Nat) (hk : k < 8) :
    (put_bit B0 k v).testBit i
      = if i = 7 - k then decide (v ≠ 0) else (decide (i < 8) && B0.testBit i) := by
  have hf : (0x80 >>> k) % 256 = 2 ^ (7 - k) := by
    rw [flag_eq_two_pow k hk]
    interval_cases k <;> rfl
  unfold put_bit
  by_cases hv : v ≠ 0
  · rw [if_pos hv, Nat.testBit_or, Nat.testBit_and, mask_testBit k i hk, hf,
      Nat.testBit_two_pow]
    by_cases hi : i = 7 - k
    · simp [hi, hv]
    · have hi2 : ¬ 7 - k = i := fun h => hi h.symm
      simp [hi, hi2, Bool.and_comm]
  · rw [if_neg hv, Nat.testBit_and, mask_testBit k i hk]
    by_cases hi : i = 7 - k
    · simp [hi, hv]
    · simp [hi, Bool.and_comm]

/-- Writing the eight bits of `B`, most significant first, over any byte gives
`B` as an 8-bit value. -/
theorem put_bits_eight (B0 B : Nat) :
    put_bit (put_bit (put_bit (put_bit (put_bit (put_bit (put_bit (put_bit B0
      0 (B &&& (0x80 >>> 0))) 1 (B &&& (0x80 >>> 1))) 2 (B &&& (0x80 >>> 2)))
      3 (B &&& (0x80 >>> 3))) 4 (B &&& (0x80 >>> 4))) 5 (B &&& (0x80 >>> 5)))
      6 (B &&& (0x80 >>> 6))) 7 (B &&& (0x80 >>> 7)) = B % 256 := by
  apply Nat.eq_of_testBit_eq
  intro i
  have e : (256 : Nat) = 2 ^ 8 := rfl
  rw [e, Nat.testBit_mod_two_pow]
  simp only [put_bit_testBit _ _ _ _ (by decide : 0 < 8), put_bit_testBit _ _ _ _ (by decide : 1 < 8),
    put_bit_testBit _ _ _ _ (by decide : 2 < 8), put_bit_testBit _ _ _ _ (by decide : 3 < 8),
    put_bit_testBit _ _ _ _ (by decide : 4 < 8), put_bit_testBit _ _ _ _ (by decide : 5 < 8),
    put_bit_testBit _ _ _ _ (by decide : 6 < 8), put_bit_testBit _ _ _ _ (by decide : 7 < 8),
    and_flag_ne_zero _ _ (by decide : 0 < 8), and_flag_ne_zero _ _ (by decide : 1 < 8),
    and_flag_ne_zero _ _ (by decide : 2 < 8), and_flag_ne_zero _ _ (by decide : 3 < 8),
    and_flag_ne_zero _ _ (by decide : 4 < 8), and_flag_ne_zero _ _ (by decide : 5 < 8),
    and_flag_ne_zero _ _ (by decide : 6 < 8), and_flag_ne_zero _ _ (by decide : 7 < 8)]
  by_cases hi : i < 8
  · interval_cases i <;> simp
  · have h0 : ¬ i = 0 := by omega
    have h1 : ¬ i = 1 := by omega
    have h2 : ¬ i = 2 := by omega
    have h3 : ¬ i = 3 := by omega
    have h4 : ¬ i = 4 := by omega
    have h5 : ¬ i = 5 := by omega
    have h6 : ¬ i = 6 := by omega
    have h7 : ¬ i = 7 := by omega
    simp [hi, h0, h1, h2, h3, h4, h5, h6, h7]

theorem data_bit_period (x : Nat) : DATA_LOW x + DATA_HIGH x = 2400 := by
  unfold DATA_LOW DATA_HIGH
  split_ifs <;> decide

theorem set_bit_congr (tr : cec_msg_transfer) (x : Nat) :
    cec_transfer_set_bit tr (if x = 0 then 0 else 1) = cec_transfer_set_bit tr x := by
  unfold cec_transfer_set_bit
  by_cases hx : x = 0 <;> simp [hx]

/-- The two captures of a data bit sent with the nominal durations of the bit
value `x`: the value is written at the cursor and the cursor moves on. -/
theorem follower_bit (h : hw_inputs) (g : cec_globals) (x : Nat)
    (hs : g.cec_state = CEC_STATE_FOLLOWER_HEADER_INIT_LOW ∨
          g.cec_state = CEC_STATE_FOLLOWER_HEADER_DEST_LOW ∨
          g.cec_state = CEC_STATE_FOLLOWER_DATA_LOW) :
    (engine_run g [measured h (DATA_LOW x), measured h (DATA_HIGH x)]).1
      = { g with
          cec_state := follower_next_low (cec_state_succ g.cec_state)
            (cec_transfer_inc_bit (cec_transfer_set_bit g.cec_rx.transfer x)).bit,
          cec_rx := { g.cec_rx with
            low_ticks := DATA_LOW x,
            transfer := cec_transfer_inc_bit (cec_transfer_set_bit g.cec_rx.transfer x) } } := by
  have hv : ((if x = 0 then 0 else 1) = 0 ∧ VALID_LOW .DATA_ZERO (DATA_LOW x) = true) ∨
      ((if x = 0 then 0 else 1) = 1 ∧ VALID_LOW .DATA_ZERO (DATA_LOW x) = false ∧
        VALID_LOW .DATA_ONE (DATA_LOW x) = true) := by
    by_cases hx : x = 0
    · left
      refine ⟨by simp [hx], valid_low_zero _ ?_ ?_⟩ <;> simp [DATA_LOW, hx] <;> decide
    · right
      refine ⟨by simp [hx], valid_low_one _ ?_ ?_⟩ <;> simp [DATA_LOW, hx] <;> decide
  have hs1 : cec_state_succ g.cec_state = CEC_STATE_FOLLOWER_HEADER_INIT_HIGH ∨
      cec_state_succ g.cec_state = CEC_STATE_FOLLOWER_HEADER_DEST_HIGH ∨
      cec_state_succ g.cec_state = CEC_STATE_FOLLOWER_DATA_HIGH := by
    rcases hs with hs | hs | hs <;> simp [hs, cec_state_succ]
  have e1 := follower_low_cap { h with cec_tmr_cap_get := DATA_LOW x } g _ hs hv
  rw [set_bit_congr] at e1
  have e2 := follower_high_cap { h with cec_tmr_cap_get := DATA_HIGH x }
    { g with
      cec_state := cec_state_succ g.cec_state,
      cec_rx := { g.cec_rx with
        low_ticks := DATA_LOW x,
        transfer := cec_transfer_set_bit g.cec_rx.transfer x } } hs1
    (valid_data_high _ _ _ (by rw [data_bit_period]; decide)
      (by rw [data_bit_period]; decide))
  show (cec_event_cap _ (cec_event_cap _ g).1).1 = _
  rw [e1, e2]

theorem set_bit_cursor (tr : cec_msg_transfer) (x : Nat) :
    (cec_transfer_set_bit tr x).bit = tr.bit ∧ (cec_transfer_set_bit tr x).byte = tr.byte ∧
    (cec_transfer_set_bit tr x).buf.length = tr.buf.length := by
  by_cases hb : tr.byte < MAX_CEC_MSG_LEN
  · rw [set_bit_eq tr x hb]
    exact ⟨rfl, rfl, List.length_set _ _ _⟩
  · have hb2 : tr.byte ≥ MAX_CEC_MSG_LEN := by omega
    unfold cec_transfer_set_bit
    rw [if_pos hb2]
    exact ⟨rfl, rfl, rfl⟩

/-- The bits `xs` of one byte, received from bit position `k` on: the follower
arrives in the state that awaits bit `k + xs.length`, with the bits written. -/
theorem follower_bits_run (h : hw_inputs) (hdr : Bool) (b : Nat) (hb : b < 16)
    (xs : List Nat) :
    ∀ (g : cec_globals) (k : Nat), k + xs.length ≤ 8 →
      g.cec_state = follower_bit_state hdr k →
      g.cec_rx.transfer.bit = k % 8 → g.cec_rx.transfer.byte = b + k / 8 →
      (engine_run g (bit_caps h xs)).1
        = { g with
            cec_state := follower_bit_state hdr (k + xs.length),
            cec_rx := { g.cec_rx with
              low_ticks := last_low g.cec_rx.low_ticks xs,
              transfer := recv g.cec_rx.transfer xs } } := by
  induction xs with
  | nil =>
    intro g k _ hs _ _
    show g = _
    rw [List.length_nil, Nat.add_zero, ← hs]
    rfl
  | cons x xs ih =>
    intro g k hk hs hbit hbyte
    rw [List.length_cons] at hk
    have hk8 : k < 8 := by omega
    have hbit1 : g.cec_rx.transfer.bit = k := by rw [hbit]; omega
    have hbyte1 : g.cec_rx.transfer.byte = b := by rw [hbyte]; omega
    have hlow : g.cec_state = CEC_STATE_FOLLOWER_HEADER_INIT_LOW ∨
        g.cec_state = CEC_STATE_FOLLOWER_HEADER_DEST_LOW ∨
        g.cec_state = CEC_STATE_FOLLOWER_DATA_LOW := by
      rw [hs]
      unfold follower_bit_state
      have h8 : ¬ k = 8 := by omega
      rw [if_neg h8]
      cases hdr
      · right; right; rfl
      · by_cases h4 : k < 4
        · left; simp [h4]
        · right; left; simp [h4]
    obtain ⟨c1, c2, c3⟩ := set_bit_cursor g.cec_rx.transfer x
    obtain ⟨-, i2, i3⟩ := inc_bit_cursor (cec_transfer_set_bit g.cec_rx.transfer x)
      (by rw [c1, hbit1]; exact hk8) (by rw [c2, hbyte1]; exact hb)
    rw [c1, hbit1] at i2
    rw [c2, c1, hbit1, hbyte1] at i3
    have hnext : follower_next_low (cec_state_succ g.cec_state)
        (cec_transfer_inc_bit (cec_transfer_set_bit g.cec_rx.transfer x)).bit
        = follower_bit_state hdr (k + 1) := by
      rw [i2, hs]
      unfold follower_bit_state
      have h8 : ¬ k = 8 := by omega
      rw [if_neg h8]
      cases hdr
      · by_cases h7 : k = 7
        · subst h7; rfl
        · have e1 : ¬ (k + 1) % 8 = 0 := by omega
          have e2 : ¬ k + 1 = 8 := by omega
          simp [cec_state_succ, follower_next_low, e1, e2]
      · by_cases h4 : k < 4
        · by_cases h3 : k = 3
          · subst h3; rfl
          · have e1 : ¬ (k + 1) % 8 = 4 := by omega
            have e2 : ¬ k + 1 = 8 := by omega
            have e3 : k + 1 < 4 := by omega
            simp [cec_state_succ, follower_next_low, e1, e2, e3, h4]
        · by_cases h7 : k = 7
          · subst h7; rfl
          · have e1 : ¬ (k + 1) % 8 = 0 := by omega
            have e2 : ¬ k + 1 = 8 := by omega
            have e3 : ¬ k + 1 < 4 := by omega
            simp [cec_state_succ, follower_next_low, e1, e2, e3, h4]
    have hrun : (engine_run g (bit_caps h (x :: xs))).1
        = (engine_run (engine_run g [measured h (DATA_LOW x), measured h (DATA_HIGH x)]).1
            (bit_caps h xs)).1 := by
      show (engine_run g ([measured h (DATA_LOW x), measured h (DATA_HIGH x)]
        ++ bit_caps h xs)).1 = _
      rw [engine_run_append]
    rw [hrun, follower_bit h g x hlow, hnext]
    rw [ih _ (k + 1) (by omega) rfl (by show _ = (k + 1) % 8; rw [i2])
      (by show _ = b + (k + 1) / 8; rw [i3])]
    have e : k + 1 + xs.length = k + (xs.length + 1) := by omega
    rw [e]
    rfl

theorem recv_step (k b : Nat) (L : List Nat) (x : Nat) (hk : k < 8) (hb : b < 16)
    (hl : b < L.length) :
    cec_transfer_inc_bit (cec_transfer_set_bit { bit := k, byte := b, buf := L } x)
      = { bit := (k + 1) % 8, byte := b + (k + 1) / 8,
          buf := L.set b (put_bit (L.getD b 0) k x) } ∧
    (L.set b (put_bit (L.getD b 0) k x)).getD b 0 = put_bit (L.getD b 0) k x ∧
    b < (L.set b (put_bit (L.getD b 0) k x)).length := by
  have e := set_bit_eq { bit := k, byte := b, buf := L } x hb
  obtain ⟨i1, i2, i3⟩ := inc_bit_cursor (cec_transfer_set_bit { bit := k, byte := b, buf := L } x)
    (by rw [e]; exact hk) (by rw [e]; exact hb)
  rw [e] at i1 i2 i3
  refine ⟨?_, getD_set_eq _ _ _ _ hl, by rw [List.length_set]; exact hl⟩
  rw [e]
  generalize cec_transfer_inc_bit _ = r at i1 i2 i3
  cases r
  simp only at i1 i2 i3
  rw [i1, i2, i3]

/-- The eight bits of `B` received at the start of byte `b` store `B` as an
8-bit value in `buf[b]` and leave the cursor at the start of byte `b + 1`. -/
theorem recv_byte (tr : cec_msg_transfer) (b B : Nat) (hbit : tr.bit = 0)
    (hbyte : tr.byte = b) (hb : b < 16) (hl : b < tr.buf.length) :
    recv tr (byte_bits B) = { bit := 0, byte := b + 1, buf := tr.buf.set b (B % 256) } := by
  obtain ⟨k, c, L⟩ := tr
  simp only at hbit hbyte hl
  subst hbit hbyte
  obtain ⟨a0, g0, l0⟩ := recv_step 0 c L (B &&& (0x80 >>> 0)) (by decide) hb hl
  obtain ⟨a1, g1, l1⟩ := recv_step 1 c _ (B &&& (0x80 >>> 1)) (by decide) hb l0
  obtain ⟨a2, g2, l2⟩ := recv_step 2 c _ (B &&& (0x80 >>> 2)) (by decide) hb l1
  obtain ⟨a3, g3, l3⟩ := recv_step 3 c _ (B &&& (0x80 >>> 3)) (by decide) hb l2
  obtain ⟨a4, g4, l4⟩ := recv_step 4 c _ (B &&& (0x80 >>> 4)) (by decide) hb l3
  obtain ⟨a5, g5, l5⟩ := recv_step 5 c _ (B &&& (0x80 >>> 5)) (by decide) hb l4
  obtain ⟨a6, g6, l6⟩ := recv_step 6 c _ (B &&& (0x80 >>> 6)) (by decide) hb l5
  obtain ⟨a7, -, -⟩ := recv_step 7 c _ (B &&& (0x80 >>> 7)) (by decide) hb l6
  rw [g6, g5, g4, g3, g2, g1, g0] at a7
  rw [g5, g4, g3, g2, g1, g0] at a6
  rw [g4, g3, g2, g1, g0] at a5
  rw [g3, g2, g1, g0] at a4
  rw [g2, g1, g0] at a3
  rw [g1, g0] at a2
  rw [g0] at a1
  simp only [List.set_set, put_bits_eight] at a0 a1 a2 a3 a4 a5 a6 a7
  simp only [recv, byte_bits, List.foldl]
  rw [a0]
  simp only [Nat.zero_add, Nat.reduceMod, Nat.reduceDiv, Nat.add_zero, Nat.reduceAdd]
  rw [a1]
  simp only [Nat.zero_add, Nat.reduceMod, Nat.reduceDiv, Nat.add_zero, Nat.reduceAdd]
  rw [a2]
  simp only [Nat.zero_add, Nat.reduceMod, Nat.reduceDiv, Nat.add_zero, Nat.reduceAdd]
  rw [a3]
  simp only [Nat.zero_add, Nat.reduceMod, Nat.reduceDiv, Nat.add_zero, Nat.reduceAdd]
  rw [a4]
  simp only [Nat.zero_add, Nat.reduceMod, Nat.reduceDiv, Nat.add_zero, Nat.reduceAdd]
  rw [a5]
  simp only [Nat.zero_add, Nat.reduceMod, Nat.reduceDiv, Nat.add_zero, Nat.reduceAdd]
  rw [a6]
  simp only [Nat.zero_add, Nat.reduceMod, Nat.reduceDiv, Nat.add_zero, Nat.reduceAdd]
  rw [a7]
/-- The start bit with its nominal durations, seen from Idle: the follower
awaits the first header bit. -/
theorem follower_start (h : hw_inputs) (g : cec_globals)
    (hs : g.cec_state = CEC_STATE_IDLE) :
    (engine_run g [.cap h, measured h START_BIT_LOW_TICKS,
        measured h START_BIT_HIGH_TICKS]).1
      = { g with
          cec_state := CEC_STATE_FOLLOWER_HEADER_INIT_LOW,
          cec_tx := { g.cec_tx with present_initiator := 0 },
          cec_rx := { g.cec_rx with
            low_ticks := START_BIT_LOW_TICKS, debounce_count := 0 } } := by
  simp [engine_run, engine_step, measured, cec_event_cap, hs, enter_state, enter_state_with,
    enter_state_switch, VALID_LOW, VALID_HIGH, MIN_LOW_TICKS, MAX_LOW_TICKS,
    MIN_DURATION_TICKS, MAX_DURATION_TICKS, START_BIT_LOW_TICKS, START_BIT_HIGH_TICKS,
    START_BIT_MIN_LOW_TICKS, START_BIT_MAX_LOW_TICKS, START_BIT_MIN_DURATION_TICKS,
    START_BIT_MAX_DURATION_TICKS, VALID_TOLERANCE_TICKS, CEC_US_TO_TICKS]

theorem follower_eom_low (hw : hw_inputs) (g : cec_globals) (e : Nat)
    (hs : g.cec_state = CEC_STATE_FOLLOWER_EOM_LOW) (ht : hw.cec_tmr_cap_get = DATA_LOW e) :
    (cec_event_cap hw g).1
      = { g with
          cec_state := CEC_STATE_FOLLOWER_EOM_HIGH,
          cec_rx := { g.cec_rx with
            low_ticks := DATA_LOW e, eom := if e = 0 then 0 else 1 } } := by
  by_cases he : e = 0
  · have h0 : VALID_LOW .DATA_ZERO (DATA_LOW e) = true := by
      refine valid_low_zero _ ?_ ?_ <;> simp [DATA_LOW, he] <;> decide
    simp only [cec_event_cap, hs, ht, h0, if_true, enter_state_fst, enter_state_switch,
      if_pos he]
  · have h1 : VALID_LOW .DATA_ZERO (DATA_LOW e) = false ∧
        VALID_LOW .DATA_ONE (DATA_LOW e) = true := by
      refine valid_low_one _ ?_ ?_ <;> simp [DATA_LOW, he] <;> decide
    simp only [cec_event_cap, hs, ht, h1.1, h1.2, if_true, enter_state_fst,
      enter_state_switch, if_neg he]
    rfl

theorem follower_eom_high (hw : hw_inputs) (g : cec_globals) (e : Nat)
    (hs : g.cec_state = CEC_STATE_FOLLOWER_EOM_HIGH) (hl : g.cec_rx.low_ticks = DATA_LOW e)
    (ht : hw.cec_tmr_cap_get = DATA_HIGH e) :
    (cec_event_cap hw g).1 = { g with cec_state := CEC_STATE_FOLLOWER_ACK_LOW } := by
  have hvh : VALID_DATA_HIGH g.cec_rx.eom (DATA_LOW e) (DATA_HIGH e) = true :=
    valid_data_high _ _ _ (by rw [data_bit_period]; decide) (by rw [data_bit_period]; decide)
  simp only [cec_event_cap, hs, hl, ht, hvh, if_true, enter_state_fst, enter_state_switch]

theorem follower_ack_low (hw : hw_inputs) (g : cec_globals)
    (hs : g.cec_state = CEC_STATE_FOLLOWER_ACK_LOW)
    (hnak : ¬ (rx_dest g = CEC_BROADCAST_ADDR ∧ hw.gpio_get_level = 0)) :
    (cec_event_timeout hw g).1
      = { g with
          cec_state := CEC_STATE_FOLLOWER_ACK_VERIFY,
          cec_rx := { g.cec_rx with broadcast_nak := 0 } } := by
  have hnak2 : (if g.cec_rx.transfer.buf.getD 0 0 &&& 0x0f = CEC_BROADCAST_ADDR then
      c_not hw.gpio_get_level else 0) = 0 := by
    by_cases hd : g.cec_rx.transfer.buf.getD 0 0 &&& 0x0f = CEC_BROADCAST_ADDR
    · have hl : ¬ hw.gpio_get_level = 0 := fun hl => hnak ⟨hd, hl⟩
      rw [if_pos hd]
      simp [c_not, hl]
    · rw [if_neg hd]
  simp only [cec_event_timeout, hs, enter_state_fst, enter_state_switch, hnak2]

theorem follower_ack_verify (hw : hw_inputs) (g : cec_globals)
    (hs : g.cec_state = CEC_STATE_FOLLOWER_ACK_VERIFY) (hnak : g.cec_rx.broadcast_nak = 0) :
    (cec_event_timeout hw g).1 = { g with cec_state := CEC_STATE_FOLLOWER_ACK_FINISH } := by
  have hn : ¬ g.cec_rx.broadcast_nak ≠ 0 := by simp [hnak]
  simp only [cec_event_timeout, hs, if_neg hn, enter_state_fst, enter_state_switch]
  split_ifs <;> rfl

/-- The EOM bit with the nominal durations of the value `e` and the two
deadline expiries of the ACK bit, the line not reading as a refused broadcast:
the follower has stored the EOM flag and finishes the ACK bit. -/
theorem follower_eom_ack (h : hw_inputs) (g : cec_globals) (e : Nat)
    (hs : g.cec_state = CEC_STATE_FOLLOWER_EOM_LOW)
    (hnak : ¬ (rx_dest g = CEC_BROADCAST_ADDR ∧ h.gpio_get_level = 0)) :
    (engine_run g [measured h (DATA_LOW e), measured h (DATA_HIGH e),
        .timeout h, .timeout h]).1
      = { g with
          cec_state := CEC_STATE_FOLLOWER_ACK_FINISH,
          cec_rx := { g.cec_rx with
            low_ticks := DATA_LOW e, eom := if e = 0 then 0 else 1, broadcast_nak := 0 } } := by
  show (cec_event_timeout h (cec_event_timeout h
    (cec_event_cap { h with cec_tmr_cap_get := DATA_HIGH e }
      (cec_event_cap { h with cec_tmr_cap_get := DATA_LOW e } g).1).1).1).1 = _
  have e1 := follower_eom_low { h with cec_tmr_cap_get := DATA_LOW e } g e hs rfl
  have e2 := follower_eom_high { h with cec_tmr_cap_get := DATA_HIGH e }
    (cec_event_cap { h with cec_tmr_cap_get := DATA_LOW e } g).1 e
    (by rw [e1]) (by rw [e1]) rfl
  have e3 := follower_ack_low h
    (cec_event_cap { h with cec_tmr_cap_get := DATA_HIGH e }
      (cec_event_cap { h with cec_tmr_cap_get := DATA_LOW e } g).1).1
    (by rw [e2]) (by rw [e2, e1]; exact hnak)
  have e4 := follower_ack_verify h
    (cec_event_timeout h (cec_event_cap { h with cec_tmr_cap_get := DATA_HIGH e }
      (cec_event_cap { h with cec_tmr_cap_get := DATA_LOW e } g).1).1).1
    (by rw [e3]) (by rw [e3])
  rw [e4, e3, e2, e1]

/-- The falling edge that begins the next byte. -/
theorem follower_next_byte (h : hw_inputs) (g : cec_globals)
    (hs : g.cec_state = CEC_STATE_FOLLOWER_ACK_FINISH) :
    (engine_run g [.cap h]).1 = { g with cec_state := CEC_STATE_FOLLOWER_DATA_LOW } := by
  simp [engine_run, engine_step, cec_event_cap, hs, enter_state, enter_state_with,
    enter_state_switch]

theorem follower_byte_inputs_arms (h : hw_inputs) (B e : Nat) (rest : List Int) :
    follower_byte_inputs h (byte_arms B e ++ rest)
      = bit_caps h (byte_bits B)
        ++ [measured h (DATA_LOW e), measured h (DATA_HIGH e), .timeout h, .timeout h] := rfl

theorem byte_arms_drop (B e : Nat) (rest : List Int) :
    (byte_arms B e ++ rest).drop 21 = rest := rfl

/-- One byte as the follower sees it: the byte is stored as an 8-bit value, the
cursor moves to the next byte, the EOM flag is stored and the ACK bit is being
finished. -/
theorem follower_byte (h : hw_inputs) (g : cec_globals) (hdr : Bool) (b B e : Nat)
    (rest : List Int) (hb : b < 16)
    (hs : g.cec_state = follower_bit_state hdr 0)
    (hbit : g.cec_rx.transfer.bit = 0) (hbyte : g.cec_rx.transfer.byte = b)
    (hl : b < g.cec_rx.transfer.buf.length)
    (hnak : ¬ ((g.cec_rx.transfer.buf.set b (B % 256)).getD 0 0 &&& 0x0f = CEC_BROADCAST_ADDR ∧
      h.gpio_get_level = 0)) :
    (engine_run g (follower_byte_inputs h (byte_arms B e ++ rest))).1
      = { g with
          cec_state := CEC_STATE_FOLLOWER_ACK_FINISH,
          cec_rx := { g.cec_rx with
            low_ticks := DATA_LOW e, eom := if e = 0 then 0 else 1, broadcast_nak := 0,
            transfer := { bit := 0, byte := b + 1,
                          buf := g.cec_rx.transfer.buf.set b (B % 256) } } } := by
  rw [follower_byte_inputs_arms, engine_run_append]
  show (engine_run (engine_run g (bit_caps h (byte_bits B))).1 _).1 = _
  have e1 := follower_bits_run h hdr b hb (byte_bits B) g 0 (Nat.le_refl 8) hs
    (by rw [hbit]) (by rw [hbyte]; rfl)
  rw [recv_byte g.cec_rx.transfer b B hbit hbyte hb hl] at e1
  have e2 := follower_eom_ack h (engine_run g (bit_caps h (byte_bits B))).1 e
    (by rw [e1]; rfl) (by rw [e1]; exact hnak)
  rw [e2, e1]

theorem engine_run_append_fst (a b : List engine_input) (g : cec_globals) :
    (engine_run g (a ++ b)).1 = (engine_run (engine_run g a).1 b).1 := by
  rw [engine_run_append]

theorem follower_bit_state_data (b : Nat) (hb : b ≠ 0) :
    follower_bit_state (decide (b = 0)) 0 = CEC_STATE_FOLLOWER_DATA_LOW := by
  simp [follower_bit_state, hb]

/-- The bytes of a frame as the follower sees them, from byte `b` on: it ends
in the ACK bit of the last byte with the EOM flag set, the cursor after the last
byte and every byte of the frame in its buffer. -/
theorem follower_frame (buf : List Nat) (n : Nat) (hn : n ≤ 16) (hs : List hw_inputs) :
    ∀ (g : cec_globals) (b : Nat) (rest : List Int),
      hs ≠ [] → b + hs.length = n →
      g.cec_state = follower_bit_state (decide (b = 0)) 0 →
      g.cec_rx.transfer.bit = 0 → g.cec_rx.transfer.byte = b →
      g.cec_rx.transfer.buf.length = 16 →
      (∀ i, i < b → g.cec_rx.transfer.buf.getD i 0 = buf.getD i 0 % 256) →
      (∀ h ∈ hs, ¬ (buf.getD 0 0 % 256 &&& 0x0f = CEC_BROADCAST_ADDR ∧
        h.gpio_get_level = 0)) →
      (engine_run g (follower_frame_inputs hs
          (frame_arms buf n b hs.length ++ rest))).1.cec_state
        = CEC_STATE_FOLLOWER_ACK_FINISH ∧
      (engine_run g (follower_frame_inputs hs
          (frame_arms buf n b hs.length ++ rest))).1.cec_rx.transfer.bit = 0 ∧
      (engine_run g (follower_frame_inputs hs
          (frame_arms buf n b hs.length ++ rest))).1.cec_rx.transfer.byte = n ∧
      (engine_run g (follower_frame_inputs hs
          (frame_arms buf n b hs.length ++ rest))).1.cec_rx.eom = 1 ∧
      (∀ i, i < n → (engine_run g (follower_frame_inputs hs
          (frame_arms buf n b hs.length ++ rest))).1.cec_rx.transfer.buf.getD i 0
        = buf.getD i 0 % 256) ∧
      (engine_run g (follower_frame_inputs hs
          (frame_arms buf n b hs.length ++ rest))).1.cec_addr = g.cec_addr := by
  induction hs with
  | nil => intro g b rest hne; exact absurd rfl hne
  | cons h t ih =>
    intro g b rest _ hlen hst hbit hbyte hbl hpre hlvl
    rw [List.length_cons] at hlen
    have hb : b < 16 := by omega
    have hl : b < g.cec_rx.transfer.buf.length := by rw [hbl]; exact hb
    have hdest : (g.cec_rx.transfer.buf.set b (buf.getD b 0 % 256)).getD 0 0
        = buf.getD 0 0 % 256 := by
      by_cases h0 : b = 0
      · subst h0
        rw [getD_set_eq _ _ _ _ hl]
      · rw [getD_set_ne _ _ _ _ _ h0]
        exact hpre 0 (by omega)
    have hnak : ¬ ((g.cec_rx.transfer.buf.set b (buf.getD b 0 % 256)).getD 0 0 &&& 0x0f
        = CEC_BROADCAST_ADDR ∧ h.gpio_get_level = 0) := by
      rw [hdest]
      exact hlvl h (List.mem_cons_self _ _)
    have hnew : ∀ i, i < b + 1 →
        (g.cec_rx.transfer.buf.set b (buf.getD b 0 % 256)).getD i 0 = buf.getD i 0 % 256 := by
      intro i hi
      by_cases hib : b = i
      · subst hib
        rw [getD_set_eq _ _ _ _ hl]
      · rw [getD_set_ne _ _ _ _ _ hib]
        exact hpre i (by omega)
    cases t with
    | nil =>
      simp only [List.length_nil, Nat.zero_add] at hlen
      have earms : frame_arms buf n b [h].length ++ rest
          = byte_arms (buf.getD b 0) (if b + 1 = n then 1 else 0) ++ rest := rfl
      have ein : follower_frame_inputs [h]
          (byte_arms (buf.getD b 0) (if b + 1 = n then 1 else 0) ++ rest)
          = follower_byte_inputs h
            (byte_arms (buf.getD b 0) (if b + 1 = n then 1 else 0) ++ rest) := rfl
      rw [earms, ein, follower_byte h g _ b _ _ rest hb hst hbit hbyte hl hnak]
      refine ⟨rfl, rfl, hlen, ?_, ?_, rfl⟩
      · show (if (if b + 1 = n then 1 else 0) = 0 then 0 else 1) = 1
        simp [hlen]
      · intro i hi
        exact hnew i (by omega)
    | cons h2 t2 =>
      simp only [List.length_cons] at hlen
      have earms : frame_arms buf n b (h :: h2 :: t2).length ++ rest
          = byte_arms (buf.getD b 0) (if b + 1 = n then 1 else 0)
            ++ (frame_arms buf n (b + 1) (h2 :: t2).length ++ rest) := by
        show (byte_arms _ _ ++ frame_arms buf n (b + 1) (t2.length + 1)) ++ rest = _
        rw [List.append_assoc]
        rfl
      have ein : ∀ d, follower_frame_inputs (h :: h2 :: t2) d
          = follower_byte_inputs h d
            ++ ([.cap h2] ++ follower_frame_inputs (h2 :: t2) (d.drop 21)) := by
        intro d
        rw [follower_frame_inputs, List.append_assoc]
      rw [earms, ein, byte_arms_drop, engine_run_append_fst, engine_run_append_fst]
      have e1 := follower_byte h g (decide (b = 0)) b (buf.getD b 0)
        (if b + 1 = n then 1 else 0) (frame_arms buf n (b + 1) (h2 :: t2).length ++ rest)
        hb hst hbit hbyte hl hnak
      have e2 := follower_next_byte h2
        (engine_run g (follower_byte_inputs h
          (byte_arms (buf.getD b 0) (if b + 1 = n then 1 else 0)
            ++ (frame_arms buf n (b + 1) (h2 :: t2).length ++ rest)))).1
        (by rw [e1])
      have hih := ih
        (engine_run (engine_run g (follower_byte_inputs h
          (byte_arms (buf.getD b 0) (if b + 1 = n then 1 else 0)
            ++ (frame_arms buf n (b + 1) (h2 :: t2).length ++ rest)))).1 [.cap h2]).1
        (b + 1) rest (List.cons_ne_nil _ _) (by simp only [List.length_cons]; omega)
        (by rw [e2, follower_bit_state_data (b + 1) (by omega)])
        (by rw [e2, e1]) (by rw [e2, e1]) (by rw [e2, e1]; simp [hbl])
        (by rw [e2, e1]; exact hnew)
        (fun x hx => hlvl x (List.mem_cons_of_mem _ hx))
      have eaddr : (engine_run (engine_run g (follower_byte_inputs h
          (byte_arms (buf.getD b 0) (if b + 1 = n then 1 else 0)
            ++ (frame_arms buf n (b + 1) (h2 :: t2).length ++ rest)))).1 [.cap h2]).1.cec_addr
          = g.cec_addr := by
        rw [e2, e1]
      rw [eaddr] at hih
      exact hih

theorem timer_arms_append (a b : List Effect) :
    timer_arms (a ++ b) = timer_arms a ++ timer_arms b := by
  induction a with
  | nil => rfl
  | cons x a ih => cases x <;> simp [timer_arms, ih]

set_option maxHeartbeats 4000000 in
/-- The durations armed by the 23 deadline expiries from free time to the ACK
sample of the header byte: the start bit, then the header byte. -/
theorem header_arms (hw : hw_inputs) (g : cec_globals)
    (hs : g.cec_state = CEC_STATE_INITIATOR_FREE_TIME) :
    timer_arms (engine_run g (List.replicate 23 (.timeout hw))).2
      = [START_BIT_LOW_TICKS, START_BIT_HIGH_TICKS]
        ++ byte_arms (g.cec_tx.transfer.buf.getD 0 0) (if 0 + 1 = g.cec_tx.len then 1 else 0) := by
  simp [List.replicate, engine_run, engine_step, cec_event_timeout, hs, enter_state,
    enter_state_with, enter_state_switch, cec_transfer_inc_bit, cec_transfer_get_bit,
    cec_transfer_is_eom, MAX_CEC_MSG_LEN, timer_arms,
    DATA_LOW_nonneg, DATA_HIGH_nonneg, START_BIT_LOW_TICKS, START_BIT_HIGH_TICKS,
    CEC_US_TO_TICKS, DATA_ONE_LOW_TICKS, DATA_ZERO_LOW_TICKS, NOMINAL_BIT_TICKS,
    NOMINAL_SAMPLE_TIME_TICKS, timer_arms_append, byte_arms]

set_option maxHeartbeats 4000000 in
/-- The durations armed by the 21 deadline expiries from an acknowledged byte
that is not the last one to the ACK sample of the next byte `b`. -/
theorem data_byte_arms (hw : hw_inputs) (g : cec_globals) (b : Nat)
    (hs : g.cec_state = CEC_STATE_INITIATOR_ACK_VERIFY)
    (hbit : g.cec_tx.transfer.bit = 0) (hbyte : g.cec_tx.transfer.byte = b)
    (hb : b < 16) (hack : g.cec_tx.ack ≠ 0) (heom : ¬ b = g.cec_tx.len) :
    timer_arms (engine_run g (List.replicate 21 (.timeout hw))).2
      = byte_arms (g.cec_tx.transfer.buf.getD b 0) (if b + 1 = g.cec_tx.len then 1 else 0) := by
  have hb2 : ¬ 16 ≤ b := by omega
  have hm : (b + 1) % 256 = b + 1 := by omega
  simp [List.replicate, engine_run, engine_step, cec_event_timeout, hs, enter_state,
    enter_state_with, enter_state_switch, cec_transfer_inc_bit, cec_transfer_get_bit,
    cec_transfer_is_eom, MAX_CEC_MSG_LEN, timer_arms, hbit, hbyte, hack, heom, hb2, hm,
    DATA_LOW_nonneg, DATA_HIGH_nonneg, START_BIT_LOW_TICKS, START_BIT_HIGH_TICKS,
    CEC_US_TO_TICKS, DATA_ONE_LOW_TICKS, DATA_ZERO_LOW_TICKS, NOMINAL_BIT_TICKS,
    NOMINAL_SAMPLE_TIME_TICKS, timer_arms_append, byte_arms]

theorem engine_run_append_snd (a b : List engine_input) (g : cec_globals) :
    (engine_run g (a ++ b)).2 = (engine_run g a).2 ++ (engine_run (engine_run g a).1 b).2 := by
  rw [engine_run_append]

/-- The durations armed while the data bytes of an acknowledged frame are sent,
from byte `b` on. -/
theorem data_arms_chain (acks : List hw_inputs) :
    ∀ (g : cec_globals) (b : Nat),
      g.cec_state = CEC_STATE_INITIATOR_ACK_VERIFY →
      g.cec_tx.transfer.bit = 0 → g.cec_tx.transfer.byte = b → g.cec_tx.ack ≠ 0 →
      g.cec_tx.len ≤ 16 → b + acks.length ≤ g.cec_tx.len →
      (∀ h ∈ acks, sampled_ack g h ≠ 0) →
      timer_arms (engine_run g (data_inputs acks)).2
        = frame_arms g.cec_tx.transfer.buf g.cec_tx.len b acks.length := by
  induction acks with
  | nil => intro g b _ _ _ _ _ _ _; rfl
  | cons h acks ih =>
    intro g b hs hbit hbyte hack hlen hb hall
    simp only [List.length_cons] at hb
    obtain ⟨a1, a2, a3, a4, -, a6, a7, -⟩ := data_byte_attempt h g b hs hbit hbyte
      (by omega) hack (by omega)
    have harms := data_byte_arms h g b hs hbit hbyte (by omega) hack (by omega)
    have hh : sampled_ack g h ≠ 0 := hall h (List.mem_cons_self _ _)
    have hih := ih (engine_run g (List.replicate 21 (.timeout h))).1 (b + 1) a1 a2 a3
      (by rw [a7]; exact hh) (by rw [a4]; exact hlen) (by rw [a4]; omega)
      (fun x hx => by
        rw [sampled_ack_congr g _ x a6]; exact hall x (List.mem_cons_of_mem _ hx))
    rw [a6, a4] at hih
    have e : data_inputs (h :: acks)
        = List.replicate 21 (.timeout h) ++ data_inputs acks := rfl
    rw [e, engine_run_append_snd, timer_arms_append, harms, hih]
    rfl

/-- The durations armed during one attempt of a frame of `n` bytes whose every
byte is acknowledged: the start bit, then byte after byte, then whatever the
last decision arms. -/
theorem attempt_arms (g : cec_globals) (h0 : hw_inputs) (t : List hw_inputs)
    (hs : g.cec_state = CEC_STATE_INITIATOR_FREE_TIME)
    (hlen : g.cec_tx.len ≤ 16) (hn : (h0 :: t).length = g.cec_tx.len)
    (hall : ∀ h ∈ h0 :: t, sampled_ack g h ≠ 0) :
    ∃ tail : List Int,
      timer_arms (engine_run g (attempt_inputs (h0 :: t))).2
        = [START_BIT_LOW_TICKS, START_BIT_HIGH_TICKS]
          ++ (frame_arms g.cec_tx.transfer.buf g.cec_tx.len 0 (h0 :: t).length ++ tail) := by
  obtain ⟨a1, a2, a3, a4, -, a6, a7, -⟩ := header_attempt h0 g hs
  have harms := header_arms h0 g hs
  simp only [List.length_cons] at hn
  have hchain := data_arms_chain t (engine_run g (List.replicate 23 (.timeout h0))).1 1
    a1 a2 a3 (by rw [a7]; exact hall h0 (List.mem_cons_self _ _)) (by rw [a4]; exact hlen)
    (by rw [a4]; omega)
    (fun x hx => by
      rw [sampled_ack_congr g _ x a6]; exact hall x (List.mem_cons_of_mem _ hx))
  rw [a6, a4] at hchain
  have e : attempt_inputs (h0 :: t)
      = List.replicate 23 (.timeout h0) ++ (data_inputs t ++ [.timeout h0]) := by
    rw [attempt_inputs, List.append_assoc]
  refine ⟨timer_arms (engine_run (engine_run (engine_run g
    (List.replicate 23 (.timeout h0))).1 (data_inputs t)).1 [.timeout h0]).2, ?_⟩
  rw [e, engine_run_append_snd, engine_run_append_snd, timer_arms_append, timer_arms_append,
    harms, hchain, List.append_assoc]
  show _ = [START_BIT_LOW_TICKS, START_BIT_HIGH_TICKS]
    ++ ((byte_arms _ _ ++ frame_arms _ _ (0 + 1) t.length) ++ _)
  rw [List.append_assoc]

theorem getD_lt_of_all (l : List Nat) (i : Nat) (h : ∀ x ∈ l, x < 256) : l.getD i 0 < 256 := by
  by_cases hi : i < l.length
  · rw [List.getD_eq_getElem _ _ hi]
    exact h _ (List.getElem_mem _)
  · rw [List.getD_eq_default _ _ (by omega)]
    decide

/-- A reading that the initiator samples as an ACK is not one that the follower
takes for a refused broadcast. -/
theorem ack_not_refused (g : cec_globals) (h : hw_inputs) (hack : sampled_ack g h ≠ 0) :
    ¬ (g.cec_tx.transfer.buf.getD 0 0 &&& 0x0f = CEC_BROADCAST_ADDR ∧
      h.gpio_get_level = 0) := by
  rintro ⟨hd, hl⟩
  apply hack
  unfold sampled_ack
  rw [if_pos hd, hl]
  rfl

/-- C15: round trip.  For every pending frame of `n` bytes, `n` in 1..16, the
durations that the initiator arms while it transmits the frame with every byte
acknowledged, fed as measured durations to a follower in Idle, make the follower
complete the frame: it ends in the ACK bit of the last byte with the EOM flag
set, `cec_rx.transfer.byte = n` and its first `n` buffer bytes equal to the
payload. -/
theorem C15_round_trip (gt gr : cec_globals) (hs : List hw_inputs)
    (ht : gt.cec_state = CEC_STATE_INITIATOR_FREE_TIME)
    (hn1 : 1 ≤ gt.cec_tx.len) (hn16 : gt.cec_tx.len ≤ MAX_CEC_MSG_LEN)
    (hlen : hs.length = gt.cec_tx.len)
    (hbytes : ∀ x ∈ gt.cec_tx.transfer.buf, x < 256)
    (hack : ∀ h ∈ hs, sampled_ack gt h ≠ 0)
    (hr : gr.cec_state = CEC_STATE_IDLE)
    (hrbit : gr.cec_rx.transfer.bit = 0) (hrbyte : gr.cec_rx.transfer.byte = 0)
    (hrbuf : gr.cec_rx.transfer.buf.length = MAX_CEC_MSG_LEN) :
    (engine_run gr (follower_inputs hs
        (timer_arms (engine_run gt (attempt_inputs hs)).2))).1.cec_state
      = CEC_STATE_FOLLOWER_ACK_FINISH ∧
    (engine_run gr (follower_inputs hs
        (timer_arms (engine_run gt (attempt_inputs hs)).2))).1.cec_rx.transfer.byte
      = gt.cec_tx.len ∧
    (engine_run gr (follower_inputs hs
        (timer_arms (engine_run gt (attempt_inputs hs)).2))).1.cec_rx.eom = 1 ∧
    (∀ i, i < gt.cec_tx.len →
      (engine_run gr (follower_inputs hs
        (timer_arms (engine_run gt (attempt_inputs hs)).2))).1.cec_rx.transfer.buf.getD i 0
      = gt.cec_tx.transfer.buf.getD i 0) := by
  cases hs with
  | nil => simp only [List.length_nil] at hlen; omega
  | cons h0 t =>
    obtain ⟨tail, harms⟩ := attempt_arms gt h0 t ht hn16 hlen hack
    rw [harms]
    have ein : follower_inputs (h0 :: t)
        ([START_BIT_LOW_TICKS, START_BIT_HIGH_TICKS]
          ++ (frame_arms gt.cec_tx.transfer.buf gt.cec_tx.len 0 (h0 :: t).length ++ tail))
        = [.cap h0, measured h0 START_BIT_LOW_TICKS, measured h0 START_BIT_HIGH_TICKS]
          ++ follower_frame_inputs (h0 :: t)
            (frame_arms gt.cec_tx.transfer.buf gt.cec_tx.len 0 (h0 :: t).length ++ tail) := rfl
    rw [ein, engine_run_append_fst]
    have e1 := follower_start h0 gr hr
    have hB0 : gt.cec_tx.transfer.buf.getD 0 0 % 256 = gt.cec_tx.transfer.buf.getD 0 0 :=
      Nat.mod_eq_of_lt (getD_lt_of_all _ _ hbytes)
    obtain ⟨r1, -, r3, r4, r5, -⟩ := follower_frame gt.cec_tx.transfer.buf gt.cec_tx.len hn16
      (h0 :: t)
      (engine_run gr [.cap h0, measured h0 START_BIT_LOW_TICKS,
        measured h0 START_BIT_HIGH_TICKS]).1 0 tail (List.cons_ne_nil _ _)
      (by rw [Nat.zero_add]; exact hlen) (by rw [e1]; rfl) (by rw [e1]; exact hrbit)
      (by rw [e1]; exact hrbyte) (by rw [e1]; exact hrbuf)
      (fun i hi => absurd hi (Nat.not_lt_zero i))
      (fun h hh => by rw [hB0]; exact ack_not_refused gt h (hack h hh))
    refine ⟨r1, r3, r4, fun i hi => ?_⟩
    rw [r5 i hi]
    exact Nat.mod_eq_of_lt (getD_lt_of_all _ _ hbytes)

set_option maxRecDepth 100000 in
theorem C15_round_trip_witness :
    tx_pending_start.cec_state = CEC_STATE_INITIATOR_FREE_TIME ∧
    tx_pending_start.cec_tx.len = 2 ∧
    (engine_enabled 20 0 hw_high).cec_state = CEC_STATE_IDLE ∧
    (engine_run (engine_enabled 20 0 hw_high) (follower_inputs [hw_low, hw_low]
        (timer_arms (engine_run tx_pending_start
          (attempt_inputs [hw_low, hw_low])).2))).1.cec_rx.transfer.byte
      = tx_pending_start.cec_tx.len :=
  ⟨by decide, by decide, by decide,
   (C15_round_trip tx_pending_start (engine_enabled 20 0 hw_high) [hw_low, hw_low]
      (by decide) (by decide) (by decide) (by decide) (by decide) (by decide) (by decide)
      (by decide) (by decide) (by decide)).2.1⟩

/-! ## Free time, timer arming and the reset on Idle -/

/-- Entering the free-time wait: the line is released, the falling edge is
armed, and the wait is chosen from the resend count and the present-initiator
flag. -/
theorem enter_free_time_spec (hw : hw_inputs) (g : cec_globals) :
    enter_state hw CEC_STATE_INITIATOR_FREE_TIME g
      = ({ g with cec_state := CEC_STATE_INITIATOR_FREE_TIME },
         [gpio_set_level 1,
          cec_tmr_cap_start CEC_CAP_EDGE_FALLING
            (if g.cec_tx.resends ≠ 0 then FREE_TIME_RS_TICKS
             else if g.cec_tx.present_initiator ≠ 0 then FREE_TIME_PI_TICKS
             else FREE_TIME_NI_TICKS)]) := by
  by_cases h1 : g.cec_tx.resends ≠ 0
  · simp [enter_state, enter_state_with, enter_state_switch, h1, FREE_TIME_RS_TICKS,
      NOMINAL_BIT_TICKS, CEC_US_TO_TICKS]
  · by_cases h2 : g.cec_tx.present_initiator ≠ 0
    · simp [enter_state, enter_state_with, enter_state_switch, h1, h2,
        FREE_TIME_PI_TICKS, NOMINAL_BIT_TICKS, CEC_US_TO_TICKS]
    · simp [enter_state, enter_state_with, enter_state_switch, h1, h2,
        FREE_TIME_NI_TICKS, NOMINAL_BIT_TICKS, CEC_US_TO_TICKS]

/-- C21 (amended): the free time armed on entry to
`CEC_STATE_INITIATOR_FREE_TIME` after a resend (`cec_tx.resends > 0`) is 2
nominal bit periods and is shorter than the free time armed for a send that is
not a resend, which is 4 or 6 nominal bit periods. -/
theorem C21_resend_free_time_is_shorter (hw1 hw2 : hw_inputs) (g1 g2 : cec_globals)
    (h1 : g1.cec_tx.resends > 0) (h2 : g2.cec_tx.resends = 0) :
    timer_arms (enter_state hw1 CEC_STATE_INITIATOR_FREE_TIME g1).2 = [FREE_TIME_RS_TICKS] ∧
    (timer_arms (enter_state hw2 CEC_STATE_INITIATOR_FREE_TIME g2).2 = [FREE_TIME_NI_TICKS] ∨
      timer_arms (enter_state hw2 CEC_STATE_INITIATOR_FREE_TIME g2).2
        = [FREE_TIME_PI_TICKS]) ∧
    FREE_TIME_RS_TICKS = 2 * NOMINAL_BIT_TICKS ∧
    FREE_TIME_RS_TICKS < FREE_TIME_NI_TICKS ∧
    FREE_TIME_RS_TICKS < FREE_TIME_PI_TICKS ∧
    (∀ t1 ∈ timer_arms (enter_state hw1 CEC_STATE_INITIATOR_FREE_TIME g1).2,
      ∀ t2 ∈ timer_arms (enter_state hw2 CEC_STATE_INITIATOR_FREE_TIME g2).2, t1 < t2) := by
  have hr1 : g1.cec_tx.resends ≠ 0 := by omega
  have hr2 : ¬ g2.cec_tx.resends ≠ 0 := by omega
  have e1 : timer_arms (enter_state hw1 CEC_STATE_INITIATOR_FREE_TIME g1).2
      = [FREE_TIME_RS_TICKS] := by
    rw [enter_free_time_spec, if_pos hr1]; rfl
  have e2 : timer_arms (enter_state hw2 CEC_STATE_INITIATOR_FREE_TIME g2).2
      = [if g2.cec_tx.present_initiator ≠ 0 then FREE_TIME_PI_TICKS
         else FREE_TIME_NI_TICKS] := by
    rw [enter_free_time_spec, if_neg hr2]; rfl
  have hni : FREE_TIME_RS_TICKS < FREE_TIME_NI_TICKS := by decide
  have hpi : FREE_TIME_RS_TICKS < FREE_TIME_PI_TICKS := by decide
  refine ⟨e1, ?_, rfl, hni, hpi, ?_⟩
  · rw [e2]
    by_cases hp : g2.cec_tx.present_initiator ≠ 0
    · right; rw [if_pos hp]
    · left; rw [if_neg hp]
  · rw [e1, e2]
    intro t1 ht1 t2 ht2
    rw [List.mem_singleton] at ht1 ht2
    subst ht1 ht2
    by_cases hp : g2.cec_tx.present_initiator ≠ 0
    · rw [if_pos hp]; exact hpi
    · rw [if_neg hp]; exact hni

set_option maxRecDepth 100000 in
theorem C21_resend_free_time_is_shorter_witness :
    tx_waiting_resend.cec_tx.resends > 0 ∧ tx_pending_start.cec_tx.resends = 0 ∧
    timer_arms (enter_state hw_high CEC_STATE_INITIATOR_FREE_TIME tx_waiting_resend).2
      = [FREE_TIME_RS_TICKS] :=
  ⟨by decide, by decide,
   (C21_resend_free_time_is_shorter hw_high hw_high tx_waiting_resend tx_pending_start
      (by decide) (by decide)).1⟩

set_option maxRecDepth 100000 in
/-- C21 as stated fails: the deadline expiry that decides on the first resend
of `tx_pending_start` enters free time with 4800 us armed, while the submission
of the same frame (not a resend) armed 9600 us: the free time after a resend is
not the longer one. -/
theorem C21_resend_free_time_not_longer :
    tx_in_ack_verify.cec_tx.resends = 0 ∧
    (engine_step tx_in_ack_verify (.timeout hw_high)).1.cec_state
      = CEC_STATE_INITIATOR_FREE_TIME ∧
    (engine_step tx_in_ack_verify (.timeout hw_high)).1.cec_tx.resends = 1 ∧
    timer_arms (engine_step tx_in_ack_verify (.timeout hw_high)).2 = [CEC_US_TO_TICKS 4800] ∧
    tx_pending_start.cec_state = CEC_STATE_INITIATOR_FREE_TIME ∧
    tx_pending_start.cec_tx.resends = 0 ∧
    timer_arms (engine_step (engine_enabled 20 4 hw_high)
      (.submit hw_high [0x40, 0x04] 2)).2 = [CEC_US_TO_TICKS 9600] ∧
    ¬ (CEC_US_TO_TICKS 4800 > CEC_US_TO_TICKS 9600) := by
  decide

/-- C22: on entry to `CEC_STATE_INITIATOR_FREE_TIME`, directly or through Idle
with a frame pending, the armed free time is 2 nominal bit periods when
`cec_tx.resends > 0` (whatever the present-initiator flag), otherwise 6 when
the present-initiator flag is set, otherwise 4; the edge armed is the falling
edge and the line is released high. -/
theorem C22_free_time_three_tiers (hw : hw_inputs) (g : cec_globals) :
    (enter_state hw CEC_STATE_INITIATOR_FREE_TIME g).1.cec_state
      = CEC_STATE_INITIATOR_FREE_TIME ∧
    (enter_state hw CEC_STATE_INITIATOR_FREE_TIME g).2
      = [gpio_set_level 1,
         cec_tmr_cap_start CEC_CAP_EDGE_FALLING
           (if g.cec_tx.resends > 0 then 2 * NOMINAL_BIT_TICKS
            else if g.cec_tx.present_initiator ≠ 0 then 6 * NOMINAL_BIT_TICKS
            else 4 * NOMINAL_BIT_TICKS)] ∧
    (g.cec_tx.len > 0 →
      (enter_state hw CEC_STATE_IDLE g).1.cec_state = CEC_STATE_INITIATOR_FREE_TIME ∧
      (enter_state hw CEC_STATE_IDLE g).2
        = [gpio_set_level 1,
           cec_tmr_cap_start CEC_CAP_EDGE_FALLING
             (if g.cec_tx.resends > 0 then 2 * NOMINAL_BIT_TICKS
              else if g.cec_tx.present_initiator ≠ 0 then 6 * NOMINAL_BIT_TICKS
              else 4 * NOMINAL_BIT_TICKS)]) := by
  have hpos : (g.cec_tx.resends > 0) = (g.cec_tx.resends ≠ 0) := by
    apply propext; omega
  refine ⟨?_, ?_, fun hlen => ⟨?_, ?_⟩⟩
  · rw [enter_free_time_spec]
  · rw [enter_free_time_spec]
    simp only [hpos]
    rfl
  · rw [enter_idle_spec, if_pos hlen]
  · rw [enter_idle_spec]
    simp only [hpos, if_pos hlen]
    rfl

set_option maxRecDepth 100000 in
theorem C22_free_time_three_tiers_witness :
    tx_waiting_resend.cec_tx.len > 0 ∧
    (enter_state hw_high CEC_STATE_IDLE tx_waiting_resend).1.cec_state
      = CEC_STATE_INITIATOR_FREE_TIME :=
  ⟨by decide, ((C22_free_time_three_tiers hw_high tx_waiting_resend).2.2 (by decide)).1⟩

theorem gpio_writes_append (a b : List Effect) :
    gpio_writes (a ++ b) = gpio_writes a ++ gpio_writes b := by
  induction a with
  | nil => rfl
  | cons x a ih => cases x <;> simp [gpio_writes, ih]

set_option maxHeartbeats 4000000 in
/-- The GPIO writes and timer arms of one state entry: at most one write, and
one arm for every target state but Disabled, which arms none. -/
theorem enter_state_io (hw : hw_inputs) (s : cec_state) (g : cec_globals) :
    (gpio_writes (enter_state hw s g).2).length ≤ 1 ∧
    (timer_arms (enter_state hw s g).2).length = (if s = CEC_STATE_DISABLED then 0 else 1) := by
  cases s
  case CEC_STATE_IDLE =>
    rw [enter_idle_spec]
    exact ⟨Nat.le_refl 1, rfl⟩
  case CEC_STATE_INITIATOR_FREE_TIME =>
    rw [enter_free_time_spec]
    exact ⟨Nat.le_refl 1, rfl⟩
  case CEC_STATE_FOLLOWER_ACK_FINISH =>
    by_cases h1 : g.cec_rx.eom ≠ 0 ∨ g.cec_rx.transfer.byte ≥ MAX_CEC_MSG_LEN
    · by_cases h2 : g.cec_rx.transfer.buf.getD 0 0 &&& 0x0f = g.cec_addr ∨
          g.cec_rx.transfer.buf.getD 0 0 &&& 0x0f = CEC_BROADCAST_ADDR
      · simp only [enter_state, enter_state_with, enter_state_switch, if_pos h1, if_pos h2]
        simp [gpio_writes, timer_arms, DATA_ZERO_HIGH_TICKS, CEC_US_TO_TICKS]
      · simp only [enter_state, enter_state_with, enter_state_switch, if_pos h1, if_neg h2]
        simp [gpio_writes, timer_arms, DATA_ZERO_HIGH_TICKS, CEC_US_TO_TICKS]
    · simp only [enter_state, enter_state_with, enter_state_switch, if_neg h1]
      simp [gpio_writes, timer_arms, CAP_DATA_HIGH_TICKS, DATA_ONE_MAX_DURATION_TICKS,
        DATA_ONE_MIN_LOW_TICKS, VALID_TOLERANCE_TICKS, CEC_US_TO_TICKS]
  case CEC_STATE_FOLLOWER_DEBOUNCE =>
    by_cases h1 : g.cec_rx.debounce_count ≥ DEBOUNCE_CUTOFF
    · simp only [enter_state, enter_state_with, enter_state_switch, if_pos h1]
      simp [gpio_writes, timer_arms, DEBOUNCE_WAIT_LONG_TICKS, CEC_US_TO_TICKS]
    · simp only [enter_state, enter_state_with, enter_state_switch, if_neg h1]
      simp [gpio_writes, timer_arms, DEBOUNCE_WAIT_SHORT_TICKS, CEC_US_TO_TICKS]
  case CEC_STATE_FOLLOWER_ACK_LOW =>
    by_cases h1 : g.cec_rx.transfer.buf.getD 0 0 &&& 0x0f = g.cec_addr
    · simp only [enter_state, enter_state_with, enter_state_switch, if_pos h1]
      simp [gpio_writes, timer_arms, NOMINAL_SAMPLE_TIME_TICKS, CEC_US_TO_TICKS]
    · simp only [enter_state, enter_state_with, enter_state_switch, if_neg h1]
      simp [gpio_writes, timer_arms, NOMINAL_SAMPLE_TIME_TICKS, CEC_US_TO_TICKS]
  all_goals
    simp [enter_state, enter_state_with, enter_state_switch, gpio_writes, timer_arms,
      DATA_LOW_nonneg, DATA_HIGH_nonneg, START_BIT_LOW_TICKS, START_BIT_HIGH_TICKS,
      CEC_US_TO_TICKS, DATA_ONE_LOW_TICKS, DATA_ZERO_LOW_TICKS, NOMINAL_BIT_TICKS,
      NOMINAL_SAMPLE_TIME_TICKS, CAP_START_LOW_TICKS, CAP_START_HIGH_TICKS, CAP_DATA_LOW_TICKS,
      CAP_DATA_HIGH_TICKS, START_BIT_MAX_LOW_TICKS, START_BIT_MAX_DURATION_TICKS,
      START_BIT_MIN_LOW_TICKS, DATA_ZERO_MAX_LOW_TICKS, DATA_ONE_MAX_DURATION_TICKS,
      DATA_ONE_MIN_LOW_TICKS, VALID_TOLERANCE_TICKS]

/-- C23 (amended): for every context, one state entry (`enter_state`) performs
at most one GPIO level write; for every target state other than Disabled it arms
the capture/timeout timer exactly once, and entry to Disabled arms no timer (it
writes the level 1 once). -/
theorem C23_one_gpio_write_one_timer_arm (hw : hw_inputs) (s : cec_state) (g : cec_globals) :
    (gpio_writes (enter_state hw s g).2).length ≤ 1 ∧
    (s ≠ CEC_STATE_DISABLED → (timer_arms (enter_state hw s g).2).length = 1) ∧
    (s = CEC_STATE_DISABLED →
      timer_arms (enter_state hw s g).2 = [] ∧ gpio_writes (enter_state hw s g).2 = [1]) := by
  obtain ⟨h1, h2⟩ := enter_state_io hw s g
  refine ⟨h1, fun hs => ?_, fun hs => ?_⟩
  · rw [h2, if_neg hs]
  · subst hs
    exact ⟨rfl, rfl⟩

set_option maxRecDepth 100000 in
theorem C23_one_gpio_write_one_timer_arm_witness :
    CEC_STATE_FOLLOWER_ACK_LOW ≠ CEC_STATE_DISABLED ∧
    (timer_arms (enter_state hw_high CEC_STATE_FOLLOWER_ACK_LOW rx_after_start).2).length = 1 :=
  ⟨by decide,
   (C23_one_gpio_write_one_timer_arm hw_high CEC_STATE_FOLLOWER_ACK_LOW rx_after_start).2.1
     (by decide)⟩

set_option maxRecDepth 100000 in
/-- C23 as stated fails for the target state Disabled: the entry made by
`cec_set_enable(0)` on a transmitting engine writes the level 1 and arms no
timer at all. -/
theorem C23_disabled_arms_no_timer :
    (enter_state hw_high CEC_STATE_DISABLED tx_in_ack_verify).2 = [gpio_set_level 1] ∧
    timer_arms (enter_state hw_high CEC_STATE_DISABLED tx_in_ack_verify).2 = [] ∧
    (timer_arms (enter_state hw_high CEC_STATE_DISABLED tx_in_ack_verify).2).length ≠ 1 ∧
    timer_arms (cec_set_enable hw_high tx_in_ack_verify 0).2.2 = [] := by
  decide

/-- C24 (amended): every entry into Idle resets the receive cursor, bit and
byte index, to 0 and leaves the rest of the receive context as it was: the
buffer bytes, the end-of-message flag, the broadcast-NAK flag, the last observed
low duration and the debounce counter keep their values. -/
theorem C24_idle_resets_receive_cursor_only (hw : hw_inputs) (g : cec_globals) :
    (enter_state hw CEC_STATE_IDLE g).1.cec_rx
      = { g.cec_rx with transfer := { g.cec_rx.transfer with bit := 0, byte := 0 } } ∧
    (enter_state hw CEC_STATE_IDLE g).1.cec_rx.transfer.bit = 0 ∧
    (enter_state hw CEC_STATE_IDLE g).1.cec_rx.transfer.byte = 0 ∧
    (enter_state hw CEC_STATE_IDLE g).1.cec_rx.transfer.buf = g.cec_rx.transfer.buf ∧
    (enter_state hw CEC_STATE_IDLE g).1.cec_rx.eom = g.cec_rx.eom ∧
    (enter_state hw CEC_STATE_IDLE g).1.cec_rx.broadcast_nak = g.cec_rx.broadcast_nak ∧
    (enter_state hw CEC_STATE_IDLE g).1.cec_rx.low_ticks = g.cec_rx.low_ticks ∧
    (enter_state hw CEC_STATE_IDLE g).1.cec_rx.debounce_count = g.cec_rx.debounce_count := by
  rw [enter_idle_spec]
  exact ⟨rfl, rfl, rfl, rfl, rfl, rfl, rfl, rfl⟩

set_option maxRecDepth 100000 in
/-- C24 as stated fails: after a whole frame was received, the deadline expiry
that ends its last ACK bit enters Idle with the cursor at 0, but the
end-of-message flag is still 1 and the last low duration still 600; and after
three glitches the engine is in Idle with the debounce counter at 3. -/
theorem C24_flags_survive_idle_entry :
    rx_frame_done.cec_state = CEC_STATE_FOLLOWER_ACK_FINISH ∧
    (engine_step rx_frame_done (.timeout hw_high)).1.cec_state = CEC_STATE_IDLE ∧
    (engine_step rx_frame_done (.timeout hw_high)).1.cec_rx.transfer.byte = 0 ∧
    (engine_step rx_frame_done (.timeout hw_high)).1.cec_rx.eom = 1 ∧
    (engine_step rx_frame_done (.timeout hw_high)).1.cec_rx.low_ticks = 600 ∧
    (engine_run (engine_enabled 20 4 hw_high) (glitches C18_glitches)).1.cec_state
      = CEC_STATE_IDLE ∧
    (engine_run (engine_enabled 20 4 hw_high)
      (glitches C18_glitches)).1.cec_rx.debounce_count = 3 := by
  decide

/-- The four outcomes of `cec_process_offline_message`, in the order the code
decides them. -/
theorem offline_message_cases (any_off : Bool) (policy : Option (List cec_offline_policy))
    (msg : List Nat) (msg_len : Nat) :
    cec_process_offline_message any_off policy msg msg_len
      = if ¬ any_off then (EC_ERROR_NOT_HANDLED, [])
        else if msg_len < 1 then (EC_ERROR_INVAL, [])
        else if cec_find_action policy (msg.getD 1 0) = CEC_ACTION_POWER_BUTTON then
          (EC_SUCCESS, [power_button_simulate_press 200])
        else (EC_SUCCESS, []) := rfl

/-- C27: interception never suppresses delivery.  In one iteration of
`cec_task` the globals afterwards, so the queue with the message pushed, are the
same for every chipset state and policy, that is for every result of
`cec_process_offline_message`; the effects are those of the interception
followed by the same calls, and the host is notified of the message exactly when
the final push succeeded. -/
theorem C27_interception_never_suppresses_delivery (N : Nat) (any_off : Bool)
    (policy : Option (List cec_offline_policy)) (events : List task_event)
    (g : cec_globals) :
    (cec_task_iteration N any_off policy events g).1
      = (cec_task_iteration N false none events g).1 ∧
    (cec_task_iteration N any_off policy events g).2
      = (if TASK_EVENT_RECEIVED_DATA ∈ events then
          (cec_process_offline_message any_off policy g.cec_rx.transfer.buf
            g.cec_rx.transfer.byte).2
         else [])
        ++ (cec_task_iteration N false none events g).2 ∧
    (mkbp_send_event EC_MKBP_EVENT_CEC_MESSAGE ∈ (cec_task_iteration N any_off policy events g).2
      ↔ mkbp_send_event EC_MKBP_EVENT_CEC_MESSAGE
          ∈ (cec_task_iteration N false none events g).2) ∧
    (TASK_EVENT_RECEIVED_DATA ∈ events →
      (cec_task_iteration N any_off policy events g).1.cec_rx_queue
        = (cec_task_queue_message N g.cec_rx_queue g.cec_rx.transfer.buf
            g.cec_rx.transfer.byte).2 ∧
      (mkbp_send_event EC_MKBP_EVENT_CEC_MESSAGE
          ∈ (cec_task_iteration N any_off policy events g).2
        ↔ (cec_task_queue_message N g.cec_rx_queue g.cec_rx.transfer.buf
            g.cec_rx.transfer.byte).1 = EC_SUCCESS)) := by
  have hpress : ∀ a p, mkbp_send_event EC_MKBP_EVENT_CEC_MESSAGE
      ∉ (cec_process_offline_message a p g.cec_rx.transfer.buf g.cec_rx.transfer.byte).2 := by
    intro a p
    rw [offline_message_cases]
    split_ifs <;> simp
  have h1 : (cec_task_iteration N any_off policy events g).1
      = (cec_task_iteration N false none events g).1 := by
    unfold cec_task_iteration
    by_cases hr : TASK_EVENT_RECEIVED_DATA ∈ events <;> simp only [hr, if_true, if_false]
  have h2 : (cec_task_iteration N any_off policy events g).2
      = (if TASK_EVENT_RECEIVED_DATA ∈ events then
          (cec_process_offline_message any_off policy g.cec_rx.transfer.buf
            g.cec_rx.transfer.byte).2
         else [])
        ++ (cec_task_iteration N false none events g).2 := by
    unfold cec_task_iteration
    by_cases hr : TASK_EVENT_RECEIVED_DATA ∈ events
    · simp only [hr, if_true, List.append_assoc]
      rfl
    · simp only [hr, if_false, List.nil_append]
  have h3 : mkbp_send_event EC_MKBP_EVENT_CEC_MESSAGE
        ∈ (cec_task_iteration N any_off policy events g).2
      ↔ mkbp_send_event EC_MKBP_EVENT_CEC_MESSAGE
          ∈ (cec_task_iteration N false none events g).2 := by
    rw [h2, List.mem_append]
    constructor
    · rintro (h | h)
      · split_ifs at h
        · exact absurd h (hpress _ _)
        · simp at h
      · exact h
    · intro h; exact Or.inr h
  refine ⟨h1, h2, h3, fun hr => ⟨?_, ?_⟩⟩
  · rw [h1]
    unfold cec_task_iteration
    simp only [hr, if_true]
    split_ifs <;> rfl
  · rw [h3]
    unfold cec_task_iteration send_mkbp_event
    simp only [hr, if_true]
    by_cases hq : (cec_task_queue_message N g.cec_rx_queue g.cec_rx.transfer.buf
        g.cec_rx.transfer.byte).1 = EC_SUCCESS
    · simp only [hq, if_true, iff_true]
      simp [cec_process_offline_message]
    · simp only [hq, if_false, iff_false]
      simp only [offline_message_cases]
      split_ifs <;> simp

set_option maxRecDepth 100000 in
theorem C27_interception_never_suppresses_delivery_witness :
    TASK_EVENT_RECEIVED_DATA ∈ [TASK_EVENT_RECEIVED_DATA] ∧
    (cec_process_offline_message true (some cec_default_policy)
      C27_globals.cec_rx.transfer.buf C27_globals.cec_rx.transfer.byte).1 = EC_SUCCESS ∧
    (cec_task_iteration 20 true (some cec_default_policy) [TASK_EVENT_RECEIVED_DATA]
        C27_globals).1.cec_rx_queue
      = (cec_task_queue_message 20 C27_globals.cec_rx_queue C27_globals.cec_rx.transfer.buf
          C27_globals.cec_rx.transfer.byte).2 ∧
    (cec_task_queue_message 20 C27_globals.cec_rx_queue C27_globals.cec_rx.transfer.buf
      C27_globals.cec_rx.transfer.byte).1 = EC_SUCCESS :=
  ⟨by decide, by decide,
   ((C27_interception_never_suppresses_delivery 20 true (some cec_default_policy)
      [TASK_EVENT_RECEIVED_DATA] C27_globals).2.2.2 (by decide)).1,
   by decide⟩

/-- C28 (amended): `cec_rx_queue_flush` sets both the read cursor and the write
cursor to 0 and leaves the buffer contents unchanged; the queue is empty
afterwards: the cursors are equal, and a pop reports no message and changes
nothing. -/
theorem C28_flush_resets_both_cursors (N : Nat) (queue : cec_rx_queue) (msg : List Nat) :
    cec_rx_queue_flush queue = { queue with read_offset := 0, write_offset := 0 } ∧
    (cec_rx_queue_flush queue).read_offset = 0 ∧
    (cec_rx_queue_flush queue).write_offset = 0 ∧
    (cec_rx_queue_flush queue).buf = queue.buf ∧
    (cec_rx_queue_flush queue).read_offset = (cec_rx_queue_flush queue).write_offset ∧
    cec_rx_queue_pop N (cec_rx_queue_flush queue) msg
      = { rv := -1, queue := cec_rx_queue_flush queue, msg := msg, msg_len := 0 } := by
  refine ⟨rfl, rfl, rfl, rfl, rfl, ?_⟩
  simp [cec_rx_queue_pop, cec_rx_queue_flush]

/-- C28 as stated fails: on a queue holding two messages, with the read cursor
at 0 and the write cursor at 17, the flush moves the write cursor to 0, and the
read cursor is not set to the value 17 the write cursor had. -/
theorem C28_flush_moves_write_cursor :
    C2_queue.read_offset = 0 ∧ C2_queue.write_offset = 17 ∧
    (cec_rx_queue_flush C2_queue).write_offset = 0 ∧
    (cec_rx_queue_flush C2_queue).write_offset ≠ C2_queue.write_offset ∧
    (cec_rx_queue_flush C2_queue).read_offset ≠ C2_queue.write_offset := by
  decide

/-- C29: for every cursor with bit index in 0..7, `cec_transfer_inc_bit` resets
the bit index to 0 exactly when it advances the byte index by one, which it
does exactly when the bit index is 7 and the byte index is below
`MAX_CEC_MSG_LEN`; in every other case it only increments the bit index by one
and leaves the byte index unchanged; the buffer is never modified. -/
theorem C29_inc_bit_resets_bit_iff_byte_advances (tr : cec_msg_transfer)
    (hbit : tr.bit ≤ 7) :
    ((cec_transfer_inc_bit tr).bit = 0 ↔ (cec_transfer_inc_bit tr).byte = tr.byte + 1) ∧
    ((cec_transfer_inc_bit tr).byte = tr.byte + 1 ↔
      (tr.bit = 7 ∧ tr.byte < MAX_CEC_MSG_LEN)) ∧
    (¬ (cec_transfer_inc_bit tr).byte = tr.byte + 1 →
      (cec_transfer_inc_bit tr).bit = tr.bit + 1 ∧
      (cec_transfer_inc_bit tr).byte = tr.byte) ∧
    (cec_transfer_inc_bit tr).buf = tr.buf := by
  have hM : MAX_CEC_MSG_LEN = 16 := rfl
  have key : cec_transfer_inc_bit tr
      = if (tr.bit + 1) % 256 = 8 then
          (if tr.byte ≥ MAX_CEC_MSG_LEN then { tr with bit := (tr.bit + 1) % 256 }
           else { tr with bit := 0, byte := (tr.byte + 1) % 256 })
        else { tr with bit := (tr.bit + 1) % 256 } := rfl
  rw [key]
  by_cases h7 : tr.bit = 7
  · have e : (tr.bit + 1) % 256 = 8 := by omega
    by_cases hb : tr.byte ≥ MAX_CEC_MSG_LEN
    · rw [if_pos e, if_pos hb]
      show ((tr.bit + 1) % 256 = 0 ↔ tr.byte = tr.byte + 1) ∧
        (tr.byte = tr.byte + 1 ↔ (tr.bit = 7 ∧ tr.byte < MAX_CEC_MSG_LEN)) ∧
        (¬ tr.byte = tr.byte + 1 → (tr.bit + 1) % 256 = tr.bit + 1 ∧ tr.byte = tr.byte) ∧
        tr.buf = tr.buf
      rw [hM] at hb ⊢
      exact ⟨by omega, by omega, by omega, rfl⟩
    · rw [if_pos e, if_neg hb]
      show ((0 : Nat) = 0 ↔ (tr.byte + 1) % 256 = tr.byte + 1) ∧
        ((tr.byte + 1) % 256 = tr.byte + 1 ↔ (tr.bit = 7 ∧ tr.byte < MAX_CEC_MSG_LEN)) ∧
        (¬ (tr.byte + 1) % 256 = tr.byte + 1 →
          (0 : Nat) = tr.bit + 1 ∧ (tr.byte + 1) % 256 = tr.byte) ∧
        tr.buf = tr.buf
      rw [hM] at hb ⊢
      exact ⟨by omega, by omega, by omega, rfl⟩
  · have e : ¬ (tr.bit + 1) % 256 = 8 := by omega
    rw [if_neg e]
    show ((tr.bit + 1) % 256 = 0 ↔ tr.byte = tr.byte + 1) ∧
      (tr.byte = tr.byte + 1 ↔ (tr.bit = 7 ∧ tr.byte < MAX_CEC_MSG_LEN)) ∧
      (¬ tr.byte = tr.byte + 1 → (tr.bit + 1) % 256 = tr.bit + 1 ∧ tr.byte = tr.byte) ∧
      tr.buf = tr.buf
    exact ⟨by omega, by omega, by omega, rfl⟩

theorem C29_inc_bit_resets_bit_iff_byte_advances_witness :
    (7 : Nat) ≤ 7 ∧
    ((cec_transfer_inc_bit { bit := 7, byte := 3, buf := List.replicate 16 0 }).bit = 0 ↔
      (cec_transfer_inc_bit { bit := 7, byte := 3, buf := List.replicate 16 0 }).byte
        = 3 + 1) ∧
    (cec_transfer_inc_bit { bit := 7, byte := 3, buf := List.replicate 16 0 }).bit = 0 :=
  ⟨by decide,
   (C29_inc_bit_resets_bit_iff_byte_advances
      { bit := 7, byte := 3, buf := List.replicate 16 0 } (by decide)).1,
   by decide⟩

/-- C30, the code at the failing input: at the end of the buffer (byte index
`MAX_CEC_MSG_LEN`, a value of the cursor range) with bit index 7,
`cec_transfer_inc_bit` has already incremented the bit index to 8 when it
returns early, so the cursor leaves the range 0..7; from bit index 6 it stays in
range. -/
theorem C30_inc_bit_leaves_range_at_end_of_buffer :
    cec_transfer_inc_bit { bit := 7, byte := MAX_CEC_MSG_LEN, buf := List.replicate 16 0 }
      = { bit := 8, byte := MAX_CEC_MSG_LEN, buf := List.replicate 16 0 } ∧
    ¬ (cec_transfer_inc_bit
        { bit := 7, byte := MAX_CEC_MSG_LEN, buf := List.replicate 16 0 }).bit ≤ 7 ∧
    (cec_transfer_inc_bit
        { bit := 6, byte := MAX_CEC_MSG_LEN, buf := List.replicate 16 0 }).bit = 7 := by
  decide

/-! ## Leftovers of earlier frames -/

theorem valid_pulse_low (p : Int × Int) (h : valid_pulse p = true) :
    (pulse_value p.1 = 0 ∧ VALID_LOW .DATA_ZERO p.1 = true) ∨
    (pulse_value p.1 = 1 ∧ VALID_LOW .DATA_ZERO p.1 = false ∧
      VALID_LOW .DATA_ONE p.1 = true) := by
  unfold valid_pulse at h
  unfold pulse_value
  simp only [Bool.and_eq_true, Bool.or_eq_true] at h
  by_cases h0 : VALID_LOW .DATA_ZERO p.1 = true
  · left
    exact ⟨by rw [if_pos h0], h0⟩
  · right
    have h0' : VALID_LOW .DATA_ZERO p.1 = false := by simpa using h0
    refine ⟨by rw [if_neg h0], h0', ?_⟩
    rcases h.1.1 with h1 | h1
    · exact absurd h1 h0
    · exact h1

theorem valid_pulse_high (p : Int × Int) (h : valid_pulse p = true) (d : Nat) :
    VALID_DATA_HIGH d p.1 p.2 = true := by
  unfold valid_pulse at h
  simp only [Bool.and_eq_true] at h
  unfold VALID_DATA_HIGH
  split_ifs
  · exact h.2
  · exact h.1.2

/-- The two captures of a bit pulse that passes the follower's checks: the value
read from the low duration is written at the cursor and the cursor moves on. -/
theorem follower_pulse (h : hw_inputs) (g : cec_globals) (p : Int × Int)
    (hs : g.cec_state = CEC_STATE_FOLLOWER_HEADER_INIT_LOW ∨
          g.cec_state = CEC_STATE_FOLLOWER_HEADER_DEST_LOW ∨
          g.cec_state = CEC_STATE_FOLLOWER_DATA_LOW)
    (hp : valid_pulse p = true) :
    (engine_run g [measured h p.1, measured h p.2]).1
      = { g with
          cec_state := follower_next_low (cec_state_succ g.cec_state)
            (cec_transfer_inc_bit
              (cec_transfer_set_bit g.cec_rx.transfer (pulse_value p.1))).bit,
          cec_rx := { g.cec_rx with
            low_ticks := p.1,
            transfer := cec_transfer_inc_bit
              (cec_transfer_set_bit g.cec_rx.transfer (pulse_value p.1)) } } := by
  have hs1 : cec_state_succ g.cec_state = CEC_STATE_FOLLOWER_HEADER_INIT_HIGH ∨
      cec_state_succ g.cec_state = CEC_STATE_FOLLOWER_HEADER_DEST_HIGH ∨
      cec_state_succ g.cec_state = CEC_STATE_FOLLOWER_DATA_HIGH := by
    rcases hs with hs | hs | hs <;> simp [hs, cec_state_succ]
  have e1 := follower_low_cap { h with cec_tmr_cap_get := p.1 } g (pulse_value p.1) hs
    (valid_pulse_low p hp)
  have e2 := follower_high_cap { h with cec_tmr_cap_get := p.2 }
    { g with
      cec_state := cec_state_succ g.cec_state,
      cec_rx := { g.cec_rx with
        low_ticks := p.1,
        transfer := cec_transfer_set_bit g.cec_rx.transfer (pulse_value p.1) } } hs1
    (valid_pulse_high p hp _)
  show (cec_event_cap _ (cec_event_cap _ g).1).1 = _
  rw [e1, e2]

/-- The pulses `ps` of one byte, received from bit position `k` on: the
follower arrives in the state that awaits bit `k + ps.length`, with the values
read from the low durations written. -/
theorem follower_pulses_run (h : hw_inputs) (hdr : Bool) (b : Nat) (hb : b < 16)
    (ps : List (Int × Int)) :
    ∀ (g : cec_globals) (k : Nat), k + ps.length ≤ 8 →
      (∀ p ∈ ps, valid_pulse p = true) →
      g.cec_state = follower_bit_state hdr k →
      g.cec_rx.transfer.bit = k % 8 → g.cec_rx.transfer.byte = b + k / 8 →
      (engine_run g (pulse_caps h ps)).1
        = { g with
            cec_state := follower_bit_state hdr (k + ps.length),
            cec_rx := { g.cec_rx with
              low_ticks := last_low_of g.cec_rx.low_ticks ps,
              transfer := recv g.cec_rx.transfer (ps.map (fun p => pulse_value p.1)) } } := by
  induction ps with
  | nil =>
    intro g k _ _ hs _ _
    show g = _
    rw [List.length_nil, Nat.add_zero, ← hs]
    rfl
  | cons x xs ih =>
    intro g k hk hval hs hbit hbyte
    rw [List.length_cons] at hk
    have hk8 : k < 8 := by omega
    have hbit1 : g.cec_rx.transfer.bit = k := by rw [hbit]; omega
    have hbyte1 : g.cec_rx.transfer.byte = b := by rw [hbyte]; omega
    have hlow : g.cec_state = CEC_STATE_FOLLOWER_HEADER_INIT_LOW ∨
        g.cec_state = CEC_STATE_FOLLOWER_HEADER_DEST_LOW ∨
        g.cec_state = CEC_STATE_FOLLOWER_DATA_LOW := by
      rw [hs]
      unfold follower_bit_state
      have h8 : ¬ k = 8 := by omega
      rw [if_neg h8]
      cases hdr
      · right; right; rfl
      · by_cases h4 : k < 4
        · left; simp [h4]
        · right; left; simp [h4]
    obtain ⟨c1, c2, c3⟩ := set_bit_cursor g.cec_rx.transfer (pulse_value x.1)
    obtain ⟨-, i2, i3⟩ := inc_bit_cursor
      (cec_transfer_set_bit g.cec_rx.transfer (pulse_value x.1))
      (by rw [c1, hbit1]; exact hk8) (by rw [c2, hbyte1]; exact hb)
    rw [c1, hbit1] at i2
    rw [c2, c1, hbit1, hbyte1] at i3
    have hnext : follower_next_low (cec_state_succ g.cec_state)
        (cec_transfer_inc_bit
          (cec_transfer_set_bit g.cec_rx.transfer (pulse_value x.1))).bit
        = follower_bit_state hdr (k + 1) := by
      rw [i2, hs]
      unfold follower_bit_state
      have h8 : ¬ k = 8 := by omega
      rw [if_neg h8]
      cases hdr
      · by_cases h7 : k = 7
        · subst h7; rfl
        · have e1 : ¬ (k + 1) % 8 = 0 := by omega
          have e2 : ¬ k + 1 = 8 := by omega
          simp [cec_state_succ, follower_next_low, e1, e2]
      · by_cases h4 : k < 4
        · by_cases h3 : k = 3
          · subst h3; rfl
          · have e1 : ¬ (k + 1) % 8 = 4 := by omega
            have e2 : ¬ k + 1 = 8 := by omega
            have e3 : k + 1 < 4 := by omega
            simp [cec_state_succ, follower_next_low, e1, e2, e3, h4]
        · by_cases h7 : k = 7
          · subst h7; rfl
          · have e1 : ¬ (k + 1) % 8 = 0 := by omega
            have e2 : ¬ k + 1 = 8 := by omega
            have e3 : ¬ k + 1 < 4 := by omega
            simp [cec_state_succ, follower_next_low, e1, e2, e3, h4]
    have hrun : (engine_run g (pulse_caps h (x :: xs))).1
        = (engine_run (engine_run g [measured h x.1, measured h x.2]).1
            (pulse_caps h xs)).1 := by
      have e : pulse_caps h (x :: xs)
          = [measured h x.1, measured h x.2] ++ pulse_caps h xs := rfl
      rw [e, engine_run_append_fst]
    rw [hrun, follower_pulse h g x hlow (hval x (List.mem_cons_self _ _)), hnext]
    rw [ih _ (k + 1) (by omega) (fun p hp => hval p (List.mem_cons_of_mem _ hp)) rfl
      (by show _ = (k + 1) % 8; rw [i2]) (by show _ = b + (k + 1) / 8; rw [i3])]
    have e : k + 1 + xs.length = k + (xs.length + 1) := by omega
    rw [e]
    rfl

/-- The bit values `vs` written from bit position `k` of byte `b` on: the
cursor has moved over them and `buf[b]` holds them. -/
theorem recv_bits (b : Nat) (hb : b < 16) (vs : List Nat) :
    ∀ (k : Nat) (L : List Nat), vs ≠ [] → k + vs.length ≤ 8 → b < L.length →
      recv { bit := k, byte := b, buf := L } vs
        = { bit := (k + vs.length) % 8, byte := b + (k + vs.length) / 8,
            buf := L.set b (put_bits (L.getD b 0) k vs) } := by
  induction vs with
  | nil => intro k L hne; exact absurd rfl hne
  | cons v vs ih =>
    intro k L _ hk hl
    rw [List.length_cons] at hk
    obtain ⟨e1, e2, e3⟩ := recv_step k b L v (by omega) hb hl
    have hstep : recv { bit := k, byte := b, buf := L } (v :: vs)
        = recv (cec_transfer_inc_bit
            (cec_transfer_set_bit { bit := k, byte := b, buf := L } v)) vs := rfl
    rw [hstep, e1]
    cases vs with
    | nil => rfl
    | cons w ws =>
      rw [List.length_cons] at hk
      have m1 : (k + 1) % 8 = k + 1 := by omega
      have m2 : (k + 1) / 8 = 0 := by omega
      rw [m1, m2]
      show recv { bit := k + 1, byte := b, buf := L.set b (put_bit (L.getD b 0) k v) }
        (w :: ws) = _
      rw [ih (k + 1) _ (List.cons_ne_nil _ _) (by rw [List.length_cons]; omega) e3, e2,
        List.set_set]
      have e : k + 1 + (w :: ws).length = k + (v :: w :: ws).length := by
        simp only [List.length_cons]; omega
      rw [e]
      rfl

/-- Bytes that agree on the bits already written agree after the remaining bits
of the byte are written. -/
theorem put_bits_agree (vs : List Nat) :
    ∀ (k B1 B2 : Nat), 1 ≤ k → k + vs.length = 8 →
      (∀ i, 8 - k ≤ i → B1.testBit i = B2.testBit i) →
      put_bits B1 k vs = put_bits B2 k vs := by
  induction vs with
  | nil =>
    intro k B1 B2 _ hk hagree
    rw [List.length_nil, Nat.add_zero] at hk
    subst hk
    exact Nat.eq_of_testBit_eq (fun i => hagree i (by omega))
  | cons v vs ih =>
    intro k B1 B2 hk1 hk hagree
    rw [List.length_cons] at hk
    have hk8 : k < 8 := by omega
    show put_bits (put_bit B1 k v) (k + 1) vs = put_bits (put_bit B2 k v) (k + 1) vs
    apply ih (k + 1) _ _ (by omega) (by omega)
    intro i hi
    rw [put_bit_testBit _ _ _ _ hk8, put_bit_testBit _ _ _ _ hk8]
    by_cases h7 : i = 7 - k
    · rw [if_pos h7, if_pos h7]
    · rw [if_neg h7, if_neg h7, hagree i (by omega)]

/-- Eight bit values overwrite a byte whatever it held. -/
theorem put_bits_overwrite (vs : List Nat) (hlen : vs.length = 8) (B : Nat) :
    put_bits B 0 vs = put_bits 0 0 vs := by
  cases vs with
  | nil => simp at hlen
  | cons v vs =>
    rw [List.length_cons] at hlen
    show put_bits (put_bit B 0 v) 1 vs = put_bits (put_bit 0 0 v) 1 vs
    apply put_bits_agree vs 1 _ _ (Nat.le_refl 1) (by omega)
    intro i hi
    rw [put_bit_testBit _ _ _ _ (by decide : 0 < 8), put_bit_testBit _ _ _ _ (by decide : 0 < 8)]
    by_cases h7 : i = 7 - 0
    · rw [if_pos h7, if_pos h7]
    · have h8 : ¬ i < 8 := by omega
      rw [if_neg h7, if_neg h7]
      simp [h8]

/-- Eight received bit values at the start of byte `b` store their byte value in
`buf[b]`, whatever it held, and leave the cursor at the start of byte `b + 1`. -/
theorem recv_eight (tr : cec_msg_transfer) (b : Nat) (vs : List Nat) (hlen : vs.length = 8)
    (hbit : tr.bit = 0) (hbyte : tr.byte = b) (hb : b < 16) (hl : b < tr.buf.length) :
    recv tr vs = { bit := 0, byte := b + 1, buf := tr.buf.set b (put_bits 0 0 vs) } := by
  obtain ⟨k, c, L⟩ := tr
  simp only at hbit hbyte hl
  subst hbit hbyte
  have hne : vs ≠ [] := by
    intro h; rw [h] at hlen; simp at hlen
  rw [recv_bits c hb vs 0 L hne (by omega) hl, put_bits_overwrite vs hlen, hlen]

/-- A start bit that passes the follower's checks, seen from Idle: the follower
awaits the first header bit. -/
theorem follower_start_valid (h : hw_inputs) (g : cec_globals) (start : Int × Int)
    (hs : g.cec_state = CEC_STATE_IDLE) (hv : valid_start start = true) :
    (engine_run g [.cap h, measured h start.1, measured h start.2]).1
      = { g with
          cec_state := CEC_STATE_FOLLOWER_HEADER_INIT_LOW,
          cec_tx := { g.cec_tx with present_initiator := 0 },
          cec_rx := { g.cec_rx with low_ticks := start.1, debounce_count := 0 } } := by
  unfold valid_start at hv
  simp only [Bool.and_eq_true] at hv
  obtain ⟨hv1, hv2⟩ := hv
  simp [engine_run, engine_step, measured, cec_event_cap, hs, hv1, hv2, enter_state,
    enter_state_with, enter_state_switch]

theorem follower_eom_low_valid (hw : hw_inputs) (g : cec_globals) (p : Int × Int)
    (hs : g.cec_state = CEC_STATE_FOLLOWER_EOM_LOW) (ht : hw.cec_tmr_cap_get = p.1)
    (hp : valid_pulse p = true) :
    (cec_event_cap hw g).1
      = { g with
          cec_state := CEC_STATE_FOLLOWER_EOM_HIGH,
          cec_rx := { g.cec_rx with low_ticks := p.1, eom := pulse_value p.1 } } := by
  rcases valid_pulse_low p hp with ⟨hv, h0⟩ | ⟨hv, h0, h1⟩
  · simp only [cec_event_cap, hs, ht, h0, if_true, enter_state_fst, enter_state_switch, hv]
  · simp only [cec_event_cap, hs, ht, h0, h1, if_true, enter_state_fst,
      enter_state_switch, hv]
    rfl

theorem follower_eom_high_valid (hw : hw_inputs) (g : cec_globals) (p : Int × Int)
    (hs : g.cec_state = CEC_STATE_FOLLOWER_EOM_HIGH) (hl : g.cec_rx.low_ticks = p.1)
    (ht : hw.cec_tmr_cap_get = p.2) (hp : valid_pulse p = true) :
    (cec_event_cap hw g).1 = { g with cec_state := CEC_STATE_FOLLOWER_ACK_LOW } := by
  have hvh := valid_pulse_high p hp g.cec_rx.eom
  simp only [cec_event_cap, hs, hl, ht, hvh, if_true, enter_state_fst, enter_state_switch]

/-- A valid EOM pulse and the two deadline expiries of the ACK bit, the line not
reading as a refused broadcast: the follower has stored the EOM value and
finishes the ACK bit. -/
theorem follower_eom_ack_valid (h : hw_inputs) (g : cec_globals) (p : Int × Int)
    (hs : g.cec_state = CEC_STATE_FOLLOWER_EOM_LOW) (hp : valid_pulse p = true)
    (hnak : ¬ (rx_dest g = CEC_BROADCAST_ADDR ∧ h.gpio_get_level = 0)) :
    (engine_run g [measured h p.1, measured h p.2, .timeout h, .timeout h]).1
      = { g with
          cec_state := CEC_STATE_FOLLOWER_ACK_FINISH,
          cec_rx := { g.cec_rx with
            low_ticks := p.1, eom := pulse_value p.1, broadcast_nak := 0 } } := by
  show (cec_event_timeout h (cec_event_timeout h
    (cec_event_cap { h with cec_tmr_cap_get := p.2 }
      (cec_event_cap { h with cec_tmr_cap_get := p.1 } g).1).1).1).1 = _
  have e1 := follower_eom_low_valid { h with cec_tmr_cap_get := p.1 } g p hs rfl hp
  have e2 := follower_eom_high_valid { h with cec_tmr_cap_get := p.2 }
    (cec_event_cap { h with cec_tmr_cap_get := p.1 } g).1 p
    (by rw [e1]) (by rw [e1]) rfl hp
  have e3 := follower_ack_low h
    (cec_event_cap { h with cec_tmr_cap_get := p.2 }
      (cec_event_cap { h with cec_tmr_cap_get := p.1 } g).1).1
    (by rw [e2]) (by rw [e2, e1]; exact hnak)
  have e4 := follower_ack_verify h
    (cec_event_timeout h (cec_event_cap { h with cec_tmr_cap_get := p.2 }
      (cec_event_cap { h with cec_tmr_cap_get := p.1 } g).1).1).1
    (by rw [e3]) (by rw [e3])
  rw [e4, e3, e2, e1]

/-- One well-formed measured byte: its value is stored in `buf[b]` whatever the
buffer held, the cursor moves to the next byte, the EOM value is stored and the
ACK bit is being finished. -/
theorem wire_byte_run (g : cec_globals) (hdr last : Bool) (b : Nat) (x : wire_byte)
    (hb : b < 16) (hok : wire_byte_ok last x = true)
    (hs : g.cec_state = follower_bit_state hdr 0)
    (hbit : g.cec_rx.transfer.bit = 0) (hbyte : g.cec_rx.transfer.byte = b)
    (hl : b < g.cec_rx.transfer.buf.length)
    (hnak : ¬ ((g.cec_rx.transfer.buf.set b (wire_value x.bits)).getD 0 0 &&& 0x0f
        = CEC_BROADCAST_ADDR ∧ x.ack.gpio_get_level = 0)) :
    (engine_run g (wire_byte_inputs x)).1
      = { g with
          cec_state := CEC_STATE_FOLLOWER_ACK_FINISH,
          cec_rx := { g.cec_rx with
            low_ticks := x.eom.1, eom := if last then 1 else 0, broadcast_nak := 0,
            transfer := { bit := 0, byte := b + 1,
                          buf := g.cec_rx.transfer.buf.set b (wire_value x.bits) } } } := by
  unfold wire_byte_ok at hok
  simp only [Bool.and_eq_true, decide_eq_true_eq, List.all_eq_true, beq_iff_eq] at hok
  obtain ⟨⟨⟨hlen, hbits⟩, heom⟩, hlast⟩ := hok
  have heomv : pulse_value x.eom.1 = if last then 1 else 0 := by
    rcases valid_pulse_low x.eom heom with ⟨hv, -⟩ | ⟨hv, -, -⟩
    · rw [hv] at hlast ⊢
      cases last
      · rfl
      · simp at hlast
    · rw [hv] at hlast ⊢
      cases last
      · simp at hlast
      · rfl
  unfold wire_byte_inputs
  rw [engine_run_append_fst]
  have e1 := follower_pulses_run x.ack hdr b hb x.bits g 0 (by rw [hlen]) hbits hs
    (by rw [hbit]) (by rw [hbyte]; rfl)
  rw [recv_eight g.cec_rx.transfer b _ (by rw [List.length_map]; exact hlen) hbit hbyte hb hl]
    at e1
  have e2 := follower_eom_ack_valid x.ack (engine_run g (pulse_caps x.ack x.bits)).1 x.eom
    (by rw [e1, hlen]; rfl) heom (by rw [e1]; exact hnak)
  rw [e2, e1, heomv]
  rfl

/-- The measured bytes of a complete frame, received from byte `b` on: the
follower ends in the ACK bit of the last byte with the EOM flag set and the
cursor after the last byte; the buffer holds the byte values of the frame from
index `b` on and is unchanged below `b`; `D` is the destination nibble of the
frame. -/
theorem wire_frame_run (D : Nat) (bytes : List wire_byte) :
    ∀ (g : cec_globals) (b : Nat),
      wire_frame_ok bytes = true → b + bytes.length ≤ 16 →
      g.cec_state = follower_bit_state (decide (b = 0)) 0 →
      g.cec_rx.transfer.bit = 0 → g.cec_rx.transfer.byte = b →
      g.cec_rx.transfer.buf.length = 16 →
      (b = 0 → wire_dest bytes = D) →
      (0 < b → g.cec_rx.transfer.buf.getD 0 0 &&& 0x0f = D) →
      (∀ x ∈ bytes, ¬ (D = CEC_BROADCAST_ADDR ∧ x.ack.gpio_get_level = 0)) →
      (engine_run g (wire_frame_inputs bytes)).1.cec_state = CEC_STATE_FOLLOWER_ACK_FINISH ∧
      (engine_run g (wire_frame_inputs bytes)).1.cec_rx.transfer.bit = 0 ∧
      (engine_run g (wire_frame_inputs bytes)).1.cec_rx.transfer.byte = b + bytes.length ∧
      (engine_run g (wire_frame_inputs bytes)).1.cec_rx.eom = 1 ∧
      (engine_run g (wire_frame_inputs bytes)).1.cec_rx.transfer.buf.length = 16 ∧
      (∀ i, i < b → (engine_run g (wire_frame_inputs bytes)).1.cec_rx.transfer.buf.getD i 0
        = g.cec_rx.transfer.buf.getD i 0) ∧
      (∀ j, j < bytes.length →
        (engine_run g (wire_frame_inputs bytes)).1.cec_rx.transfer.buf.getD (b + j) 0
          = (bytes.map (fun x => wire_value x.bits)).getD j 0) := by
  induction bytes with
  | nil => intro g b hok; exact absurd hok (by decide)
  | cons x t ih =>
    intro g b hok hlen hst hbit hbyte hbl hD0 hDb hlvl
    rw [List.length_cons] at hlen
    have hb : b < 16 := by omega
    have hl : b < g.cec_rx.transfer.buf.length := by rw [hbl]; exact hb
    have hdest : (g.cec_rx.transfer.buf.set b (wire_value x.bits)).getD 0 0 &&& 0x0f = D := by
      by_cases h0 : b = 0
      · subst h0
        rw [getD_set_eq _ _ _ _ hl]
        exact hD0 rfl
      · rw [getD_set_ne _ _ _ _ _ h0]
        exact hDb (by omega)
    have hnak : ¬ ((g.cec_rx.transfer.buf.set b (wire_value x.bits)).getD 0 0 &&& 0x0f
        = CEC_BROADCAST_ADDR ∧ x.ack.gpio_get_level = 0) := by
      rw [hdest]
      exact hlvl x (List.mem_cons_self _ _)
    have hkeep : ∀ i, i < b →
        (g.cec_rx.transfer.buf.set b (wire_value x.bits)).getD i 0
          = g.cec_rx.transfer.buf.getD i 0 := by
      intro i hi
      exact getD_set_ne _ _ _ _ _ (by omega)
    cases t with
    | nil =>
      have hok1 : wire_byte_ok true x = true := hok
      have ein : wire_frame_inputs [x] = wire_byte_inputs x := rfl
      rw [ein, wire_byte_run g _ true b x hb hok1 hst hbit hbyte hl hnak]
      refine ⟨rfl, rfl, rfl, rfl, ?_, hkeep, ?_⟩
      · show (g.cec_rx.transfer.buf.set b (wire_value x.bits)).length = 16
        rw [List.length_set]; exact hbl
      · intro j hj
        have hj0 : j = 0 := by
          simp only [List.length_cons, List.length_nil] at hj; omega
        subst hj0
        show (g.cec_rx.transfer.buf.set b (wire_value x.bits)).getD (b + 0) 0 = _
        rw [Nat.add_zero, getD_set_eq _ _ _ _ hl]
        rfl
    | cons y t2 =>
      have hok2 : wire_byte_ok false x = true ∧ wire_frame_ok (y :: t2) = true := by
        have h : (wire_byte_ok false x && wire_frame_ok (y :: t2)) = true := hok
        simpa only [Bool.and_eq_true] using h
      simp only [List.length_cons] at hlen
      have ein : wire_frame_inputs (x :: y :: t2)
          = wire_byte_inputs x ++ ([.cap y.ack] ++ wire_frame_inputs (y :: t2)) := rfl
      rw [ein, engine_run_append_fst, engine_run_append_fst]
      have e1 := wire_byte_run g (decide (b = 0)) false b x hb hok2.1 hst hbit hbyte hl hnak
      have e2 := follower_next_byte y.ack (engine_run g (wire_byte_inputs x)).1
        (by rw [e1])
      have hih := ih
        (engine_run (engine_run g (wire_byte_inputs x)).1 [.cap y.ack]).1 (b + 1)
        hok2.2 (by simp only [List.length_cons]; omega)
        (by rw [e2, follower_bit_state_data (b + 1) (by omega)])
        (by rw [e2, e1]) (by rw [e2, e1])
        (by rw [e2, e1]; show (g.cec_rx.transfer.buf.set b _).length = 16
            rw [List.length_set]; exact hbl)
        (fun h => absurd h (by omega))
        (fun _ => by rw [e2, e1]; exact hdest)
        (fun z hz => hlvl z (List.mem_cons_of_mem _ hz))
      obtain ⟨r1, r2, r3, r4, r5, r6, r7⟩ := hih
      have ebuf : (engine_run (engine_run g (wire_byte_inputs x)).1
          [.cap y.ack]).1.cec_rx.transfer.buf
          = g.cec_rx.transfer.buf.set b (wire_value x.bits) := by
        rw [e2, e1]
      rw [ebuf] at r6
      refine ⟨r1, r2, ?_, r4, r5, ?_, ?_⟩
      · rw [r3]; simp only [List.length_cons]; omega
      · intro i hi
        rw [r6 i (by omega)]
        exact hkeep i hi
      · intro j hj
        cases j with
        | zero =>
          rw [Nat.add_zero, r6 b (by omega), getD_set_eq _ _ _ _ hl]
          rfl
        | succ j =>
          have hj2 : j < (y :: t2).length := by
            simp only [List.length_cons] at hj ⊢; omega
          have e : b + (j + 1) = b + 1 + j := by omega
          rw [e, r7 j hj2]
          rfl

/-- C25: an aborted or earlier frame never corrupts a later one.  For any two
engine states at Idle that differ only in the leftover receive-buffer bytes,
end-of-message flag, broadcast-NAK flag and last low duration, the same measured
durations of a complete valid frame of n bytes, n in 1..16, leave both followers
in the ACK bit of the last byte with `cec_rx.transfer.byte = n`, the EOM flag
set and the same first n buffer bytes, namely the byte values of the frame. -/
theorem C25_leftovers_never_reach_next_frame (g1 g2 : cec_globals) (h0 : hw_inputs)
    (start : Int × Int) (bytes : List wire_byte)
    (hs : g1.cec_state = CEC_STATE_IDLE)
    (hbit : g1.cec_rx.transfer.bit = 0) (hbyte : g1.cec_rx.transfer.byte = 0)
    (hbuf1 : g1.cec_rx.transfer.buf.length = MAX_CEC_MSG_LEN)
    (hbuf2 : g2.cec_rx.transfer.buf.length = MAX_CEC_MSG_LEN)
    (hdiff : g2 = { g1 with cec_rx := { g1.cec_rx with
        transfer := { g1.cec_rx.transfer with buf := g2.cec_rx.transfer.buf },
        eom := g2.cec_rx.eom, broadcast_nak := g2.cec_rx.broadcast_nak,
        low_ticks := g2.cec_rx.low_ticks } })
    (hstart : valid_start start = true) (hframe : wire_frame_ok bytes = true)
    (hn : bytes.length ≤ MAX_CEC_MSG_LEN)
    (hack : ∀ x ∈ bytes, ¬ (wire_dest bytes = CEC_BROADCAST_ADDR ∧ x.ack.gpio_get_level = 0)) :
    1 ≤ bytes.length ∧
    (engine_run g1 (wire_inputs h0 start bytes)).1.cec_rx.transfer.byte = bytes.length ∧
    (engine_run g2 (wire_inputs h0 start bytes)).1.cec_rx.transfer.byte = bytes.length ∧
    (∀ i, i < bytes.length →
      (engine_run g1 (wire_inputs h0 start bytes)).1.cec_rx.transfer.buf.getD i 0
        = (engine_run g2 (wire_inputs h0 start bytes)).1.cec_rx.transfer.buf.getD i 0) ∧
    (∀ i, i < bytes.length →
      (engine_run g1 (wire_inputs h0 start bytes)).1.cec_rx.transfer.buf.getD i 0
        = (bytes.map (fun x => wire_value x.bits)).getD i 0) ∧
    (engine_run g1 (wire_inputs h0 start bytes)).1.cec_state = CEC_STATE_FOLLOWER_ACK_FINISH ∧
    (engine_run g2 (wire_inputs h0 start bytes)).1.cec_state = CEC_STATE_FOLLOWER_ACK_FINISH ∧
    (engine_run g1 (wire_inputs h0 start bytes)).1.cec_rx.eom = 1 ∧
    (engine_run g2 (wire_inputs h0 start bytes)).1.cec_rx.eom = 1 := by
  have hs2 : g2.cec_state = CEC_STATE_IDLE := by rw [hdiff]; exact hs
  have hbit2 : g2.cec_rx.transfer.bit = 0 := by rw [hdiff]; exact hbit
  have hbyte2 : g2.cec_rx.transfer.byte = 0 := by rw [hdiff]; exact hbyte
  have hpos : 1 ≤ bytes.length := by
    cases bytes with
    | nil => exact absurd hframe (by decide)
    | cons x t => simp only [List.length_cons]; omega
  have key : ∀ g : cec_globals, g.cec_state = CEC_STATE_IDLE →
      g.cec_rx.transfer.bit = 0 → g.cec_rx.transfer.byte = 0 →
      g.cec_rx.transfer.buf.length = MAX_CEC_MSG_LEN →
      (engine_run g (wire_inputs h0 start bytes)).1.cec_state
        = CEC_STATE_FOLLOWER_ACK_FINISH ∧
      (engine_run g (wire_inputs h0 start bytes)).1.cec_rx.transfer.byte = bytes.length ∧
      (engine_run g (wire_inputs h0 start bytes)).1.cec_rx.eom = 1 ∧
      (∀ i, i < bytes.length →
        (engine_run g (wire_inputs h0 start bytes)).1.cec_rx.transfer.buf.getD i 0
          = (bytes.map (fun x => wire_value x.bits)).getD i 0) := by
    intro g hg hgbit hgbyte hgbuf
    unfold wire_inputs
    rw [engine_run_append_fst]
    have e1 := follower_start_valid h0 g start hg hstart
    obtain ⟨r1, -, r3, r4, -, -, r7⟩ := wire_frame_run (wire_dest bytes) bytes
      (engine_run g [.cap h0, measured h0 start.1, measured h0 start.2]).1 0
      hframe (by rw [Nat.zero_add]; exact hn) (by rw [e1]; rfl)
      (by rw [e1]; exact hgbit) (by rw [e1]; exact hgbyte) (by rw [e1]; exact hgbuf)
      (fun _ => rfl) (fun h => absurd h (Nat.lt_irrefl 0)) hack
    refine ⟨r1, by rw [r3, Nat.zero_add], r4, fun i hi => ?_⟩
    have := r7 i hi
    rw [Nat.zero_add] at this
    exact this
  obtain ⟨a1, a2, a3, a4⟩ := key g1 hs hbit hbyte hbuf1
  obtain ⟨c1, c2, c3, c4⟩ := key g2 hs2 hbit2 hbyte2 hbuf2
  exact ⟨hpos, a2, c2, fun i hi => by rw [a4 i hi, c4 i hi], a4, a1, c1, a3, c3⟩

set_option maxRecDepth 100000 in
theorem C25_leftovers_never_reach_next_frame_witness :
    (engine_enabled 20 0 hw_high).cec_state = CEC_STATE_IDLE ∧
    rx_idle_after_frame.cec_state = CEC_STATE_IDLE ∧
    (engine_enabled 20 0 hw_high).cec_rx.transfer.buf.getD 0 0 = 0 ∧
    rx_idle_after_frame.cec_rx.transfer.buf.getD 0 0 = 0x40 ∧
    rx_idle_after_frame.cec_rx.eom = 1 ∧
    wire_frame_ok C25_frame = true ∧
    (engine_run rx_idle_after_frame
      (wire_inputs hw_high (3600, 900) C25_frame)).1.cec_rx.transfer.byte
      = C25_frame.length ∧
    (engine_run rx_idle_after_frame
      (wire_inputs hw_high (3600, 900) C25_frame)).1.cec_rx.transfer.buf.take 2
      = [0x10, 0x36] :=
  ⟨by decide, by decide, by decide, by decide, by decide, by decide,
   (C25_leftovers_never_reach_next_frame (engine_enabled 20 0 hw_high) rx_idle_after_frame
      hw_high (3600, 900) C25_frame (by decide) (by decide) (by decide) (by decide)
      (by decide) (by decide) (by decide) (by decide) (by decide) (by decide)).2.2.1,
   by decide⟩

/-! ## Bit periods of the initiator, capture timeouts and validity windows -/

/-- C34: with durations in microseconds, every bit the initiator drives lasts the
nominal bit period of 2400: `DATA_LOW(b) + DATA_HIGH(b) = 2400` for every bit
value, in particular for 0 and for 1; the three phases of the ACK bit, armed on
entry to `CEC_STATE_INITIATOR_ACK_LOW`, `CEC_STATE_INITIATOR_ACK_HIGH` and
`CEC_STATE_INITIATOR_ACK_VERIFY`, last 600, 450 and 1350 and sum to 2400; and
the entry to `CEC_STATE_INITIATOR_ACK_VERIFY`, which samples the line, comes
600 + 450 = `NOMINAL_SAMPLE_TIME_TICKS` = 1050 after the falling edge. -/
theorem C34_driven_bits_last_one_bit_period (hw : hw_inputs) (g : cec_globals) (b : Nat) :
    NOMINAL_BIT_TICKS = CEC_US_TO_TICKS 2400 ∧
    DATA_LOW b + DATA_HIGH b = NOMINAL_BIT_TICKS ∧
    DATA_LOW 0 + DATA_HIGH 0 = CEC_US_TO_TICKS 2400 ∧
    DATA_LOW 1 + DATA_HIGH 1 = CEC_US_TO_TICKS 2400 ∧
    timer_arms (enter_state hw CEC_STATE_INITIATOR_ACK_LOW g).2 = [CEC_US_TO_TICKS 600] ∧
    timer_arms (enter_state hw CEC_STATE_INITIATOR_ACK_HIGH g).2 = [CEC_US_TO_TICKS 450] ∧
    timer_arms (enter_state hw CEC_STATE_INITIATOR_ACK_VERIFY g).2 = [CEC_US_TO_TICKS 1350] ∧
    CEC_US_TO_TICKS 600 + CEC_US_TO_TICKS 450 + CEC_US_TO_TICKS 1350 = NOMINAL_BIT_TICKS ∧
    NOMINAL_SAMPLE_TIME_TICKS = CEC_US_TO_TICKS 1050 ∧
    CEC_US_TO_TICKS 600 + CEC_US_TO_TICKS 450 = NOMINAL_SAMPLE_TIME_TICKS ∧
    (enter_state hw CEC_STATE_INITIATOR_ACK_VERIFY g).1.cec_tx.ack = sampled_ack g hw := by
  refine ⟨rfl, data_bit_period b, by decide, by decide, ?_, ?_, ?_, by decide, rfl, by decide,
    ?_⟩
  · simp [enter_state, enter_state_with, enter_state_switch, timer_arms, DATA_LOW,
      DATA_ONE_LOW_TICKS, CEC_US_TO_TICKS]
  · simp [enter_state, enter_state_with, enter_state_switch, timer_arms,
      DATA_ONE_LOW_TICKS, DATA_ZERO_LOW_TICKS, CEC_US_TO_TICKS]
  · simp [enter_state, enter_state_with, enter_state_switch, timer_arms,
      NOMINAL_BIT_TICKS, NOMINAL_SAMPLE_TIME_TICKS, CEC_US_TO_TICKS]
  · simp [enter_state, enter_state_with, enter_state_switch, sampled_ack]

/-- C36: with durations in microseconds, the nominal pulses the initiator drives
pass the follower's own checks: the start bit (3700 low, 800 high), data 0 (1500
low, 900 high) and data 1 (600 low, 1800 high) each satisfy `VALID_LOW` and
`VALID_HIGH` of their own symbol; and no low duration passes both
`VALID_LOW(DATA_ZERO, t)` and `VALID_LOW(DATA_ONE, t)`: the tolerance-extended
windows [1200,1800] and [300,900] are disjoint. -/
theorem C36_nominal_pulses_are_valid (t : Int) :
    START_BIT_LOW_TICKS = CEC_US_TO_TICKS 3700 ∧ START_BIT_HIGH_TICKS = CEC_US_TO_TICKS 800 ∧
    DATA_LOW 0 = CEC_US_TO_TICKS 1500 ∧ DATA_HIGH 0 = CEC_US_TO_TICKS 900 ∧
    DATA_LOW 1 = CEC_US_TO_TICKS 600 ∧ DATA_HIGH 1 = CEC_US_TO_TICKS 1800 ∧
    VALID_LOW .START_BIT START_BIT_LOW_TICKS = true ∧
    VALID_HIGH .START_BIT START_BIT_LOW_TICKS START_BIT_HIGH_TICKS = true ∧
    VALID_LOW .DATA_ZERO (DATA_LOW 0) = true ∧
    VALID_HIGH .DATA_ZERO (DATA_LOW 0) (DATA_HIGH 0) = true ∧
    VALID_LOW .DATA_ONE (DATA_LOW 1) = true ∧
    VALID_HIGH .DATA_ONE (DATA_LOW 1) (DATA_HIGH 1) = true ∧
    (VALID_LOW .DATA_ZERO t = true ↔ CEC_US_TO_TICKS 1200 ≤ t ∧ t ≤ CEC_US_TO_TICKS 1800) ∧
    (VALID_LOW .DATA_ONE t = true ↔ CEC_US_TO_TICKS 300 ≤ t ∧ t ≤ CEC_US_TO_TICKS 900) ∧
    (VALID_LOW .DATA_ZERO t && VALID_LOW .DATA_ONE t) = false := by
  refine ⟨rfl, rfl, rfl, rfl, rfl, rfl, by decide, by decide, by decide, by decide, by decide,
    by decide, ?_, ?_, ?_⟩
  · simp [VALID_LOW, MIN_LOW_TICKS, MAX_LOW_TICKS, DATA_ZERO_MIN_LOW_TICKS,
      DATA_ZERO_MAX_LOW_TICKS, VALID_TOLERANCE_TICKS, CEC_US_TO_TICKS]
  · simp [VALID_LOW, MIN_LOW_TICKS, MAX_LOW_TICKS, DATA_ONE_MIN_LOW_TICKS,
      DATA_ONE_MAX_LOW_TICKS, VALID_TOLERANCE_TICKS, CEC_US_TO_TICKS]
  · rw [Bool.and_eq_false_iff, ← Bool.not_eq_true, ← Bool.not_eq_true]
    simp only [VALID_LOW, MIN_LOW_TICKS, MAX_LOW_TICKS, DATA_ZERO_MIN_LOW_TICKS,
      DATA_ZERO_MAX_LOW_TICKS, DATA_ONE_MIN_LOW_TICKS, DATA_ONE_MAX_LOW_TICKS,
      VALID_TOLERANCE_TICKS, CEC_US_TO_TICKS, Bool.and_eq_true, decide_eq_true_eq]
    omega

/-- The low-capture timeouts cover every accepted low duration: a low that passes
`VALID_LOW` of the start bit is at most `CAP_START_LOW_TICKS`, and one that
passes `VALID_LOW` of data 0 or data 1 is at most `CAP_DATA_LOW_TICKS`; the high
of an accepted data 0 stays below `CAP_DATA_HIGH_TICKS`. -/
theorem capture_low_timeouts_cover (lo hi : Int) :
    (VALID_LOW .START_BIT lo = true → lo ≤ CAP_START_LOW_TICKS) ∧
    (VALID_LOW .DATA_ZERO lo = true → lo ≤ CAP_DATA_LOW_TICKS) ∧
    (VALID_LOW .DATA_ONE lo = true → lo ≤ CAP_DATA_LOW_TICKS) ∧
    (VALID_LOW .DATA_ZERO lo = true → VALID_HIGH .DATA_ZERO lo hi = true →
      hi ≤ CAP_DATA_HIGH_TICKS) := by
  simp only [VALID_LOW, VALID_HIGH, MIN_LOW_TICKS, MAX_LOW_TICKS, MIN_DURATION_TICKS,
    MAX_DURATION_TICKS, START_BIT_MIN_LOW_TICKS, START_BIT_MAX_LOW_TICKS,
    DATA_ZERO_MIN_LOW_TICKS, DATA_ZERO_MAX_LOW_TICKS, DATA_ONE_MIN_LOW_TICKS,
    DATA_ONE_MAX_LOW_TICKS, DATA_ZERO_MIN_DURATION_TICKS, DATA_ZERO_MAX_DURATION_TICKS,
    DATA_ONE_MAX_DURATION_TICKS, CAP_START_LOW_TICKS, CAP_DATA_LOW_TICKS, CAP_DATA_HIGH_TICKS,
    VALID_TOLERANCE_TICKS, CEC_US_TO_TICKS, Bool.and_eq_true, decide_eq_true_eq]
  refine ⟨?_, ?_, ?_, ?_⟩ <;> intros <;> omega

set_option maxRecDepth 100000 in
/-- C35, the code at the failing inputs.  A start bit of 3400 low and 2400 high
passes `VALID_LOW(START_BIT, 3400)` and `VALID_HIGH(START_BIT, 3400, 2400)`, yet
the high-capture timeout armed on entry to `CEC_STATE_FOLLOWER_START_HIGH` is
`CAP_START_HIGH_TICKS` = 2300 < 2400: the deadline expires first and the
follower drops to Idle, where the falling edge, had it been captured, would have
been accepted.  Likewise a data 1 of 300 low and 2550 high passes both checks,
and `CAP_DATA_HIGH_TICKS` = 2450 < 2550. -/
theorem C35_valid_high_outlasts_capture_timeout :
    VALID_LOW .START_BIT 3400 = true ∧ VALID_HIGH .START_BIT 3400 2400 = true ∧
    CAP_START_HIGH_TICKS = 2300 ∧ CAP_START_HIGH_TICKS < 2400 ∧
    rx_start_low.cec_state = CEC_STATE_FOLLOWER_START_LOW ∧
    timer_arms (engine_step rx_start_low (measured hw_high 3400)).2 = [CAP_START_HIGH_TICKS] ∧
    (engine_run rx_start_low [measured hw_high 3400, measured hw_low 2400]).1.cec_state
      = CEC_STATE_FOLLOWER_HEADER_INIT_LOW ∧
    (engine_run rx_start_low [measured hw_high 3400, .timeout hw_high]).1.cec_state
      = CEC_STATE_IDLE ∧
    VALID_LOW .DATA_ONE 300 = true ∧ VALID_HIGH .DATA_ONE 300 2550 = true ∧
    VALID_DATA_HIGH 1 300 2550 = true ∧
    CAP_DATA_HIGH_TICKS = 2450 ∧ CAP_DATA_HIGH_TICKS < 2550 ∧
    rx_after_start.cec_state = CEC_STATE_FOLLOWER_HEADER_INIT_LOW ∧
    timer_arms (engine_step rx_after_start (measured hw_high 300)).2 = [CAP_DATA_HIGH_TICKS] ∧
    (engine_run rx_after_start [measured hw_high 300, measured hw_low 2550]).1.cec_state
      = CEC_STATE_FOLLOWER_HEADER_INIT_LOW ∧
    (engine_run rx_after_start
      [measured hw_high 300, measured hw_low 2550]).1.cec_rx.transfer.bit = 1 ∧
    (engine_run rx_after_start [measured hw_high 300, .timeout hw_high]).1.cec_state
      = CEC_STATE_IDLE := by
  decide

/-! ## The bit addressed by the cursor -/

theorem get_bit_ne_zero (tr : cec_msg_transfer) (hk : tr.bit < 8)
    (hb : tr.byte < MAX_CEC_MSG_LEN) :
    (cec_transfer_get_bit tr ≠ 0 ↔ (tr.buf.getD tr.byte 0).testBit (7 - tr.bit) = true) := by
  have h := and_flag_ne_zero (tr.buf.getD tr.byte 0) tr.bit hk
  have e : cec_transfer_get_bit tr = tr.buf.getD tr.byte 0 &&& (0x80 >>> tr.bit) := by
    unfold cec_transfer_get_bit
    rw [if_neg (by omega)]
  rw [e, ← h, decide_eq_true_eq]

theorem set_bit_out_of_range (tr : cec_msg_transfer) (val : Nat)
    (hb : tr.byte ≥ MAX_CEC_MSG_LEN) :
    cec_transfer_set_bit tr val = tr ∧ cec_transfer_get_bit tr = 0 := by
  unfold cec_transfer_set_bit cec_transfer_get_bit
  rw [if_pos hb, if_pos hb]
  exact ⟨rfl, rfl⟩

/-- C31: for every cursor with bit index in 0..7 and byte index below
`MAX_CEC_MSG_LEN` on a buffer of `MAX_CEC_MSG_LEN` bytes, and every value `v`:
after `cec_transfer_set_bit(t, v)`, `cec_transfer_get_bit(t)` is non-zero exactly
when `v` is non-zero; the bit that `get_bit` reads and `set_bit` writes is bit
`7 - bit` of the cursor byte; no other bit of any buffer byte changes, the byte
stays below 256, and the buffer length and both cursor indices are unchanged.
With byte index >= `MAX_CEC_MSG_LEN`, `set_bit` returns the transfer unchanged
and `get_bit` returns 0 (neither touches the buffer), so the only index ever
used is a cursor byte below `MAX_CEC_MSG_LEN`, the length of the buffer. -/
theorem C31_set_bit_get_bit (tr : cec_msg_transfer) (v : Nat)
    (hlen : tr.buf.length = MAX_CEC_MSG_LEN) :
    (tr.bit < 8 → tr.byte < MAX_CEC_MSG_LEN →
      (cec_transfer_get_bit (cec_transfer_set_bit tr v) ≠ 0 ↔ v ≠ 0) ∧
      (cec_transfer_get_bit tr ≠ 0 ↔ (tr.buf.getD tr.byte 0).testBit (7 - tr.bit) = true) ∧
      ((cec_transfer_set_bit tr v).buf.getD tr.byte 0).testBit (7 - tr.bit) = decide (v ≠ 0) ∧
      (∀ j i, i < 8 → ¬ (j = tr.byte ∧ i = 7 - tr.bit) →
        ((cec_transfer_set_bit tr v).buf.getD j 0).testBit i = (tr.buf.getD j 0).testBit i) ∧
      (∀ j, j ≠ tr.byte → (cec_transfer_set_bit tr v).buf.getD j 0 = tr.buf.getD j 0) ∧
      (cec_transfer_set_bit tr v).buf.getD tr.byte 0 < 256 ∧
      tr.byte < tr.buf.length) ∧
    (cec_transfer_set_bit tr v).bit = tr.bit ∧
    (cec_transfer_set_bit tr v).byte = tr.byte ∧
    (cec_transfer_set_bit tr v).buf.length = tr.buf.length ∧
    (tr.byte ≥ MAX_CEC_MSG_LEN →
      cec_transfer_set_bit tr v = tr ∧ cec_transfer_get_bit tr = 0 ∧
      cec_transfer_get_bit (cec_transfer_set_bit tr v) = 0) := by
  obtain ⟨c1, c2, c3⟩ := set_bit_cursor tr v
  refine ⟨fun hk hb => ?_, c1, c2, c3, fun hb => ?_⟩
  · have hl : tr.byte < tr.buf.length := by rw [hlen]; exact hb
    have hset := set_bit_eq tr v hb
    have hcur : (cec_transfer_set_bit tr v).buf.getD tr.byte 0
        = put_bit (tr.buf.getD tr.byte 0) tr.bit v := by
      rw [hset]; exact getD_set_eq _ _ _ _ hl
    have hother : ∀ j, j ≠ tr.byte →
        (cec_transfer_set_bit tr v).buf.getD j 0 = tr.buf.getD j 0 := by
      intro j hj
      rw [hset]; exact getD_set_ne _ _ _ _ _ (Ne.symm hj)
    refine ⟨?_, get_bit_ne_zero tr hk hb, ?_, ?_, hother, ?_, hl⟩
    · rw [get_bit_set_bit tr v hk hb hl]
      have hf : 0x80 >>> tr.bit ≠ 0 := by
        rw [flag_eq_two_pow tr.bit hk]; exact Nat.pos_iff_ne_zero.mp (Nat.two_pow_pos _)
      by_cases hv : v = 0
      · simp [hv]
      · simp [hv, hf]
    · rw [hcur, put_bit_testBit _ _ _ _ hk, if_pos rfl]
    · intro j i hi hne
      by_cases hj : j = tr.byte
      · subst hj
        have hi2 : ¬ i = 7 - tr.bit := fun h => hne ⟨rfl, h⟩
        rw [hcur, put_bit_testBit _ _ _ _ hk, if_neg hi2]
        simp [hi]
      · rw [hother j hj]
    · rw [hcur]
      apply Nat.lt_of_testBit 8
      · rw [put_bit_testBit _ _ _ _ hk, if_neg (by omega)]
        simp
      · decide
      · intro j hj
        rw [put_bit_testBit _ _ _ _ hk, if_neg (by omega)]
        have e : (256 : Nat) = 2 ^ 8 := rfl
        rw [e, Nat.testBit_two_pow]
        have h8 : ¬ j < 8 := by omega
        have h9 : ¬ 8 = j := by omega
        simp [h8, h9]
  · obtain ⟨d1, d2⟩ := set_bit_out_of_range tr v hb
    exact ⟨d1, d2, by rw [d1]; exact d2⟩

set_option maxRecDepth 100000 in
theorem C31_set_bit_get_bit_witness :
    (cec_transfer_get_bit (cec_transfer_set_bit
        { bit := 3, byte := 1, buf := List.replicate 16 0xff } 0) ≠ 0 ↔ (0 : Nat) ≠ 0) ∧
    (cec_transfer_set_bit { bit := 3, byte := 1, buf := List.replicate 16 0xff } 0).buf.getD 1 0
      = 0xef ∧
    cec_transfer_set_bit { bit := 3, byte := 16, buf := List.replicate 16 0xff } 0
      = { bit := 3, byte := 16, buf := List.replicate 16 0xff } :=
  ⟨((C31_set_bit_get_bit { bit := 3, byte := 1, buf := List.replicate 16 0xff } 0 (by decide)).1
      (by decide) (by decide)).1,
   by decide,
   ((C31_set_bit_get_bit { bit := 3, byte := 16, buf := List.replicate 16 0xff } 0
      (by decide)).2.2.2.2 (by decide)).1⟩

/-! ## The broadcast NAK and the delivery of a received frame -/

theorem enter_follower_ack_verify (hw : hw_inputs) (g : cec_globals) :
    enter_state hw CEC_STATE_FOLLOWER_ACK_VERIFY g
      = ({ g with
            cec_state := CEC_STATE_FOLLOWER_ACK_VERIFY,
            cec_rx := { g.cec_rx with
              broadcast_nak :=
                if rx_dest g = CEC_BROADCAST_ADDR then c_not hw.gpio_get_level else 0 } },
         [cec_tmr_cap_start CEC_CAP_EDGE_NONE
            (DATA_ZERO_LOW_TICKS - NOMINAL_SAMPLE_TIME_TICKS)]) := by
  simp [enter_state, enter_state_with, enter_state_switch, rx_dest, DATA_ZERO_LOW_TICKS,
    NOMINAL_SAMPLE_TIME_TICKS, CEC_US_TO_TICKS]

theorem c_not_ne_zero (x : Int) : c_not x ≠ 0 ↔ x = 0 := by
  unfold c_not
  by_cases h : x = 0 <;> simp [h]

/-- C33: the entry to `CEC_STATE_FOLLOWER_ACK_VERIFY` sets `cec_rx.broadcast_nak`
to non-zero exactly when the destination nibble of the frame is 15 and the line
is sampled low, and to 0 for every frame whose destination is not 15.  On the
next deadline expiry a non-zero flag enters Idle (free time if a transmit is
pending) and raises no task event, so no `TASK_EVENT_RECEIVED_DATA`; a zero flag
enters `CEC_STATE_FOLLOWER_ACK_FINISH`. -/
theorem C33_broadcast_nak (hw hw2 : hw_inputs) (g : cec_globals) :
    (enter_state hw CEC_STATE_FOLLOWER_ACK_VERIFY g).1.cec_state
      = CEC_STATE_FOLLOWER_ACK_VERIFY ∧
    ((enter_state hw CEC_STATE_FOLLOWER_ACK_VERIFY g).1.cec_rx.broadcast_nak ≠ 0 ↔
      (rx_dest g = 15 ∧ hw.gpio_get_level = 0)) ∧
    (rx_dest g ≠ 15 →
      (enter_state hw CEC_STATE_FOLLOWER_ACK_VERIFY g).1.cec_rx.broadcast_nak = 0) ∧
    ((enter_state hw CEC_STATE_FOLLOWER_ACK_VERIFY g).1.cec_rx.broadcast_nak ≠ 0 →
      cec_event_timeout hw2 (enter_state hw CEC_STATE_FOLLOWER_ACK_VERIFY g).1
        = enter_state hw2 CEC_STATE_IDLE (enter_state hw CEC_STATE_FOLLOWER_ACK_VERIFY g).1 ∧
      (cec_event_timeout hw2 (enter_state hw CEC_STATE_FOLLOWER_ACK_VERIFY g).1).1.cec_state
        = (if g.cec_tx.len > 0 then CEC_STATE_INITIATOR_FREE_TIME else CEC_STATE_IDLE) ∧
      task_events
        (cec_event_timeout hw2 (enter_state hw CEC_STATE_FOLLOWER_ACK_VERIFY g).1).2 = [] ∧
      task_set_event TASK_EVENT_RECEIVED_DATA
        ∉ (cec_event_timeout hw2 (enter_state hw CEC_STATE_FOLLOWER_ACK_VERIFY g).1).2) ∧
    ((enter_state hw CEC_STATE_FOLLOWER_ACK_VERIFY g).1.cec_rx.broadcast_nak = 0 →
      cec_event_timeout hw2 (enter_state hw CEC_STATE_FOLLOWER_ACK_VERIFY g).1
        = enter_state hw2 CEC_STATE_FOLLOWER_ACK_FINISH
            (enter_state hw CEC_STATE_FOLLOWER_ACK_VERIFY g).1 ∧
      (cec_event_timeout hw2 (enter_state hw CEC_STATE_FOLLOWER_ACK_VERIFY g).1).1.cec_state
        = CEC_STATE_FOLLOWER_ACK_FINISH) := by
  rw [enter_follower_ack_verify]
  have h15 : CEC_BROADCAST_ADDR = 15 := rfl
  refine ⟨rfl, ?_, ?_, ?_, ?_⟩
  · show (if rx_dest g = CEC_BROADCAST_ADDR then c_not hw.gpio_get_level else 0) ≠ 0 ↔ _
    by_cases hd : rx_dest g = 15
    · rw [h15, if_pos hd, c_not_ne_zero]; simp [hd]
    · rw [h15, if_neg hd]; simp [hd]
  · intro hd
    show (if rx_dest g = CEC_BROADCAST_ADDR then c_not hw.gpio_get_level else 0) = 0
    rw [h15, if_neg hd]
  · intro hn
    have e : cec_event_timeout hw2
        { g with
          cec_state := CEC_STATE_FOLLOWER_ACK_VERIFY,
          cec_rx := { g.cec_rx with
            broadcast_nak :=
              if rx_dest g = CEC_BROADCAST_ADDR then c_not hw.gpio_get_level else 0 } }
        = enter_state hw2 CEC_STATE_IDLE
          { g with
            cec_state := CEC_STATE_FOLLOWER_ACK_VERIFY,
            cec_rx := { g.cec_rx with
              broadcast_nak :=
                if rx_dest g = CEC_BROADCAST_ADDR then c_not hw.gpio_get_level else 0 } } := by
      simp only [cec_event_timeout]
      rw [if_pos hn]
    obtain ⟨a, -, -, -, b, -⟩ := enter_state_summary hw2 CEC_STATE_IDLE
      { g with
        cec_state := CEC_STATE_FOLLOWER_ACK_VERIFY,
        cec_rx := { g.cec_rx with
          broadcast_nak :=
            if rx_dest g = CEC_BROADCAST_ADDR then c_not hw.gpio_get_level else 0 } }
      (by decide)
    refine ⟨e, ?_, ?_, ?_⟩
    · rw [e, a]; simp
    · rw [e]; exact b (by decide)
    · rw [e]
      intro hmem
      have := (mem_task_events _ _).mp hmem
      rw [b (by decide)] at this
      cases this
  · intro hn
    have e : cec_event_timeout hw2
        { g with
          cec_state := CEC_STATE_FOLLOWER_ACK_VERIFY,
          cec_rx := { g.cec_rx with
            broadcast_nak :=
              if rx_dest g = CEC_BROADCAST_ADDR then c_not hw.gpio_get_level else 0 } }
        = enter_state hw2 CEC_STATE_FOLLOWER_ACK_FINISH
          { g with
            cec_state := CEC_STATE_FOLLOWER_ACK_VERIFY,
            cec_rx := { g.cec_rx with
              broadcast_nak :=
                if rx_dest g = CEC_BROADCAST_ADDR then c_not hw.gpio_get_level else 0 } } := by
      simp only [cec_event_timeout]
      rw [if_neg (by simpa using hn)]
    refine ⟨e, ?_⟩
    rw [e]
    exact (enter_state_summary hw2 CEC_STATE_FOLLOWER_ACK_FINISH _ (by decide)).1

set_option maxRecDepth 100000 in
theorem C33_broadcast_nak_witness :
    (enter_state hw_low CEC_STATE_FOLLOWER_ACK_VERIFY
      { rx_frame_done with
        cec_rx := { rx_frame_done.cec_rx with
          transfer := { rx_frame_done.cec_rx.transfer with buf := 0x4f :: 0x04 :: List.replicate 14 0 } } }
      ).1.cec_rx.broadcast_nak ≠ 0 ∧
    (cec_event_timeout hw_high (enter_state hw_low CEC_STATE_FOLLOWER_ACK_VERIFY
      { rx_frame_done with
        cec_rx := { rx_frame_done.cec_rx with
          transfer := { rx_frame_done.cec_rx.transfer with buf := 0x4f :: 0x04 :: List.replicate 14 0 } } }
      ).1).1.cec_state = CEC_STATE_IDLE ∧
    (enter_state hw_low CEC_STATE_FOLLOWER_ACK_VERIFY rx_frame_done).1.cec_rx.broadcast_nak
      = 0 ∧
    (cec_event_timeout hw_high
      (enter_state hw_low CEC_STATE_FOLLOWER_ACK_VERIFY rx_frame_done).1).1.cec_state
      = CEC_STATE_FOLLOWER_ACK_FINISH :=
  ⟨by decide,
   ((C33_broadcast_nak hw_low hw_high
      { rx_frame_done with
        cec_rx := { rx_frame_done.cec_rx with
          transfer := { rx_frame_done.cec_rx.transfer with buf := 0x4f :: 0x04 :: List.replicate 14 0 } } }
      ).2.2.2.1 (by decide)).2.1,
   (C33_broadcast_nak hw_low hw_high rx_frame_done).2.2.1 (by decide),
   ((C33_broadcast_nak hw_low hw_high rx_frame_done).2.2.2.2 (by decide)).2⟩

theorem enter_follower_ack_finish (hw : hw_inputs) (g : cec_globals) :
    enter_state hw CEC_STATE_FOLLOWER_ACK_FINISH g
      = ({ g with cec_state := CEC_STATE_FOLLOWER_ACK_FINISH },
         if g.cec_rx.eom ≠ 0 ∨ g.cec_rx.transfer.byte ≥ MAX_CEC_MSG_LEN then
           (if rx_dest g = g.cec_addr ∨ rx_dest g = CEC_BROADCAST_ADDR then
              [task_set_event TASK_EVENT_RECEIVED_DATA] else [])
             ++ [gpio_set_level 1, cec_tmr_cap_start CEC_CAP_EDGE_NONE DATA_ZERO_HIGH_TICKS]
         else [gpio_set_level 1, cec_tmr_cap_start CEC_CAP_EDGE_FALLING CAP_DATA_HIGH_TICKS]) := by
  by_cases h : g.cec_rx.eom ≠ 0 ∨ g.cec_rx.transfer.byte ≥ MAX_CEC_MSG_LEN
  · simp only [enter_state, enter_state_with, enter_state_switch, if_pos h, rx_dest]
    simp [DATA_ZERO_HIGH_TICKS, CEC_US_TO_TICKS]
  · simp only [enter_state, enter_state_with, enter_state_switch, if_neg h]
    simp [CAP_DATA_HIGH_TICKS, DATA_ONE_MAX_DURATION_TICKS, DATA_ONE_MIN_LOW_TICKS,
      VALID_TOLERANCE_TICKS, CEC_US_TO_TICKS]

theorem task_iteration_without_data (N : Nat) (any_off : Bool)
    (policy : Option (List cec_offline_policy)) (events : List task_event) (g : cec_globals)
    (h : TASK_EVENT_RECEIVED_DATA ∉ events) :
    (cec_task_iteration N any_off policy events g).1.cec_rx_queue = g.cec_rx_queue ∧
    mkbp_send_event EC_MKBP_EVENT_CEC_MESSAGE ∉ (cec_task_iteration N any_off policy events g).2 ∧
    (∀ d, power_button_simulate_press d ∉ (cec_task_iteration N any_off policy events g).2) := by
  unfold cec_task_iteration
  simp only [if_neg h]
  by_cases h1 : TASK_EVENT_OKAY ∈ events
  · simp [if_pos h1, send_mkbp_event]
  · by_cases h2 : TASK_EVENT_FAILED ∈ events
    · simp [if_neg h1, if_pos h2, send_mkbp_event]
    · simp [if_neg h1, if_neg h2]

/-- C37: the entry to `CEC_STATE_FOLLOWER_ACK_FINISH` raises
`TASK_EVENT_RECEIVED_DATA` exactly when the frame is complete (`cec_rx.eom` set
or `cec_rx.transfer.byte >= MAX_CEC_MSG_LEN`) and its destination nibble equals
`cec_addr` or 15, and raises no other task event; it changes nothing in the
globals but the protocol state, so a frame for another device stays read in the
receive context.  An iteration of `cec_task` without `TASK_EVENT_RECEIVED_DATA`
leaves the receive queue as it is, notifies no message and presses no button: so
the iteration run on the events of the entry of a complete frame addressed
elsewhere does nothing at all. -/
theorem C37_received_data_iff_complete_and_addressed (hw : hw_inputs) (g g2 : cec_globals)
    (N : Nat) (any_off : Bool) (policy : Option (List cec_offline_policy))
    (events : List task_event) :
    (task_set_event TASK_EVENT_RECEIVED_DATA ∈ (enter_state hw CEC_STATE_FOLLOWER_ACK_FINISH g).2
      ↔ ((g.cec_rx.eom ≠ 0 ∨ g.cec_rx.transfer.byte ≥ MAX_CEC_MSG_LEN) ∧
         (rx_dest g = g.cec_addr ∨ rx_dest g = 15))) ∧
    task_events (enter_state hw CEC_STATE_FOLLOWER_ACK_FINISH g).2
      = (if (g.cec_rx.eom ≠ 0 ∨ g.cec_rx.transfer.byte ≥ MAX_CEC_MSG_LEN) ∧
            (rx_dest g = g.cec_addr ∨ rx_dest g = 15)
         then [TASK_EVENT_RECEIVED_DATA] else []) ∧
    (enter_state hw CEC_STATE_FOLLOWER_ACK_FINISH g).1
      = { g with cec_state := CEC_STATE_FOLLOWER_ACK_FINISH } ∧
    (TASK_EVENT_RECEIVED_DATA ∉ events →
      (cec_task_iteration N any_off policy events g2).1.cec_rx_queue = g2.cec_rx_queue ∧
      mkbp_send_event EC_MKBP_EVENT_CEC_MESSAGE
        ∉ (cec_task_iteration N any_off policy events g2).2 ∧
      (∀ d, power_button_simulate_press d
        ∉ (cec_task_iteration N any_off policy events g2).2)) ∧
    ((g.cec_rx.eom ≠ 0 ∨ g.cec_rx.transfer.byte ≥ MAX_CEC_MSG_LEN) →
      ¬ (rx_dest g = g.cec_addr ∨ rx_dest g = 15) →
      cec_task_iteration N any_off policy
          (task_events (enter_state hw CEC_STATE_FOLLOWER_ACK_FINISH g).2)
          (enter_state hw CEC_STATE_FOLLOWER_ACK_FINISH g).1
        = ((enter_state hw CEC_STATE_FOLLOWER_ACK_FINISH g).1, [])) := by
  have h15 : CEC_BROADCAST_ADDR = 15 := rfl
  have hev : task_events (enter_state hw CEC_STATE_FOLLOWER_ACK_FINISH g).2
      = (if (g.cec_rx.eom ≠ 0 ∨ g.cec_rx.transfer.byte ≥ MAX_CEC_MSG_LEN) ∧
            (rx_dest g = g.cec_addr ∨ rx_dest g = 15)
         then [TASK_EVENT_RECEIVED_DATA] else []) := by
    rw [enter_follower_ack_finish, h15]
    by_cases h : g.cec_rx.eom ≠ 0 ∨ g.cec_rx.transfer.byte ≥ MAX_CEC_MSG_LEN
    · by_cases h2 : rx_dest g = g.cec_addr ∨ rx_dest g = 15
      · simp only [if_pos h, if_pos h2, if_pos (And.intro h h2)]; rfl
      · have h3 : ¬ ((g.cec_rx.eom ≠ 0 ∨ g.cec_rx.transfer.byte ≥ MAX_CEC_MSG_LEN) ∧
            (rx_dest g = g.cec_addr ∨ rx_dest g = 15)) := fun x => h2 x.2
        simp only [if_pos h, if_neg h2, if_neg h3]; rfl
    · have h3 : ¬ ((g.cec_rx.eom ≠ 0 ∨ g.cec_rx.transfer.byte ≥ MAX_CEC_MSG_LEN) ∧
          (rx_dest g = g.cec_addr ∨ rx_dest g = 15)) := fun x => h x.1
      simp only [if_neg h, if_neg h3]; rfl
  refine ⟨?_, hev, ?_, task_iteration_without_data N any_off policy events g2, ?_⟩
  · rw [mem_task_events, hev]
    by_cases h : (g.cec_rx.eom ≠ 0 ∨ g.cec_rx.transfer.byte ≥ MAX_CEC_MSG_LEN) ∧
        (rx_dest g = g.cec_addr ∨ rx_dest g = 15)
    · simp only [if_pos h, List.mem_singleton, true_iff]; exact h
    · simp only [if_neg h, List.not_mem_nil, false_iff]; exact h
  · rw [enter_follower_ack_finish]
  · intro hc hd
    have h3 : ¬ ((g.cec_rx.eom ≠ 0 ∨ g.cec_rx.transfer.byte ≥ MAX_CEC_MSG_LEN) ∧
        (rx_dest g = g.cec_addr ∨ rx_dest g = 15)) := fun x => hd x.2
    rw [hev, if_neg h3]
    simp [cec_task_iteration]

set_option maxRecDepth 100000 in
theorem C37_received_data_iff_complete_and_addressed_witness :
    rx_frame_done.cec_rx.eom = 1 ∧ rx_dest rx_frame_done = 0 ∧
    cec_task_iteration 20 true (some cec_default_policy)
        (task_events (enter_state hw_high CEC_STATE_FOLLOWER_ACK_FINISH
          { rx_frame_done with cec_addr := 4 }).2)
        (enter_state hw_high CEC_STATE_FOLLOWER_ACK_FINISH
          { rx_frame_done with cec_addr := 4 }).1
      = ((enter_state hw_high CEC_STATE_FOLLOWER_ACK_FINISH
          { rx_frame_done with cec_addr := 4 }).1, []) ∧
    (cec_task_iteration 20 true (some cec_default_policy) [TASK_EVENT_OKAY]
        rx_frame_done).1.cec_rx_queue = rx_frame_done.cec_rx_queue :=
  ⟨by decide, by decide,
   (C37_received_data_iff_complete_and_addressed hw_high { rx_frame_done with cec_addr := 4 }
      rx_frame_done 20 true (some cec_default_policy) []).2.2.2.2
      (Or.inl (by decide)) (by decide),
   ((C37_received_data_iff_complete_and_addressed hw_high rx_frame_done rx_frame_done 20 true
      (some cec_default_policy) [TASK_EVENT_OKAY]).2.2.2.1 (by decide)).1⟩

/-! ## What the offline interception reads -/

/-- For a frame that carries an opcode (`msg_len >= 2`), the outcome of
`cec_process_offline_message` depends on the buffer only through its first
`msg_len` bytes. -/
theorem offline_message_prefix (any_off : Bool) (policy : Option (List cec_offline_policy))
    (msg1 msg2 : List Nat) (msg_len : Nat) (h2 : 2 ≤ msg_len)
    (h : ∀ i, i < msg_len → msg1.getD i 0 = msg2.getD i 0) :
    cec_process_offline_message any_off policy msg1 msg_len
      = cec_process_offline_message any_off policy msg2 msg_len := by
  rw [offline_message_cases, offline_message_cases, h 1 (by omega)]

set_option maxRecDepth 100000 in
/-- C40, the code at the failing input.  With the chipset off, the default policy
and `msg_len = 1`, two buffers that agree on their first byte `0x40` and differ
at index 1 give different outcomes: `0x04` at index 1 simulates a power-button
press, `0x00` does not.  The engine produces this input: after the frame
`0x40 0x04` was received, a header-only frame `0x40` leaves
`cec_rx.transfer.byte = 1` and the stale `0x04` at index 1, raises
`TASK_EVENT_RECEIVED_DATA`, and the iteration of `cec_task` presses the power
button. -/
theorem C40_header_only_frame_reads_stale_byte :
    cec_process_offline_message true (some cec_default_policy)
        (0x40 :: 0x04 :: List.replicate 14 0) 1
      = (EC_SUCCESS, [power_button_simulate_press 200]) ∧
    cec_process_offline_message true (some cec_default_policy)
        (0x40 :: 0x00 :: List.replicate 14 0) 1
      = (EC_SUCCESS, []) ∧
    (0x40 :: 0x04 :: List.replicate 14 0).take 1 = (0x40 :: 0x00 :: List.replicate 14 0).take 1 ∧
    rx_idle_after_frame.cec_state = CEC_STATE_IDLE ∧
    wire_frame_ok C40_poll_frame = true ∧
    (engine_run rx_idle_after_frame
      (wire_inputs hw_high (3700, 800) C40_poll_frame)).1.cec_state
      = CEC_STATE_FOLLOWER_ACK_FINISH ∧
    task_events (engine_run rx_idle_after_frame
      (wire_inputs hw_high (3700, 800) C40_poll_frame)).2 = [TASK_EVENT_RECEIVED_DATA] ∧
    (engine_run rx_idle_after_frame
      (wire_inputs hw_high (3700, 800) C40_poll_frame)).1.cec_rx.transfer.byte = 1 ∧
    (engine_run rx_idle_after_frame
      (wire_inputs hw_high (3700, 800) C40_poll_frame)).1.cec_rx.transfer.buf
      = 0x40 :: 0x04 :: List.replicate 14 0 ∧
    (cec_task_iteration 20 true (some cec_default_policy) [TASK_EVENT_RECEIVED_DATA]
      (engine_run rx_idle_after_frame (wire_inputs hw_high (3700, 800) C40_poll_frame)).1).2
      = [power_button_simulate_press 200, mkbp_send_event EC_MKBP_EVENT_CEC_MESSAGE] := by
  decide

/-! ## Invariant of the transmit context -/

theorem entry_tx_inv (hw : hw_inputs) (s : cec_state) (g g1 : cec_globals)
    (hs : s ≠ CEC_STATE_DISABLED) (hlen : g1.cec_tx.len = g.cec_tx.len)
    (hres : g1.cec_tx.resends = g.cec_tx.resends)
    (h1 : g.cec_tx.resends ≤ CEC_MAX_RESENDS) (h2 : g.cec_tx.len = 0 → g.cec_tx.resends = 0)
    (hi : is_initiator s = true → g.cec_tx.len ≠ 0) :
    tx_inv (enter_state hw s g1).1 := by
  obtain ⟨a, b, c, -⟩ := enter_state_summary hw s g1 hs
  rw [hlen] at a b
  rw [hres] at c
  unfold tx_inv
  rw [a, b, c]
  refine ⟨h1, h2, ?_, ?_⟩
  · by_cases hc : s = CEC_STATE_IDLE ∧ g.cec_tx.len > 0
    · intro _; omega
    · rw [if_neg hc]; exact hi
  · by_cases hc : s = CEC_STATE_IDLE ∧ g.cec_tx.len > 0
    · rw [if_pos hc]; intro h; exact absurd h (by decide)
    · rw [if_neg hc]; intro h; exact absurd h hs

theorem enter_disabled_tx (hw : hw_inputs) (g : cec_globals) :
    (enter_state hw CEC_STATE_DISABLED g).1.cec_state = CEC_STATE_DISABLED ∧
    (enter_state hw CEC_STATE_DISABLED g).1.cec_tx = cec_tx_zero := by
  simp [enter_state, enter_state_with, enter_state_switch]

theorem tx_inv_of_disabled (g : cec_globals) (hs : g.cec_state = CEC_STATE_DISABLED)
    (h : g.cec_tx = cec_tx_zero) : tx_inv g := by
  unfold tx_inv
  rw [h, hs]
  exact ⟨by decide, fun _ => rfl, fun hi => absurd hi (by decide), fun _ => rfl⟩

theorem tx_inv_init (N : Nat) : tx_inv (cec_globals_init N) :=
  tx_inv_of_disabled _ rfl rfl

set_option maxHeartbeats 1000000 in
theorem timeout_tx_inv (hw : hw_inputs) (g : cec_globals) (h : tx_inv g) :
    tx_inv (cec_event_timeout hw g).1 := by
  obtain ⟨h1, h2, h3, h4⟩ := h
  cases hst : g.cec_state
  case CEC_STATE_DISABLED =>
    have e : cec_event_timeout hw g = (g, []) := by simp [cec_event_timeout, hst]
    rw [e]; exact ⟨h1, h2, h3, h4⟩
  case CEC_STATE_IDLE =>
    have e : cec_event_timeout hw g = (g, []) := by simp [cec_event_timeout, hst]
    rw [e]; exact ⟨h1, h2, h3, h4⟩
  case CEC_STATE_INITIATOR_ACK_VERIFY =>
    have hg : g.cec_tx.len ≠ 0 := h3 (by rw [hst]; rfl)
    simp only [cec_event_timeout, hst]
    split_ifs with ha he hr
    · exact entry_tx_inv hw _ g g (by decide) rfl rfl h1 h2 (fun _ => hg)
    · exact entry_tx_inv hw _ { g with cec_tx := { g.cec_tx with len := 0, resends := 0 } } _
        (by decide) rfl rfl (Nat.zero_le _) (fun _ => rfl) (fun hi => absurd hi (by decide))
    · have hr5 : g.cec_tx.resends < 5 := hr
      exact entry_tx_inv hw _
        { g with cec_tx := { g.cec_tx with resends := (g.cec_tx.resends + 1) % 256 } } _
        (by decide) rfl rfl
        (by show (g.cec_tx.resends + 1) % 256 ≤ 5
            omega)
        (fun hl => absurd hl hg) (fun _ => hg)
    · exact entry_tx_inv hw _ { g with cec_tx := { g.cec_tx with len := 0, resends := 0 } } _
        (by decide) rfl rfl (Nat.zero_le _) (fun _ => rfl) (fun hi => absurd hi (by decide))
  all_goals
    simp only [cec_event_timeout, hst]
    first
    | exact entry_tx_inv hw _ g _ (by decide) rfl rfl h1 h2 (fun hi => absurd hi (by decide))
    | exact entry_tx_inv hw _ g _ (by decide) rfl rfl h1 h2 (fun _ => h3 (by rw [hst]; rfl))
    | (split_ifs <;>
        first
        | exact entry_tx_inv hw _ g _ (by decide) rfl rfl h1 h2
            (fun hi => absurd hi (by decide))
        | exact entry_tx_inv hw _ g _ (by decide) rfl rfl h1 h2
            (fun _ => h3 (by rw [hst]; rfl)))

set_option maxHeartbeats 1000000 in
theorem cap_tx_inv (hw : hw_inputs) (g : cec_globals) (h : tx_inv g) :
    tx_inv (cec_event_cap hw g).1 := by
  obtain ⟨h1, h2, h3, h4⟩ := h
  cases hst : g.cec_state <;> simp only [cec_event_cap, hst, cec_state_succ, rx_inc_bit] <;>
    first
    | exact ⟨h1, h2, h3, h4⟩
    | exact entry_tx_inv hw _ g _ (by decide) rfl rfl h1 h2 (fun hi => absurd hi (by decide))
    | (split_ifs <;>
        exact entry_tx_inv hw _ g _ (by decide) rfl rfl h1 h2
          (fun hi => absurd hi (by decide)))

theorem submit_tx_inv (hw : hw_inputs) (g : cec_globals) (msg : List Nat) (sz : Nat)
    (h : tx_inv g) : tx_inv (engine_step g (.submit hw msg sz)).1 := by
  by_cases hd : g.cec_state = CEC_STATE_DISABLED
  · have e : engine_step g (.submit hw msg sz) = (g, []) := by
      simp [engine_step, hc_cec_write, hd]
    rw [e]; exact h
  by_cases hp : sz = 0 ∨ sz > MAX_CEC_MSG_LEN
  · have e : engine_step g (.submit hw msg sz) = (g, []) := by
      simp [engine_step, hc_cec_write, hd, hp]
    rw [e]; exact h
  by_cases hl : g.cec_tx.len ≠ 0
  · have e : engine_step g (.submit hw msg sz) = (g, []) := by
      simp [engine_step, hc_cec_write, cec_send, hd, hp, hl]
    rw [e]; exact h
  obtain ⟨h1, h2, h3, h4⟩ := h
  have hl0 : g.cec_tx.len = 0 := by
    by_contra hne; exact hl hne
  have hsz : sz % 256 = sz := by
    apply Nat.mod_eq_of_lt
    have : MAX_CEC_MSG_LEN = 16 := rfl
    omega
  have hsz0 : sz ≠ 0 := fun hz => hp (Or.inl hz)
  by_cases hidle : g.cec_state = CEC_STATE_IDLE
  · have e : (engine_step g (.submit hw msg sz)).1 =
        (enter_state hw CEC_STATE_INITIATOR_FREE_TIME
            { g with cec_tx := { g.cec_tx with
                len := sz,
                transfer := { g.cec_tx.transfer with
                  buf := memcpy g.cec_tx.transfer.buf msg sz } } }).1 := by
      simp [engine_step, hc_cec_write, cec_send, cec_event_tx, hd, hp, hl0, hsz, hidle]
    rw [e]
    exact entry_tx_inv hw _
      { g with cec_tx := { g.cec_tx with
          len := sz,
          transfer := { g.cec_tx.transfer with
            buf := memcpy g.cec_tx.transfer.buf msg sz } } } _
      (by decide) rfl rfl h1 (fun hz => absurd hz hsz0) (fun _ => hsz0)
  · have e : (engine_step g (.submit hw msg sz)).1 =
        { g with cec_tx := { g.cec_tx with
              len := sz,
              transfer := { g.cec_tx.transfer with
                buf := memcpy g.cec_tx.transfer.buf msg sz } } } := by
      simp [engine_step, hc_cec_write, cec_send, cec_event_tx, hd, hp, hl0, hsz, hidle]
    rw [e]
    exact ⟨h1, fun hz => absurd hz hsz0, fun _ => hsz0, fun hs => absurd hs hd⟩

theorem engine_step_tx_inv (g : cec_globals) (i : engine_input) (h : tx_inv g) :
    tx_inv (engine_step g i).1 := by
  cases i with
  | cap hw => exact cap_tx_inv hw g h
  | timeout hw => exact timeout_tx_inv hw g h
  | submit hw msg sz => exact submit_tx_inv hw g msg sz h

theorem set_enable_tx_inv (hw : hw_inputs) (g : cec_globals) (enable : Nat) (h : tx_inv g) :
    tx_inv (cec_set_enable hw g enable).2.1 := by
  unfold cec_set_enable
  split_ifs with c1 c2 c3 c4
  · exact h
  · exact h
  · exact h
  · exact entry_tx_inv hw _ g g (by decide) rfl rfl h.1 h.2.1 (fun hi => absurd hi (by decide))
  · exact tx_inv_of_disabled _ (enter_disabled_tx hw g).1 (enter_disabled_tx hw g).2

theorem host_step_tx_inv (g : cec_globals) (c : host_call) (h : tx_inv g) :
    tx_inv (host_step g c).1 := by
  cases c with
  | engine i => exact engine_step_tx_inv g i h
  | set_enable hw enable => exact set_enable_tx_inv hw g enable h
  | set_logical_addr a =>
    show tx_inv (cec_set_logical_addr g a).2
    unfold cec_set_logical_addr
    split_ifs
    · exact h
    · exact h

theorem host_run_tx_inv (calls : List host_call) :
    ∀ g : cec_globals, tx_inv g → tx_inv (host_run g calls).1 := by
  induction calls with
  | nil => intro g h; exact h
  | cons c cs ih => intro g h; exact ih _ (host_step_tx_inv g c h)

/-- C38: in every state reached from the initial (Disabled) globals by host
calls (enable and disable, address settings, submissions each followed by
`cec_event_tx` when accepted, edge captures and deadline expiries),
`cec_tx.resends <= CEC_MAX_RESENDS` = 5, `cec_tx.len = 0` implies
`cec_tx.resends = 0`, and in every `CEC_STATE_INITIATOR_*` state `cec_tx.len` is
non-zero. -/
theorem C38_transmit_context_invariant (N : Nat) (calls : List host_call) :
    CEC_MAX_RESENDS = 5 ∧
    (host_run (cec_globals_init N) calls).1.cec_tx.resends ≤ CEC_MAX_RESENDS ∧
    ((host_run (cec_globals_init N) calls).1.cec_tx.len = 0 →
      (host_run (cec_globals_init N) calls).1.cec_tx.resends = 0) ∧
    (is_initiator (host_run (cec_globals_init N) calls).1.cec_state = true →
      (host_run (cec_globals_init N) calls).1.cec_tx.len ≠ 0) := by
  obtain ⟨h1, h2, h3, -⟩ := host_run_tx_inv calls (cec_globals_init N) (tx_inv_init N)
  exact ⟨rfl, h1, h2, h3⟩

set_option maxRecDepth 100000 in
theorem C38_transmit_context_invariant_witness :
    (host_run (cec_globals_init 20) C38_calls).1.cec_state = CEC_STATE_INITIATOR_FREE_TIME ∧
    (host_run (cec_globals_init 20) C38_calls).1.cec_tx.len ≠ 0 ∧
    (host_run (cec_globals_init 20) []).1.cec_tx.len = 0 ∧
    (host_run (cec_globals_init 20) []).1.cec_tx.resends = 0 :=
  ⟨by decide,
   (C38_transmit_context_invariant 20 C38_calls).2.2.2 (by decide),
   by decide,
   (C38_transmit_context_invariant 20 []).2.2.1 (by decide)⟩

/-! ## Disabled -/

theorem disabled_callbacks (hw : hw_inputs) (g : cec_globals)
    (hd : g.cec_state = CEC_STATE_DISABLED) :
    cec_event_cap hw g = (g, []) ∧ cec_event_timeout hw g = (g, []) ∧
    cec_event_tx hw g = (g, []) ∧
    (∀ msg sz, hc_cec_write g msg sz = (EC_RES_UNAVAILABLE, g, [])) ∧
    (∀ i, engine_step g i = (g, [])) := by
  have e1 : cec_event_cap hw g = (g, []) := by simp [cec_event_cap, hd]
  have e2 : ∀ h, cec_event_timeout h g = (g, []) := fun h => by simp [cec_event_timeout, hd]
  have e3 : cec_event_tx hw g = (g, []) := by simp [cec_event_tx, hd]
  have e4 : ∀ msg sz, hc_cec_write g msg sz = (EC_RES_UNAVAILABLE, g, []) := fun msg sz => by
    simp [hc_cec_write, hd]
  refine ⟨e1, e2 hw, e3, e4, ?_⟩
  intro i
  cases i with
  | cap h => simp [engine_step, cec_event_cap, hd]
  | timeout h => exact e2 h
  | submit h msg sz => simp [engine_step, e4]

/-- C39: while the protocol state is Disabled, `cec_event_cap`,
`cec_event_timeout` and `cec_event_tx` return the globals as they are with no
effect at all (no state change, no GPIO write, no timer armed), and a submission
is refused with `EC_RES_UNAVAILABLE`; a host call after which the state is not
Disabled is `cec_set_enable(1)`, which calls `enter_state(CEC_STATE_IDLE)`; and
in every Disabled state reached from the initial globals, `cec_set_enable(1)`
leaves the engine in `CEC_STATE_IDLE`. -/
theorem C39_disabled_is_absorbing (hw : hw_inputs) (g : cec_globals) (c : host_call)
    (N : Nat) (calls : List host_call) (hd : g.cec_state = CEC_STATE_DISABLED) :
    cec_event_cap hw g = (g, []) ∧
    cec_event_timeout hw g = (g, []) ∧
    cec_event_tx hw g = (g, []) ∧
    (∀ msg sz, hc_cec_write g msg sz = (EC_RES_UNAVAILABLE, g, [])) ∧
    (∀ i, engine_step g i = (g, [])) ∧
    ((host_step g c).1.cec_state ≠ CEC_STATE_DISABLED → ∃ hw2, c = .set_enable hw2 1) ∧
    cec_set_enable hw g 1
      = (EC_RES_SUCCESS, (enter_state hw CEC_STATE_IDLE g).1,
         (enter_state hw CEC_STATE_IDLE g).2 ++ [cec_enable_timer]) ∧
    (g.cec_tx.len = 0 → (cec_set_enable hw g 1).2.1.cec_state = CEC_STATE_IDLE) ∧
    ((host_run (cec_globals_init N) calls).1.cec_state = CEC_STATE_DISABLED →
      (host_run (cec_globals_init N) calls).1.cec_tx.len = 0 ∧
      (cec_set_enable hw (host_run (cec_globals_init N) calls).1 1).2.1.cec_state
        = CEC_STATE_IDLE) := by
  obtain ⟨e1, e2, e3, e4, e5⟩ := disabled_callbacks hw g hd
  have hen : ∀ g1 : cec_globals, g1.cec_state = CEC_STATE_DISABLED →
      cec_set_enable hw g1 1
        = (EC_RES_SUCCESS, (enter_state hw CEC_STATE_IDLE g1).1,
           (enter_state hw CEC_STATE_IDLE g1).2 ++ [cec_enable_timer]) := by
    intro g1 h1
    simp [cec_set_enable, h1]
  have hidle : ∀ g1 : cec_globals, g1.cec_state = CEC_STATE_DISABLED → g1.cec_tx.len = 0 →
      (cec_set_enable hw g1 1).2.1.cec_state = CEC_STATE_IDLE := by
    intro g1 h1 hl
    rw [hen g1 h1]
    show (enter_state hw CEC_STATE_IDLE g1).1.cec_state = CEC_STATE_IDLE
    rw [(enter_state_summary hw CEC_STATE_IDLE g1 (by decide)).1, hl]
    simp
  refine ⟨e1, e2, e3, e4, e5, ?_, hen g hd, hidle g hd, ?_⟩
  · intro hne
    cases c with
    | engine i =>
      exfalso; apply hne
      show (engine_step g i).1.cec_state = _
      rw [e5 i]; exact hd
    | set_logical_addr a =>
      exfalso; apply hne
      show (cec_set_logical_addr g a).2.cec_state = _
      unfold cec_set_logical_addr
      split_ifs
      · exact hd
      · exact hd
    | set_enable hw2 enable =>
      by_cases h1 : enable = 1
      · exact ⟨hw2, by rw [h1]⟩
      · exfalso; apply hne
        show (cec_set_enable hw2 g enable).2.1.cec_state = _
        by_cases h0 : enable = 0
        · simp [cec_set_enable, h0, hd]
        · have hinv : enable ≠ 0 ∧ enable ≠ 1 := ⟨h0, h1⟩
          simp only [cec_set_enable, if_pos hinv]
          exact hd
  · intro hs
    have hinv := host_run_tx_inv calls (cec_globals_init N) (tx_inv_init N)
    exact ⟨hinv.2.2.2 hs, hidle _ hs (hinv.2.2.2 hs)⟩

set_option maxRecDepth 100000 in
theorem C39_disabled_is_absorbing_witness :
    (host_run (cec_globals_init 20) C39_calls).1.cec_state = CEC_STATE_DISABLED ∧
    cec_event_cap hw_low (host_run (cec_globals_init 20) C39_calls).1
      = ((host_run (cec_globals_init 20) C39_calls).1, []) ∧
    (cec_set_enable hw_low (host_run (cec_globals_init 20) C39_calls).1 1).2.1.cec_state
      = CEC_STATE_IDLE ∧
    (host_step (host_run (cec_globals_init 20) C39_calls).1
      (.set_enable hw_high 1)).1.cec_state ≠ CEC_STATE_DISABLED ∧
    (∃ hw2, host_call.set_enable hw_high 1 = .set_enable hw2 1) :=
  ⟨by decide,
   (C39_disabled_is_absorbing hw_low (host_run (cec_globals_init 20) C39_calls).1
      (.set_enable hw_high 1) 20 C39_calls (by decide)).1,
   ((C39_disabled_is_absorbing hw_low (host_run (cec_globals_init 20) C39_calls).1
      (.set_enable hw_high 1) 20 C39_calls (by decide)).2.2.2.2.2.2.2.2 (by decide)).2,
   by decide,
   (C39_disabled_is_absorbing hw_low (host_run (cec_globals_init 20) C39_calls).1
      (.set_enable hw_high 1) 20 C39_calls (by decide)).2.2.2.2.2.1 (by decide)⟩

/-! ## The waveform of a transmission -/

theorem driven_append (a b : List Effect) :
    ∀ level, driven level (a ++ b) = driven level a ++ driven (last_level level a) b := by
  induction a with
  | nil => intro level; rfl
  | cons x a ih => intro level; cases x <;> simp [driven, last_level, ih]

theorem last_level_append (a b : List Effect) :
    ∀ level, last_level level (a ++ b) = last_level (last_level level a) b := by
  induction a with
  | nil => intro level; rfl
  | cons x a ih => intro level; cases x <;> simp [last_level, ih]

theorem engine_states_append (a b : List engine_input) :
    ∀ g : cec_globals, engine_states g (a ++ b)
      = engine_states g a ++ engine_states (engine_run g a).1 b := by
  induction a with
  | nil => intro g; rfl
  | cons i a ih => intro g; simp [engine_states, engine_run, ih]

set_option maxHeartbeats 4000000 in
/-- The segments driven and the states visited by the 23 deadline expiries from
free time to the ACK sample of the header byte. -/
theorem header_wave (hw : hw_inputs) (g : cec_globals) (level : Int)
    (hs : g.cec_state = CEC_STATE_INITIATOR_FREE_TIME) :
    driven level (engine_run g (List.replicate 23 (.timeout hw))).2
      = [(0, START_BIT_LOW_TICKS), (1, START_BIT_HIGH_TICKS)]
        ++ byte_wave (g.cec_tx.transfer.buf.getD 0 0) (if 0 + 1 = g.cec_tx.len then 1 else 0) ∧
    last_level level (engine_run g (List.replicate 23 (.timeout hw))).2 = 1 ∧
    engine_states g (List.replicate 23 (.timeout hw))
      = [CEC_STATE_INITIATOR_START_LOW, CEC_STATE_INITIATOR_START_HIGH] ++ header_states := by
  simp [List.replicate, engine_run, engine_states, engine_step, cec_event_timeout, hs,
    enter_state,
    enter_state_with, enter_state_switch, cec_transfer_inc_bit, cec_transfer_get_bit,
    cec_transfer_is_eom, MAX_CEC_MSG_LEN, driven, last_level, header_states,
    DATA_LOW_nonneg, DATA_HIGH_nonneg, START_BIT_LOW_TICKS, START_BIT_HIGH_TICKS,
    CEC_US_TO_TICKS, DATA_ONE_LOW_TICKS, DATA_ZERO_LOW_TICKS, NOMINAL_BIT_TICKS,
    NOMINAL_SAMPLE_TIME_TICKS, byte_wave]

set_option maxHeartbeats 4000000 in
/-- The segments driven and the states visited by the 21 deadline expiries from
an acknowledged byte that is not the last one to the ACK sample of the next
byte `b`. -/
theorem data_byte_wave (hw : hw_inputs) (g : cec_globals) (b : Nat) (level : Int)
    (hs : g.cec_state = CEC_STATE_INITIATOR_ACK_VERIFY)
    (hbit : g.cec_tx.transfer.bit = 0) (hbyte : g.cec_tx.transfer.byte = b)
    (hb : b < 16) (hack : g.cec_tx.ack ≠ 0) (heom : ¬ b = g.cec_tx.len) :
    driven level (engine_run g (List.replicate 21 (.timeout hw))).2
      = byte_wave (g.cec_tx.transfer.buf.getD b 0) (if b + 1 = g.cec_tx.len then 1 else 0) ∧
    engine_states g (List.replicate 21 (.timeout hw)) = data_states := by
  have hb2 : ¬ 16 ≤ b := by omega
  have hm : (b + 1) % 256 = b + 1 := by omega
  simp [List.replicate, engine_run, engine_states, engine_step, cec_event_timeout, hs,
    enter_state,
    enter_state_with, enter_state_switch, cec_transfer_inc_bit, cec_transfer_get_bit,
    cec_transfer_is_eom, MAX_CEC_MSG_LEN, driven, data_states, hbit, hbyte, hack, heom, hb2, hm,
    DATA_LOW_nonneg, DATA_HIGH_nonneg, START_BIT_LOW_TICKS, START_BIT_HIGH_TICKS,
    CEC_US_TO_TICKS, DATA_ONE_LOW_TICKS, DATA_ZERO_LOW_TICKS, NOMINAL_BIT_TICKS,
    NOMINAL_SAMPLE_TIME_TICKS, byte_wave]

/-- The data bytes of an acknowledged frame, from byte `b` on: where the engine
arrives, what it drives and the states it visits. -/
theorem data_wave_chain (acks : List hw_inputs) :
    ∀ (g : cec_globals) (b : Nat) (level : Int),
      g.cec_state = CEC_STATE_INITIATOR_ACK_VERIFY →
      g.cec_tx.transfer.bit = 0 → g.cec_tx.transfer.byte = b → g.cec_tx.ack ≠ 0 →
      g.cec_tx.len ≤ 16 → b + acks.length ≤ g.cec_tx.len →
      (∀ h ∈ acks, sampled_ack g h ≠ 0) →
      (engine_run g (data_inputs acks)).1.cec_state = CEC_STATE_INITIATOR_ACK_VERIFY ∧
      (engine_run g (data_inputs acks)).1.cec_tx.transfer.bit = 0 ∧
      (engine_run g (data_inputs acks)).1.cec_tx.transfer.byte = b + acks.length ∧
      (engine_run g (data_inputs acks)).1.cec_tx.len = g.cec_tx.len ∧
      (engine_run g (data_inputs acks)).1.cec_tx.ack ≠ 0 ∧
      task_events (engine_run g (data_inputs acks)).2 = [] ∧
      driven level (engine_run g (data_inputs acks)).2
        = frame_wave g.cec_tx.transfer.buf g.cec_tx.len b acks.length ∧
      engine_states g (data_inputs acks) = data_states_rep acks.length := by
  induction acks with
  | nil =>
    intro g b level hs hbit hbyte hack _ _ _
    exact ⟨hs, hbit, hbyte, rfl, hack, rfl, rfl, rfl⟩
  | cons h acks ih =>
    intro g b level hs hbit hbyte hack hlen hb hall
    simp only [List.length_cons] at hb
    obtain ⟨a1, a2, a3, a4, -, a6, a7, a8⟩ := data_byte_attempt h g b hs hbit hbyte
      (by omega) hack (by omega)
    obtain ⟨w1, w2⟩ := data_byte_wave h g b level hs hbit hbyte (by omega) hack (by omega)
    have hh : sampled_ack g h ≠ 0 := hall h (List.mem_cons_self _ _)
    obtain ⟨c1, c2, c3, c4, c5, c6, c7, c8⟩ :=
      ih (engine_run g (List.replicate 21 (.timeout h))).1 (b + 1)
        (last_level level (engine_run g (List.replicate 21 (.timeout h))).2) a1 a2 a3
        (by rw [a7]; exact hh) (by rw [a4]; exact hlen) (by rw [a4]; omega)
        (fun x hx => by
          rw [sampled_ack_congr g _ x a6]; exact hall x (List.mem_cons_of_mem _ hx))
    rw [a6, a4] at c7
    have e : data_inputs (h :: acks)
        = List.replicate 21 (.timeout h) ++ data_inputs acks := rfl
    rw [e, engine_run_append, engine_states_append]
    refine ⟨c1, c2, ?_, by rw [c4, a4], c5, ?_, ?_, ?_⟩
    · show (engine_run (engine_run g (List.replicate 21 (.timeout h))).1
        (data_inputs acks)).1.cec_tx.transfer.byte = b + (acks.length + 1)
      rw [c3]; omega
    · show task_events (_ ++ _) = []
      rw [task_events_append, a8, c6]; rfl
    · show driven level (_ ++ _) = _
      rw [driven_append, w1, c7]; rfl
    · rw [w2, c8]; rfl

/-- The decision on the acknowledged last byte: the frame is cleared, Idle is
entered and `TASK_EVENT_OKAY` is raised. -/
theorem okay_decision (hw : hw_inputs) (g : cec_globals)
    (hs : g.cec_state = CEC_STATE_INITIATOR_ACK_VERIFY) (hack : g.cec_tx.ack ≠ 0)
    (hbit : g.cec_tx.transfer.bit = 0) (hbyte : g.cec_tx.transfer.byte = g.cec_tx.len) :
    (cec_event_timeout hw g).1
      = { g with
          cec_state := CEC_STATE_IDLE,
          cec_tx := { g.cec_tx with
            len := 0, resends := 0,
            transfer := { g.cec_tx.transfer with bit := 0, byte := 0 } },
          cec_rx := { g.cec_rx with
            transfer := { g.cec_rx.transfer with bit := 0, byte := 0 } } } ∧
    (cec_event_timeout hw g).2
      = [gpio_set_level 1, cec_tmr_cap_start CEC_CAP_EDGE_FALLING 0,
         task_set_event TASK_EVENT_OKAY] := by
  have heom : ¬ cec_transfer_is_eom g.cec_tx.transfer g.cec_tx.len = 0 := by
    simp [cec_transfer_is_eom, hbit, hbyte]
  have e : cec_event_timeout hw g
      = ((enter_state hw CEC_STATE_IDLE
            { g with cec_tx := { g.cec_tx with len := 0, resends := 0 } }).1,
         (enter_state hw CEC_STATE_IDLE
            { g with cec_tx := { g.cec_tx with len := 0, resends := 0 } }).2
           ++ [task_set_event TASK_EVENT_OKAY]) := by
    simp only [cec_event_timeout, hs]
    rw [if_pos hack, if_neg heom]
  rw [e, enter_idle_spec]
  exact ⟨rfl, rfl⟩

theorem bit_wave_eq (x : Nat) :
    [((0 : Int), DATA_LOW x), ((1 : Int), DATA_HIGH x)] = spec_bit_wave (decide (x ≠ 0)) := by
  by_cases h : x = 0
  · subst h; rfl
  · simp [DATA_LOW, DATA_HIGH, spec_bit_wave, h, DATA_ONE_LOW_TICKS, DATA_ONE_HIGH_TICKS]

theorem bit_wave_testBit (B k : Nat) (hk : k < 8) :
    [((0 : Int), DATA_LOW (B &&& (0x80 >>> k))), ((1 : Int), DATA_HIGH (B &&& (0x80 >>> k)))]
      = spec_bit_wave (B.testBit (7 - k)) := by
  rw [bit_wave_eq, and_flag_ne_zero B k hk]

/-- The segments `enter_state` computes for a byte are those of the
specification: bit `7 - k` of the byte decides the `k`-th bit. -/
theorem byte_wave_spec (B : Nat) (last : Bool) :
    byte_wave B (if last then 1 else 0) = spec_byte_wave B last := by
  have e : byte_wave B (if last then 1 else 0)
      = [((0 : Int), DATA_LOW (B &&& (0x80 >>> 0))), ((1 : Int), DATA_HIGH (B &&& (0x80 >>> 0)))]
        ++ [((0 : Int), DATA_LOW (B &&& (0x80 >>> 1))), ((1 : Int), DATA_HIGH (B &&& (0x80 >>> 1)))]
        ++ [((0 : Int), DATA_LOW (B &&& (0x80 >>> 2))), ((1 : Int), DATA_HIGH (B &&& (0x80 >>> 2)))]
        ++ [((0 : Int), DATA_LOW (B &&& (0x80 >>> 3))), ((1 : Int), DATA_HIGH (B &&& (0x80 >>> 3)))]
        ++ [((0 : Int), DATA_LOW (B &&& (0x80 >>> 4))), ((1 : Int), DATA_HIGH (B &&& (0x80 >>> 4)))]
        ++ [((0 : Int), DATA_LOW (B &&& (0x80 >>> 5))), ((1 : Int), DATA_HIGH (B &&& (0x80 >>> 5)))]
        ++ [((0 : Int), DATA_LOW (B &&& (0x80 >>> 6))), ((1 : Int), DATA_HIGH (B &&& (0x80 >>> 6)))]
        ++ [((0 : Int), DATA_LOW (B &&& (0x80 >>> 7))), ((1 : Int), DATA_HIGH (B &&& (0x80 >>> 7)))]
        ++ [((0 : Int), DATA_LOW (if last then 1 else 0)),
            ((1 : Int), DATA_HIGH (if last then 1 else 0))]
        ++ spec_ack_wave := rfl
  have hl : decide ((if last then 1 else 0 : Nat) ≠ 0) = last := by
    cases last <;> rfl
  rw [e, bit_wave_testBit B 0 (by decide), bit_wave_testBit B 1 (by decide),
    bit_wave_testBit B 2 (by decide), bit_wave_testBit B 3 (by decide),
    bit_wave_testBit B 4 (by decide), bit_wave_testBit B 5 (by decide),
    bit_wave_testBit B 6 (by decide), bit_wave_testBit B 7 (by decide), bit_wave_eq, hl]
  rfl

theorem frame_wave_spec (buf : List Nat) (n k : Nat) :
    ∀ b, frame_wave buf n b k = spec_bytes_wave buf n b k := by
  induction k with
  | zero => intro b; rfl
  | succ k ih =>
    intro b
    have e : (if b + 1 = n then 1 else 0 : Nat) = (if decide (b + 1 = n) then 1 else 0) := by
      by_cases h : b + 1 = n <;> simp [h]
    show byte_wave _ (if b + 1 = n then 1 else 0) ++ frame_wave buf n (b + 1) k
      = spec_byte_wave _ (decide (b + 1 = n)) ++ spec_bytes_wave buf n (b + 1) k
    rw [e, byte_wave_spec, ih]

/-- C32: for a pending frame of `n` bytes, `n` in 1..16, waiting in
`CEC_STATE_INITIATOR_FREE_TIME`, with every ACK sample reading as acknowledged
and no edge captured, the deadline expiries of the attempt drive exactly one
start bit (3700 low, 800 high), then for each byte `i = 0 .. n-1` its 8 bits
most significant first, each a low period followed by a high period chosen by
the bit value, an EOM bit that is 1 exactly when `i = n-1`, and an ACK bit (600
low, 450 to the sample, 1350 after it); the header byte is sent in the four
`HEADER_INIT` and four `HEADER_DEST` bit states and every other byte in the
`DATA` states; the last expiry raises `TASK_EVENT_OKAY`, clears the frame and
enters Idle, which releases the line and arms the capture with timeout 0. -/
theorem C32_acknowledged_frame_waveform (g : cec_globals) (hs : List hw_inputs) (level : Int)
    (hst : g.cec_state = CEC_STATE_INITIATOR_FREE_TIME)
    (hn1 : 1 ≤ g.cec_tx.len) (hn16 : g.cec_tx.len ≤ MAX_CEC_MSG_LEN)
    (hlen : hs.length = g.cec_tx.len)
    (hack : ∀ h ∈ hs, sampled_ack g h ≠ 0) :
    driven level (engine_run g (attempt_inputs hs)).2
      = spec_frame_wave g.cec_tx.transfer.buf g.cec_tx.len ++ [(1, 0)] ∧
    engine_states g (attempt_inputs hs)
      = [CEC_STATE_INITIATOR_START_LOW, CEC_STATE_INITIATOR_START_HIGH] ++ header_states
        ++ data_states_rep (g.cec_tx.len - 1) ++ [CEC_STATE_IDLE] ∧
    task_events (engine_run g (attempt_inputs hs)).2 = [TASK_EVENT_OKAY] ∧
    (engine_run g (attempt_inputs hs)).1.cec_state = CEC_STATE_IDLE ∧
    (engine_run g (attempt_inputs hs)).1.cec_tx.len = 0 ∧
    (engine_run g (attempt_inputs hs)).1.cec_tx.resends = 0 := by
  cases hs with
  | nil => simp only [List.length_nil] at hlen; omega
  | cons h0 t =>
    simp only [List.length_cons] at hlen
    have h16 : g.cec_tx.len ≤ 16 := hn16
    obtain ⟨a1, a2, a3, a4, -, a6, a7, a8⟩ := header_attempt h0 g hst
    obtain ⟨w1, -, w3⟩ := header_wave h0 g level hst
    obtain ⟨c1, c2, c3, c4, c5, c6, c7, c8⟩ := data_wave_chain t
      (engine_run g (List.replicate 23 (.timeout h0))).1 1
      (last_level level (engine_run g (List.replicate 23 (.timeout h0))).2)
      a1 a2 a3 (by rw [a7]; exact hack h0 (List.mem_cons_self _ _)) (by rw [a4]; exact h16)
      (by rw [a4]; omega)
      (fun x hx => by
        rw [sampled_ack_congr g _ x a6]; exact hack x (List.mem_cons_of_mem _ hx))
    rw [a6, a4] at c7
    have hbyte : (engine_run (engine_run g (List.replicate 23 (.timeout h0))).1
        (data_inputs t)).1.cec_tx.transfer.byte
        = (engine_run (engine_run g (List.replicate 23 (.timeout h0))).1
            (data_inputs t)).1.cec_tx.len := by
      rw [c3, c4, a4]; omega
    obtain ⟨d1, d2⟩ := okay_decision h0
      (engine_run (engine_run g (List.replicate 23 (.timeout h0))).1 (data_inputs t)).1
      c1 c5 c2 hbyte
    have e : attempt_inputs (h0 :: t)
        = List.replicate 23 (.timeout h0) ++ (data_inputs t ++ [.timeout h0]) := by
      rw [attempt_inputs, List.append_assoc]
    have efin : ∀ g1 : cec_globals, engine_run g1 [.timeout h0]
        = ((cec_event_timeout h0 g1).1, (cec_event_timeout h0 g1).2) := by
      intro g1; simp [engine_run, engine_step]
    have esfin : ∀ g1 : cec_globals, engine_states g1 [.timeout h0]
        = [(cec_event_timeout h0 g1).1.cec_state] := by
      intro g1; rfl
    have ht : t.length = g.cec_tx.len - 1 := by omega
    have hlen1 : 1 + t.length = g.cec_tx.len := by omega
    rw [e]
    refine ⟨?_, ?_, ?_, ?_, ?_, ?_⟩
    · rw [engine_run_append_snd, engine_run_append_snd, driven_append, driven_append, w1, c7,
        efin, d2, frame_wave_spec]
      have hb0 : (if 0 + 1 = g.cec_tx.len then 1 else 0 : Nat)
          = (if decide (0 + 1 = g.cec_tx.len) then 1 else 0) := by
        by_cases h : 0 + 1 = g.cec_tx.len <;> simp [h]
      rw [hb0, byte_wave_spec]
      show _ = ([(0, CEC_US_TO_TICKS 3700), (1, CEC_US_TO_TICKS 800)]
        ++ spec_bytes_wave g.cec_tx.transfer.buf g.cec_tx.len 0 g.cec_tx.len) ++ [(1, 0)]
      rw [← hlen1, Nat.add_comm 1 t.length]
      show _ = ([(0, CEC_US_TO_TICKS 3700), (1, CEC_US_TO_TICKS 800)]
        ++ (spec_byte_wave _ _ ++ spec_bytes_wave _ _ (0 + 1) t.length)) ++ [(1, 0)]
      simp only [List.append_assoc, driven, Nat.zero_add]
      rfl
    · rw [engine_states_append, engine_states_append, w3, c8, esfin, d1, ht]
      simp only [List.append_assoc]
    · rw [engine_run_append_snd, engine_run_append_snd, task_events_append, task_events_append,
        a8, c6, efin, d2]
      rfl
    · rw [engine_run_append_fst, engine_run_append_fst, efin, d1]
    · rw [engine_run_append_fst, engine_run_append_fst, efin, d1]
    · rw [engine_run_append_fst, engine_run_append_fst, efin, d1]

set_option maxRecDepth 100000 in
theorem C32_acknowledged_frame_waveform_witness :
    tx_pending_start.cec_state = CEC_STATE_INITIATOR_FREE_TIME ∧
    tx_pending_start.cec_tx.len = 2 ∧
    driven 1 (engine_run tx_pending_start (attempt_inputs [hw_low, hw_low])).2
      = spec_frame_wave tx_pending_start.cec_tx.transfer.buf tx_pending_start.cec_tx.len
        ++ [(1, 0)] ∧
    task_events (engine_run tx_pending_start (attempt_inputs [hw_low, hw_low])).2
      = [TASK_EVENT_OKAY] ∧
    (engine_run tx_pending_start (attempt_inputs [hw_low, hw_low])).1.cec_state
      = CEC_STATE_IDLE ∧
    spec_frame_wave tx_pending_start.cec_tx.transfer.buf 2
      = [(0, 3700), (1, 800),
         (0, 1500), (1, 900), (0, 600), (1, 1800), (0, 1500), (1, 900), (0, 1500), (1, 900),
         (0, 1500), (1, 900), (0, 1500), (1, 900), (0, 1500), (1, 900), (0, 1500), (1, 900),
         (0, 1500), (1, 900), (0, 600), (1, 450), (1, 1350),
         (0, 1500), (1, 900), (0, 1500), (1, 900), (0, 1500), (1, 900), (0, 1500), (1, 900),
         (0, 1500), (1, 900), (0, 600), (1, 1800), (0, 1500), (1, 900), (0, 1500), (1, 900),
         (0, 600), (1, 1800), (0, 600), (1, 450), (1, 1350)] :=
  ⟨by decide, by decide,
   (C32_acknowledged_frame_waveform tx_pending_start [hw_low, hw_low] 1 (by decide) (by decide)
      (by decide) (by decide) (by decide)).1,
   (C32_acknowledged_frame_waveform tx_pending_start [hw_low, hw_low] 1 (by decide) (by decide)
      (by decide) (by decide) (by decide)).2.2.1,
   (C32_acknowledged_frame_waveform tx_pending_start [hw_low, hw_low] 1 (by decide) (by decide)
      (by decide) (by decide) (by decide)).2.2.2.1,
   by decide⟩

end CEC
